import Mathlib

/-!
# Recast heightfield rasterization (hdk-recast)

A shallow embedding of `Recast.h`, `RecastMath.h`, `Recast.cpp` and
`RecastRasterization.cpp`, followed by theorems about it.

Conventions of the embedding:

* C `int`, `short` and `unsigned short` values are `Int`/`Nat`; a store into a
  bit-field of width `w` is an explicit `% 2 ^ w`.
* In the first embedding of `rasterizeTri` the `float` values are exact
  rationals (`ℚ`) and no operation rounds; `1.0f / 0` is `0` as in `ℚ`. It
  idealises the arithmetic of the machine. The statements that depend on the
  values the floats round to are made about the second embedding,
  `rasterizeTri.f32` and its parts (section "rasterizeTri in single
  precision"), where every `float` operation is rounded to binary32.
* Arrays are total functions from the index to the element.
* A column's singly linked list of `rcSpan` records is the `List` of their
  `rcSpanData` in link order; there `allocSpan` is taken to succeed. The
  allocator itself, and `rcCreateHeightfield` with its allocations, are
  modelled in sections of their own.
-/

namespace Recast

/-! ## Recast.h -/

/-- The default area id used to indicate a walkable polygon. -/
def RC_WALKABLE_AREA : Nat := 63

def RC_SPAN_HEIGHT_BITS : Nat := 13

def RC_SPANS_PER_POOL : Nat := 2048

/-- Defines the maximum value for `rcSpan::smin` and `rcSpan::smax`. -/
def RC_SPAN_MAX_HEIGHT : Nat := (1 <<< RC_SPAN_HEIGHT_BITS) - 1

/-- Bit-fields `smin : 13`, `smax : 13`, `area : 6` of a span record. -/
structure rcSpanData where
  smin : Nat
  smax : Nat
  area : Nat
deriving DecidableEq

structure rcRowExt where
  MinCol : Int
  MaxCol : Int
deriving DecidableEq

/-- The two bytes `Hits[0]`, `Hits[1]`. -/
structure rcEdgeHit where
  Hits0 : Nat
  Hits1 : Nat
deriving DecidableEq

/-- The two shorts `sminmax[0]`, `sminmax[1]`. -/
structure rcTempSpan where
  sminmax0 : Int
  sminmax1 : Int
deriving DecidableEq

/-- A `float[3]`: `x` is index 0, `y` (the height) index 1, `z` index 2. -/
structure Vec3 where
  x : ℚ
  y : ℚ
  z : ℚ
deriving DecidableEq

structure rcHeightfield where
  width : Int
  height : Int
  bmin : Vec3
  bmax : Vec3
  cs : ℚ
  ch : ℚ
  spans : Int → List rcSpanData
  EdgeHits : Int → rcEdgeHit
  RowExt : Int → rcRowExt
  tempspans : Int → rcTempSpan

/-! ## RecastMath.h -/

def rcMin {α : Type} [LT α] [DecidableRel (fun a b : α => a < b)] (a b : α) : α :=
  if a < b then a else b

def rcMax {α : Type} [LT α] [DecidableRel (fun a b : α => a < b)] (a b : α) : α :=
  if a > b then a else b

def rcAbs (a : Int) : Int := if a < 0 then -a else a

def intMax (a b : Int) : Int := if a < b then b else a

def intMin (a b : Int) : Int := if a < b then a else b

def rcClamp {α : Type} [LT α] [DecidableRel (fun a b : α => a < b)] (v mn mx : α) : α :=
  if v < mn then mn else (if v > mx then mx else v)

def rcVsub (v1 v2 : Vec3) : Vec3 := ⟨v1.x - v2.x, v1.y - v2.y, v1.z - v2.z⟩

/-! ## RecastRasterization.cpp: addSpan -/

/-- The `else` branch of the loop of `addSpan` (lines 119-142): the new record
`s` absorbs the overlapping record `cur`. -/
def addSpan.merge (flagMergeThr : Int) (s cur : rcSpanData) : rcSpanData :=
  let area :=
    if rcAbs ((s.smax : Int) - (cur.smax : Int)) ≤ flagMergeThr then rcMax s.area cur.area
    else if cur.smax > s.smax then cur.area else s.area
  let smin := if cur.smin < s.smin then cur.smin else s.smin
  let smax := if cur.smax > s.smax then cur.smax else s.smax
  ⟨smin, smax, area⟩

/-- The `while (cur)` loop of `addSpan` together with the final splice. The
argument list is the part of the column from `cur` on; the records before it
(up to `prev`) stay linked in front of the result. -/
def addSpan.loop (flagMergeThr : Int) : rcSpanData → List rcSpanData → List rcSpanData
  | s, [] => [s]
  | s, cur :: rest =>
    if cur.smin > s.smax then s :: cur :: rest
    else if cur.smax < s.smin then cur :: addSpan.loop flagMergeThr s rest
    else addSpan.loop flagMergeThr (addSpan.merge flagMergeThr s cur) rest

/-- What `addSpan` does to the one column it touches. `smin`, `smax` are the
`unsigned short` arguments and `area` the `unsigned char`; storing them in the
record truncates them to 13, 13 and 6 bits. -/
def addSpan.column (col : List rcSpanData) (smin smax area : Nat) (flagMergeThr : Int) :
    List rcSpanData :=
  let s : rcSpanData :=
    ⟨smin % 2 ^ RC_SPAN_HEIGHT_BITS, smax % 2 ^ RC_SPAN_HEIGHT_BITS, area % 2 ^ 6⟩
  match col with
  | [] => [s]
  | _ => addSpan.loop flagMergeThr s col

def addSpan (hf : rcHeightfield) (x y : Int) (smin smax area : Nat) (flagMergeThr : Int) :
    rcHeightfield :=
  let idx := x + y * hf.width
  let col := addSpan.column (hf.spans idx) smin smax area flagMergeThr
  { hf with spans := Function.update hf.spans idx col }

/-! ## RecastRasterization.cpp: sampling helpers -/

/-- A C loop `for (i = lo; i <= hi; i++) s = body(i, s)`. -/
def forLoop {σ : Type} (lo hi : Int) (body : Int → σ → σ) (s : σ) : σ :=
  (List.range (hi + 1 - lo).toNat).foldl (fun acc (k : Nat) => body (lo + (k : Int)) acc) s

/-- Conversion of an `int` or `short` to `unsigned short`. -/
def toUShort (v : Int) : Nat := (v % 65536).toNat

def addFlatSpanSample (hf : rcHeightfield) (x y : Int) : rcHeightfield :=
  let r := hf.RowExt (y + 1)
  { hf with RowExt := Function.update hf.RowExt (y + 1) ⟨intMin r.MinCol x, intMax r.MaxCol x⟩ }

/-- The argument `inv` is the row `edge[9 + _]` of inverses, three rows after
`edge` in `edges[6][3]`. Exact arithmetic; with the operations rounded it is
`intersectX.f32`. -/
def intersectX (v0 edge inv : Vec3) (cx : ℚ) : Vec3 :=
  let t := rcClamp ((cx - v0.x) * inv.x) 0 1
  ⟨v0.x + t * edge.x, v0.y + t * edge.y, v0.z + t * edge.z⟩

def SampleIndex (hf : rcHeightfield) (x y : Int) : Int :=
  x + 1 + (y + 1) * (hf.width + 2)

/-- Lines 191-198 with exact arithmetic; with the operations rounded it is
`intersectZ.f32`. -/
def intersectZ (v0 edge inv : Vec3) (cz : ℚ) : Vec3 :=
  let t := rcClamp ((cz - v0.z) * inv.z) 0 1
  ⟨v0.x + t * edge.x, v0.y + t * edge.y, v0.z + t * edge.z⟩

def addSpanSample (hf : rcHeightfield) (x y : Int) (sint : Int) : rcHeightfield :=
  let hf := addFlatSpanSample hf x y
  let idx := SampleIndex hf x y
  let Temp := hf.tempspans idx
  let t0 := if Temp.sminmax0 > sint then sint else Temp.sminmax0
  let t1 := if Temp.sminmax1 < sint then sint else Temp.sminmax1
  { hf with tempspans := Function.update hf.tempspans idx ⟨t0, t1⟩ }

/-! ## RecastRasterization.cpp: rasterizeTri -/

/-- The locals of `rasterizeTri` that stay fixed once the footprint has been
clamped to the grid (lines 225-286). -/
structure rasterizeTri.Locals where
  vertarray : Nat → Vec3
  intverts : Nat → Int × Int
  bmin : Vec3
  cs : ℚ
  ics : ℚ
  ich : ℚ
  x0 : Int
  x1 : Int
  x1_edge : Int
  y0 : Int
  y1 : Int
  y1_edge : Int

/-- The quantization `(short int)rcClamp((int)floorf(sfloat * ich), -32000, 32000)`
with the exact product; with the product rounded and the conversion to `int`
it is `rasterizeTri.quantize.f32`. -/
def rasterizeTri.quantize (ich sfloat : ℚ) : Int :=
  rcClamp ⌊sfloat * ich⌋ (-32000) 32000

/-- Body of the loop at lines 317-321 (and 487-491). -/
def rasterizeTri.recordHit (edgeBits : Nat) (y : Int) (hf : rcHeightfield) : rcHeightfield :=
  let h := hf.EdgeHits y
  let h := if h.Hits0 ≠ 0 then { h with Hits1 := edgeBits } else { h with Hits0 := edgeBits }
  { hf with EdgeHits := Function.update hf.EdgeHits y h }

/-- Lines 297-301 (and 462-466): the edge vector and its component-wise inverse,
exact; rounded in `rasterizeTri.setEdge.f32`. -/
def rasterizeTri.setEdge (L : rasterizeTri.Locals) (basevert : Nat) (edges : Nat → Vec3) :
    Nat → Vec3 :=
  let othervert := if basevert = 2 then 0 else basevert + 1
  let edge := if basevert = 0 then 2 else basevert - 1
  let e := rcVsub (L.vertarray othervert) (L.vertarray basevert)
  Function.update (Function.update edges edge e) (3 + edge) ⟨1 / e.x, 1 / e.y, 1 / e.z⟩

/-- Lines 308-322 (and 478-492): record the edge in every row boundary it crosses. -/
def rasterizeTri.recordEdge (L : rasterizeTri.Locals) (basevert : Nat) (hf : rcHeightfield) :
    rcHeightfield :=
  let othervert := if basevert = 2 then 0 else basevert + 1
  let edge := if basevert = 0 then 2 else basevert - 1
  if (L.intverts basevert).2 ≠ (L.intverts othervert).2 then
    let edge0 := intMin (L.intverts basevert).2 (L.intverts othervert).2
    let edge1 := intMax (L.intverts basevert).2 (L.intverts othervert).2
    let loop0 := intMax (edge0 + 1) L.y0
    let loop1 := intMin edge1 L.y1_edge
    let edgeBits := (edge <<< 4) ||| (othervert <<< 2) ||| basevert
    forLoop loop0 loop1 (rasterizeTri.recordHit edgeBits) hf
  else hf

/-! ### Flat path -/

/-- Body of the loop at lines 333-342; the state carries `cx`. -/
def rasterizeTri.flatVertical (L : rasterizeTri.Locals) (basevert edge : Nat)
    (edges : Nat → Vec3) (x : Int) (st : rcHeightfield × ℚ) : rcHeightfield × ℚ :=
  let temppnt := intersectX (L.vertarray basevert) (edges edge) (edges (3 + edge)) st.2
  let y := ⌊(temppnt.z - L.bmin.z) * L.ics⌋
  let hf :=
    if y ≥ L.y0 ∧ y ≤ L.y1 then addFlatSpanSample (addFlatSpanSample st.1 x y) (x - 1) y
    else st.1
  (hf, st.2 + L.cs)

/-- Body of the loop over `basevert` at lines 292-344. -/
def rasterizeTri.flatBaseVert (L : rasterizeTri.Locals) (basevert : Nat)
    (st : rcHeightfield × (Nat → Vec3)) : rcHeightfield × (Nat → Vec3) :=
  let othervert := if basevert = 2 then 0 else basevert + 1
  let edge := if basevert = 0 then 2 else basevert - 1
  let edges := rasterizeTri.setEdge L basevert st.2
  let ib := L.intverts basevert
  let io := L.intverts othervert
  let hf :=
    if ib.1 ≥ L.x0 ∧ ib.1 ≤ L.x1 ∧ ib.2 ≥ L.y0 ∧ ib.2 ≤ L.y1 then
      addFlatSpanSample st.1 ib.1 ib.2
    else st.1
  let hf := rasterizeTri.recordEdge L basevert hf
  let hf :=
    if ib.1 ≠ io.1 then
      let edge0 := intMin ib.1 io.1
      let edge1 := intMax ib.1 io.1
      let loop0 := intMax (edge0 + 1) L.x0
      let loop1 := intMin edge1 L.x1_edge
      let cx := L.bmin.x + L.cs * (loop0 : ℚ)
      (forLoop loop0 loop1 (rasterizeTri.flatVertical L basevert edge edges) (hf, cx)).1
    else hf
  (hf, edges)

/-- One turn of the loop `for (int i = 0; i < 2; i++)` at lines 363-377: returns
the heightfield, `Inter[i]` and `xInter[i]`. -/
def rasterizeTri.flatHit (L : rasterizeTri.Locals) (edges : Nat → Vec3) (y : Int) (cz : ℚ)
    (hit : Nat) (hf : rcHeightfield) : rcHeightfield × Vec3 × Int :=
  let edge := hit >>> 4
  let basevert := hit &&& 3
  let Inter := intersectZ (L.vertarray basevert) (edges edge) (edges (3 + edge)) cz
  let x := ⌊(Inter.x - L.bmin.x) * L.ics⌋
  let hf :=
    if x ≥ L.x0 ∧ x ≤ L.x1 then addFlatSpanSample (addFlatSpanSample hf x y) x (y - 1)
    else hf
  (hf, Inter, x)

/-- Lines 378-395: the cells between the two crossings of a row boundary. -/
def rasterizeTri.flatFill (L : rasterizeTri.Locals) (y : Int) (Inter0 Inter1 : Vec3)
    (xInter0 xInter1 : Int) (hf : rcHeightfield) : rcHeightfield :=
  if xInter0 ≠ xInter1 then
    let left : Bool := decide (Inter1.x < Inter0.x)
    let xloop0 := intMax ((if left then xInter1 else xInter0) + 1) L.x0
    let xloop1 := intMin (if left then xInter0 else xInter1) L.x1
    if xloop0 ≤ xloop1 then
      let hf := addFlatSpanSample hf xloop0 y
      let hf := addFlatSpanSample hf xloop1 y
      let hf := addFlatSpanSample hf (xloop0 - 1) y
      let hf := addFlatSpanSample hf (xloop1 - 1) y
      let hf := addFlatSpanSample hf xloop0 (y - 1)
      let hf := addFlatSpanSample hf xloop1 (y - 1)
      let hf := addFlatSpanSample hf (xloop0 - 1) (y - 1)
      addFlatSpanSample hf (xloop1 - 1) (y - 1)
    else hf
  else hf

/-- Body of the loop at lines 356-400; the state carries `cz`. -/
def rasterizeTri.flatHorizontal (L : rasterizeTri.Locals) (edges : Nat → Vec3) (y : Int)
    (st : rcHeightfield × ℚ) : rcHeightfield × ℚ :=
  let Hits := st.1.EdgeHits y
  let hf :=
    if Hits.Hits0 ≠ 0 then
      let r0 := rasterizeTri.flatHit L edges y st.2 Hits.Hits0 st.1
      let r1 := rasterizeTri.flatHit L edges y st.2 Hits.Hits1 r0.1
      let hf := rasterizeTri.flatFill L y r0.2.1 r1.2.1 r0.2.2 r1.2.2 r1.1
      { hf with EdgeHits := Function.update hf.EdgeHits y ⟨0, 0⟩ }
    else st.1
  (hf, st.2 + L.cs)

/-- Lines 346-401. -/
def rasterizeTri.flatHorizontals (L : rasterizeTri.Locals) (edges : Nat → Vec3)
    (hf : rcHeightfield) : rcHeightfield :=
  let edge0 := intMin (L.intverts 0).2 (intMin (L.intverts 1).2 (L.intverts 2).2)
  let edge1 := intMax (L.intverts 0).2 (intMax (L.intverts 1).2 (L.intverts 2).2)
  let loop0 := intMax (edge0 + 1) L.y0
  let loop1 := intMin edge1 L.y1_edge
  let cz := L.bmin.z + L.cs * (loop0 : ℚ)
  (forLoop loop0 loop1 (rasterizeTri.flatHorizontal L edges) (hf, cz)).1

/-- Body of the loops over `y` at lines 413-425 and 430-450. `smin x`, `smax x`
are the `unsigned short` bounds of the span to insert at column `x` of this row. -/
def rasterizeTri.flatEmitRow (L : rasterizeTri.Locals) (area : Nat) (flagMergeThr : Int)
    (smin smax : Int → Nat) (y : Int) (hf : rcHeightfield) : rcHeightfield :=
  let xloop0 := intMax (hf.RowExt (y + 1)).MinCol L.x0
  let xloop1 := intMin (hf.RowExt (y + 1)).MaxCol L.x1
  let hf := forLoop xloop0 xloop1
    (fun x hf => addSpan hf x y (smin x) (smax x) area flagMergeThr) hf
  { hf with RowExt := Function.update hf.RowExt (y + 1) ⟨hf.width + 2, -2⟩ }

/-- Lines 403-452. -/
def rasterizeTri.flatEmit (L : rasterizeTri.Locals) (area : Nat) (flagMergeThr : Int)
    (rasterizationFlags : Int) (rasterizationMasks : Option (Int → Int))
    (triangle_ismin triangle_ismax : Int) (hf : rcHeightfield) : rcHeightfield :=
  let projectTriToBottom := rasterizationFlags
  let triangle_ismin_clamp : Nat := toUShort (rcClamp triangle_ismin 0 RC_SPAN_MAX_HEIGHT)
  let triangle_ismax_clamp : Nat :=
    toUShort (rcClamp triangle_ismax ((triangle_ismin_clamp : Int) + 1) RC_SPAN_MAX_HEIGHT)
  match rasterizationMasks with
  | none =>
    let triangle_ismin_clamp := if projectTriToBottom ≠ 0 then 0 else triangle_ismin_clamp
    forLoop L.y0 L.y1
      (rasterizeTri.flatEmitRow L area flagMergeThr
        (fun _ => triangle_ismin_clamp) (fun _ => triangle_ismax_clamp)) hf
  | some masks =>
    let w := hf.width
    forLoop L.y0 L.y1
      (fun y hf => rasterizeTri.flatEmitRow L area flagMergeThr
        (fun x => if Int.land projectTriToBottom (masks (x + y * w)) ≠ 0 then 0
          else triangle_ismin_clamp)
        (fun _ => triangle_ismax_clamp) y hf) hf

/-- Lines 289-453. -/
def rasterizeTri.flat (L : rasterizeTri.Locals) (area : Nat) (flagMergeThr : Int)
    (rasterizationFlags : Int) (rasterizationMasks : Option (Int → Int))
    (triangle_ismin triangle_ismax : Int) (hf : rcHeightfield) : rcHeightfield :=
  let st := [0, 1, 2].foldl (fun st basevert => rasterizeTri.flatBaseVert L basevert st)
    (hf, fun _ => (⟨0, 0, 0⟩ : Vec3))
  let hf := rasterizeTri.flatHorizontals L st.2 st.1
  rasterizeTri.flatEmit L area flagMergeThr rasterizationFlags rasterizationMasks
    triangle_ismin triangle_ismax hf

/-! ### Sloped path -/

/-- Body of the loop at lines 503-517; the state carries `cx`. -/
def rasterizeTri.slopedVertical (L : rasterizeTri.Locals) (basevert edge : Nat)
    (edges : Nat → Vec3) (x : Int) (st : rcHeightfield × ℚ) : rcHeightfield × ℚ :=
  let temppnt := intersectX (L.vertarray basevert) (edges edge) (edges (3 + edge)) st.2
  let y := ⌊(temppnt.z - L.bmin.z) * L.ics⌋
  let hf :=
    if y ≥ L.y0 ∧ y ≤ L.y1 then
      let sfloat := temppnt.y - L.bmin.y
      let sint := rasterizeTri.quantize L.ich sfloat
      addSpanSample (addSpanSample st.1 x y sint) (x - 1) y sint
    else st.1
  (hf, st.2 + L.cs)

/-- Body of the loop over `basevert` at lines 457-519. -/
def rasterizeTri.slopedBaseVert (L : rasterizeTri.Locals) (basevert : Nat)
    (st : rcHeightfield × (Nat → Vec3)) : rcHeightfield × (Nat → Vec3) :=
  let othervert := if basevert = 2 then 0 else basevert + 1
  let edge := if basevert = 0 then 2 else basevert - 1
  let edges := rasterizeTri.setEdge L basevert st.2
  let ib := L.intverts basevert
  let io := L.intverts othervert
  let hf :=
    if ib.1 ≥ L.x0 ∧ ib.1 ≤ L.x1 ∧ ib.2 ≥ L.y0 ∧ ib.2 ≤ L.y1 then
      let sfloat := (L.vertarray basevert).y - L.bmin.y
      let sint := rasterizeTri.quantize L.ich sfloat
      addSpanSample st.1 ib.1 ib.2 sint
    else st.1
  let hf := rasterizeTri.recordEdge L basevert hf
  let hf :=
    if ib.1 ≠ io.1 then
      let edge0 := intMin ib.1 io.1
      let edge1 := intMax ib.1 io.1
      let loop0 := intMax (edge0 + 1) L.x0
      let loop1 := intMin edge1 L.x1_edge
      let cx := L.bmin.x + L.cs * (loop0 : ℚ)
      (forLoop loop0 loop1 (rasterizeTri.slopedVertical L basevert edge edges) (hf, cx)).1
    else hf
  (hf, edges)

/-- One turn of the loop `for (int i = 0; i < 2; i++)` at lines 538-558. -/
def rasterizeTri.slopedHit (L : rasterizeTri.Locals) (edges : Nat → Vec3) (y : Int) (cz : ℚ)
    (hit : Nat) (hf : rcHeightfield) : rcHeightfield × Vec3 × Int :=
  let edge := hit >>> 4
  let basevert := hit &&& 3
  let Inter := intersectZ (L.vertarray basevert) (edges edge) (edges (3 + edge)) cz
  let x := ⌊(Inter.x - L.bmin.x) * L.ics⌋
  let hf :=
    if x ≥ L.x0 ∧ x ≤ L.x1 then
      let sfloat := Inter.y - L.bmin.y
      let sint := rasterizeTri.quantize L.ich sfloat
      addSpanSample (addSpanSample hf x y sint) x (y - 1) sint
    else hf
  (hf, Inter, x)

/-- Body of the loop at lines 578-588; the state carries `sfloat`. -/
def rasterizeTri.slopedFillCell (L : rasterizeTri.Locals) (y : Int) (ds : ℚ) (x : Int)
    (st : rcHeightfield × ℚ) : rcHeightfield × ℚ :=
  let sint := rasterizeTri.quantize L.ich st.2
  let hf := addSpanSample st.1 x y sint
  let hf := addSpanSample hf (x - 1) y sint
  let hf := addSpanSample hf x (y - 1) sint
  let hf := addSpanSample hf (x - 1) (y - 1) sint
  (hf, st.2 + ds)

/-- Lines 559-589: the cells between the two crossings of a row boundary, with
the height interpolated along the boundary, in exact arithmetic; with the
operations rounded it is `rasterizeTri.slopedFill.f32`. -/
def rasterizeTri.slopedFill (L : rasterizeTri.Locals) (y : Int) (Inter0 Inter1 : Vec3)
    (xInter0 xInter1 : Int) (hf : rcHeightfield) : rcHeightfield :=
  if xInter0 ≠ xInter1 then
    let left : Bool := decide (Inter1.x < Inter0.x)
    let InterL := if left then Inter1 else Inter0
    let InterR := if left then Inter0 else Inter1
    let xloop0 := intMax ((if left then xInter1 else xInter0) + 1) L.x0
    let xloop1 := intMin (if left then xInter0 else xInter1) L.x1_edge
    let d := 1 / (InterR.x - InterL.x)
    let dy := InterR.y - InterL.y
    let t := rcClamp (((xloop0 : ℚ) * L.cs + L.bmin.x - InterL.x) * d) 0 1
    let sfloat := (InterL.y + t * dy) - L.bmin.y
    let ds : ℚ :=
      if xloop1 - xloop0 > 0 then
        let t2 := rcClamp (((xloop1 : ℚ) * L.cs + L.bmin.x - InterL.x) * d) 0 1
        let sfloat2 := (InterL.y + t2 * dy) - L.bmin.y
        (sfloat2 - sfloat) / ((xloop1 - xloop0 : Int) : ℚ)
      else 0
    (forLoop xloop0 xloop1 (rasterizeTri.slopedFillCell L y ds) (hf, sfloat)).1
  else hf

/-- Body of the loop at lines 531-594; the state carries `cz`. -/
def rasterizeTri.slopedHorizontal (L : rasterizeTri.Locals) (edges : Nat → Vec3) (y : Int)
    (st : rcHeightfield × ℚ) : rcHeightfield × ℚ :=
  let Hits := st.1.EdgeHits y
  let hf :=
    if Hits.Hits0 ≠ 0 then
      let r0 := rasterizeTri.slopedHit L edges y st.2 Hits.Hits0 st.1
      let r1 := rasterizeTri.slopedHit L edges y st.2 Hits.Hits1 r0.1
      let hf := rasterizeTri.slopedFill L y r0.2.1 r1.2.1 r0.2.2 r1.2.2 r1.1
      { hf with EdgeHits := Function.update hf.EdgeHits y ⟨0, 0⟩ }
    else st.1
  (hf, st.2 + L.cs)

/-- Lines 520-595. -/
def rasterizeTri.slopedHorizontals (L : rasterizeTri.Locals) (edges : Nat → Vec3)
    (hf : rcHeightfield) : rcHeightfield :=
  let edge0 := intMin (L.intverts 0).2 (intMin (L.intverts 1).2 (L.intverts 2).2)
  let edge1 := intMax (L.intverts 0).2 (intMax (L.intverts 1).2 (L.intverts 2).2)
  let loop0 := intMax (edge0 + 1) L.y0
  let loop1 := intMin edge1 L.y1_edge
  let cz := L.bmin.z + L.cs * (loop0 : ℚ)
  (forLoop loop0 loop1 (rasterizeTri.slopedHorizontal L edges) (hf, cz)).1

/-- Body of the loop over `x` at lines 600-658. -/
def rasterizeTri.slopedEmitCell (area : Nat) (flagMergeThr : Int)
    (rasterizationFlags : Int) (rasterizationMasks : Option (Int → Int)) (y x : Int)
    (hf : rcHeightfield) : rcHeightfield :=
  let projectTriToBottom := rasterizationFlags
  let w := hf.width
  let idx := SampleIndex hf x y
  let Temp := hf.tempspans idx
  let smin := Temp.sminmax0
  let smax := Temp.sminmax1
  let hf := { hf with tempspans := Function.update hf.tempspans idx ⟨32000, -32000⟩ }
  if smin ≥ RC_SPAN_MAX_HEIGHT ∨ smax < 0 then hf
  else
    let smin := intMax smin 0
    let smax := intMin (intMax smax (smin + 1)) RC_SPAN_MAX_HEIGHT
    let projectSpanToBottom :=
      match rasterizationMasks with
      | some masks => Int.land projectTriToBottom (masks (x + y * w))
      | none => projectTriToBottom
    let smin := if projectSpanToBottom ≠ 0 then 0 else smin
    addSpan hf x y (toUShort smin) (toUShort smax) area flagMergeThr

/-- Body of the loop over `y` at lines 596-663. -/
def rasterizeTri.slopedEmitRow (L : rasterizeTri.Locals) (area : Nat) (flagMergeThr : Int)
    (rasterizationFlags : Int) (rasterizationMasks : Option (Int → Int)) (y : Int)
    (hf : rcHeightfield) : rcHeightfield :=
  let xloop0 := intMax (hf.RowExt (y + 1)).MinCol L.x0
  let xloop1 := intMin (hf.RowExt (y + 1)).MaxCol L.x1
  let hf := forLoop xloop0 xloop1
    (rasterizeTri.slopedEmitCell area flagMergeThr rasterizationFlags rasterizationMasks y) hf
  { hf with RowExt := Function.update hf.RowExt (y + 1) ⟨hf.width + 2, -2⟩ }

/-- Lines 455-664. -/
def rasterizeTri.sloped (L : rasterizeTri.Locals) (area : Nat) (flagMergeThr : Int)
    (rasterizationFlags : Int) (rasterizationMasks : Option (Int → Int))
    (hf : rcHeightfield) : rcHeightfield :=
  let st := [0, 1, 2].foldl (fun st basevert => rasterizeTri.slopedBaseVert L basevert st)
    (hf, fun _ => (⟨0, 0, 0⟩ : Vec3))
  let hf := rasterizeTri.slopedHorizontals L st.2 st.1
  forLoop L.y0 L.y1
    (rasterizeTri.slopedEmitRow L area flagMergeThr rasterizationFlags rasterizationMasks) hf

/-! ### The entry point -/

/-- Lines 252-269: the three vertices fall in the single cell `(x0, y0)`. The
two products are exact here; rounded, with the conversion to `int`, they are in
`rasterizeTri.singleCellBounds.f32`. -/
def rasterizeTri.singleCell (area : Nat) (hf : rcHeightfield) (ich : ℚ) (flagMergeThr : Int)
    (rasterizationFlags : Int) (rasterizationMasks : Option (Int → Int))
    (by_ triangle_smin triangle_smax : ℚ) (x0 y0 : Int) : rcHeightfield :=
  let projectTriToBottom := rasterizationFlags
  let w := hf.width
  let triangle_smin := if triangle_smin < 0 then 0 else triangle_smin
  let triangle_smax := if triangle_smax > by_ then by_ else triangle_smax
  let triangle_ismin : Nat := toUShort (rcClamp ⌊triangle_smin * ich⌋ 0 RC_SPAN_MAX_HEIGHT)
  let triangle_ismax : Nat :=
    toUShort (rcClamp ⌈triangle_smax * ich⌉ ((triangle_ismin : Int) + 1) RC_SPAN_MAX_HEIGHT)
  let projectSpanToBottom :=
    match rasterizationMasks with
    | some masks => Int.land projectTriToBottom (masks (x0 + y0 * w))
    | none => projectTriToBottom
  let triangle_ismin := if projectSpanToBottom ≠ 0 then 0 else triangle_ismin
  addSpan hf x0 y0 triangle_ismin triangle_ismax area flagMergeThr

/-- The arrays `intverts` of lines 225-232: the cell of each vertex, computed
exactly; as the machine computes it in `rasterizeTri.intverts.f32`. -/
def rasterizeTri.intverts (v0 v1 v2 bmin : Vec3) (ics : ℚ) : Nat → Int × Int := fun i =>
  if i = 0 then (⌊(v0.x - bmin.x) * ics⌋, ⌊(v0.z - bmin.z) * ics⌋)
  else if i = 1 then (⌊(v1.x - bmin.x) * ics⌋, ⌊(v1.z - bmin.z) * ics⌋)
  else (⌊(v2.x - bmin.x) * ics⌋, ⌊(v2.z - bmin.z) * ics⌋)

/-- The locals of `rasterizeTri` after lines 274-286: the footprint `x0..x1`,
`y0..y1` clamped to the grid, and the copies of the vertices. -/
def rasterizeTri.locals (v0 v1 v2 : Vec3) (hf : rcHeightfield) (bmin : Vec3) (cs ics ich : ℚ) :
    rasterizeTri.Locals :=
  let w := hf.width
  let h := hf.height
  let intverts := rasterizeTri.intverts v0 v1 v2 bmin ics
  let x0 := intMin (intverts 0).1 (intMin (intverts 1).1 (intverts 2).1)
  let x1 := intMax (intverts 0).1 (intMax (intverts 1).1 (intverts 2).1)
  let y0 := intMin (intverts 0).2 (intMin (intverts 1).2 (intverts 2).2)
  let y1 := intMax (intverts 0).2 (intMax (intverts 1).2 (intverts 2).2)
  { vertarray := fun i => if i = 0 then v0 else if i = 1 then v1 else v2
    intverts := intverts
    bmin := bmin
    cs := cs
    ics := ics
    ich := ich
    x0 := intMax x0 0
    x1 := intMin x1 (w - 1)
    x1_edge := intMin x1 w
    y0 := intMax y0 0
    y1 := intMin y1 (h - 1)
    y1_edge := intMin y1 h }

/-- The function `rasterizeTri` with exact arithmetic. `rasterizationMasks` is
`none` for a null pointer. The same statements with every `float` operation
rounded to binary32 make up `rasterizeTri.f32`. -/
def rasterizeTri (v0 v1 v2 : Vec3) (area : Nat) (hf : rcHeightfield) (bmin bmax : Vec3)
    (cs ics ich : ℚ) (flagMergeThr : Int) (rasterizationFlags : Int)
    (rasterizationMasks : Option (Int → Int)) : rcHeightfield :=
  let w := hf.width
  let h := hf.height
  let by_ := bmax.y - bmin.y
  let intverts := rasterizeTri.intverts v0 v1 v2 bmin ics
  let x0 := intMin (intverts 0).1 (intMin (intverts 1).1 (intverts 2).1)
  let x1 := intMax (intverts 0).1 (intMax (intverts 1).1 (intverts 2).1)
  let y0 := intMin (intverts 0).2 (intMin (intverts 1).2 (intverts 2).2)
  let y1 := intMax (intverts 0).2 (intMax (intverts 1).2 (intverts 2).2)
  if x1 < 0 ∨ x0 ≥ w ∨ y1 < 0 ∨ y0 ≥ h then hf
  else
    let triangle_smin := rcMin (rcMin v0.y v1.y) v2.y - bmin.y
    let triangle_smax := rcMax (rcMax v0.y v1.y) v2.y - bmin.y
    if triangle_smax < 0 then hf
    else if triangle_smin > by_ then hf
    else if x0 = x1 ∧ y0 = y1 then
      rasterizeTri.singleCell area hf ich flagMergeThr rasterizationFlags rasterizationMasks
        by_ triangle_smin triangle_smax x0 y0
    else
      let triangle_ismin := rasterizeTri.quantize ich triangle_smin
      let triangle_ismax := rasterizeTri.quantize ich triangle_smax
      let L := rasterizeTri.locals v0 v1 v2 hf bmin cs ics ich
      if triangle_ismin = triangle_ismax then
        rasterizeTri.flat L area flagMergeThr rasterizationFlags rasterizationMasks
          triangle_ismin triangle_ismax hf
      else
        rasterizeTri.sloped L area flagMergeThr rasterizationFlags rasterizationMasks hf

/-- The heightfield that a successful `rcCreateHeightfield` builds
(`Recast.cpp`, lines 66-111): empty columns, zeroed edge hits, and the two
scratch buffers filled with their sentinels. -/
def rcCreateHeightfield (width height : Int) (bmin bmax : Vec3) (cs ch : ℚ) : rcHeightfield :=
  { width := width
    height := height
    bmin := bmin
    bmax := bmax
    cs := cs
    ch := ch
    spans := fun _ => []
    EdgeHits := fun _ => ⟨0, 0⟩
    RowExt := fun _ => ⟨width + 2, -2⟩
    tempspans := fun _ => ⟨32000, -32000⟩ }

/-! ## Vocabulary of the statements -/

/-- Adjacent records do not overlap or touch: `a.smax < b.smin`. -/
def colSorted (col : List rcSpanData) : Prop :=
  col.Chain' (fun a b => a.smax < b.smin)

/-- Every record is a non-empty interval. -/
def colNonEmpty (col : List rcSpanData) : Prop :=
  ∀ s ∈ col, s.smin < s.smax

/-- The record `r` overlaps or touches the interval `[smin, smax]`. -/
def overlapsOrTouches (r : rcSpanData) (smin smax : Nat) : Prop :=
  r.smin ≤ smax ∧ r.smax ≥ smin

instance (r : rcSpanData) (smin smax : Nat) : Decidable (overlapsOrTouches r smin smax) := by
  unfold overlapsOrTouches; infer_instance

/-- An insertion request: the arguments of one call of `addSpan`. -/
structure Insertion where
  x : Int
  y : Int
  smin : Nat
  smax : Nat
  area : Nat
  flagMergeThr : Int

/-- A sequence of calls of `addSpan`, in order. -/
def addSpans (hf : rcHeightfield) (ops : List Insertion) : rcHeightfield :=
  ops.foldl (fun hf o => addSpan hf o.x o.y o.smin o.smax o.area o.flagMergeThr) hf

/-- The fields of `s` fit the bit-fields of `rcSpanData` (13, 13 and 6 bits),
as those of every record do. -/
def rcSpanData.fits (s : rcSpanData) : Prop :=
  s.smin ≤ RC_SPAN_MAX_HEIGHT ∧ s.smax ≤ RC_SPAN_MAX_HEIGHT ∧ s.area ≤ RC_WALKABLE_AREA

instance (s : rcSpanData) : Decidable s.fits := by
  unfold rcSpanData.fits; infer_instance

/-- The grid cell `(column, row)` of a vertex: the floor of `(pos - bmin) * ics`
on the two horizontal axes (lines 227-232 of `rasterizeTri`). -/
def cellOf (bmin : Vec3) (ics : ℚ) (v : Vec3) : Int × Int :=
  (⌊(v.x - bmin.x) * ics⌋, ⌊(v.z - bmin.z) * ics⌋)

/-- The lowest height of the triangle above the grid bottom, raised to 0 if it
is below (lines 244-255). -/
def clampedLow (v0 v1 v2 bmin : Vec3) : ℚ :=
  max (min (min v0.y v1.y) v2.y - bmin.y) 0

/-- The highest height of the triangle above the grid bottom, lowered to the
height `bmax.y - bmin.y` of the grid if it is above (lines 245-256). -/
def clampedHigh (v0 v1 v2 bmin bmax : Vec3) : ℚ :=
  min (max (max v0.y v1.y) v2.y - bmin.y) (bmax.y - bmin.y)

/-- The value of `projectSpanToBottom` for the cell with index `idx`
(lines 261, 439 and 620). -/
def projectSpanToBottom (rasterizationFlags : Int) (rasterizationMasks : Option (Int → Int))
    (idx : Int) : Int :=
  match rasterizationMasks with
  | some masks => Int.land rasterizationFlags (masks idx)
  | none => rasterizationFlags

/-- The span bounds that the specification gives for a single-cell triangle:
`floor(minHeight/ch)` and `max(ceil(maxHeight/ch), floor(minHeight/ch)+1)`, each
clamped to `[0, 8191]`. -/
def specSingleCellSpan (minHeight maxHeight ch : ℚ) : Int × Int :=
  (min (max ⌊minHeight / ch⌋ 0) 8191,
    min (max (max ⌈maxHeight / ch⌉ (⌊minHeight / ch⌋ + 1)) 0) 8191)

/-- The scratch buffers are clean: no edge hit is pending in the rows
`0..height`, and the `RowExt` entries of the grid rows (indices `1..height`) and
the `tempspans` entries of the in-grid cells hold their sentinels. -/
structure scratchClean (hf : rcHeightfield) : Prop where
  edgeHits : ∀ y, 0 ≤ y → y ≤ hf.height → hf.EdgeHits y = ⟨0, 0⟩
  rowExt : ∀ i, 1 ≤ i → i ≤ hf.height → hf.RowExt i = ⟨hf.width + 2, -2⟩
  tempspans : ∀ x y, 0 ≤ x → x < hf.width → 0 ≤ y → y < hf.height →
    hf.tempspans (SampleIndex hf x y) = ⟨32000, -32000⟩

/-- Least vertex column. -/
def rasterizeTri.Locals.minCol (L : rasterizeTri.Locals) : Int :=
  min (L.intverts 0).1 (min (L.intverts 1).1 (L.intverts 2).1)

/-- Greatest vertex column. -/
def rasterizeTri.Locals.maxCol (L : rasterizeTri.Locals) : Int :=
  max (L.intverts 0).1 (max (L.intverts 1).1 (L.intverts 2).1)

/-- Least vertex row. -/
def rasterizeTri.Locals.minRow (L : rasterizeTri.Locals) : Int :=
  min (L.intverts 0).2 (min (L.intverts 1).2 (L.intverts 2).2)

/-- Greatest vertex row. -/
def rasterizeTri.Locals.maxRow (L : rasterizeTri.Locals) : Int :=
  max (L.intverts 0).2 (max (L.intverts 1).2 (L.intverts 2).2)

/-- The relations between the locals that lines 225-286 establish for a grid
of `w` by `h` cells. -/
structure rasterizeTri.Locals.Consistent (L : rasterizeTri.Locals) (w h : Int) : Prop where
  cells : ∀ i, L.intverts i = cellOf L.bmin L.ics (L.vertarray i)
  x0_eq : L.x0 = max L.minCol 0
  x1_eq : L.x1 = min L.maxCol (w - 1)
  x1_edge_eq : L.x1_edge = min L.maxCol w
  y0_eq : L.y0 = max L.minRow 0
  y1_eq : L.y1 = min L.maxRow (h - 1)
  y1_edge_eq : L.y1_edge = min L.maxRow h

/-- A column that a sample may be recorded in: one of the clamped footprint,
or one of the two padding columns `-1` and `w`. -/
def colOK (L : rasterizeTri.Locals) (w x : Int) : Prop :=
  (L.x0 ≤ x ∧ x ≤ L.x1) ∨ x = -1 ∨ x = w

/-- A row that a sample may be recorded in: one of the clamped footprint, or
one of the two padding rows `-1` and `h`. -/
def rowOK (L : rasterizeTri.Locals) (h y : Int) : Prop :=
  (L.y0 ≤ y ∧ y ≤ L.y1) ∨ y = -1 ∨ y = h

/-- How the heightfield `S` reached during the discovery phase of one triangle
relates to the heightfield `B` at entry: only scratch entries changed; `RowExt`
only in the footprint rows and the padding rows; and a `tempspans` entry of an
in-grid cell either is untouched or lies in the footprint, within the column
range that `RowExt` records for its row. -/
structure Tracked (L : rasterizeTri.Locals) (B S : rcHeightfield) : Prop where
  width_eq : S.width = B.width
  height_eq : S.height = B.height
  spans_eq : S.spans = B.spans
  rowExt_frame : ∀ i, ¬ (L.y0 + 1 ≤ i ∧ i ≤ L.y1 + 1) → i ≠ 0 → i ≠ B.height + 1 →
    S.RowExt i = B.RowExt i
  temp_track : ∀ x y, 0 ≤ x → x < B.width → 0 ≤ y → y < B.height →
    S.tempspans (SampleIndex B x y) = B.tempspans (SampleIndex B x y) ∨
    (L.x0 ≤ x ∧ x ≤ L.x1 ∧ L.y0 ≤ y ∧ y ≤ L.y1 ∧
      (S.RowExt (y + 1)).MinCol ≤ x ∧ x ≤ (S.RowExt (y + 1)).MaxCol)

/-- The byte that `rasterizeTri` records for the edge leaving vertex
`basevert`: `(edge << 4) | (othervert << 2) | basevert` (lines 294-316). -/
def edgeBits (basevert : Nat) : Nat :=
  ((if basevert = 0 then 2 else basevert - 1) <<< 4) |||
    ((if basevert = 2 then 0 else basevert + 1) <<< 2) ||| basevert

/-- One of the three bytes that are recorded for the edges of a triangle. -/
def validHit (hit : Nat) : Prop :=
  hit = edgeBits 0 ∨ hit = edgeBits 1 ∨ hit = edgeBits 2

/-- The rows `edges[0..2]` hold the three edge vectors (after the loop over
`basevert`). -/
def edgesSet (L : rasterizeTri.Locals) (edges : Nat → Vec3) : Prop :=
  edges 2 = rcVsub (L.vertarray 1) (L.vertarray 0) ∧
  edges 0 = rcVsub (L.vertarray 2) (L.vertarray 1) ∧
  edges 1 = rcVsub (L.vertarray 0) (L.vertarray 2)

/-- The loop at lines 317-321 for the edge leaving `basevert` runs through the
row boundary `y`. -/
def crossesRow (L : rasterizeTri.Locals) (basevert : Nat) (y : Int) : Prop :=
  (L.intverts basevert).2 ≠ (L.intverts (if basevert = 2 then 0 else basevert + 1)).2 ∧
  max (min (L.intverts basevert).2 (L.intverts (if basevert = 2 then 0 else basevert + 1)).2 + 1)
      L.y0 ≤ y ∧
  y ≤ min (max (L.intverts basevert).2
      (L.intverts (if basevert = 2 then 0 else basevert + 1)).2) L.y1_edge

instance (L : rasterizeTri.Locals) (basevert : Nat) (y : Int) :
    Decidable (crossesRow L basevert y) := by
  unfold crossesRow; infer_instance

/-- The effect of `recordHit` on one `rcEdgeHit`. -/
def recordedHit (edgeBits : Nat) (h : rcEdgeHit) : rcEdgeHit :=
  if h.Hits0 ≠ 0 then { h with Hits1 := edgeBits } else { h with Hits0 := edgeBits }

/-- The edge hit of row boundary `y` after the loop over `basevert`, given the
edge hits `E` at entry. -/
def hitsAfterRecording (L : rasterizeTri.Locals) (E : Int → rcEdgeHit) (y : Int) : rcEdgeHit :=
  let h0 := if crossesRow L 0 y then recordedHit (edgeBits 0) (E y) else E y
  let h1 := if crossesRow L 1 y then recordedHit (edgeBits 1) h0 else h0
  if crossesRow L 2 y then recordedHit (edgeBits 2) h1 else h1

/-- The relation `Tracked` of the flat path, which never writes `tempspans`. -/
def FlatTracked (L : rasterizeTri.Locals) (B S : rcHeightfield) : Prop :=
  Tracked L B S ∧ S.tempspans = B.tempspans


/-! ## Vocabulary of the coverage statements -/

/-- What recording a sample at column `c` of row `y` does to the row ranges
(`addFlatSpanSample`, lines 168-172). -/
def markRow (R : Int → rcRowExt) (c y : Int) : Int → rcRowExt :=
  Function.update R (y + 1) ⟨intMin (R (y + 1)).MinCol c, intMax (R (y + 1)).MaxCol c⟩

/-- The row ranges `R` arise from `R0` by recording exactly the samples `K`:
each range contains the old range and the samples of its row, and each of its
two ends is the old end or a sample. -/
structure Marks (K : Int → Int → Prop) (R0 R : Int → rcRowExt) : Prop where
  le_min : ∀ y, (R (y + 1)).MinCol ≤ (R0 (y + 1)).MinCol
  le_max : ∀ y, (R0 (y + 1)).MaxCol ≤ (R (y + 1)).MaxCol
  covers : ∀ c y, K c y → (R (y + 1)).MinCol ≤ c ∧ c ≤ (R (y + 1)).MaxCol
  min_mark : ∀ y, (R (y + 1)).MinCol = (R0 (y + 1)).MinCol ∨ K (R (y + 1)).MinCol y
  max_mark : ∀ y, (R (y + 1)).MaxCol = (R0 (y + 1)).MaxCol ∨ K (R (y + 1)).MaxCol y

/-- The vector of the edge leaving vertex `b` (lines 297-299). -/
def rasterizeTri.Locals.edgeVec (L : rasterizeTri.Locals) (b : Nat) : Vec3 :=
  rcVsub (L.vertarray (if b = 2 then 0 else b + 1)) (L.vertarray b)

/-- Its component-wise inverse (lines 299-301). -/
def rasterizeTri.Locals.edgeInv (L : rasterizeTri.Locals) (b : Nat) : Vec3 :=
  ⟨1 / (L.edgeVec b).x, 1 / (L.edgeVec b).y, 1 / (L.edgeVec b).z⟩

/-- The point `temppnt` that the loop over the columns computes for the edge
leaving `b` at the grid line `k` (lines 335 and 505). -/
def rasterizeTri.Locals.crossX (L : rasterizeTri.Locals) (b : Nat) (k : Int) : Vec3 :=
  intersectX (L.vertarray b) (L.edgeVec b) (L.edgeInv b) (L.bmin.x + L.cs * (k : ℚ))

/-- The point `Inter[i]` that the loop over the row boundaries computes for the
edge leaving `b` at the grid line `k` (lines 369 and 544). -/
def rasterizeTri.Locals.crossZ (L : rasterizeTri.Locals) (b : Nat) (k : Int) : Vec3 :=
  intersectZ (L.vertarray b) (L.edgeVec b) (L.edgeInv b) (L.bmin.z + L.cs * (k : ℚ))

/-- The sample recorded for vertex `b` (lines 303-306 and 468-476). -/
def vertexMark (L : rasterizeTri.Locals) (b : Nat) (c y : Int) : Prop :=
  ((L.intverts b).1 ≥ L.x0 ∧ (L.intverts b).1 ≤ L.x1 ∧ (L.intverts b).2 ≥ L.y0 ∧
    (L.intverts b).2 ≤ L.y1) ∧ c = (L.intverts b).1 ∧ y = (L.intverts b).2

/-- The samples recorded where the edge leaving `b` crosses the grid line `k`
between two columns (lines 333-342 and 503-517). -/
def columnMarkAt (L : rasterizeTri.Locals) (b : Nat) (k c y : Int) : Prop :=
  (y ≥ L.y0 ∧ y ≤ L.y1) ∧ y = (cellOf L.bmin L.ics (L.crossX b k)).2 ∧ (c = k ∨ c = k - 1)

/-- The samples recorded for the column crossings of the edge leaving `b`. -/
def columnMark (L : rasterizeTri.Locals) (b : Nat) (c y : Int) : Prop :=
  (L.intverts b).1 ≠ (L.intverts (if b = 2 then 0 else b + 1)).1 ∧
  ∃ k, intMax (intMin (L.intverts b).1 (L.intverts (if b = 2 then 0 else b + 1)).1 + 1) L.x0 ≤ k ∧
    k ≤ intMin (intMax (L.intverts b).1 (L.intverts (if b = 2 then 0 else b + 1)).1) L.x1_edge ∧
    columnMarkAt L b k c y

/-- The samples recorded where the edge leaving `b` crosses the row boundary
`k` (lines 371-376 and 546-557). -/
def hitMark (L : rasterizeTri.Locals) (b : Nat) (k c y : Int) : Prop :=
  c = (cellOf L.bmin L.ics (L.crossZ b k)).1 ∧ (c ≥ L.x0 ∧ c ≤ L.x1) ∧ (y = k ∨ y = k - 1)

/-- The value of `xloop0` at line 382 (and 566) when the edges leaving `b1` and
`b2` are the two recorded for the row boundary `k`. -/
def fillLo (L : rasterizeTri.Locals) (b1 b2 : Nat) (k : Int) : Int :=
  intMax ((if (L.crossZ b2 k).x < (L.crossZ b1 k).x
    then (cellOf L.bmin L.ics (L.crossZ b2 k)).1
    else (cellOf L.bmin L.ics (L.crossZ b1 k)).1) + 1) L.x0

/-- The value of `xloop1` at line 383 (with `hi = x1`) and 567 (`hi = x1_edge`). -/
def fillHi (L : rasterizeTri.Locals) (hi : Int) (b1 b2 : Nat) (k : Int) : Int :=
  intMin (if (L.crossZ b2 k).x < (L.crossZ b1 k).x
    then (cellOf L.bmin L.ics (L.crossZ b1 k)).1
    else (cellOf L.bmin L.ics (L.crossZ b2 k)).1) hi

/-- The samples recorded between the two crossings of the row boundary `k` in
the flat path (lines 378-395). -/
def fillMarkFlat (L : rasterizeTri.Locals) (b1 b2 : Nat) (k c y : Int) : Prop :=
  (cellOf L.bmin L.ics (L.crossZ b1 k)).1 ≠ (cellOf L.bmin L.ics (L.crossZ b2 k)).1 ∧
  fillLo L b1 b2 k ≤ fillHi L L.x1 b1 b2 k ∧
  (c = fillLo L b1 b2 k ∨ c = fillHi L L.x1 b1 b2 k ∨ c = fillLo L b1 b2 k - 1 ∨
    c = fillHi L L.x1 b1 b2 k - 1) ∧ (y = k ∨ y = k - 1)

/-- The samples recorded between the two crossings of the row boundary `k` in
the sloped path (lines 559-589). -/
def fillMarkSloped (L : rasterizeTri.Locals) (b1 b2 : Nat) (k c y : Int) : Prop :=
  (cellOf L.bmin L.ics (L.crossZ b1 k)).1 ≠ (cellOf L.bmin L.ics (L.crossZ b2 k)).1 ∧
  ∃ x, fillLo L b1 b2 k ≤ x ∧ x ≤ fillHi L L.x1_edge b1 b2 k ∧ (c = x ∨ c = x - 1) ∧
    (y = k ∨ y = k - 1)

/-- The samples recorded for the row boundary `k`, crossed by the edges leaving
`b1` and `b2`. -/
def rowMark (sloped : Bool) (L : rasterizeTri.Locals) (b1 b2 : Nat) (k c y : Int) : Prop :=
  hitMark L b1 k c y ∨ hitMark L b2 k c y ∨
    (if sloped then fillMarkSloped L b1 b2 k c y else fillMarkFlat L b1 b2 k c y)

/-- The samples recorded for the row boundary `k` (lines 356-400 and 531-594). -/
def boundaryMark (sloped : Bool) (L : rasterizeTri.Locals) (k c y : Int) : Prop :=
  ∃ b1 b2, b1 < b2 ∧ b2 < 3 ∧ crossesRow L b1 k ∧ crossesRow L b2 k ∧
    rowMark sloped L b1 b2 k c y

/-- All samples that the discovery phase of a path records (`sloped` tells
which path). -/
def discoveryMark (sloped : Bool) (L : rasterizeTri.Locals) (c y : Int) : Prop :=
  (∃ b, b < 3 ∧ (vertexMark L b c y ∨ columnMark L b c y)) ∨ ∃ k, boundaryMark sloped L k c y

/-- The rows `edges[3..5]` hold the inverses of the three edge vectors. -/
def edgesInv (L : rasterizeTri.Locals) (edges : Nat → Vec3) : Prop :=
  edges 5 = L.edgeInv 0 ∧ edges 3 = L.edgeInv 1 ∧ edges 4 = L.edgeInv 2

/-- The discovery phase of the flat path (lines 292-401). -/
def rasterizeTri.flatDiscovery (L : rasterizeTri.Locals) (hf : rcHeightfield) : rcHeightfield :=
  let st := [0, 1, 2].foldl (fun st basevert => rasterizeTri.flatBaseVert L basevert st)
    (hf, fun _ => (⟨0, 0, 0⟩ : Vec3))
  rasterizeTri.flatHorizontals L st.2 st.1

/-- The discovery phase of the sloped path (lines 457-595). -/
def rasterizeTri.slopedDiscovery (L : rasterizeTri.Locals) (hf : rcHeightfield) :
    rcHeightfield :=
  let st := [0, 1, 2].foldl (fun st basevert => rasterizeTri.slopedBaseVert L basevert st)
    (hf, fun _ => (⟨0, 0, 0⟩ : Vec3))
  rasterizeTri.slopedHorizontals L st.2 st.1

/-- The integers `lo, lo + 1, ..., hi`, as a C loop `for (i = lo; i <= hi; i++)`
visits them. -/
def loopRange (lo hi : Int) : List Int :=
  (List.range (hi + 1 - lo).toNat).map (fun k : Nat => lo + (k : Int))

/-- The cells `(x, y)` for which the emission loops (lines 403-452 and 596-663)
run their body, in order, when the discovery phase has left the row ranges of
`D`: the rows `y0..y1`, and in each row the columns of the recorded range
clamped to `x0..x1`. -/
def emissionCells (L : rasterizeTri.Locals) (D : rcHeightfield) : List (Int × Int) :=
  (loopRange L.y0 L.y1).flatMap fun y =>
    (loopRange (intMax (D.RowExt (y + 1)).MinCol L.x0)
      (intMin (D.RowExt (y + 1)).MaxCol L.x1)).map fun x => (x, y)

/-- The point `q` lies on the segment from `A` to `B`. -/
def OnSeg (A B q : ℚ × ℚ) : Prop :=
  ∃ t : ℚ, 0 ≤ t ∧ t ≤ 1 ∧ q.1 = A.1 + t * (B.1 - A.1) ∧ q.2 = A.2 + t * (B.2 - A.2)

/-- The point `q` lies in the triangle with vertices `A`, `B`, `C`. -/
def InTri (A B C q : ℚ × ℚ) : Prop :=
  ∃ a b c : ℚ, 0 ≤ a ∧ 0 ≤ b ∧ 0 ≤ c ∧ a + b + c = 1 ∧
    q.1 = a * A.1 + b * B.1 + c * C.1 ∧ q.2 = a * A.2 + b * B.2 + c * C.2

/-- The body of the loops over `x` of the flat path (lines 417-423 and
436-447): one call of `addSpan` for the cell `(x, y)`. `w` is the width of the
grid. -/
def rasterizeTri.flatEmitCell (area : Nat) (flagMergeThr : Int) (rasterizationFlags : Int)
    (rasterizationMasks : Option (Int → Int)) (triangle_ismin triangle_ismax : Int) (w : Int)
    (y x : Int) (hf : rcHeightfield) : rcHeightfield :=
  let triangle_ismin_clamp : Nat := toUShort (rcClamp triangle_ismin 0 RC_SPAN_MAX_HEIGHT)
  let triangle_ismax_clamp : Nat :=
    toUShort (rcClamp triangle_ismax ((triangle_ismin_clamp : Int) + 1) RC_SPAN_MAX_HEIGHT)
  addSpan hf x y
    (if projectSpanToBottom rasterizationFlags rasterizationMasks (x + y * w) ≠ 0 then 0
      else triangle_ismin_clamp)
    triangle_ismax_clamp area flagMergeThr

/-- The heightfield `S` with the row ranges replaced by `R`. -/
def rcHeightfield.withRowExt (S : rcHeightfield) (R : Int → rcRowExt) : rcHeightfield :=
  { S with RowExt := R }

/-- The row ranges of the rows `y0..y1` reset to their sentinel, as the
emission loops leave them (lines 424, 449 and 662). -/
def resetRowExt (L : rasterizeTri.Locals) (hf : rcHeightfield) : rcHeightfield :=
  hf.withRowExt fun r =>
    if L.y0 + 1 ≤ r ∧ r ≤ L.y1 + 1 then ⟨hf.width + 2, -2⟩ else hf.RowExt r
/-! ## Vocabulary of the statements about the inserted spans -/

/-- The low bound passed to `addSpan` for the cell with index `idx`: `0` where
`projectSpanToBottom` is non-zero (lines 262-265, 408-411, 440-443 and
621-624), and the quantized low bound `lo` elsewhere. -/
def projectedLow (rasterizationFlags : Int) (rasterizationMasks : Option (Int → Int))
    (idx : Int) (lo : Nat) : Nat :=
  if projectSpanToBottom rasterizationFlags rasterizationMasks idx ≠ 0 then 0 else lo

/-- Lines 255-260: the heights of a single-cell triangle clamped to the grid
and snapped to the height grid, `(triangle_ismin, triangle_ismax)`, with exact
products; rounded in `rasterizeTri.singleCellBounds.f32`. -/
def rasterizeTri.singleCellBounds (ich by_ triangle_smin triangle_smax : ℚ) : Nat × Nat :=
  let triangle_smin := if triangle_smin < 0 then 0 else triangle_smin
  let triangle_smax := if triangle_smax > by_ then by_ else triangle_smax
  let triangle_ismin : Nat := toUShort (rcClamp ⌊triangle_smin * ich⌋ 0 RC_SPAN_MAX_HEIGHT)
  let triangle_ismax : Nat :=
    toUShort (rcClamp ⌈triangle_smax * ich⌉ ((triangle_ismin : Int) + 1) RC_SPAN_MAX_HEIGHT)
  (triangle_ismin, triangle_ismax)

/-- Lines 406-407 (and 437-438): the flat height interval snapped to the
height grid, `(triangle_ismin_clamp, triangle_ismax_clamp)`. -/
def rasterizeTri.flatBounds (triangle_ismin triangle_ismax : Int) : Nat × Nat :=
  let triangle_ismin_clamp : Nat := toUShort (rcClamp triangle_ismin 0 RC_SPAN_MAX_HEIGHT)
  let triangle_ismax_clamp : Nat :=
    toUShort (rcClamp triangle_ismax ((triangle_ismin_clamp : Int) + 1) RC_SPAN_MAX_HEIGHT)
  (triangle_ismin_clamp, triangle_ismax_clamp)

/-- Line 616: the test that makes the sloped path skip a cell. -/
def rasterizeTri.slopedSkip (Temp : rcTempSpan) : Prop :=
  Temp.sminmax0 ≥ RC_SPAN_MAX_HEIGHT ∨ Temp.sminmax1 < 0

instance (Temp : rcTempSpan) : Decidable (rasterizeTri.slopedSkip Temp) := by
  unfold rasterizeTri.slopedSkip; infer_instance

/-- Lines 618-619: the sample of a cell clamped to the height range,
`(smin, smax)`, before the projection to the floor. -/
def rasterizeTri.slopedBounds (Temp : rcTempSpan) : Int × Int :=
  let smin := intMax Temp.sminmax0 0
  let smax := intMin (intMax Temp.sminmax1 (smin + 1)) RC_SPAN_MAX_HEIGHT
  (smin, smax)

/-- Lines 612-613: the sample of the cell `(x, y)` reset to its sentinel. -/
def rasterizeTri.resetSample (x y : Int) (hf : rcHeightfield) : rcHeightfield :=
  { hf with tempspans := Function.update hf.tempspans (SampleIndex hf x y) ⟨32000, -32000⟩ }

/-- What the body of the emission loop of the sloped path (lines 600-658) does
at the cell `c` of a grid of width `w`, in terms of `addSpan`. -/
def slopedInsertion (area : Nat) (flagMergeThr : Int) (rasterizationFlags : Int)
    (rasterizationMasks : Option (Int → Int)) (w : Int) (T : rcHeightfield) (c : Int × Int) :
    rcHeightfield :=
  if rasterizeTri.slopedSkip (T.tempspans (SampleIndex T c.1 c.2)) then
    rasterizeTri.resetSample c.1 c.2 T
  else
    addSpan (rasterizeTri.resetSample c.1 c.2 T) c.1 c.2
      (projectedLow rasterizationFlags rasterizationMasks (c.1 + c.2 * w)
        (toUShort (rasterizeTri.slopedBounds (T.tempspans (SampleIndex T c.1 c.2))).1))
      (toUShort (rasterizeTri.slopedBounds (T.tempspans (SampleIndex T c.1 c.2))).2)
      area flagMergeThr

/-- The triangle has zero area: the cross product of the edge vectors
`v1 - v0` and `v2 - v0` vanishes, which is the case exactly when the three
vertices coincide or lie on one line. -/
def degenerate (v0 v1 v2 : Vec3) : Prop :=
  (rcVsub v1 v0).y * (rcVsub v2 v0).z - (rcVsub v1 v0).z * (rcVsub v2 v0).y = 0 ∧
  (rcVsub v1 v0).z * (rcVsub v2 v0).x - (rcVsub v1 v0).x * (rcVsub v2 v0).z = 0 ∧
  (rcVsub v1 v0).x * (rcVsub v2 v0).y - (rcVsub v1 v0).y * (rcVsub v2 v0).x = 0

instance (v0 v1 v2 : Vec3) : Decidable (degenerate v0 v1 v2) := by
  unfold degenerate; infer_instance

/-! ## RecastRasterization.cpp: allocSpan and freeSpan on the linked records

The column model above takes `allocSpan` to succeed and keeps no record
addresses. This section models the allocator itself. A non-null `rcSpan*` is
the pair `(pool, i)` for the record `items[i]` of the pool block `pool`; a
pointer that may be null is an `Option`, with `none` for the null pointer. -/

/-- The part of the heap that the span allocator works on: the fields `next`
and `data` of every record, the blocks on the list `hf.pools` (head first), and
the pointer `hf.freelist`. -/
structure SpanHeap where
  next : Nat × Nat → Option (Nat × Nat)
  data : Nat × Nat → rcSpanData
  pools : List Nat
  freelist : Option (Nat × Nat)

/-- The `do ... while (it != head)` loop of `allocSpan` (lines 59-65), entered
with `it = &pool->items[n]` and the pair `(next fields, freelist)`: each turn
decrements `it`, stores `it->next = freelist` and sets `freelist = it`; the
loop ends after the turn for `items[0]`. -/
def allocSpan.link (pool : Nat) :
    Nat → (Nat × Nat → Option (Nat × Nat)) × Option (Nat × Nat) →
      (Nat × Nat → Option (Nat × Nat)) × Option (Nat × Nat)
  | 0, st => st
  | n + 1, st => allocSpan.link pool n (Function.update st.1 (pool, n) st.2, some (pool, n))

/-- The function `allocSpan` (lines 42-73). `rcAlloc` is the answer of
`rcAlloc(sizeof(rcSpanPool), RC_ALLOC_PERM)` should the call be made: `none`
for a null pointer, `some pool` for a new block. The result is the pointer
returned and the heap afterwards. -/
def allocSpan (hf : SpanHeap) (rcAlloc : Option Nat) : Option (Nat × Nat) × SpanHeap :=
  let grown : Option SpanHeap :=
    if hf.freelist = none ∨ hf.freelist.bind hf.next = none then
      match rcAlloc with
      | none => none
      | some pool =>
        let st := allocSpan.link pool RC_SPANS_PER_POOL (hf.next, hf.freelist)
        some { hf with pools := pool :: hf.pools, next := st.1, freelist := st.2 }
    else some hf
  match grown with
  | none => (none, hf)
  | some hf => (hf.freelist, { hf with freelist := hf.freelist.bind hf.next })

/-- The function `freeSpan` (lines 75-81). -/
def freeSpan (hf : SpanHeap) (ptr : Option (Nat × Nat)) : SpanHeap :=
  match ptr with
  | none => hf
  | some p => { hf with next := Function.update hf.next p hf.freelist, freelist := some p }

/-- Lines 90-94 of `addSpan`: take a record from the pool and fill it in. The
stores go through the pointer that `allocSpan` returned without a test; the
result is `none` when that pointer is null (a store through a null pointer),
and otherwise the record and the heap after the stores. -/
def addSpan.newRecord (hf : SpanHeap) (rcAlloc : Option Nat) (smin smax area : Nat) :
    Option ((Nat × Nat) × SpanHeap) :=
  match allocSpan hf rcAlloc with
  | (none, _) => none
  | (some s, hf) =>
    some (s, { hf with
      data := Function.update hf.data s
        ⟨smin % 2 ^ RC_SPAN_HEIGHT_BITS, smax % 2 ^ RC_SPAN_HEIGHT_BITS, area % 2 ^ 6⟩
      next := Function.update hf.next s none })

/-- The records reached from the pointer `p` by following `next` up to the
null pointer are exactly those of the list `l`, in order. -/
def Chain (next : Nat × Nat → Option (Nat × Nat)) : Option (Nat × Nat) → List (Nat × Nat) → Prop
  | p, [] => p = none
  | p, a :: l => p = some a ∧ Chain next (next a) l

/-- The free list of the heap holds exactly the records `l`, head first. -/
def SpanHeap.FreeList (hf : SpanHeap) (l : List (Nat × Nat)) : Prop :=
  Chain hf.next hf.freelist l

/-- The records `items[lo], ..., items[hi - 1]` of the block `pool`, in index
order. -/
def poolItems (pool lo hi : Nat) : List (Nat × Nat) :=
  (List.range' lo (hi - lo)).map fun i => (pool, i)

/-- The heaps on which at least one `allocSpan` has succeeded: those left by a
successful `allocSpan` on a heap with a well-formed free list (the new block,
if any, being disjoint from the records of the free list), and those reached
from such a heap by `freeSpan` of a record that is not on the free list, or by
a store to the `next` field of a record that is not on the free list (as
`addSpan` makes when it links the records of a column). -/
inductive Served : SpanHeap → Prop
  | alloc (hf : SpanHeap) (l : List (Nat × Nat)) (rcAlloc : Option Nat) :
      hf.FreeList l → (∀ pool, rcAlloc = some pool → ∀ a ∈ l, a.1 ≠ pool) →
      (allocSpan hf rcAlloc).1 ≠ none → Served (allocSpan hf rcAlloc).2
  | free (hf : SpanHeap) (s : Nat × Nat) :
      Served hf → (∀ l, hf.FreeList l → s ∉ l) → Served (freeSpan hf (some s))
  | store (hf : SpanHeap) (a : Nat × Nat) (v : Option (Nat × Nat)) :
      Served hf → (∀ l, hf.FreeList l → a ∉ l) →
      Served { hf with next := Function.update hf.next a v }

/-- The allocator fields of a heightfield that `rcAllocHeightfield` has just
zeroed (`Recast.cpp`, lines 59-64): no pool block and a null `freelist`. No
record exists yet; the contents given to `next` and `data` play no role. -/
def SpanHeap.zeroed : SpanHeap :=
  { next := fun _ => none, data := fun _ => ⟨0, 0, 0⟩, pools := [], freelist := none }

/-! ## Recast.cpp: rcCreateHeightfield with its allocations

The definition `rcCreateHeightfield` above is the heightfield that a
successful call builds, with its buffers as total functions. This section
follows the function statement by statement, with the four buffers as arrays of
their allocated length and with the answers of `rcAlloc` as a parameter. The
size of a block is its number of elements (the byte sizes are taken to fit the
`int` parameter of `rcAlloc`). -/

/-- A heightfield with its four buffers as arrays of their allocated length;
`none` is a null pointer. The head of a column is given as the list of the
spans of the column: a null head is the empty list. -/
structure rcHeightfield.Buffers where
  width : Int
  height : Int
  bmin : Vec3
  bmax : Vec3
  cs : ℚ
  ch : ℚ
  spans : Option (List (List rcSpanData))
  EdgeHits : Option (List rcEdgeHit)
  RowExt : Option (List rcRowExt)
  tempspans : Option (List rcTempSpan)

/-- What `rcAlloc` answers to the four requests of `rcCreateHeightfield`:
`none` for a null pointer, and otherwise the contents found in the block
granted, entry by entry (`malloc` does not initialize its blocks). -/
structure rcCreateHeightfield.Answers where
  spans : Option (Nat → List rcSpanData)
  EdgeHits : Option (Nat → rcEdgeHit)
  RowExt : Option (Nat → rcRowExt)
  tempspans : Option (Nat → rcTempSpan)

/-- The pointer that `rcAlloc` returns for a request of `n` elements. -/
def rcCreateHeightfield.block {α : Type} (answer : Option (Nat → α)) (n : Int) :
    Option (List α) :=
  answer.map fun contents => (List.range n.toNat).map contents

/-- The store `buf[i] = v`. The result is `none` if the store goes through a
null pointer or outside the block, and otherwise the pointer with the block
after the store. -/
def rcCreateHeightfield.store {α : Type} (buf : Option (List α)) (i : Int) (v : α) :
    Option (Option (List α)) :=
  match buf with
  | none => none
  | some l => if 0 ≤ i ∧ i < l.length then some (some (l.set i.toNat v)) else none

/-- The function `rcCreateHeightfield` (`Recast.cpp`, lines 66-111), applied to
the heightfield `hf`. The result is `none` if a store goes through a null
pointer or outside its block, and otherwise the value returned and the
heightfield afterwards. -/
def rcCreateHeightfield.run (hf : rcHeightfield.Buffers)
    (rcAlloc : rcCreateHeightfield.Answers) (width height : Int) (bmin bmax : Vec3)
    (cs ch : ℚ) : Option (Bool × rcHeightfield.Buffers) :=
  let hf := { hf with
    width := width, height := height, bmin := bmin, bmax := bmax, cs := cs, ch := ch }
  let hf := { hf with
    spans := rcCreateHeightfield.block rcAlloc.spans (hf.width * hf.height) }
  match hf.spans with
  | none => some (false, hf)
  | some s =>
    let hf := { hf with spans := some (s.map fun _ => []) }
    let hf := { hf with EdgeHits := rcCreateHeightfield.block rcAlloc.EdgeHits (hf.height + 1) }
    match hf.EdgeHits with
    | none => some (false, hf)
    | some e =>
      let hf := { hf with EdgeHits := some (e.map fun _ => ⟨0, 0⟩) }
      let hf := { hf with RowExt := rcCreateHeightfield.block rcAlloc.RowExt (hf.height + 2) }
      let rows := forLoop 0 (hf.height + 2 - 1)
        (fun i buf => buf.bind fun b => rcCreateHeightfield.store b i ⟨hf.width + 2, -2⟩)
        (some hf.RowExt)
      match rows with
      | none => none
      | some r =>
        let hf := { hf with RowExt := r }
        let hf := { hf with
          tempspans :=
            rcCreateHeightfield.block rcAlloc.tempspans ((hf.width + 2) * (hf.height + 2)) }
        match hf.tempspans with
        | none => some (false, hf)
        | some _ =>
          let temps := forLoop 0 (hf.height + 2 - 1)
            (fun i buf => forLoop 0 (hf.width + 2 - 1)
              (fun j buf => buf.bind fun b =>
                rcCreateHeightfield.store b (i * (hf.width + 2) + j) ⟨32000, -32000⟩) buf)
            (some hf.tempspans)
          match temps with
          | none => none
          | some t => some (true, { hf with tempspans := t })

/-- The heightfield that `rcAllocHeightfield` returns (`Recast.cpp`, lines
59-64): every field zeroed by `memset`, so every buffer pointer null. -/
def rcAllocHeightfield : rcHeightfield.Buffers :=
  { width := 0, height := 0, bmin := ⟨0, 0, 0⟩, bmax := ⟨0, 0, 0⟩, cs := 0, ch := 0
    spans := none, EdgeHits := none, RowExt := none, tempspans := none }

/-! ## Vocabulary of the statements about one column -/

/-- The height cells covered by a column: the union of `[smin, smax)` over its
records. -/
def coveredCells (col : List rcSpanData) : Set Nat :=
  {h | ∃ r ∈ col, r.smin ≤ h ∧ h < r.smax}

/-- The sequence of the span bounds `(smin, smax)` of a column. -/
def spanBounds (col : List rcSpanData) : List (Nat × Nat) :=
  col.map fun r => (r.smin, r.smax)

/-- The position `p`, counted in half height cells, lies in the closed interval
`[smin, smax]` of a record of the column. -/
def touchedHalf (col : List rcSpanData) (p : Nat) : Prop :=
  ∃ r ∈ col, 2 * r.smin ≤ p ∧ p ≤ 2 * r.smax

/-! ## SOP_RecastRasterization.C: the construction of the grid in cookMySop -/

/-- Conversion of a `float` to `int`: the fraction is discarded (the value is
taken to fit an `int`). -/
def truncToInt (q : ℚ) : Int := if 0 ≤ q then ⌊q⌋ else ⌈q⌉

/-- How lines 194-223 of `cookMySop` end: with the statement `return error()`
and the heightfield as it is then (`none` for a null pointer), with a store
through a null pointer inside `rcCreateHeightfield`, or with the heightfield
created and the cooking going on. `return error()` returns the error state of
the node as it stands; it is also the statement that ends a complete cook (line
351), and the source records no error message anywhere (there is no call of
`addError`), so `returned` tells that the function returned there, not that a
failure was reported. -/
inductive cookMySop.Step
  | returned (Solid : Option rcHeightfield.Buffers)
  | fault
  | created (Solid : rcHeightfield.Buffers)

/-- Lines 194-223 of `cookMySop`. `Solid` is the pointer that
`rcAllocHeightfield()` returned, `rcAlloc` the answers to the requests of
`rcCreateHeightfield` should it be called, `min_pos` and `max_pos` the padded
bounding box, and `cs`, `ch` the values of the two parameters of the node.
Floats are exact rationals here: the constant `0.01f` is `1 / 100` (no float
lies between the two, so the test is the same for a float `cs`), and the two
quotients are not rounded before the fraction is discarded. -/
def cookMySop.create (Solid : Option rcHeightfield.Buffers)
    (rcAlloc : rcCreateHeightfield.Answers) (min_pos max_pos : Vec3) (cs ch : ℚ) :
    cookMySop.Step :=
  match Solid with
  | none => cookMySop.Step.returned none
  | some hf =>
    let SizeBox := rcVsub max_pos min_pos
    if cs ≤ 1 / 100 ∨ ch ≤ 1 / 100 then cookMySop.Step.returned (some hf)
    else
      let width := truncToInt (SizeBox.x / cs)
      let height := truncToInt (SizeBox.z / ch)
      match rcCreateHeightfield.run hf rcAlloc width height min_pos max_pos cs ch with
      | none => cookMySop.Step.fault
      | some (false, hf) => cookMySop.Step.returned (some hf)
      | some (true, hf) => cookMySop.Step.created hf

/-! ## Vocabulary of the statements that compare two runs -/

/-- The locals of two triangles agree in everything horizontal: the `x` and
`z` coordinates of the vertices and of the grid origin, the cell size, the
vertex cells and the clamped footprint. The heights of the vertices, the height
of the grid origin and `ich` are free. -/
structure SameHorizontal (L L' : rasterizeTri.Locals) : Prop where
  vert_x : ∀ i, (L.vertarray i).x = (L'.vertarray i).x
  vert_z : ∀ i, (L.vertarray i).z = (L'.vertarray i).z
  cells : L.intverts = L'.intverts
  bmin_x : L.bmin.x = L'.bmin.x
  bmin_z : L.bmin.z = L'.bmin.z
  cs_eq : L.cs = L'.cs
  ics_eq : L.ics = L'.ics
  x0_eq : L.x0 = L'.x0
  x1_eq : L.x1 = L'.x1
  x1_edge_eq : L.x1_edge = L'.x1_edge
  y0_eq : L.y0 = L'.y0
  y1_eq : L.y1 = L'.y1
  y1_edge_eq : L.y1_edge = L'.y1_edge

/-- Two heightfields of `w` by `h` cells agree in the scratch entries that a
triangle reads before it writes them: the edge hits of the row boundaries
`0..h`, the row ranges of the grid rows (indices `1..h`) and the samples of the
in-grid cells. The padding entries, the spans and the other fields are free. -/
structure ScratchAgree (w h : Int) (S S' : rcHeightfield) : Prop where
  width_left : S.width = w
  width_right : S'.width = w
  height_left : S.height = h
  height_right : S'.height = h
  edgeHits : ∀ y, 0 ≤ y → y ≤ h → S.EdgeHits y = S'.EdgeHits y
  rowExt : ∀ i, 1 ≤ i → i ≤ h → S.RowExt i = S'.RowExt i
  tempspans : ∀ x y, 0 ≤ x → x < w → 0 ≤ y → y < h →
    S.tempspans (x + 1 + (y + 1) * (w + 2)) = S'.tempspans (x + 1 + (y + 1) * (w + 2))

/-- Two states of a loop, each a heightfield with a further component: the
heightfields agree in the scratch entries and the further components are equal. -/
def PairAgree {α : Type} (w h : Int) (p p' : rcHeightfield × α) : Prop :=
  ScratchAgree w h p.1 p'.1 ∧ p.2 = p'.2

/-- The grids reached from a freshly created grid by calls of `rasterizeTri`,
whatever their triangles and parameters. -/
inductive Rasterized (width height : Int) (bmin bmax : Vec3) (cs ch : ℚ) :
    rcHeightfield → Prop
  | fresh : Rasterized width height bmin bmax cs ch
      (rcCreateHeightfield width height bmin bmax cs ch)
  | tri (hf : rcHeightfield) (v0 v1 v2 : Vec3) (area : Nat) (bmin' bmax' : Vec3)
      (cs' ics ich : ℚ) (flagMergeThr rasterizationFlags : Int)
      (rasterizationMasks : Option (Int → Int)) :
      Rasterized width height bmin bmax cs ch hf →
      Rasterized width height bmin bmax cs ch
        (rasterizeTri v0 v1 v2 area hf bmin' bmax' cs' ics ich flagMergeThr
          rasterizationFlags rasterizationMasks)

/-! ## RecastRasterization.cpp: rasterizeTri with a log of its calls of addSpan

The emission loops once more, statement by statement as above, with a state
that carries next to the heightfield the list of the calls of `addSpan` made so
far, in order. -/

/-- `addSpan`, with the arguments of the call appended to the log. -/
def addSpan.logged (st : rcHeightfield × List Insertion) (x y : Int) (smin smax area : Nat)
    (flagMergeThr : Int) : rcHeightfield × List Insertion :=
  (addSpan st.1 x y smin smax area flagMergeThr,
    st.2 ++ [⟨x, y, smin, smax, area, flagMergeThr⟩])

/-- Body of the loops over `y` at lines 413-425 and 430-450. -/
def rasterizeTri.flatEmitRow.logged (L : rasterizeTri.Locals) (area : Nat)
    (flagMergeThr : Int) (smin smax : Int → Nat) (y : Int)
    (st : rcHeightfield × List Insertion) : rcHeightfield × List Insertion :=
  let xloop0 := intMax (st.1.RowExt (y + 1)).MinCol L.x0
  let xloop1 := intMin (st.1.RowExt (y + 1)).MaxCol L.x1
  let st := forLoop xloop0 xloop1
    (fun x st => addSpan.logged st x y (smin x) (smax x) area flagMergeThr) st
  ({ st.1 with RowExt := Function.update st.1.RowExt (y + 1) ⟨st.1.width + 2, -2⟩ }, st.2)

/-- Lines 403-452. -/
def rasterizeTri.flatEmit.logged (L : rasterizeTri.Locals) (area : Nat) (flagMergeThr : Int)
    (rasterizationFlags : Int) (rasterizationMasks : Option (Int → Int))
    (triangle_ismin triangle_ismax : Int) (st : rcHeightfield × List Insertion) :
    rcHeightfield × List Insertion :=
  let projectTriToBottom := rasterizationFlags
  let triangle_ismin_clamp : Nat := toUShort (rcClamp triangle_ismin 0 RC_SPAN_MAX_HEIGHT)
  let triangle_ismax_clamp : Nat :=
    toUShort (rcClamp triangle_ismax ((triangle_ismin_clamp : Int) + 1) RC_SPAN_MAX_HEIGHT)
  match rasterizationMasks with
  | none =>
    let triangle_ismin_clamp := if projectTriToBottom ≠ 0 then 0 else triangle_ismin_clamp
    forLoop L.y0 L.y1
      (rasterizeTri.flatEmitRow.logged L area flagMergeThr
        (fun _ => triangle_ismin_clamp) (fun _ => triangle_ismax_clamp)) st
  | some masks =>
    let w := st.1.width
    forLoop L.y0 L.y1
      (fun y st => rasterizeTri.flatEmitRow.logged L area flagMergeThr
        (fun x => if Int.land projectTriToBottom (masks (x + y * w)) ≠ 0 then 0
          else triangle_ismin_clamp)
        (fun _ => triangle_ismax_clamp) y st) st

/-- Lines 289-453. -/
def rasterizeTri.flat.logged (L : rasterizeTri.Locals) (area : Nat) (flagMergeThr : Int)
    (rasterizationFlags : Int) (rasterizationMasks : Option (Int → Int))
    (triangle_ismin triangle_ismax : Int) (hf : rcHeightfield) :
    rcHeightfield × List Insertion :=
  let st := [0, 1, 2].foldl (fun st basevert => rasterizeTri.flatBaseVert L basevert st)
    (hf, fun _ => (⟨0, 0, 0⟩ : Vec3))
  let hf := rasterizeTri.flatHorizontals L st.2 st.1
  rasterizeTri.flatEmit.logged L area flagMergeThr rasterizationFlags rasterizationMasks
    triangle_ismin triangle_ismax (hf, [])

/-- Body of the loop over `x` at lines 600-658. -/
def rasterizeTri.slopedEmitCell.logged (area : Nat) (flagMergeThr : Int)
    (rasterizationFlags : Int) (rasterizationMasks : Option (Int → Int)) (y x : Int)
    (st : rcHeightfield × List Insertion) : rcHeightfield × List Insertion :=
  let projectTriToBottom := rasterizationFlags
  let w := st.1.width
  let idx := SampleIndex st.1 x y
  let Temp := st.1.tempspans idx
  let smin := Temp.sminmax0
  let smax := Temp.sminmax1
  let st : rcHeightfield × List Insertion :=
    ({ st.1 with tempspans := Function.update st.1.tempspans idx ⟨32000, -32000⟩ }, st.2)
  if smin ≥ RC_SPAN_MAX_HEIGHT ∨ smax < 0 then st
  else
    let smin := intMax smin 0
    let smax := intMin (intMax smax (smin + 1)) RC_SPAN_MAX_HEIGHT
    let projectSpanToBottom :=
      match rasterizationMasks with
      | some masks => Int.land projectTriToBottom (masks (x + y * w))
      | none => projectTriToBottom
    let smin := if projectSpanToBottom ≠ 0 then 0 else smin
    addSpan.logged st x y (toUShort smin) (toUShort smax) area flagMergeThr

/-- Body of the loop over `y` at lines 596-663. -/
def rasterizeTri.slopedEmitRow.logged (L : rasterizeTri.Locals) (area : Nat)
    (flagMergeThr : Int) (rasterizationFlags : Int) (rasterizationMasks : Option (Int → Int))
    (y : Int) (st : rcHeightfield × List Insertion) : rcHeightfield × List Insertion :=
  let xloop0 := intMax (st.1.RowExt (y + 1)).MinCol L.x0
  let xloop1 := intMin (st.1.RowExt (y + 1)).MaxCol L.x1
  let st := forLoop xloop0 xloop1
    (rasterizeTri.slopedEmitCell.logged area flagMergeThr rasterizationFlags
      rasterizationMasks y) st
  ({ st.1 with RowExt := Function.update st.1.RowExt (y + 1) ⟨st.1.width + 2, -2⟩ }, st.2)

/-- Lines 455-664. -/
def rasterizeTri.sloped.logged (L : rasterizeTri.Locals) (area : Nat) (flagMergeThr : Int)
    (rasterizationFlags : Int) (rasterizationMasks : Option (Int → Int))
    (hf : rcHeightfield) : rcHeightfield × List Insertion :=
  let st := [0, 1, 2].foldl (fun st basevert => rasterizeTri.slopedBaseVert L basevert st)
    (hf, fun _ => (⟨0, 0, 0⟩ : Vec3))
  let hf := rasterizeTri.slopedHorizontals L st.2 st.1
  forLoop L.y0 L.y1
    (rasterizeTri.slopedEmitRow.logged L area flagMergeThr rasterizationFlags
      rasterizationMasks) (hf, [])

/-- Lines 252-269. -/
def rasterizeTri.singleCell.logged (area : Nat) (hf : rcHeightfield) (ich : ℚ)
    (flagMergeThr : Int) (rasterizationFlags : Int) (rasterizationMasks : Option (Int → Int))
    (by_ triangle_smin triangle_smax : ℚ) (x0 y0 : Int) : rcHeightfield × List Insertion :=
  let projectTriToBottom := rasterizationFlags
  let w := hf.width
  let triangle_smin := if triangle_smin < 0 then 0 else triangle_smin
  let triangle_smax := if triangle_smax > by_ then by_ else triangle_smax
  let triangle_ismin : Nat := toUShort (rcClamp ⌊triangle_smin * ich⌋ 0 RC_SPAN_MAX_HEIGHT)
  let triangle_ismax : Nat :=
    toUShort (rcClamp ⌈triangle_smax * ich⌉ ((triangle_ismin : Int) + 1) RC_SPAN_MAX_HEIGHT)
  let projectSpanToBottom :=
    match rasterizationMasks with
    | some masks => Int.land projectTriToBottom (masks (x0 + y0 * w))
    | none => projectTriToBottom
  let triangle_ismin := if projectSpanToBottom ≠ 0 then 0 else triangle_ismin
  addSpan.logged (hf, []) x0 y0 triangle_ismin triangle_ismax area flagMergeThr

/-- The function `rasterizeTri`, with the log of its calls of `addSpan`. -/
def rasterizeTri.logged (v0 v1 v2 : Vec3) (area : Nat) (hf : rcHeightfield) (bmin bmax : Vec3)
    (cs ics ich : ℚ) (flagMergeThr : Int) (rasterizationFlags : Int)
    (rasterizationMasks : Option (Int → Int)) : rcHeightfield × List Insertion :=
  let w := hf.width
  let h := hf.height
  let by_ := bmax.y - bmin.y
  let intverts := rasterizeTri.intverts v0 v1 v2 bmin ics
  let x0 := intMin (intverts 0).1 (intMin (intverts 1).1 (intverts 2).1)
  let x1 := intMax (intverts 0).1 (intMax (intverts 1).1 (intverts 2).1)
  let y0 := intMin (intverts 0).2 (intMin (intverts 1).2 (intverts 2).2)
  let y1 := intMax (intverts 0).2 (intMax (intverts 1).2 (intverts 2).2)
  if x1 < 0 ∨ x0 ≥ w ∨ y1 < 0 ∨ y0 ≥ h then (hf, [])
  else
    let triangle_smin := rcMin (rcMin v0.y v1.y) v2.y - bmin.y
    let triangle_smax := rcMax (rcMax v0.y v1.y) v2.y - bmin.y
    if triangle_smax < 0 then (hf, [])
    else if triangle_smin > by_ then (hf, [])
    else if x0 = x1 ∧ y0 = y1 then
      rasterizeTri.singleCell.logged area hf ich flagMergeThr rasterizationFlags
        rasterizationMasks by_ triangle_smin triangle_smax x0 y0
    else
      let triangle_ismin := rasterizeTri.quantize ich triangle_smin
      let triangle_ismax := rasterizeTri.quantize ich triangle_smax
      let L := rasterizeTri.locals v0 v1 v2 hf bmin cs ics ich
      if triangle_ismin = triangle_ismax then
        rasterizeTri.flat.logged L area flagMergeThr rasterizationFlags rasterizationMasks
          triangle_ismin triangle_ismax hf
      else
        rasterizeTri.sloped.logged L area flagMergeThr rasterizationFlags rasterizationMasks hf

/-! ## RecastRasterization.cpp: rasterizeTri with its scratch accesses checked

`rcCreateHeightfield` allocates `height + 1` entries for `EdgeHits`,
`height + 2` for `RowExt` and `(width + 2) * (height + 2)` for `tempspans`.
This section follows the discovery and emission code of `rasterizeTri` once
more, statement by statement as above, with every access to these three
buffers checked: the result is `none` as soon as an index is outside its
buffer or an assertion fails, and otherwise the state as above. The assertion
of `SampleIndex` is always checked; the assertions on the samples (lines 474,
512, 553 and 582) are checked where `TEST_NEW_RASTERIZER` is set. The
comparison with `rasterizeTriTest` at lines 626-656, which that setting also
compiles, is left out: its function is not part of the sources. -/

/-- A C loop `for (i = lo; i <= hi; i++)` whose body may fail. -/
def forLoopM {σ : Type} (lo hi : Int) (body : Int → σ → Option σ) (s : σ) : Option σ :=
  forLoop lo hi (fun i acc => acc.bind (body i)) (some s)

/-- The heightfield has `w` by `h` cells. -/
def Dims (w h : Int) (S : rcHeightfield) : Prop := S.width = w ∧ S.height = h

def addFlatSpanSample.checked (hf : rcHeightfield) (x y : Int) : Option rcHeightfield :=
  if 0 ≤ y + 1 ∧ y + 1 < hf.height + 2 then some (addFlatSpanSample hf x y) else none

/-- `SampleIndex` with its assertion (line 186). -/
def SampleIndex.checked (hf : rcHeightfield) (x y : Int) : Option Int :=
  if x ≥ -1 ∧ x < hf.width + 1 ∧ y ≥ -1 ∧ y < hf.height + 1 then some (SampleIndex hf x y)
  else none

def addSpanSample.checked (hf : rcHeightfield) (x y : Int) (sint : Int) :
    Option rcHeightfield :=
  (addFlatSpanSample.checked hf x y).bind fun hf =>
    (SampleIndex.checked hf x y).bind fun idx =>
      if 0 ≤ idx ∧ idx < (hf.width + 2) * (hf.height + 2) then
        let Temp := hf.tempspans idx
        let t0 := if Temp.sminmax0 > sint then sint else Temp.sminmax0
        let t1 := if Temp.sminmax1 < sint then sint else Temp.sminmax1
        some { hf with tempspans := Function.update hf.tempspans idx ⟨t0, t1⟩ }
      else none

/-- The assertion `rcAssert(sint >= triangle_ismin - 1 && sint <= triangle_ismax + 1)`,
compiled where `TEST_NEW_RASTERIZER` is set. -/
def rasterizeTri.sampleAssert (TEST_NEW_RASTERIZER : Bool)
    (triangle_ismin triangle_ismax sint : Int) : Prop :=
  TEST_NEW_RASTERIZER = true → sint ≥ triangle_ismin - 1 ∧ sint ≤ triangle_ismax + 1

instance (TEST_NEW_RASTERIZER : Bool) (triangle_ismin triangle_ismax sint : Int) :
    Decidable (rasterizeTri.sampleAssert TEST_NEW_RASTERIZER triangle_ismin triangle_ismax
      sint) := by
  unfold rasterizeTri.sampleAssert; infer_instance

/-- Body of the loop at lines 317-321 (and 487-491). -/
def rasterizeTri.recordHit.checked (edgeBits : Nat) (y : Int) (hf : rcHeightfield) :
    Option rcHeightfield :=
  if 0 ≤ y ∧ y < hf.height + 1 then some (rasterizeTri.recordHit edgeBits y hf) else none

/-- Lines 308-322 (and 478-492). -/
def rasterizeTri.recordEdge.checked (L : rasterizeTri.Locals) (basevert : Nat)
    (hf : rcHeightfield) : Option rcHeightfield :=
  let othervert := if basevert = 2 then 0 else basevert + 1
  let edge := if basevert = 0 then 2 else basevert - 1
  if (L.intverts basevert).2 ≠ (L.intverts othervert).2 then
    let edge0 := intMin (L.intverts basevert).2 (L.intverts othervert).2
    let edge1 := intMax (L.intverts basevert).2 (L.intverts othervert).2
    let loop0 := intMax (edge0 + 1) L.y0
    let loop1 := intMin edge1 L.y1_edge
    let edgeBits := (edge <<< 4) ||| (othervert <<< 2) ||| basevert
    forLoopM loop0 loop1 (rasterizeTri.recordHit.checked edgeBits) hf
  else some hf

/-! ### Flat path -/

/-- Body of the loop at lines 333-342. -/
def rasterizeTri.flatVertical.checked (L : rasterizeTri.Locals) (basevert edge : Nat)
    (edges : Nat → Vec3) (x : Int) (st : rcHeightfield × ℚ) : Option (rcHeightfield × ℚ) :=
  let temppnt := intersectX (L.vertarray basevert) (edges edge) (edges (3 + edge)) st.2
  let y := ⌊(temppnt.z - L.bmin.z) * L.ics⌋
  let hf : Option rcHeightfield :=
    if y ≥ L.y0 ∧ y ≤ L.y1 then
      (addFlatSpanSample.checked st.1 x y).bind fun hf => addFlatSpanSample.checked hf (x - 1) y
    else some st.1
  hf.map fun hf => (hf, st.2 + L.cs)

/-- Body of the loop over `basevert` at lines 292-344. -/
def rasterizeTri.flatBaseVert.checked (L : rasterizeTri.Locals) (basevert : Nat)
    (st : rcHeightfield × (Nat → Vec3)) : Option (rcHeightfield × (Nat → Vec3)) :=
  let othervert := if basevert = 2 then 0 else basevert + 1
  let edge := if basevert = 0 then 2 else basevert - 1
  let edges := rasterizeTri.setEdge L basevert st.2
  let ib := L.intverts basevert
  let io := L.intverts othervert
  let hf : Option rcHeightfield :=
    if ib.1 ≥ L.x0 ∧ ib.1 ≤ L.x1 ∧ ib.2 ≥ L.y0 ∧ ib.2 ≤ L.y1 then
      addFlatSpanSample.checked st.1 ib.1 ib.2
    else some st.1
  let hf := hf.bind (rasterizeTri.recordEdge.checked L basevert)
  let hf := hf.bind fun hf =>
    if ib.1 ≠ io.1 then
      let edge0 := intMin ib.1 io.1
      let edge1 := intMax ib.1 io.1
      let loop0 := intMax (edge0 + 1) L.x0
      let loop1 := intMin edge1 L.x1_edge
      let cx := L.bmin.x + L.cs * (loop0 : ℚ)
      (forLoopM loop0 loop1 (rasterizeTri.flatVertical.checked L basevert edge edges)
        (hf, cx)).map Prod.fst
    else some hf
  hf.map fun hf => (hf, edges)

/-- One turn of the loop `for (int i = 0; i < 2; i++)` at lines 363-377. -/
def rasterizeTri.flatHit.checked (L : rasterizeTri.Locals) (edges : Nat → Vec3) (y : Int)
    (cz : ℚ) (hit : Nat) (hf : rcHeightfield) : Option (rcHeightfield × Vec3 × Int) :=
  let edge := hit >>> 4
  let basevert := hit &&& 3
  let Inter := intersectZ (L.vertarray basevert) (edges edge) (edges (3 + edge)) cz
  let x := ⌊(Inter.x - L.bmin.x) * L.ics⌋
  let hf : Option rcHeightfield :=
    if x ≥ L.x0 ∧ x ≤ L.x1 then
      (addFlatSpanSample.checked hf x y).bind fun hf => addFlatSpanSample.checked hf x (y - 1)
    else some hf
  hf.map fun hf => (hf, Inter, x)

/-- Lines 378-395. -/
def rasterizeTri.flatFill.checked (L : rasterizeTri.Locals) (y : Int) (Inter0 Inter1 : Vec3)
    (xInter0 xInter1 : Int) (hf : rcHeightfield) : Option rcHeightfield :=
  if xInter0 ≠ xInter1 then
    let left : Bool := decide (Inter1.x < Inter0.x)
    let xloop0 := intMax ((if left then xInter1 else xInter0) + 1) L.x0
    let xloop1 := intMin (if left then xInter0 else xInter1) L.x1
    if xloop0 ≤ xloop1 then
      (addFlatSpanSample.checked hf xloop0 y).bind fun hf =>
      (addFlatSpanSample.checked hf xloop1 y).bind fun hf =>
      (addFlatSpanSample.checked hf (xloop0 - 1) y).bind fun hf =>
      (addFlatSpanSample.checked hf (xloop1 - 1) y).bind fun hf =>
      (addFlatSpanSample.checked hf xloop0 (y - 1)).bind fun hf =>
      (addFlatSpanSample.checked hf xloop1 (y - 1)).bind fun hf =>
      (addFlatSpanSample.checked hf (xloop0 - 1) (y - 1)).bind fun hf =>
      addFlatSpanSample.checked hf (xloop1 - 1) (y - 1)
    else some hf
  else some hf

/-- Body of the loop at lines 356-400. -/
def rasterizeTri.flatHorizontal.checked (L : rasterizeTri.Locals) (edges : Nat → Vec3)
    (y : Int) (st : rcHeightfield × ℚ) : Option (rcHeightfield × ℚ) :=
  if 0 ≤ y ∧ y < st.1.height + 1 then
    let Hits := st.1.EdgeHits y
    let hf : Option rcHeightfield :=
      if Hits.Hits0 ≠ 0 then
        (rasterizeTri.flatHit.checked L edges y st.2 Hits.Hits0 st.1).bind fun r0 =>
        (rasterizeTri.flatHit.checked L edges y st.2 Hits.Hits1 r0.1).bind fun r1 =>
        (rasterizeTri.flatFill.checked L y r0.2.1 r1.2.1 r0.2.2 r1.2.2 r1.1).map fun hf =>
        { hf with EdgeHits := Function.update hf.EdgeHits y ⟨0, 0⟩ }
      else some st.1
    hf.map fun hf => (hf, st.2 + L.cs)
  else none

/-- Lines 346-401. -/
def rasterizeTri.flatHorizontals.checked (L : rasterizeTri.Locals) (edges : Nat → Vec3)
    (hf : rcHeightfield) : Option rcHeightfield :=
  let edge0 := intMin (L.intverts 0).2 (intMin (L.intverts 1).2 (L.intverts 2).2)
  let edge1 := intMax (L.intverts 0).2 (intMax (L.intverts 1).2 (L.intverts 2).2)
  let loop0 := intMax (edge0 + 1) L.y0
  let loop1 := intMin edge1 L.y1_edge
  let cz := L.bmin.z + L.cs * (loop0 : ℚ)
  (forLoopM loop0 loop1 (rasterizeTri.flatHorizontal.checked L edges) (hf, cz)).map Prod.fst

/-- Body of the loops over `y` at lines 413-425 and 430-450: the row reads and
resets `RowExt[y + 1]`, and touches no other scratch entry. -/
def rasterizeTri.flatEmitRow.checked (L : rasterizeTri.Locals) (area : Nat)
    (flagMergeThr : Int) (smin smax : Int → Nat) (y : Int) (hf : rcHeightfield) :
    Option rcHeightfield :=
  if 0 ≤ y + 1 ∧ y + 1 < hf.height + 2 then
    some (rasterizeTri.flatEmitRow L area flagMergeThr smin smax y hf)
  else none

/-- Lines 403-452. -/
def rasterizeTri.flatEmit.checked (L : rasterizeTri.Locals) (area : Nat) (flagMergeThr : Int)
    (rasterizationFlags : Int) (rasterizationMasks : Option (Int → Int))
    (triangle_ismin triangle_ismax : Int) (hf : rcHeightfield) : Option rcHeightfield :=
  let projectTriToBottom := rasterizationFlags
  let triangle_ismin_clamp : Nat := toUShort (rcClamp triangle_ismin 0 RC_SPAN_MAX_HEIGHT)
  let triangle_ismax_clamp : Nat :=
    toUShort (rcClamp triangle_ismax ((triangle_ismin_clamp : Int) + 1) RC_SPAN_MAX_HEIGHT)
  match rasterizationMasks with
  | none =>
    let triangle_ismin_clamp := if projectTriToBottom ≠ 0 then 0 else triangle_ismin_clamp
    forLoopM L.y0 L.y1
      (rasterizeTri.flatEmitRow.checked L area flagMergeThr
        (fun _ => triangle_ismin_clamp) (fun _ => triangle_ismax_clamp)) hf
  | some masks =>
    let w := hf.width
    forLoopM L.y0 L.y1
      (fun y hf => rasterizeTri.flatEmitRow.checked L area flagMergeThr
        (fun x => if Int.land projectTriToBottom (masks (x + y * w)) ≠ 0 then 0
          else triangle_ismin_clamp)
        (fun _ => triangle_ismax_clamp) y hf) hf

/-- Lines 289-453. -/
def rasterizeTri.flat.checked (L : rasterizeTri.Locals) (area : Nat) (flagMergeThr : Int)
    (rasterizationFlags : Int) (rasterizationMasks : Option (Int → Int))
    (triangle_ismin triangle_ismax : Int) (hf : rcHeightfield) : Option rcHeightfield :=
  let st := [0, 1, 2].foldl
    (fun st basevert => st.bind (rasterizeTri.flatBaseVert.checked L basevert))
    (some (hf, fun _ => (⟨0, 0, 0⟩ : Vec3)))
  let hf := st.bind fun st => rasterizeTri.flatHorizontals.checked L st.2 st.1
  hf.bind (rasterizeTri.flatEmit.checked L area flagMergeThr rasterizationFlags
    rasterizationMasks triangle_ismin triangle_ismax)

/-! ### Sloped path -/

/-- Body of the loop at lines 503-517. -/
def rasterizeTri.slopedVertical.checked (TEST_NEW_RASTERIZER : Bool)
    (triangle_ismin triangle_ismax : Int) (L : rasterizeTri.Locals) (basevert edge : Nat)
    (edges : Nat → Vec3) (x : Int) (st : rcHeightfield × ℚ) : Option (rcHeightfield × ℚ) :=
  let temppnt := intersectX (L.vertarray basevert) (edges edge) (edges (3 + edge)) st.2
  let y := ⌊(temppnt.z - L.bmin.z) * L.ics⌋
  let hf : Option rcHeightfield :=
    if y ≥ L.y0 ∧ y ≤ L.y1 then
      let sfloat := temppnt.y - L.bmin.y
      let sint := rasterizeTri.quantize L.ich sfloat
      if rasterizeTri.sampleAssert TEST_NEW_RASTERIZER triangle_ismin triangle_ismax sint then
        (addSpanSample.checked st.1 x y sint).bind fun hf =>
          addSpanSample.checked hf (x - 1) y sint
      else none
    else some st.1
  hf.map fun hf => (hf, st.2 + L.cs)

/-- Body of the loop over `basevert` at lines 457-519. -/
def rasterizeTri.slopedBaseVert.checked (TEST_NEW_RASTERIZER : Bool)
    (triangle_ismin triangle_ismax : Int) (L : rasterizeTri.Locals) (basevert : Nat)
    (st : rcHeightfield × (Nat → Vec3)) : Option (rcHeightfield × (Nat → Vec3)) :=
  let othervert := if basevert = 2 then 0 else basevert + 1
  let edge := if basevert = 0 then 2 else basevert - 1
  let edges := rasterizeTri.setEdge L basevert st.2
  let ib := L.intverts basevert
  let io := L.intverts othervert
  let hf : Option rcHeightfield :=
    if ib.1 ≥ L.x0 ∧ ib.1 ≤ L.x1 ∧ ib.2 ≥ L.y0 ∧ ib.2 ≤ L.y1 then
      let sfloat := (L.vertarray basevert).y - L.bmin.y
      let sint := rasterizeTri.quantize L.ich sfloat
      if rasterizeTri.sampleAssert TEST_NEW_RASTERIZER triangle_ismin triangle_ismax sint then
        addSpanSample.checked st.1 ib.1 ib.2 sint
      else none
    else some st.1
  let hf := hf.bind (rasterizeTri.recordEdge.checked L basevert)
  let hf := hf.bind fun hf =>
    if ib.1 ≠ io.1 then
      let edge0 := intMin ib.1 io.1
      let edge1 := intMax ib.1 io.1
      let loop0 := intMax (edge0 + 1) L.x0
      let loop1 := intMin edge1 L.x1_edge
      let cx := L.bmin.x + L.cs * (loop0 : ℚ)
      (forLoopM loop0 loop1
        (rasterizeTri.slopedVertical.checked TEST_NEW_RASTERIZER triangle_ismin triangle_ismax
          L basevert edge edges) (hf, cx)).map Prod.fst
    else some hf
  hf.map fun hf => (hf, edges)

/-- One turn of the loop `for (int i = 0; i < 2; i++)` at lines 538-558. -/
def rasterizeTri.slopedHit.checked (TEST_NEW_RASTERIZER : Bool)
    (triangle_ismin triangle_ismax : Int) (L : rasterizeTri.Locals) (edges : Nat → Vec3)
    (y : Int) (cz : ℚ) (hit : Nat) (hf : rcHeightfield) :
    Option (rcHeightfield × Vec3 × Int) :=
  let edge := hit >>> 4
  let basevert := hit &&& 3
  let Inter := intersectZ (L.vertarray basevert) (edges edge) (edges (3 + edge)) cz
  let x := ⌊(Inter.x - L.bmin.x) * L.ics⌋
  let hf : Option rcHeightfield :=
    if x ≥ L.x0 ∧ x ≤ L.x1 then
      let sfloat := Inter.y - L.bmin.y
      let sint := rasterizeTri.quantize L.ich sfloat
      if rasterizeTri.sampleAssert TEST_NEW_RASTERIZER triangle_ismin triangle_ismax sint then
        (addSpanSample.checked hf x y sint).bind fun hf =>
          addSpanSample.checked hf x (y - 1) sint
      else none
    else some hf
  hf.map fun hf => (hf, Inter, x)

/-- Body of the loop at lines 578-588. -/
def rasterizeTri.slopedFillCell.checked (TEST_NEW_RASTERIZER : Bool)
    (triangle_ismin triangle_ismax : Int) (L : rasterizeTri.Locals) (y : Int) (ds : ℚ)
    (x : Int) (st : rcHeightfield × ℚ) : Option (rcHeightfield × ℚ) :=
  let sint := rasterizeTri.quantize L.ich st.2
  let hf : Option rcHeightfield :=
    if rasterizeTri.sampleAssert TEST_NEW_RASTERIZER triangle_ismin triangle_ismax sint then
      (addSpanSample.checked st.1 x y sint).bind fun hf =>
      (addSpanSample.checked hf (x - 1) y sint).bind fun hf =>
      (addSpanSample.checked hf x (y - 1) sint).bind fun hf =>
      addSpanSample.checked hf (x - 1) (y - 1) sint
    else none
  hf.map fun hf => (hf, st.2 + ds)

/-- Lines 559-589. -/
def rasterizeTri.slopedFill.checked (TEST_NEW_RASTERIZER : Bool)
    (triangle_ismin triangle_ismax : Int) (L : rasterizeTri.Locals) (y : Int)
    (Inter0 Inter1 : Vec3) (xInter0 xInter1 : Int) (hf : rcHeightfield) :
    Option rcHeightfield :=
  if xInter0 ≠ xInter1 then
    let left : Bool := decide (Inter1.x < Inter0.x)
    let InterL := if left then Inter1 else Inter0
    let InterR := if left then Inter0 else Inter1
    let xloop0 := intMax ((if left then xInter1 else xInter0) + 1) L.x0
    let xloop1 := intMin (if left then xInter0 else xInter1) L.x1_edge
    let d := 1 / (InterR.x - InterL.x)
    let dy := InterR.y - InterL.y
    let t := rcClamp (((xloop0 : ℚ) * L.cs + L.bmin.x - InterL.x) * d) 0 1
    let sfloat := (InterL.y + t * dy) - L.bmin.y
    let ds : ℚ :=
      if xloop1 - xloop0 > 0 then
        let t2 := rcClamp (((xloop1 : ℚ) * L.cs + L.bmin.x - InterL.x) * d) 0 1
        let sfloat2 := (InterL.y + t2 * dy) - L.bmin.y
        (sfloat2 - sfloat) / ((xloop1 - xloop0 : Int) : ℚ)
      else 0
    (forLoopM xloop0 xloop1
      (rasterizeTri.slopedFillCell.checked TEST_NEW_RASTERIZER triangle_ismin triangle_ismax
        L y ds) (hf, sfloat)).map Prod.fst
  else some hf

/-- Body of the loop at lines 531-594. -/
def rasterizeTri.slopedHorizontal.checked (TEST_NEW_RASTERIZER : Bool)
    (triangle_ismin triangle_ismax : Int) (L : rasterizeTri.Locals) (edges : Nat → Vec3)
    (y : Int) (st : rcHeightfield × ℚ) : Option (rcHeightfield × ℚ) :=
  if 0 ≤ y ∧ y < st.1.height + 1 then
    let Hits := st.1.EdgeHits y
    let hf : Option rcHeightfield :=
      if Hits.Hits0 ≠ 0 then
        (rasterizeTri.slopedHit.checked TEST_NEW_RASTERIZER triangle_ismin triangle_ismax L
          edges y st.2 Hits.Hits0 st.1).bind fun r0 =>
        (rasterizeTri.slopedHit.checked TEST_NEW_RASTERIZER triangle_ismin triangle_ismax L
          edges y st.2 Hits.Hits1 r0.1).bind fun r1 =>
        (rasterizeTri.slopedFill.checked TEST_NEW_RASTERIZER triangle_ismin triangle_ismax L
          y r0.2.1 r1.2.1 r0.2.2 r1.2.2 r1.1).map fun hf =>
        { hf with EdgeHits := Function.update hf.EdgeHits y ⟨0, 0⟩ }
      else some st.1
    hf.map fun hf => (hf, st.2 + L.cs)
  else none

/-- Lines 520-595. -/
def rasterizeTri.slopedHorizontals.checked (TEST_NEW_RASTERIZER : Bool)
    (triangle_ismin triangle_ismax : Int) (L : rasterizeTri.Locals) (edges : Nat → Vec3)
    (hf : rcHeightfield) : Option rcHeightfield :=
  let edge0 := intMin (L.intverts 0).2 (intMin (L.intverts 1).2 (L.intverts 2).2)
  let edge1 := intMax (L.intverts 0).2 (intMax (L.intverts 1).2 (L.intverts 2).2)
  let loop0 := intMax (edge0 + 1) L.y0
  let loop1 := intMin edge1 L.y1_edge
  let cz := L.bmin.z + L.cs * (loop0 : ℚ)
  (forLoopM loop0 loop1
    (rasterizeTri.slopedHorizontal.checked TEST_NEW_RASTERIZER triangle_ismin triangle_ismax
      L edges) (hf, cz)).map Prod.fst

/-- Body of the loop over `x` at lines 600-658: the cell reads and resets its
sample, and touches no other scratch entry. -/
def rasterizeTri.slopedEmitCell.checked (area : Nat) (flagMergeThr : Int)
    (rasterizationFlags : Int) (rasterizationMasks : Option (Int → Int)) (y x : Int)
    (hf : rcHeightfield) : Option rcHeightfield :=
  (SampleIndex.checked hf x y).bind fun idx =>
    if 0 ≤ idx ∧ idx < (hf.width + 2) * (hf.height + 2) then
      some (rasterizeTri.slopedEmitCell area flagMergeThr rasterizationFlags
        rasterizationMasks y x hf)
    else none

/-- Body of the loop over `y` at lines 596-663. -/
def rasterizeTri.slopedEmitRow.checked (L : rasterizeTri.Locals) (area : Nat)
    (flagMergeThr : Int) (rasterizationFlags : Int) (rasterizationMasks : Option (Int → Int))
    (y : Int) (hf : rcHeightfield) : Option rcHeightfield :=
  if 0 ≤ y + 1 ∧ y + 1 < hf.height + 2 then
    let xloop0 := intMax (hf.RowExt (y + 1)).MinCol L.x0
    let xloop1 := intMin (hf.RowExt (y + 1)).MaxCol L.x1
    (forLoopM xloop0 xloop1
      (rasterizeTri.slopedEmitCell.checked area flagMergeThr rasterizationFlags
        rasterizationMasks y) hf).map fun hf =>
      { hf with RowExt := Function.update hf.RowExt (y + 1) ⟨hf.width + 2, -2⟩ }
  else none

/-- Lines 455-664. -/
def rasterizeTri.sloped.checked (TEST_NEW_RASTERIZER : Bool)
    (triangle_ismin triangle_ismax : Int) (L : rasterizeTri.Locals) (area : Nat)
    (flagMergeThr : Int) (rasterizationFlags : Int) (rasterizationMasks : Option (Int → Int))
    (hf : rcHeightfield) : Option rcHeightfield :=
  let st := [0, 1, 2].foldl
    (fun st basevert => st.bind
      (rasterizeTri.slopedBaseVert.checked TEST_NEW_RASTERIZER triangle_ismin triangle_ismax
        L basevert))
    (some (hf, fun _ => (⟨0, 0, 0⟩ : Vec3)))
  let hf := st.bind fun st =>
    rasterizeTri.slopedHorizontals.checked TEST_NEW_RASTERIZER triangle_ismin triangle_ismax
      L st.2 st.1
  hf.bind fun hf =>
    forLoopM L.y0 L.y1
      (rasterizeTri.slopedEmitRow.checked L area flagMergeThr rasterizationFlags
        rasterizationMasks) hf

/-! ### The entry point -/

/-- The function `rasterizeTri` with its scratch accesses checked. The
rejected triangles and the single-cell case touch no scratch buffer. -/
def rasterizeTri.checked (TEST_NEW_RASTERIZER : Bool) (v0 v1 v2 : Vec3) (area : Nat)
    (hf : rcHeightfield) (bmin bmax : Vec3) (cs ics ich : ℚ) (flagMergeThr : Int)
    (rasterizationFlags : Int) (rasterizationMasks : Option (Int → Int)) :
    Option rcHeightfield :=
  let w := hf.width
  let h := hf.height
  let by_ := bmax.y - bmin.y
  let intverts := rasterizeTri.intverts v0 v1 v2 bmin ics
  let x0 := intMin (intverts 0).1 (intMin (intverts 1).1 (intverts 2).1)
  let x1 := intMax (intverts 0).1 (intMax (intverts 1).1 (intverts 2).1)
  let y0 := intMin (intverts 0).2 (intMin (intverts 1).2 (intverts 2).2)
  let y1 := intMax (intverts 0).2 (intMax (intverts 1).2 (intverts 2).2)
  if x1 < 0 ∨ x0 ≥ w ∨ y1 < 0 ∨ y0 ≥ h then some hf
  else
    let triangle_smin := rcMin (rcMin v0.y v1.y) v2.y - bmin.y
    let triangle_smax := rcMax (rcMax v0.y v1.y) v2.y - bmin.y
    if triangle_smax < 0 then some hf
    else if triangle_smin > by_ then some hf
    else if x0 = x1 ∧ y0 = y1 then
      some (rasterizeTri.singleCell area hf ich flagMergeThr rasterizationFlags
        rasterizationMasks by_ triangle_smin triangle_smax x0 y0)
    else
      let triangle_ismin := rasterizeTri.quantize ich triangle_smin
      let triangle_ismax := rasterizeTri.quantize ich triangle_smax
      let L := rasterizeTri.locals v0 v1 v2 hf bmin cs ics ich
      if triangle_ismin = triangle_ismax then
        rasterizeTri.flat.checked L area flagMergeThr rasterizationFlags rasterizationMasks
          triangle_ismin triangle_ismax hf
      else
        rasterizeTri.sloped.checked TEST_NEW_RASTERIZER triangle_ismin triangle_ismax L area
          flagMergeThr rasterizationFlags rasterizationMasks hf

/-! ### Vocabulary of the statements about the assertions -/

/-- What makes the assertions on the samples hold: every height between `lo`
and `hi` is quantized into the asserted range, and the three vertices lie
between `lo` and `hi`. -/
structure rasterizeTri.SampleFacts (L : rasterizeTri.Locals)
    (triangle_ismin triangle_ismax : Int) (lo hi : ℚ) : Prop where
  window : ∀ s : ℚ, lo ≤ s → s ≤ hi →
    rasterizeTri.quantize L.ich (s - L.bmin.y) ≥ triangle_ismin - 1 ∧
      rasterizeTri.quantize L.ich (s - L.bmin.y) ≤ triangle_ismax + 1
  verts : ∀ i, i < 3 → lo ≤ (L.vertarray i).y ∧ (L.vertarray i).y ≤ hi

/-- The byte `hit` decodes to a vertex `b` of the triangle and to the row of
`edges` that holds the vector of the edge leaving `b`. -/
def rasterizeTri.HitOK (L : rasterizeTri.Locals) (edges : Nat → Vec3) (hit : Nat) : Prop :=
  ∃ b, b < 3 ∧ hit &&& 3 = b ∧ edges (hit >>> 4) = L.edgeVec b

/-! ## RecastRasterization.cpp: addSpan on the linked records

The column model of `addSpan` above keeps the records of a column in a list.
This section follows `addSpan` on the records themselves: the column heads
`hf.spans[idx]` are pointers, the records are linked by their `next` fields,
and the records come from `allocSpan` and go back through `freeSpan`. -/

/-- The fields of `rcHeightfield` that `addSpan` works on: `width`, the column
heads `spans[idx]` (`none` for a null pointer), and the allocator fields. -/
structure SpanGrid where
  width : Int
  spans : Int → Option (Nat × Nat)
  heap : SpanHeap

/-- The `else` branch of the loop of `addSpan` (lines 119-146): the new record
`s` absorbs the record `cur`, which is freed and unlinked from the column. The
result is the heightfield with the values of `prev` and `cur` after the turn. -/
def addSpan.remove (idx : Int) (s : Nat × Nat) (flagMergeThr : Int) (hf : SpanGrid)
    (prev : Option (Nat × Nat)) (cur : Nat × Nat) :
    SpanGrid × Option (Nat × Nat) × Option (Nat × Nat) :=
  let heap : SpanHeap := { hf.heap with
    data := Function.update hf.heap.data s
      (addSpan.merge flagMergeThr (hf.heap.data s) (hf.heap.data cur)) }
  let next := heap.next cur
  let heap := freeSpan heap (some cur)
  match prev with
  | some p =>
    ({ hf with heap := { heap with next := Function.update heap.next p next } }, prev, next)
  | none => ({ hf with heap := heap, spans := Function.update hf.spans idx next }, prev, next)

/-- The loop `while (cur)` of `addSpan` (lines 105-149) on the state
`(hf, prev, cur)`, for at most the given number of tests of `cur`: the result
is the state when the loop is left, and `none` if it has not been left by
then. -/
def addSpan.walk (idx : Int) (s : Nat × Nat) (flagMergeThr : Int) :
    Nat → SpanGrid × Option (Nat × Nat) × Option (Nat × Nat) →
      Option (SpanGrid × Option (Nat × Nat) × Option (Nat × Nat))
  | 0, _ => none
  | fuel + 1, (hf, prev, cur) =>
    match cur with
    | none => some (hf, prev, none)
    | some c =>
      if (hf.heap.data c).smin > (hf.heap.data s).smax then some (hf, prev, some c)
      else if (hf.heap.data c).smax < (hf.heap.data s).smin then
        addSpan.walk idx s flagMergeThr fuel (hf, some c, hf.heap.next c)
      else
        addSpan.walk idx s flagMergeThr fuel (addSpan.remove idx s flagMergeThr hf prev c)

/-- Lines 151-164: the new record is linked in behind `prev`, or at the head
of the column. -/
def addSpan.splice (idx : Int) (s : Nat × Nat) (hf : SpanGrid) (prev : Option (Nat × Nat)) :
    SpanGrid :=
  match prev with
  | some p =>
    { hf with heap := { hf.heap with
        next := Function.update (Function.update hf.heap.next s (hf.heap.next p)) p (some s) } }
  | none =>
    { hf with
      heap := { hf.heap with next := Function.update hf.heap.next s (hf.spans idx) }
      spans := Function.update hf.spans idx (some s) }

/-- The function `addSpan` (lines 83-165) on the linked records. `rcAlloc` is
the answer of `rcAlloc` should `allocSpan` ask for a block. The result is
`none` when `allocSpan` returns a null pointer (the stores of lines 91-94 then
go through it). The loop is given one test of `cur` for every record of the
pool blocks and one more; the result is `none` as well should it not end
within them. -/
def addSpan.linked (hf : SpanGrid) (rcAlloc : Option Nat) (x y : Int) (smin smax area : Nat)
    (flagMergeThr : Int) : Option SpanGrid :=
  let idx := x + y * hf.width
  match addSpan.newRecord hf.heap rcAlloc smin smax area with
  | none => none
  | some (s, heap) =>
    let hf := { hf with heap := heap }
    match hf.spans idx with
    | none => some { hf with spans := Function.update hf.spans idx (some s) }
    | some cur =>
      (addSpan.walk idx s flagMergeThr (RC_SPANS_PER_POOL * heap.pools.length + 1)
        (hf, none, some cur)).map fun st => addSpan.splice idx s st.1 st.2.1

/-- One call of `addSpan`: its arguments, and the answer of `rcAlloc` should
the call ask for a block. -/
structure addSpan.Call where
  x : Int
  y : Int
  smin : Nat
  smax : Nat
  area : Nat
  flagMergeThr : Int
  rcAlloc : Option Nat

/-- A sequence of calls of `addSpan` on the linked records, in order. -/
def addSpans.linked (hf : SpanGrid) : List addSpan.Call → Option SpanGrid
  | [] => some hf
  | c :: calls =>
    (addSpan.linked hf c.rcAlloc c.x c.y c.smin c.smax c.area c.flagMergeThr).bind
      fun hf => addSpans.linked hf calls

/-- The span fields of a heightfield that has just been created:
`rcAllocHeightfield` zeroes `pools` and `freelist`, and `rcCreateHeightfield`
zeroes the column heads (`Recast.cpp`, lines 59-64 and 79-82). -/
def SpanGrid.fresh (width : Int) : SpanGrid :=
  { width := width, spans := fun _ => none, heap := SpanHeap.zeroed }

/-- The records of the pool blocks of the heap. -/
def SpanHeap.records (hf : SpanHeap) : List (Nat × Nat) :=
  hf.pools.flatMap fun pool => poolItems pool 0 RC_SPANS_PER_POOL

/-- The records of the pool blocks are shared out between the free list `fl`
and the columns: `col i` is the list of the records of column `i`, the columns
outside `cols` are empty, and the free list followed by the columns of `cols`
is a rearrangement of the records of the blocks. -/
structure SpanGrid.Partition (hf : SpanGrid) (cols : List Int)
    (col : Int → List (Nat × Nat)) (fl : List (Nat × Nat)) : Prop where
  free : hf.heap.FreeList fl
  column : ∀ i, Chain hf.heap.next (hf.spans i) (col i)
  cols_nodup : cols.Nodup
  empty : ∀ i, i ∉ cols → col i = []
  perm : (fl ++ cols.flatMap col).Perm hf.heap.records
  pools_nodup : hf.heap.pools.Nodup

/-- The state of the loop of `addSpan` on column `idx` with the new record `s`:
the column holds the records `kept ++ rest`, of which `kept` have been passed
(`prev` is the last of them) and `rest` are still to come (`cur` is the first
of them); `fl` is the free list, `O` are the records of the other columns,
and `R` are all records. -/
structure addSpan.Walking (idx : Int) (s : Nat × Nat) (O R : List (Nat × Nat))
    (col : Int → List (Nat × Nat)) (pools : List Nat) (width : Int)
    (st : SpanGrid × Option (Nat × Nat) × Option (Nat × Nat))
    (kept rest fl : List (Nat × Nat)) : Prop where
  free : st.1.heap.FreeList fl
  free_ne : fl ≠ []
  others : ∀ i, i ≠ idx → Chain st.1.heap.next (st.1.spans i) (col i)
  column : Chain st.1.heap.next (st.1.spans idx) (kept ++ rest)
  cur_eq : Chain st.1.heap.next st.2.2 rest
  prev_eq : st.2.1 = kept.getLast?
  perm : ((s :: (fl ++ (kept ++ rest))) ++ O).Perm R
  nodup : R.Nodup
  other_mem : ∀ i, i ≠ idx → ∀ a ∈ col i, a ∈ O
  pools_eq : st.1.heap.pools = pools
  width_eq : st.1.width = width

/-! ## SOP_RecastRasterization.C: the padded box and the loop over the triangles -/

/-- Lines 196-198 of `cookMySop`: `min_pos = bbox.minvec() - bound_off` with
`bound_off = (10, 10, 10)`. -/
def cookMySop.min_pos (bbox_min : Vec3) : Vec3 := rcVsub bbox_min ⟨10, 10, 10⟩

/-- Line 199 of `cookMySop`: `max_pos = bbox.maxvec() + bound_off`. -/
def cookMySop.max_pos (bbox_max : Vec3) : Vec3 :=
  ⟨bbox_max.x + 10, bbox_max.y + 10, bbox_max.z + 10⟩

/-- Lines 225-239 of `cookMySop`: one call of `rasterizeTri` for every triangle
of the input, with `ics = 1 / Solid->cs` and `ich = 1 / Solid->ch`. -/
def cookMySop.rasterize (Solid : rcHeightfield) (tris : List (Vec3 × Vec3 × Vec3)) :
    rcHeightfield :=
  let ics := 1 / Solid.cs
  let ich := 1 / Solid.ch
  tris.foldl
    (fun hf t => rasterizeTri t.1 t.2.1 t.2.2 RC_WALKABLE_AREA hf hf.bmin hf.bmax hf.cs ics
      ich 4 0 none)
    Solid

/-! ## Vocabulary of the statements about the calls of addSpan -/

/-- The order in which the emission loops visit the columns: rows ascending,
and columns ascending within a row. -/
def scanBefore (a b : Insertion) : Prop := a.y < b.y ∨ (a.y = b.y ∧ a.x < b.x)

/-- The log of an emission loop that has come to a position described by
`pos`: every insertion lies in the clamped footprint and at a column and row
with `pos`, and the insertions are in the order of the scan. -/
structure ScanLog (L : rasterizeTri.Locals) (pos : Int → Int → Prop)
    (log : List Insertion) : Prop where
  box : ∀ o ∈ log, L.x0 ≤ o.x ∧ o.x ≤ L.x1 ∧ L.y0 ≤ o.y ∧ o.y ≤ L.y1
  before : ∀ o ∈ log, pos o.x o.y
  ordered : log.Pairwise scanBefore

/-! ## RecastRasterization.cpp: rasterizeTri in single precision

The embedding of `rasterizeTri` above computes with exact rationals. Here the
float-carrying statements are embedded once more with the arithmetic of the
machine: every `float` operation (`+`, `-`, `*`, `/`, and the conversion of an
`int` to `float`) delivers the IEEE 754 binary32 value nearest to the exact
result, a tie going to the even significand (`toFloat`), each operation rounded
on its own, in the order in which the C expression is evaluated; `floorf` and
`ceilf` of a float are exact; the conversion `(int)` is `toInt`. The statements
without floats (`recordEdge`, `flatFill`, the emission loops, `addSpan`) are
those of the first embedding.

Not modelled: results beyond the finite range of binary32 (`toFloat` rounds
with an unbounded exponent, where the machine delivers an infinity), and
infinities: `1.0f / 0` is `0` here as in `ℚ`. Such an inverse is stored by
lines 299-301 (and 464-466) for every component in which the two ends of an
edge agree, and it is read only for an edge whose ends lie in different columns
(rows), so that the `x` (`z`) components differ. A conversion `(int)` of a
value outside the range of `int` is undefined in C. The predicates
`finiteFloat`, `fitsInt` and `rasterizeTri.entryDefined` tell where the
operations at the entry of `rasterizeTri` stay inside the finite range and the
conversions are defined; the general statements about the entry of
`rasterizeTri` assume them. -/

/-- The power `2 ^ e` for an integer `e`. -/
def pow2 (e : Int) : ℚ :=
  if 0 ≤ e then ((2 ^ e.toNat : Nat) : ℚ) else 1 / ((2 ^ (-e).toNat : Nat) : ℚ)

/-- The integer nearest to `q`, the even one of the two if `q` lies halfway. -/
def roundEven (q : ℚ) : Int :=
  if q - ⌊q⌋ < 1 / 2 then ⌊q⌋
  else if 1 / 2 < q - ⌊q⌋ then ⌊q⌋ + 1
  else if ⌊q⌋ % 2 = 0 then ⌊q⌋ else ⌊q⌋ + 1

/-- The loop of `log2Floor`: `n` is halved until it is below 2, which takes
fewer than `fuel` turns when `n ≤ fuel`. -/
def log2Floor.loop : Nat → Nat → Nat
  | 0, _ => 0
  | fuel + 1, n => if n < 2 then 0 else log2Floor.loop fuel (n / 2) + 1

/-- The number `⌊log₂ n⌋` of a positive `n`, that is `Nat.log2 n`, by a
recursion that evaluates on large numbers. -/
def log2Floor (n : Nat) : Nat := log2Floor.loop n n

/-- The binary exponent of `q ≠ 0`: the `e` with `2 ^ e ≤ |q| < 2 ^ (e + 1)`. -/
def binExp (q : ℚ) : Int :=
  let e : Int := (log2Floor q.num.natAbs : Int) - (log2Floor q.den : Int)
  if pow2 e ≤ (if q < 0 then -q else q) then e else e - 1

/-- The value of type `float` nearest to `q` (IEEE 754 binary32, round to
nearest, ties to even): a significand of 24 bits, and below `2 ^ -126` the
subnormal values, multiples of `2 ^ -149`. -/
def toFloat (q : ℚ) : ℚ :=
  if q = 0 then 0
  else
    let ulp := pow2 (max (binExp q) (-126) - 23)
    (roundEven (q / ulp) : ℚ) * ulp

/-- The conversion `(int)` of a `float` with the integral value `z`. For a
value outside the range of `int` the behaviour of the C program is undefined;
the result here is the one of the x86 conversion instruction, `INT_MIN`. -/
def toInt (z : Int) : Int :=
  if -2147483648 ≤ z ∧ z ≤ 2147483647 then z else -2147483648

/-- The largest finite value of type `float`, `(2 - 2 ^ (-23)) * 2 ^ 127`
(the constant `FLT_MAX` of `float.h`). -/
def FLT_MAX : ℚ := 340282346638528859811704183484516925440

/-- The float operation with the exact result `q` does not overflow: the
rounded result is a finite float, and `toFloat q` is what the machine delivers
(beyond `FLT_MAX` the machine delivers an infinity). -/
def finiteFloat (q : ℚ) : Prop := -FLT_MAX ≤ toFloat q ∧ toFloat q ≤ FLT_MAX

instance (q : ℚ) : Decidable (finiteFloat q) := by
  unfold finiteFloat
  infer_instance

/-- The conversion `(int)` of a float with the integral value `z` is defined:
`z` lies in the range of `int`. -/
def fitsInt (z : Int) : Prop := -2147483648 ≤ z ∧ z ≤ 2147483647

instance (z : Int) : Decidable (fitsInt z) := by
  unfold fitsInt
  infer_instance

/-- The function `rcVsub` of `RecastMath.h` in single precision. -/
def rcVsub.f32 (v1 v2 : Vec3) : Vec3 :=
  ⟨toFloat (v1.x - v2.x), toFloat (v1.y - v2.y), toFloat (v1.z - v2.z)⟩

/-- The function `intersectX` (lines 174-181) in single precision. -/
def intersectX.f32 (v0 edge inv : Vec3) (cx : ℚ) : Vec3 :=
  let t := rcClamp (toFloat (toFloat (cx - v0.x) * inv.x)) 0 1
  ⟨toFloat (v0.x + toFloat (t * edge.x)), toFloat (v0.y + toFloat (t * edge.y)),
    toFloat (v0.z + toFloat (t * edge.z))⟩

/-- The function `intersectZ` (lines 191-198) in single precision. -/
def intersectZ.f32 (v0 edge inv : Vec3) (cz : ℚ) : Vec3 :=
  let t := rcClamp (toFloat (toFloat (cz - v0.z) * inv.z)) 0 1
  ⟨toFloat (v0.x + toFloat (t * edge.x)), toFloat (v0.y + toFloat (t * edge.y)),
    toFloat (v0.z + toFloat (t * edge.z))⟩

/-- The expression `(int)floorf((p - bmin) * ics)` of lines 227-232, 336, 370,
506 and 546: the number of the column (row) of the coordinate `p`. -/
def cellIndex.f32 (bmin ics p : ℚ) : Int :=
  toInt ⌊toFloat (toFloat (p - bmin) * ics)⌋

/-- The expression `(int)floorf((p - bmin) * ics)` is evaluated without an
overflow of its two float operations, and its conversion to `int` is defined. -/
def cellIndex.defined (bmin ics p : ℚ) : Prop :=
  finiteFloat (p - bmin) ∧ finiteFloat (toFloat (p - bmin) * ics) ∧
    fitsInt ⌊toFloat (toFloat (p - bmin) * ics)⌋

instance (bmin ics p : ℚ) : Decidable (cellIndex.defined bmin ics p) := by
  unfold cellIndex.defined
  infer_instance

/-- The quantization `(short int)rcClamp((int)floorf(sfloat * ich), -32000, 32000)`
in single precision. -/
def rasterizeTri.quantize.f32 (ich sfloat : ℚ) : Int :=
  rcClamp (toInt ⌊toFloat (sfloat * ich)⌋) (-32000) 32000

/-- Lines 297-301 (and 462-466) in single precision: the edge vector and its
component-wise inverse. -/
def rasterizeTri.setEdge.f32 (L : rasterizeTri.Locals) (basevert : Nat)
    (edges : Nat → Vec3) : Nat → Vec3 :=
  let othervert := if basevert = 2 then 0 else basevert + 1
  let edge := if basevert = 0 then 2 else basevert - 1
  let e := rcVsub.f32 (L.vertarray othervert) (L.vertarray basevert)
  Function.update (Function.update edges edge e) (3 + edge)
    ⟨toFloat (1 / e.x), toFloat (1 / e.y), toFloat (1 / e.z)⟩

/-- The initial value `bmin + cs * loop0` of `cx` (lines 332 and 502) and of
`cz` (lines 355 and 530); `loop0` is converted to `float` first. -/
def rasterizeTri.lineStart.f32 (bmin cs : ℚ) (loop0 : Int) : ℚ :=
  toFloat (bmin + toFloat (cs * toFloat (loop0 : ℚ)))

/-! ### Flat path -/

/-- Body of the loop at lines 333-342 in single precision; the state carries
`cx`. -/
def rasterizeTri.flatVertical.f32 (L : rasterizeTri.Locals) (basevert edge : Nat)
    (edges : Nat → Vec3) (x : Int) (st : rcHeightfield × ℚ) : rcHeightfield × ℚ :=
  let temppnt := intersectX.f32 (L.vertarray basevert) (edges edge) (edges (3 + edge)) st.2
  let y := cellIndex.f32 L.bmin.z L.ics temppnt.z
  let hf :=
    if y ≥ L.y0 ∧ y ≤ L.y1 then addFlatSpanSample (addFlatSpanSample st.1 x y) (x - 1) y
    else st.1
  (hf, toFloat (st.2 + L.cs))

/-- Body of the loop over `basevert` at lines 292-344 in single precision. -/
def rasterizeTri.flatBaseVert.f32 (L : rasterizeTri.Locals) (basevert : Nat)
    (st : rcHeightfield × (Nat → Vec3)) : rcHeightfield × (Nat → Vec3) :=
  let othervert := if basevert = 2 then 0 else basevert + 1
  let edge := if basevert = 0 then 2 else basevert - 1
  let edges := rasterizeTri.setEdge.f32 L basevert st.2
  let ib := L.intverts basevert
  let io := L.intverts othervert
  let hf :=
    if ib.1 ≥ L.x0 ∧ ib.1 ≤ L.x1 ∧ ib.2 ≥ L.y0 ∧ ib.2 ≤ L.y1 then
      addFlatSpanSample st.1 ib.1 ib.2
    else st.1
  let hf := rasterizeTri.recordEdge L basevert hf
  let hf :=
    if ib.1 ≠ io.1 then
      let edge0 := intMin ib.1 io.1
      let edge1 := intMax ib.1 io.1
      let loop0 := intMax (edge0 + 1) L.x0
      let loop1 := intMin edge1 L.x1_edge
      let cx := rasterizeTri.lineStart.f32 L.bmin.x L.cs loop0
      (forLoop loop0 loop1 (rasterizeTri.flatVertical.f32 L basevert edge edges) (hf, cx)).1
    else hf
  (hf, edges)

/-- One turn of the loop `for (int i = 0; i < 2; i++)` at lines 363-377 in
single precision: returns the heightfield, `Inter[i]` and `xInter[i]`. -/
def rasterizeTri.flatHit.f32 (L : rasterizeTri.Locals) (edges : Nat → Vec3) (y : Int) (cz : ℚ)
    (hit : Nat) (hf : rcHeightfield) : rcHeightfield × Vec3 × Int :=
  let edge := hit >>> 4
  let basevert := hit &&& 3
  let Inter := intersectZ.f32 (L.vertarray basevert) (edges edge) (edges (3 + edge)) cz
  let x := cellIndex.f32 L.bmin.x L.ics Inter.x
  let hf :=
    if x ≥ L.x0 ∧ x ≤ L.x1 then addFlatSpanSample (addFlatSpanSample hf x y) x (y - 1)
    else hf
  (hf, Inter, x)

/-- Body of the loop at lines 356-400 in single precision; the state carries
`cz`. -/
def rasterizeTri.flatHorizontal.f32 (L : rasterizeTri.Locals) (edges : Nat → Vec3) (y : Int)
    (st : rcHeightfield × ℚ) : rcHeightfield × ℚ :=
  let Hits := st.1.EdgeHits y
  let hf :=
    if Hits.Hits0 ≠ 0 then
      let r0 := rasterizeTri.flatHit.f32 L edges y st.2 Hits.Hits0 st.1
      let r1 := rasterizeTri.flatHit.f32 L edges y st.2 Hits.Hits1 r0.1
      let hf := rasterizeTri.flatFill L y r0.2.1 r1.2.1 r0.2.2 r1.2.2 r1.1
      { hf with EdgeHits := Function.update hf.EdgeHits y ⟨0, 0⟩ }
    else st.1
  (hf, toFloat (st.2 + L.cs))

/-- Lines 346-401 in single precision. -/
def rasterizeTri.flatHorizontals.f32 (L : rasterizeTri.Locals) (edges : Nat → Vec3)
    (hf : rcHeightfield) : rcHeightfield :=
  let edge0 := intMin (L.intverts 0).2 (intMin (L.intverts 1).2 (L.intverts 2).2)
  let edge1 := intMax (L.intverts 0).2 (intMax (L.intverts 1).2 (L.intverts 2).2)
  let loop0 := intMax (edge0 + 1) L.y0
  let loop1 := intMin edge1 L.y1_edge
  let cz := rasterizeTri.lineStart.f32 L.bmin.z L.cs loop0
  (forLoop loop0 loop1 (rasterizeTri.flatHorizontal.f32 L edges) (hf, cz)).1

/-- The discovery phase of the flat path (lines 292-401) in single precision. -/
def rasterizeTri.flatDiscovery.f32 (L : rasterizeTri.Locals) (hf : rcHeightfield) :
    rcHeightfield :=
  let st := [0, 1, 2].foldl (fun st basevert => rasterizeTri.flatBaseVert.f32 L basevert st)
    (hf, fun _ => (⟨0, 0, 0⟩ : Vec3))
  rasterizeTri.flatHorizontals.f32 L st.2 st.1

/-! ### Sloped path -/

/-- Body of the loop at lines 503-517 in single precision; the state carries
`cx`. -/
def rasterizeTri.slopedVertical.f32 (L : rasterizeTri.Locals) (basevert edge : Nat)
    (edges : Nat → Vec3) (x : Int) (st : rcHeightfield × ℚ) : rcHeightfield × ℚ :=
  let temppnt := intersectX.f32 (L.vertarray basevert) (edges edge) (edges (3 + edge)) st.2
  let y := cellIndex.f32 L.bmin.z L.ics temppnt.z
  let hf :=
    if y ≥ L.y0 ∧ y ≤ L.y1 then
      let sfloat := toFloat (temppnt.y - L.bmin.y)
      let sint := rasterizeTri.quantize.f32 L.ich sfloat
      addSpanSample (addSpanSample st.1 x y sint) (x - 1) y sint
    else st.1
  (hf, toFloat (st.2 + L.cs))

/-- Body of the loop over `basevert` at lines 457-519 in single precision. -/
def rasterizeTri.slopedBaseVert.f32 (L : rasterizeTri.Locals) (basevert : Nat)
    (st : rcHeightfield × (Nat → Vec3)) : rcHeightfield × (Nat → Vec3) :=
  let othervert := if basevert = 2 then 0 else basevert + 1
  let edge := if basevert = 0 then 2 else basevert - 1
  let edges := rasterizeTri.setEdge.f32 L basevert st.2
  let ib := L.intverts basevert
  let io := L.intverts othervert
  let hf :=
    if ib.1 ≥ L.x0 ∧ ib.1 ≤ L.x1 ∧ ib.2 ≥ L.y0 ∧ ib.2 ≤ L.y1 then
      let sfloat := toFloat ((L.vertarray basevert).y - L.bmin.y)
      let sint := rasterizeTri.quantize.f32 L.ich sfloat
      addSpanSample st.1 ib.1 ib.2 sint
    else st.1
  let hf := rasterizeTri.recordEdge L basevert hf
  let hf :=
    if ib.1 ≠ io.1 then
      let edge0 := intMin ib.1 io.1
      let edge1 := intMax ib.1 io.1
      let loop0 := intMax (edge0 + 1) L.x0
      let loop1 := intMin edge1 L.x1_edge
      let cx := rasterizeTri.lineStart.f32 L.bmin.x L.cs loop0
      (forLoop loop0 loop1 (rasterizeTri.slopedVertical.f32 L basevert edge edges) (hf, cx)).1
    else hf
  (hf, edges)

/-- One turn of the loop `for (int i = 0; i < 2; i++)` at lines 538-558 in
single precision. -/
def rasterizeTri.slopedHit.f32 (L : rasterizeTri.Locals) (edges : Nat → Vec3) (y : Int)
    (cz : ℚ) (hit : Nat) (hf : rcHeightfield) : rcHeightfield × Vec3 × Int :=
  let edge := hit >>> 4
  let basevert := hit &&& 3
  let Inter := intersectZ.f32 (L.vertarray basevert) (edges edge) (edges (3 + edge)) cz
  let x := cellIndex.f32 L.bmin.x L.ics Inter.x
  let hf :=
    if x ≥ L.x0 ∧ x ≤ L.x1 then
      let sfloat := toFloat (Inter.y - L.bmin.y)
      let sint := rasterizeTri.quantize.f32 L.ich sfloat
      addSpanSample (addSpanSample hf x y sint) x (y - 1) sint
    else hf
  (hf, Inter, x)

/-- Body of the loop at lines 578-588 in single precision; the state carries
`sfloat`. -/
def rasterizeTri.slopedFillCell.f32 (L : rasterizeTri.Locals) (y : Int) (ds : ℚ) (x : Int)
    (st : rcHeightfield × ℚ) : rcHeightfield × ℚ :=
  let sint := rasterizeTri.quantize.f32 L.ich st.2
  let hf := addSpanSample st.1 x y sint
  let hf := addSpanSample hf (x - 1) y sint
  let hf := addSpanSample hf x (y - 1) sint
  let hf := addSpanSample hf (x - 1) (y - 1) sint
  (hf, toFloat (st.2 + ds))

/-- The height `(Inter[left][1] + t * dy) - bmin[1]` on the row boundary at
the column line `xloop` (lines 570-571 and 574-575) in single precision, with
`t = rcClamp((float(xloop)*cs + bmin[0] - Inter[left][0]) * d, 0.0f, 1.0f)`. -/
def rasterizeTri.slopedFillHeight.f32 (L : rasterizeTri.Locals) (InterL : Vec3) (d dy : ℚ)
    (xloop : Int) : ℚ :=
  let t := rcClamp (toFloat (toFloat (toFloat (toFloat (toFloat (xloop : ℚ) * L.cs) + L.bmin.x) -
    InterL.x) * d)) 0 1
  toFloat (toFloat (InterL.y + toFloat (t * dy)) - L.bmin.y)

/-- Lines 559-589 in single precision: the cells between the two crossings of
a row boundary, with the height interpolated along the boundary. -/
def rasterizeTri.slopedFill.f32 (L : rasterizeTri.Locals) (y : Int) (Inter0 Inter1 : Vec3)
    (xInter0 xInter1 : Int) (hf : rcHeightfield) : rcHeightfield :=
  if xInter0 ≠ xInter1 then
    let left : Bool := decide (Inter1.x < Inter0.x)
    let InterL := if left then Inter1 else Inter0
    let InterR := if left then Inter0 else Inter1
    let xloop0 := intMax ((if left then xInter1 else xInter0) + 1) L.x0
    let xloop1 := intMin (if left then xInter0 else xInter1) L.x1_edge
    let d := toFloat (1 / toFloat (InterR.x - InterL.x))
    let dy := toFloat (InterR.y - InterL.y)
    let sfloat := rasterizeTri.slopedFillHeight.f32 L InterL d dy xloop0
    let ds : ℚ :=
      if xloop1 - xloop0 > 0 then
        let sfloat2 := rasterizeTri.slopedFillHeight.f32 L InterL d dy xloop1
        toFloat (toFloat (sfloat2 - sfloat) / toFloat ((xloop1 - xloop0 : Int) : ℚ))
      else 0
    (forLoop xloop0 xloop1 (rasterizeTri.slopedFillCell.f32 L y ds) (hf, sfloat)).1
  else hf

/-- Body of the loop at lines 531-594 in single precision; the state carries
`cz`. -/
def rasterizeTri.slopedHorizontal.f32 (L : rasterizeTri.Locals) (edges : Nat → Vec3) (y : Int)
    (st : rcHeightfield × ℚ) : rcHeightfield × ℚ :=
  let Hits := st.1.EdgeHits y
  let hf :=
    if Hits.Hits0 ≠ 0 then
      let r0 := rasterizeTri.slopedHit.f32 L edges y st.2 Hits.Hits0 st.1
      let r1 := rasterizeTri.slopedHit.f32 L edges y st.2 Hits.Hits1 r0.1
      let hf := rasterizeTri.slopedFill.f32 L y r0.2.1 r1.2.1 r0.2.2 r1.2.2 r1.1
      { hf with EdgeHits := Function.update hf.EdgeHits y ⟨0, 0⟩ }
    else st.1
  (hf, toFloat (st.2 + L.cs))

/-- Lines 520-595 in single precision. -/
def rasterizeTri.slopedHorizontals.f32 (L : rasterizeTri.Locals) (edges : Nat → Vec3)
    (hf : rcHeightfield) : rcHeightfield :=
  let edge0 := intMin (L.intverts 0).2 (intMin (L.intverts 1).2 (L.intverts 2).2)
  let edge1 := intMax (L.intverts 0).2 (intMax (L.intverts 1).2 (L.intverts 2).2)
  let loop0 := intMax (edge0 + 1) L.y0
  let loop1 := intMin edge1 L.y1_edge
  let cz := rasterizeTri.lineStart.f32 L.bmin.z L.cs loop0
  (forLoop loop0 loop1 (rasterizeTri.slopedHorizontal.f32 L edges) (hf, cz)).1

/-- The discovery phase of the sloped path (lines 457-595) in single
precision. -/
def rasterizeTri.slopedDiscovery.f32 (L : rasterizeTri.Locals) (hf : rcHeightfield) :
    rcHeightfield :=
  let st := [0, 1, 2].foldl (fun st basevert => rasterizeTri.slopedBaseVert.f32 L basevert st)
    (hf, fun _ => (⟨0, 0, 0⟩ : Vec3))
  rasterizeTri.slopedHorizontals.f32 L st.2 st.1

/-! ### The entry point -/

/-- Lines 255-260 in single precision: the heights of a single-cell triangle
clamped to the grid and snapped to the height grid,
`(triangle_ismin, triangle_ismax)`. -/
def rasterizeTri.singleCellBounds.f32 (ich by_ triangle_smin triangle_smax : ℚ) : Nat × Nat :=
  let triangle_smin := if triangle_smin < 0 then 0 else triangle_smin
  let triangle_smax := if triangle_smax > by_ then by_ else triangle_smax
  let triangle_ismin : Nat :=
    toUShort (rcClamp (toInt ⌊toFloat (triangle_smin * ich)⌋) 0 RC_SPAN_MAX_HEIGHT)
  let triangle_ismax : Nat :=
    toUShort (rcClamp (toInt ⌈toFloat (triangle_smax * ich)⌉) ((triangle_ismin : Int) + 1)
      RC_SPAN_MAX_HEIGHT)
  (triangle_ismin, triangle_ismax)

/-- The arrays `intverts` of lines 225-232 in single precision: the cell of
each vertex. -/
def rasterizeTri.intverts.f32 (v0 v1 v2 bmin : Vec3) (ics : ℚ) : Nat → Int × Int := fun i =>
  if i = 0 then (cellIndex.f32 bmin.x ics v0.x, cellIndex.f32 bmin.z ics v0.z)
  else if i = 1 then (cellIndex.f32 bmin.x ics v1.x, cellIndex.f32 bmin.z ics v1.z)
  else (cellIndex.f32 bmin.x ics v2.x, cellIndex.f32 bmin.z ics v2.z)

/-- The locals of `rasterizeTri` after lines 274-286, with the vertex cells
computed in single precision. -/
def rasterizeTri.locals.f32 (v0 v1 v2 : Vec3) (hf : rcHeightfield) (bmin : Vec3)
    (cs ics ich : ℚ) : rasterizeTri.Locals :=
  let w := hf.width
  let h := hf.height
  let intverts := rasterizeTri.intverts.f32 v0 v1 v2 bmin ics
  let x0 := intMin (intverts 0).1 (intMin (intverts 1).1 (intverts 2).1)
  let x1 := intMax (intverts 0).1 (intMax (intverts 1).1 (intverts 2).1)
  let y0 := intMin (intverts 0).2 (intMin (intverts 1).2 (intverts 2).2)
  let y1 := intMax (intverts 0).2 (intMax (intverts 1).2 (intverts 2).2)
  { vertarray := fun i => if i = 0 then v0 else if i = 1 then v1 else v2
    intverts := intverts
    bmin := bmin
    cs := cs
    ics := ics
    ich := ich
    x0 := intMax x0 0
    x1 := intMin x1 (w - 1)
    x1_edge := intMin x1 w
    y0 := intMax y0 0
    y1 := intMin y1 (h - 1)
    y1_edge := intMin y1 h }

/-- The function `rasterizeTri` in single precision, with the log of its calls
of `addSpan`. `rasterizationMasks` is `none` for a null pointer. -/
def rasterizeTri.logged.f32 (v0 v1 v2 : Vec3) (area : Nat) (hf : rcHeightfield)
    (bmin bmax : Vec3) (cs ics ich : ℚ) (flagMergeThr : Int) (rasterizationFlags : Int)
    (rasterizationMasks : Option (Int → Int)) : rcHeightfield × List Insertion :=
  let w := hf.width
  let h := hf.height
  let by_ := toFloat (bmax.y - bmin.y)
  let intverts := rasterizeTri.intverts.f32 v0 v1 v2 bmin ics
  let x0 := intMin (intverts 0).1 (intMin (intverts 1).1 (intverts 2).1)
  let x1 := intMax (intverts 0).1 (intMax (intverts 1).1 (intverts 2).1)
  let y0 := intMin (intverts 0).2 (intMin (intverts 1).2 (intverts 2).2)
  let y1 := intMax (intverts 0).2 (intMax (intverts 1).2 (intverts 2).2)
  if x1 < 0 ∨ x0 ≥ w ∨ y1 < 0 ∨ y0 ≥ h then (hf, [])
  else
    let triangle_smin := toFloat (rcMin (rcMin v0.y v1.y) v2.y - bmin.y)
    let triangle_smax := toFloat (rcMax (rcMax v0.y v1.y) v2.y - bmin.y)
    if triangle_smax < 0 then (hf, [])
    else if triangle_smin > by_ then (hf, [])
    else if x0 = x1 ∧ y0 = y1 then
      let b := rasterizeTri.singleCellBounds.f32 ich by_ triangle_smin triangle_smax
      let projectSpanToBottom :=
        match rasterizationMasks with
        | some masks => Int.land rasterizationFlags (masks (x0 + y0 * w))
        | none => rasterizationFlags
      let triangle_ismin := if projectSpanToBottom ≠ 0 then 0 else b.1
      addSpan.logged (hf, []) x0 y0 triangle_ismin b.2 area flagMergeThr
    else
      let triangle_ismin := rasterizeTri.quantize.f32 ich triangle_smin
      let triangle_ismax := rasterizeTri.quantize.f32 ich triangle_smax
      let L := rasterizeTri.locals.f32 v0 v1 v2 hf bmin cs ics ich
      if triangle_ismin = triangle_ismax then
        rasterizeTri.flatEmit.logged L area flagMergeThr rasterizationFlags rasterizationMasks
          triangle_ismin triangle_ismax (rasterizeTri.flatDiscovery.f32 L hf, [])
      else
        forLoop L.y0 L.y1
          (rasterizeTri.slopedEmitRow.logged L area flagMergeThr rasterizationFlags
            rasterizationMasks) (rasterizeTri.slopedDiscovery.f32 L hf, [])

/-- The function `rasterizeTri` in single precision. `rasterizationMasks` is
`none` for a null pointer. -/
def rasterizeTri.f32 (v0 v1 v2 : Vec3) (area : Nat) (hf : rcHeightfield) (bmin bmax : Vec3)
    (cs ics ich : ℚ) (flagMergeThr : Int) (rasterizationFlags : Int)
    (rasterizationMasks : Option (Int → Int)) : rcHeightfield :=
  let w := hf.width
  let h := hf.height
  let by_ := toFloat (bmax.y - bmin.y)
  let intverts := rasterizeTri.intverts.f32 v0 v1 v2 bmin ics
  let x0 := intMin (intverts 0).1 (intMin (intverts 1).1 (intverts 2).1)
  let x1 := intMax (intverts 0).1 (intMax (intverts 1).1 (intverts 2).1)
  let y0 := intMin (intverts 0).2 (intMin (intverts 1).2 (intverts 2).2)
  let y1 := intMax (intverts 0).2 (intMax (intverts 1).2 (intverts 2).2)
  if x1 < 0 ∨ x0 ≥ w ∨ y1 < 0 ∨ y0 ≥ h then hf
  else
    let triangle_smin := toFloat (rcMin (rcMin v0.y v1.y) v2.y - bmin.y)
    let triangle_smax := toFloat (rcMax (rcMax v0.y v1.y) v2.y - bmin.y)
    if triangle_smax < 0 then hf
    else if triangle_smin > by_ then hf
    else if x0 = x1 ∧ y0 = y1 then
      let b := rasterizeTri.singleCellBounds.f32 ich by_ triangle_smin triangle_smax
      let projectSpanToBottom :=
        match rasterizationMasks with
        | some masks => Int.land rasterizationFlags (masks (x0 + y0 * w))
        | none => rasterizationFlags
      let triangle_ismin := if projectSpanToBottom ≠ 0 then 0 else b.1
      addSpan hf x0 y0 triangle_ismin b.2 area flagMergeThr
    else
      let triangle_ismin := rasterizeTri.quantize.f32 ich triangle_smin
      let triangle_ismax := rasterizeTri.quantize.f32 ich triangle_smax
      let L := rasterizeTri.locals.f32 v0 v1 v2 hf bmin cs ics ich
      if triangle_ismin = triangle_ismax then
        rasterizeTri.flatEmit L area flagMergeThr rasterizationFlags rasterizationMasks
          triangle_ismin triangle_ismax (rasterizeTri.flatDiscovery.f32 L hf)
      else
        forLoop L.y0 L.y1
          (rasterizeTri.slopedEmitRow L area flagMergeThr rasterizationFlags rasterizationMasks)
          (rasterizeTri.slopedDiscovery.f32 L hf)

/-! ### Vocabulary of the statements in single precision -/

/-- The grid cell `(column, row)` of a vertex as lines 227-232 compute it. -/
def cellOf.f32 (bmin : Vec3) (ics : ℚ) (v : Vec3) : Int × Int :=
  (cellIndex.f32 bmin.x ics v.x, cellIndex.f32 bmin.z ics v.z)

/-- The lowest height of the triangle above the grid bottom as lines 244-255
compute it: the rounded difference, raised to 0 if it is below. -/
def clampedLow.f32 (v0 v1 v2 bmin : Vec3) : ℚ :=
  max (toFloat (min (min v0.y v1.y) v2.y - bmin.y)) 0

/-- The highest height of the triangle above the grid bottom as lines 245-256
compute it: the rounded difference, lowered to the rounded height
`bmax.y - bmin.y` of the grid if it is above. -/
def clampedHigh.f32 (v0 v1 v2 bmin bmax : Vec3) : ℚ :=
  min (toFloat (max (max v0.y v1.y) v2.y - bmin.y)) (toFloat (bmax.y - bmin.y))

/-- The float operations of lines 221-250 stay in the finite range and their
conversions to `int` are defined: the height `by` of the grid (line 221), the
six cell numbers of the vertices (lines 227-232) and the two heights above the
grid bottom (lines 246-247). -/
def rasterizeTri.entryDefined (v0 v1 v2 bmin bmax : Vec3) (ics : ℚ) : Prop :=
  finiteFloat (bmax.y - bmin.y) ∧
  (cellIndex.defined bmin.x ics v0.x ∧ cellIndex.defined bmin.z ics v0.z) ∧
  (cellIndex.defined bmin.x ics v1.x ∧ cellIndex.defined bmin.z ics v1.z) ∧
  (cellIndex.defined bmin.x ics v2.x ∧ cellIndex.defined bmin.z ics v2.z) ∧
  finiteFloat (min (min v0.y v1.y) v2.y - bmin.y) ∧
  finiteFloat (max (max v0.y v1.y) v2.y - bmin.y)

instance (v0 v1 v2 bmin bmax : Vec3) (ics : ℚ) :
    Decidable (rasterizeTri.entryDefined v0 v1 v2 bmin bmax ics) := by
  unfold rasterizeTri.entryDefined
  infer_instance
/-! ## Theorems: arithmetic helpers -/

theorem intMin_eq_min (a b : Int) : intMin a b = min a b := by
  unfold intMin; split <;> omega

theorem intMax_eq_max (a b : Int) : intMax a b = max a b := by
  unfold intMax; split <;> omega

theorem rcMin_eq_min (a b : ℚ) : rcMin a b = min a b := by
  unfold rcMin
  split
  · rw [min_eq_left (le_of_lt (by assumption))]
  · rw [min_eq_right (not_lt.1 (by assumption))]

theorem rcMax_eq_max (a b : ℚ) : rcMax a b = max a b := by
  unfold rcMax
  split
  · rw [max_eq_left (le_of_lt (by assumption))]
  · rw [max_eq_right (not_lt.1 (by assumption))]

/-! ## Theorems: loops and field updates -/

theorem forLoop_range_foldl {σ : Type} (lo : Int) (body : Int → σ → σ) (s : σ) (n : Nat) :
    (List.range (n + 1)).foldl (fun acc (k : Nat) => body (lo + (k : Int)) acc) s =
      body (lo + (n : Int))
        ((List.range n).foldl (fun acc (k : Nat) => body (lo + (k : Int)) acc) s) := by
  rw [List.range_succ, List.foldl_append]
  rfl

/-- Induction over a loop with an invariant that may mention the loop index. -/
theorem forLoop_induction {σ : Type} (P : Int → σ → Prop) (lo hi : Int) (body : Int → σ → σ)
    (s : σ) (h0 : P lo s)
    (hstep : ∀ i t, lo ≤ i → i ≤ hi → P i t → P (i + 1) (body i t)) :
    P (max lo (hi + 1)) (forLoop lo hi body s) := by
  have key : ∀ n : Nat, (n : Int) ≤ hi + 1 - lo ∨ n = 0 →
      P (lo + (n : Int)) ((List.range n).foldl (fun acc (k : Nat) => body (lo + (k : Int)) acc) s) := by
    intro n
    induction n with
    | zero => intro _; simpa using h0
    | succ n ih =>
      intro hn
      have hn' : ((n + 1 : Nat) : Int) ≤ hi + 1 - lo := by
        rcases hn with h | h
        · exact h
        · omega
      rw [forLoop_range_foldl]
      have := hstep (lo + (n : Int)) _ (by omega) (by omega) (ih (Or.inl (by omega)))
      have e : lo + ((n + 1 : Nat) : Int) = lo + (n : Int) + 1 := by omega
      rw [e]
      exact this
  have := key (hi + 1 - lo).toNat (by omega)
  have e : lo + ((hi + 1 - lo).toNat : Int) = max lo (hi + 1) := by omega
  rw [e] at this
  exact this

/-- Induction over a loop with an invariant that does not mention the index. -/
theorem forLoop_invariant {σ : Type} (P : σ → Prop) (lo hi : Int) (body : Int → σ → σ)
    (s : σ) (h0 : P s) (hstep : ∀ i t, lo ≤ i → i ≤ hi → P t → P (body i t)) :
    P (forLoop lo hi body s) :=
  forLoop_induction (fun _ t => P t) lo hi body s h0 hstep

theorem forLoop_empty {σ : Type} (lo hi : Int) (body : Int → σ → σ) (s : σ) (h : hi < lo) :
    forLoop lo hi body s = s := by
  unfold forLoop
  have : (hi + 1 - lo).toNat = 0 := by omega
  rw [this]
  rfl

theorem ite_field {α : Type} (g : Prop) [Decidable g] (a b : rcHeightfield)
    (f : rcHeightfield → α) (x : α) (ha : f a = x) (hb : f b = x) :
    f (if g then a else b) = x := by
  split
  · exact ha
  · exact hb

/-! ## Theorems: addSpan -/

theorem addSpan.merge_smin (thr : Int) (s cur : rcSpanData) :
    (addSpan.merge thr s cur).smin = min cur.smin s.smin := by
  simp only [addSpan.merge]
  split <;> omega

theorem addSpan.merge_smax (thr : Int) (s cur : rcSpanData) :
    (addSpan.merge thr s cur).smax = max cur.smax s.smax := by
  simp only [addSpan.merge]
  split <;> omega

theorem addSpan.loop_sorted (thr : Int) :
    ∀ (rest : List rcSpanData) (s : rcSpanData) (b : Int),
      b < s.smin → (∀ h ∈ rest.head?, b < (h.smin : Int)) → colSorted rest →
      colSorted (addSpan.loop thr s rest) ∧
        ∀ h ∈ (addSpan.loop thr s rest).head?, b < (h.smin : Int) := by
  intro rest
  induction rest with
  | nil =>
    intro s b hb _ _
    simp [addSpan.loop, colSorted, hb]
  | cons cur rest ih =>
    intro s b hb hh hc
    have hcur : b < (cur.smin : Int) := hh cur (by simp)
    have hc' : (∀ y ∈ rest.head?, cur.smax < y.smin) ∧ colSorted rest := by
      simpa [colSorted, List.chain'_cons'] using hc
    unfold addSpan.loop
    split
    · rename_i h1
      refine ⟨?_, by simpa using hb⟩
      simp only [colSorted, List.chain'_cons'] at hc ⊢
      exact ⟨by simpa using h1, hc⟩
    · split
      · rename_i h1 h2
        have := ih s (cur.smax : Int) (by exact_mod_cast h2)
          (fun y hy => by exact_mod_cast hc'.1 y hy) hc'.2
        refine ⟨?_, by simpa using hcur⟩
        simp only [colSorted, List.chain'_cons']
        exact ⟨fun y hy => by exact_mod_cast this.2 y hy, this.1⟩
      · rename_i h1 h2
        apply ih
        · rw [addSpan.merge_smin]; omega
        · intro y hy
          have := hc'.1 y hy
          omega
        · exact hc'.2

theorem addSpan.loop_nonEmpty (thr : Int) :
    ∀ (rest : List rcSpanData) (s : rcSpanData),
      s.smin < s.smax → colNonEmpty rest → colNonEmpty (addSpan.loop thr s rest) := by
  intro rest
  induction rest with
  | nil =>
    intro s hs _ r hr
    simp only [addSpan.loop, List.mem_singleton] at hr
    subst hr; exact hs
  | cons cur rest ih =>
    intro s hs hne
    have hcur : cur.smin < cur.smax := hne cur (by simp)
    have hrest : colNonEmpty rest := fun r hr => hne r (by simp [hr])
    unfold addSpan.loop
    split
    · intro r hr
      rcases List.mem_cons.1 hr with h | h
      · subst h; exact hs
      · exact hne r h
    · split
      · intro r hr
        rcases List.mem_cons.1 hr with h | h
        · subst h; exact hcur
        · exact ih s hs hrest r h
      · apply ih _ _ hrest
        rw [addSpan.merge_smin, addSpan.merge_smax]; omega

theorem colSorted_pairwise :
    ∀ col : List rcSpanData, colSorted col → colNonEmpty col →
      col.Pairwise (fun a b => a.smax < b.smin) := by
  intro col
  induction col with
  | nil => intro _ _; exact List.Pairwise.nil
  | cons a l ih =>
    intro hs hne
    have hs' : (∀ y ∈ l.head?, a.smax < y.smin) ∧ colSorted l := by
      simpa [colSorted, List.chain'_cons'] using hs
    have hne' : colNonEmpty l := fun r hr => hne r (by simp [hr])
    have hp := ih hs'.2 hne'
    refine List.Pairwise.cons ?_ hp
    intro b hb
    cases l with
    | nil => simp at hb
    | cons c l' =>
      have hac : a.smax < c.smin := hs'.1 c (by simp)
      rcases List.mem_cons.1 hb with h | h
      · subst h; exact hac
      · have hcb : c.smax < b.smin := (List.pairwise_cons.1 hp).1 b h
        have hc : c.smin < c.smax := hne' c (by simp)
        omega

theorem pairwise_ascending :
    ∀ col : List rcSpanData, colSorted col → colNonEmpty col →
      col.Chain' (fun a b => a.smin < b.smin) := by
  intro col
  induction col with
  | nil => intro _ _; exact List.chain'_nil
  | cons a l ih =>
    intro hs hne
    have hs' : (∀ y ∈ l.head?, a.smax < y.smin) ∧ colSorted l := by
      simpa [colSorted, List.chain'_cons'] using hs
    have hne' : colNonEmpty l := fun r hr => hne r (by simp [hr])
    rw [List.chain'_cons']
    refine ⟨fun y hy => ?_, ih hs'.2 hne'⟩
    have := hs'.1 y hy
    have := hne a (by simp)
    omega

theorem addSpan.column_eq_loop (col : List rcSpanData) (smin smax area : Nat) (thr : Int) :
    addSpan.column col smin smax area thr =
      addSpan.loop thr ⟨smin % 2 ^ RC_SPAN_HEIGHT_BITS, smax % 2 ^ RC_SPAN_HEIGHT_BITS,
        area % 2 ^ 6⟩ col := by
  cases col <;> simp [addSpan.column, addSpan.loop]

theorem addSpan.column_sorted (col : List rcSpanData) (smin smax area : Nat) (thr : Int)
    (h : colSorted col) : colSorted (addSpan.column col smin smax area thr) := by
  rw [addSpan.column_eq_loop]
  refine (addSpan.loop_sorted thr col _ (-1) ?_ ?_ h).1
  · simp only; omega
  · intro y _; omega

theorem addSpan.column_nonEmpty (col : List rcSpanData) (smin smax area : Nat) (thr : Int)
    (h : colNonEmpty col) (h1 : smin < smax) (h2 : smax ≤ 8191) :
    colNonEmpty (addSpan.column col smin smax area thr) := by
  rw [addSpan.column_eq_loop]
  apply addSpan.loop_nonEmpty _ _ _ _ h
  simp only [RC_SPAN_HEIGHT_BITS]
  omega

theorem addSpan_spans (hf : rcHeightfield) (x y : Int) (smin smax area : Nat) (thr : Int)
    (idx : Int) :
    (addSpan hf x y smin smax area thr).spans idx =
      if idx = x + y * hf.width then
        addSpan.column (hf.spans (x + y * hf.width)) smin smax area thr
      else hf.spans idx := by
  simp only [addSpan, Function.update_apply]

theorem addSpans_inv (P : List rcSpanData → Prop) (ok : Insertion → Prop)
    (step : ∀ col o, ok o → P col → P (addSpan.column col o.smin o.smax o.area o.flagMergeThr)) :
    ∀ (ops : List Insertion) (hf : rcHeightfield), (∀ o ∈ ops, ok o) →
      (∀ idx, P (hf.spans idx)) → ∀ idx, P ((addSpans hf ops).spans idx) := by
  intro ops
  induction ops with
  | nil => intro hf _ h; simpa [addSpans] using h
  | cons o ops ih =>
    intro hf hok h
    have := ih (addSpan hf o.x o.y o.smin o.smax o.area o.flagMergeThr)
      (fun o' ho' => hok o' (by simp [ho'])) (by
        intro idx
        rw [addSpan_spans]
        split
        · exact step _ _ (hok o (by simp)) (h _)
        · exact h idx)
    simpa [addSpans] using this

/-- C1. `addSpan` keeps a column sorted: if every adjacent pair `a`, `b` of the
column has `a.smax < b.smin`, then so has the column after inserting an
interval with `smin < smax <= 8191` (and its records stay non-empty intervals
if they were). Hence after any sequence of such insertions into a freshly
created grid every column consists of non-empty intervals, is strictly
ascending by `smin`, and has `a.smax < b.smin` for each adjacent pair. -/
theorem addSpan_keeps_columns_sorted :
    (∀ (col : List rcSpanData) (smin smax area : Nat) (thr : Int),
      colSorted col → smin < smax → smax ≤ 8191 →
        colSorted (addSpan.column col smin smax area thr) ∧
        (colNonEmpty col → colNonEmpty (addSpan.column col smin smax area thr))) ∧
    (∀ (width height : Int) (bmin bmax : Vec3) (cs ch : ℚ) (ops : List Insertion),
      (∀ o ∈ ops, o.smin < o.smax ∧ o.smax ≤ 8191) →
        ∀ idx : Int,
          colSorted ((addSpans (rcCreateHeightfield width height bmin bmax cs ch) ops).spans idx) ∧
          colNonEmpty ((addSpans (rcCreateHeightfield width height bmin bmax cs ch) ops).spans idx) ∧
          ((addSpans (rcCreateHeightfield width height bmin bmax cs ch) ops).spans idx).Chain'
            (fun a b => a.smin < b.smin)) := by
  refine ⟨fun col smin smax area thr hs h1 h2 =>
    ⟨addSpan.column_sorted col smin smax area thr hs,
      fun hne => addSpan.column_nonEmpty col smin smax area thr hne h1 h2⟩, ?_⟩
  intro width height bmin bmax cs ch ops hok idx
  have key := addSpans_inv (fun col => colSorted col ∧ colNonEmpty col)
    (fun o => o.smin < o.smax ∧ o.smax ≤ 8191)
    (fun col o ho hc => ⟨addSpan.column_sorted col _ _ _ _ hc.1,
      addSpan.column_nonEmpty col _ _ _ _ hc.2 ho.1 ho.2⟩)
    ops (rcCreateHeightfield width height bmin bmax cs ch) hok
    (fun _ => ⟨List.chain'_nil, fun s hs => by simp [rcCreateHeightfield] at hs⟩) idx
  exact ⟨key.1, key.2, pairwise_ascending _ key.1 key.2⟩

theorem addSpan_keeps_columns_sorted_witness :
    colSorted (addSpan.column [⟨1, 4, 10⟩, ⟨6, 9, 3⟩] 3 5 20 0) :=
  (addSpan_keeps_columns_sorted.1 [⟨1, 4, 10⟩, ⟨6, 9, 3⟩] 3 5 20 0
    (by simp [colSorted]) (by decide) (by decide)).1

theorem filter_eq_nil_of_forall {α : Type} (p : α → Bool) (l : List α)
    (h : ∀ a ∈ l, p a = false) : l.filter p = [] := by
  induction l with
  | nil => rfl
  | cons a l ih =>
    have ha := h a (by simp)
    have hl := ih (fun b hb => h b (by simp [hb]))
    simp [List.filter, ha, hl]

theorem filter_eq_self_of_forall {α : Type} (p : α → Bool) (l : List α)
    (h : ∀ a ∈ l, p a = true) : l.filter p = l := by
  induction l with
  | nil => rfl
  | cons a l ih =>
    have ha := h a (by simp)
    have hl := ih (fun b hb => h b (by simp [hb]))
    simp [List.filter, ha, hl]

/-- What the loop of `addSpan` computes on a column whose records are pairwise
separated non-empty intervals. -/
theorem addSpan.loop_eq (thr : Int) :
    ∀ (rest : List rcSpanData) (s : rcSpanData),
      rest.Pairwise (fun a b => a.smax < b.smin) → colNonEmpty rest → s.smin ≤ s.smax →
      ∃ m : rcSpanData,
        addSpan.loop thr s rest =
          rest.filter (fun r => decide (r.smax < s.smin)) ++
            m :: rest.filter (fun r => decide (s.smax < r.smin)) ∧
        m.smin ≤ s.smin ∧ s.smax ≤ m.smax ∧
        (∀ r ∈ rest, overlapsOrTouches r s.smin s.smax → m.smin ≤ r.smin ∧ r.smax ≤ m.smax) ∧
        (m.smin = s.smin ∨ ∃ r ∈ rest, overlapsOrTouches r s.smin s.smax ∧ m.smin = r.smin) ∧
        (m.smax = s.smax ∨ ∃ r ∈ rest, overlapsOrTouches r s.smin s.smax ∧ m.smax = r.smax) := by
  intro rest
  induction rest with
  | nil =>
    intro s _ _ _
    exact ⟨s, by simp [addSpan.loop], le_refl _, le_refl _, by simp, Or.inl rfl, Or.inl rfl⟩
  | cons cur rest ih =>
    intro s hp hne hs
    have hcur : cur.smin < cur.smax := hne cur (by simp)
    have hrest : colNonEmpty rest := fun r hr => hne r (by simp [hr])
    have hsep : ∀ r ∈ rest, cur.smax < r.smin := (List.pairwise_cons.1 hp).1
    have hp' := (List.pairwise_cons.1 hp).2
    unfold addSpan.loop
    split
    · rename_i h1
      refine ⟨s, ?_, le_refl _, le_refl _, ?_, Or.inl rfl, Or.inl rfl⟩
      · rw [filter_eq_nil_of_forall, filter_eq_self_of_forall]
        · rfl
        · intro r hr
          rcases List.mem_cons.1 hr with h | h
          · subst h; simpa using h1
          · have := hsep r h
            simp only [decide_eq_true_eq]; omega
        · intro r hr
          rcases List.mem_cons.1 hr with h | h
          · subst h; simp only [decide_eq_false_iff_not]; omega
          · have := hsep r h
            have := hrest r h
            simp only [decide_eq_false_iff_not]; omega
      · intro r hr ho
        unfold overlapsOrTouches at ho
        rcases List.mem_cons.1 hr with h | h
        · subst h; omega
        · have := hsep r h
          omega
    · rename_i h1
      split
      · rename_i h2
        obtain ⟨m, hm, hm1, hm2, hm3, hm4, hm5⟩ := ih s hp' hrest hs
        refine ⟨m, ?_, hm1, hm2, ?_, ?_, ?_⟩
        · rw [hm]
          have e1 : (cur :: rest).filter (fun r => decide (r.smax < s.smin)) =
              cur :: rest.filter (fun r => decide (r.smax < s.smin)) := by
            simp [List.filter, h2]
          have e2 : (cur :: rest).filter (fun r => decide (s.smax < r.smin)) =
              rest.filter (fun r => decide (s.smax < r.smin)) := by
            have : ¬ s.smax < cur.smin := by omega
            simp [List.filter, this]
          rw [e1, e2]; rfl
        · intro r hr ho
          rcases List.mem_cons.1 hr with h | h
          · subst h; unfold overlapsOrTouches at ho; omega
          · exact hm3 r h ho
        · rcases hm4 with h | ⟨r, hr, ho, h⟩
          · exact Or.inl h
          · exact Or.inr ⟨r, by simp [hr], ho, h⟩
        · rcases hm5 with h | ⟨r, hr, ho, h⟩
          · exact Or.inl h
          · exact Or.inr ⟨r, by simp [hr], ho, h⟩
      · rename_i h2
        have hmin := addSpan.merge_smin thr s cur
        have hmax := addSpan.merge_smax thr s cur
        obtain ⟨m, hm, hm1, hm2, hm3, hm4, hm5⟩ :=
          ih (addSpan.merge thr s cur) hp' hrest (by omega)
        have hcov : overlapsOrTouches cur s.smin s.smax := by
          unfold overlapsOrTouches; omega
        have g1 : m.smin ≤ s.smin := by clear hm4 hm5; omega
        have g2 : s.smax ≤ m.smax := by clear hm4 hm5; omega
        refine ⟨m, ?_, g1, g2, ?_, ?_, ?_⟩
        · clear hm4 hm5
          rw [hm]
          have e1 : (cur :: rest).filter (fun r => decide (r.smax < s.smin)) = [] := by
            apply filter_eq_nil_of_forall
            intro r hr
            rcases List.mem_cons.1 hr with h | h
            · subst h; simpa using h2
            · have := hsep r h
              have := hrest r h
              simp only [decide_eq_false_iff_not]; omega
          have e2 : rest.filter (fun r => decide (r.smax < (addSpan.merge thr s cur).smin)) =
              [] := by
            apply filter_eq_nil_of_forall
            intro r hr
            have := hsep r hr
            have := hrest r hr
            simp only [decide_eq_false_iff_not]; omega
          have e3 : (cur :: rest).filter (fun r => decide (s.smax < r.smin)) =
              rest.filter (fun r => decide (s.smax < r.smin)) := by
            have : ¬ s.smax < cur.smin := by omega
            simp [List.filter, this]
          have e4 : rest.filter (fun r => decide ((addSpan.merge thr s cur).smax < r.smin)) =
              rest.filter (fun r => decide (s.smax < r.smin)) := by
            apply List.filter_congr
            intro r hr
            have := hsep r hr
            simp only [decide_eq_decide]; omega
          rw [e1, e2, e3, e4]
        · clear hm4 hm5
          intro r hr ho
          rcases List.mem_cons.1 hr with h | h
          · subst h; omega
          · apply hm3 r h
            unfold overlapsOrTouches at ho ⊢
            omega
        · clear hm5
          rcases hm4 with h | ⟨r, hr, ho, h⟩
          · rcases Nat.lt_or_ge cur.smin s.smin with hlt | hge
            · exact Or.inr ⟨cur, by simp, hcov, by omega⟩
            · exact Or.inl (by omega)
          · refine Or.inr ⟨r, by simp [hr], ?_, h⟩
            have := hsep r hr
            have := hrest r hr
            unfold overlapsOrTouches at ho ⊢
            omega
        · clear hm4
          rcases hm5 with h | ⟨r, hr, ho, h⟩
          · rcases Nat.lt_or_ge s.smax cur.smax with hlt | hge
            · exact Or.inr ⟨cur, by simp, hcov, by omega⟩
            · exact Or.inl (by omega)
          · refine Or.inr ⟨r, by simp [hr], ?_, h⟩
            have := hsep r hr
            have := hrest r hr
            unfold overlapsOrTouches at ho ⊢
            omega

theorem rcAbs_eq_abs (a : Int) : rcAbs a = |a| := by
  unfold rcAbs
  split
  · rw [abs_of_neg (by assumption)]
  · rw [abs_of_nonneg (by omega)]

/-- C2 (amended). For a column of pairwise separated non-empty intervals and a
new interval with `smin < smax <= 8191`, the column after `addSpan` is: the
existing spans strictly below the new interval, then one span `m`, then the
existing spans strictly above. `m` is the only span of the column that covers
the new interval, its bounds are the minimum and the maximum over the new
interval and the existing spans that overlap or touch it, and none of those
spans is kept. -/
theorem addSpan_merges_overlapping (hf : rcHeightfield) (x y : Int) (smin smax area : Nat)
    (thr : Int) (hs : colSorted (hf.spans (x + y * hf.width)))
    (hne : colNonEmpty (hf.spans (x + y * hf.width))) (h1 : smin < smax) (h2 : smax ≤ 8191) :
    ∃ m : rcSpanData,
      (addSpan hf x y smin smax area thr).spans (x + y * hf.width) =
        (hf.spans (x + y * hf.width)).filter (fun r => decide (r.smax < smin)) ++
          m :: (hf.spans (x + y * hf.width)).filter (fun r => decide (smax < r.smin)) ∧
      ((addSpan hf x y smin smax area thr).spans (x + y * hf.width)).filter
        (fun r => decide (r.smin ≤ smin ∧ smax ≤ r.smax)) = [m] ∧
      m.smin ≤ smin ∧ smax ≤ m.smax ∧
      (∀ r ∈ hf.spans (x + y * hf.width), overlapsOrTouches r smin smax →
        m.smin ≤ r.smin ∧ r.smax ≤ m.smax) ∧
      (m.smin = smin ∨
        ∃ r ∈ hf.spans (x + y * hf.width), overlapsOrTouches r smin smax ∧ m.smin = r.smin) ∧
      (m.smax = smax ∨
        ∃ r ∈ hf.spans (x + y * hf.width), overlapsOrTouches r smin smax ∧ m.smax = r.smax) := by
  have e1 : smin % 2 ^ RC_SPAN_HEIGHT_BITS = smin := by
    simp only [RC_SPAN_HEIGHT_BITS]; omega
  have e2 : smax % 2 ^ RC_SPAN_HEIGHT_BITS = smax := by
    simp only [RC_SPAN_HEIGHT_BITS]; omega
  obtain ⟨m, hm, hm1, hm2, hm3, hm4, hm5⟩ :=
    addSpan.loop_eq thr (hf.spans (x + y * hf.width))
      ⟨smin % 2 ^ RC_SPAN_HEIGHT_BITS, smax % 2 ^ RC_SPAN_HEIGHT_BITS, area % 2 ^ 6⟩
      (colSorted_pairwise _ hs hne) hne (by simp only [e1, e2]; omega)
  simp only [e1, e2] at hm hm1 hm2 hm3 hm4 hm5
  have hcol : (addSpan hf x y smin smax area thr).spans (x + y * hf.width) =
      (hf.spans (x + y * hf.width)).filter (fun r => decide (r.smax < smin)) ++
        m :: (hf.spans (x + y * hf.width)).filter (fun r => decide (smax < r.smin)) := by
    rw [addSpan_spans, if_pos rfl, addSpan.column_eq_loop, e1, e2, hm]
  refine ⟨m, hcol, ?_, hm1, hm2, hm3, hm4, hm5⟩
  rw [hcol, List.filter_append, List.filter_cons]
  have c1 : ((hf.spans (x + y * hf.width)).filter (fun r => decide (r.smax < smin))).filter
      (fun r => decide (r.smin ≤ smin ∧ smax ≤ r.smax)) = [] := by
    apply filter_eq_nil_of_forall
    intro r hr
    have := (List.mem_filter.1 hr).2
    simp only [decide_eq_true_eq] at this
    simp only [decide_eq_false_iff_not]; omega
  have c2 : ((hf.spans (x + y * hf.width)).filter (fun r => decide (smax < r.smin))).filter
      (fun r => decide (r.smin ≤ smin ∧ smax ≤ r.smax)) = [] := by
    apply filter_eq_nil_of_forall
    intro r hr
    have := (List.mem_filter.1 hr).2
    simp only [decide_eq_true_eq] at this
    simp only [decide_eq_false_iff_not]; omega
  rw [c1, c2]
  simp [hm1, hm2]

/-- A column with the three spans `[0, 2]`, `[4, 6]`, `[9, 12]` and the new
interval `[5, 9]`, which overlaps the second span and touches the third: the
column after `addSpan` is the first span followed by one span `m` that covers
`[4, 12]`. -/
theorem addSpan_merges_overlapping_witness :
    ∃ m : rcSpanData,
      (addSpan { rcCreateHeightfield 1 1 ⟨0, 0, 0⟩ ⟨1, 20, 1⟩ 1 1 with
          spans := fun _ => [⟨0, 2, 1⟩, ⟨4, 6, 2⟩, ⟨9, 12, 3⟩] } 0 0 5 9 7 0).spans 0 =
        [⟨0, 2, 1⟩, m] ∧
      m.smin ≤ 4 ∧ 12 ≤ m.smax := by
  obtain ⟨m, hm, _, _, _, hcov, _⟩ :=
    addSpan_merges_overlapping { rcCreateHeightfield 1 1 ⟨0, 0, 0⟩ ⟨1, 20, 1⟩ 1 1 with
        spans := fun _ => [⟨0, 2, 1⟩, ⟨4, 6, 2⟩, ⟨9, 12, 3⟩] } 0 0 5 9 7 0
      (by simp [colSorted]) (by simp [colNonEmpty]) (by decide) (by decide)
  exact ⟨m, hm, (hcov ⟨4, 6, 2⟩ (by decide) (by decide)).1,
    (hcov ⟨9, 12, 3⟩ (by decide) (by decide)).2⟩

/-- C2 as stated fails: the interval `[1, 8192]` has `smin < smax`, but its
upper bound does not fit the 13-bit field, the record stored in the (empty,
hence valid) column is `(1, 0)`, and no span of the column covers `[1, 8192]`. -/
theorem addSpan_merges_overlapping_counterexample :
    (1 : Nat) < 8192 ∧
    (addSpan (rcCreateHeightfield 1 1 ⟨0, 0, 0⟩ ⟨1, 1, 1⟩ 1 1) 0 0 1 8192 0 0).spans 0 =
      [⟨1, 0, 0⟩] ∧
    ¬ ∃ m ∈ (addSpan (rcCreateHeightfield 1 1 ⟨0, 0, 0⟩ ⟨1, 1, 1⟩ 1 1) 0 0 1 8192 0 0).spans 0,
      m.smin ≤ 1 ∧ 8192 ≤ m.smax := by
  decide

theorem addSpan.column_single (e n : rcSpanData) (thr : Int) (hfit : n.fits)
    (hov : overlapsOrTouches e n.smin n.smax) :
    addSpan.column [e] n.smin n.smax n.area thr = [addSpan.merge thr n e] := by
  obtain ⟨f1, f2, f3⟩ := hfit
  simp only [RC_SPAN_MAX_HEIGHT, RC_SPAN_HEIGHT_BITS, RC_WALKABLE_AREA] at f1 f2 f3
  have f1' : n.smin ≤ 8191 := f1
  have f2' : n.smax ≤ 8191 := f2
  have e1 : n.smin % 2 ^ 13 = n.smin := by omega
  have e2 : n.smax % 2 ^ 13 = n.smax := by omega
  have e3 : n.area % 2 ^ 6 = n.area := by omega
  unfold overlapsOrTouches at hov
  have h1 : ¬ e.smin > n.smax := by omega
  have h2 : ¬ e.smax < n.smin := by omega
  simp only [addSpan.column, RC_SPAN_HEIGHT_BITS, e1, e2, e3, addSpan.loop, h1, h2, if_false]

/-- C3. If a column holds the single span `e` and the new span `n` overlaps or
touches `e`, with tops at most `flagMergeThr` apart, then `addSpan` leaves a
single span, whose area is `max n.area e.area`. -/
theorem addSpan_close_tops_max_area (hf : rcHeightfield) (x y : Int) (e n : rcSpanData)
    (thr : Int) (hcol : hf.spans (x + y * hf.width) = [e]) (hfit : n.fits)
    (hov : overlapsOrTouches e n.smin n.smax)
    (hthr : |(n.smax : Int) - (e.smax : Int)| ≤ thr) :
    ∃ s : rcSpanData,
      (addSpan hf x y n.smin n.smax n.area thr).spans (x + y * hf.width) = [s] ∧
      s.area = max n.area e.area := by
  refine ⟨addSpan.merge thr n e, ?_, ?_⟩
  · rw [addSpan_spans, if_pos rfl, hcol, addSpan.column_single e n thr hfit hov]
  · simp only [addSpan.merge, rcAbs_eq_abs, hthr, if_true, rcMax]
    split <;> omega

theorem addSpan_close_tops_max_area_witness :
    ∃ s : rcSpanData,
      (addSpan (addSpan (rcCreateHeightfield 4 4 ⟨0, 0, 0⟩ ⟨4, 4, 4⟩ 1 1) 0 0 1 4 10 0)
        0 0 3 6 20 2).spans (0 + 0 * 4) = [s] ∧ s.area = max 20 10 :=
  addSpan_close_tops_max_area
    (addSpan (rcCreateHeightfield 4 4 ⟨0, 0, 0⟩ ⟨4, 4, 4⟩ 1 1) 0 0 1 4 10 0) 0 0
    ⟨1, 4, 10⟩ ⟨3, 6, 20⟩ 2 (by decide) (by decide) (by decide) (by decide)

/-- C4. If a column holds the single span `e` and the new span `n` overlaps or
touches `e`, with tops more than `flagMergeThr` apart, then `addSpan` leaves a
single span, whose area is that of whichever of `n` and `e` has the higher
`smax`. In particular inserting `[1,4]` area 10 and then `[3,6]` area 20 into
column (0,0) of a fresh 4x4 grid with threshold 0 leaves the single span
`[1,6]` with area 20 there. -/
theorem addSpan_far_tops_higher_area :
    (∀ (hf : rcHeightfield) (x y : Int) (e n : rcSpanData) (thr : Int),
      hf.spans (x + y * hf.width) = [e] → n.fits → overlapsOrTouches e n.smin n.smax →
      thr < |(n.smax : Int) - (e.smax : Int)| →
      ∃ s : rcSpanData,
        (addSpan hf x y n.smin n.smax n.area thr).spans (x + y * hf.width) = [s] ∧
        (e.smax < n.smax → s.area = n.area) ∧ (n.smax < e.smax → s.area = e.area)) ∧
    (∀ bmax : Vec3,
      (addSpan (addSpan (rcCreateHeightfield 4 4 ⟨0, 0, 0⟩ bmax 1 1) 0 0 1 4 10 0)
        0 0 3 6 20 0).spans 0 = [⟨1, 6, 20⟩]) := by
  refine ⟨?_, fun bmax => by rfl⟩
  intro hf x y e n thr hcol hfit hov hthr
  refine ⟨addSpan.merge thr n e, ?_, ?_, ?_⟩
  · rw [addSpan_spans, if_pos rfl, hcol, addSpan.column_single e n thr hfit hov]
  · intro h
    have : ¬ e.smax > n.smax := by omega
    simp only [addSpan.merge, rcAbs_eq_abs, not_le.2 hthr, if_false, this]
  · intro h
    have : e.smax > n.smax := h
    simp only [addSpan.merge, rcAbs_eq_abs, not_le.2 hthr, if_false, this, if_true]

theorem addSpan_far_tops_higher_area_witness :
    ∃ s : rcSpanData,
      (addSpan (addSpan (rcCreateHeightfield 4 4 ⟨0, 0, 0⟩ ⟨4, 4, 4⟩ 1 1) 0 0 1 4 10 0)
        0 0 3 6 20 0).spans (0 + 0 * 4) = [s] ∧
      ((4 : Nat) < 6 → s.area = 20) ∧ ((6 : Nat) < 4 → s.area = 10) :=
  addSpan_far_tops_higher_area.1
    (addSpan (rcCreateHeightfield 4 4 ⟨0, 0, 0⟩ ⟨4, 4, 4⟩ 1 1) 0 0 1 4 10 0) 0 0
    ⟨1, 4, 10⟩ ⟨3, 6, 20⟩ 0 (by decide) (by decide) (by decide) (by decide)

/-! ## Theorems: rasterizeTri, rejection and the single-cell case -/

/-- The rejection tests with exact arithmetic (the first embedding; the
statement for single precision is in the last sections of this file).
A triangle whose three vertex cells all lie left of, right of, before
or behind the grid, or whose three heights measured from the grid bottom are
all below 0 or all above `bmax.y - bmin.y`, is rejected: `rasterizeTri`
returns the heightfield as it was, columns and scratch buffers alike. -/
theorem rasterizeTri_rejects_outside_exact (v0 v1 v2 : Vec3) (area : Nat) (hf : rcHeightfield)
    (bmin bmax : Vec3) (cs ics ich : ℚ) (flagMergeThr rasterizationFlags : Int)
    (rasterizationMasks : Option (Int → Int))
    (h : ((cellOf bmin ics v0).1 < 0 ∧ (cellOf bmin ics v1).1 < 0 ∧ (cellOf bmin ics v2).1 < 0) ∨
      (hf.width ≤ (cellOf bmin ics v0).1 ∧ hf.width ≤ (cellOf bmin ics v1).1 ∧
        hf.width ≤ (cellOf bmin ics v2).1) ∨
      ((cellOf bmin ics v0).2 < 0 ∧ (cellOf bmin ics v1).2 < 0 ∧ (cellOf bmin ics v2).2 < 0) ∨
      (hf.height ≤ (cellOf bmin ics v0).2 ∧ hf.height ≤ (cellOf bmin ics v1).2 ∧
        hf.height ≤ (cellOf bmin ics v2).2) ∨
      (v0.y - bmin.y < 0 ∧ v1.y - bmin.y < 0 ∧ v2.y - bmin.y < 0) ∨
      (bmax.y - bmin.y < v0.y - bmin.y ∧ bmax.y - bmin.y < v1.y - bmin.y ∧
        bmax.y - bmin.y < v2.y - bmin.y)) :
    rasterizeTri v0 v1 v2 area hf bmin bmax cs ics ich flagMergeThr rasterizationFlags
      rasterizationMasks = hf := by
  simp only [cellOf] at h
  simp only [rasterizeTri, rasterizeTri.intverts, intMin_eq_min, intMax_eq_max, rcMin_eq_min, rcMax_eq_max,
    if_true, one_ne_zero, if_false, OfNat.ofNat_ne_zero, OfNat.ofNat_ne_one, ge_iff_le]
  split
  · rfl
  · rename_i hbox
    split
    · rfl
    · rename_i hlow
      split
      · rfl
      · rename_i hhigh
        exfalso
        rcases h with h | h | h | h | h | h
        · exact hbox (Or.inl (by simp only [max_lt_iff]; exact h))
        · exact hbox (Or.inr (Or.inl (by simp only [le_min_iff]; exact h)))
        · exact hbox (Or.inr (Or.inr (Or.inl (by simp only [max_lt_iff]; exact h))))
        · exact hbox (Or.inr (Or.inr (Or.inr (by simp only [le_min_iff]; exact h))))
        · apply hlow
          have : max (max v0.y v1.y) v2.y < bmin.y := by
            simp only [max_lt_iff]; exact ⟨⟨by linarith [h.1], by linarith [h.2.1]⟩, by linarith [h.2.2]⟩
          linarith
        · apply hhigh
          have : bmax.y < min (min v0.y v1.y) v2.y := by
            simp only [lt_min_iff]; exact ⟨⟨by linarith [h.1], by linarith [h.2.1]⟩, by linarith [h.2.2]⟩
          linarith

theorem rasterizeTri_rejects_outside_exact_witness :
    rasterizeTri ⟨5, 0, 5⟩ ⟨6, 0, 5⟩ ⟨5, 0, 6⟩ 63 (rcCreateHeightfield 4 4 ⟨0, 0, 0⟩ ⟨4, 4, 4⟩ 1 1)
      ⟨0, 0, 0⟩ ⟨4, 4, 4⟩ 1 1 1 4 0 none = rcCreateHeightfield 4 4 ⟨0, 0, 0⟩ ⟨4, 4, 4⟩ 1 1 :=
  rasterizeTri_rejects_outside_exact _ _ _ _ _ _ _ _ _ _ _ _ _
    (Or.inr (Or.inl (by simp [cellOf, rcCreateHeightfield])))

theorem rcClamp_int (v mn mx : Int) (h : mn ≤ mx) : rcClamp v mn mx = min (max v mn) mx := by
  unfold rcClamp
  split
  · omega
  · split <;> omega

theorem toUShort_of_range (v : Int) (h0 : 0 ≤ v) (h1 : v < 65536) : toUShort v = v.toNat := by
  unfold toUShort
  rw [Int.emod_eq_of_lt h0 h1]

/-- What `rasterizeTri` does with a triangle whose three vertices fall in the
same cell `c` and that passes the rejection tests. -/
theorem rasterizeTri_eq_singleCell (v0 v1 v2 : Vec3) (area : Nat) (hf : rcHeightfield)
    (bmin bmax : Vec3) (cs ics ich : ℚ) (flagMergeThr rasterizationFlags : Int)
    (rasterizationMasks : Option (Int → Int)) (c : Int × Int)
    (hc0 : cellOf bmin ics v0 = c) (hc1 : cellOf bmin ics v1 = c) (hc2 : cellOf bmin ics v2 = c)
    (hx : 0 ≤ c.1 ∧ c.1 < hf.width) (hy : 0 ≤ c.2 ∧ c.2 < hf.height)
    (hlow : 0 ≤ max (max v0.y v1.y) v2.y - bmin.y)
    (hhigh : min (min v0.y v1.y) v2.y - bmin.y ≤ bmax.y - bmin.y) :
    rasterizeTri v0 v1 v2 area hf bmin bmax cs ics ich flagMergeThr rasterizationFlags
        rasterizationMasks =
      rasterizeTri.singleCell area hf ich flagMergeThr rasterizationFlags rasterizationMasks
        (bmax.y - bmin.y) (min (min v0.y v1.y) v2.y - bmin.y)
        (max (max v0.y v1.y) v2.y - bmin.y) c.1 c.2 := by
  simp only [cellOf] at hc0 hc1 hc2
  have a0 := congrArg Prod.fst hc0
  have b0 := congrArg Prod.snd hc0
  have a1 := congrArg Prod.fst hc1
  have b1 := congrArg Prod.snd hc1
  have a2 := congrArg Prod.fst hc2
  have b2 := congrArg Prod.snd hc2
  simp only at a0 b0 a1 b1 a2 b2
  simp only [rasterizeTri, rasterizeTri.intverts, intMin_eq_min, intMax_eq_max, rcMin_eq_min, rcMax_eq_max,
    if_true, one_ne_zero, if_false, OfNat.ofNat_ne_zero, OfNat.ofNat_ne_one, ge_iff_le,
    a0, b0, a1, b1, a2, b2, min_self, max_self, and_self]
  rw [if_neg (by omega), if_neg (by linarith), if_neg (by linarith)]

/-- The single-cell case with exact arithmetic (the first embedding; the
statement for single precision is in the last sections of this file).
A triangle whose three vertices fall in the same in-grid
cell `c`, that is not rejected and is not projected to the floor, makes
`rasterizeTri` perform exactly the one insertion `addSpan hf c.1 c.2 smin smax`,
where the heights are measured from the grid bottom and first clamped to
`[0, bmax.y - bmin.y]`, `smin = max(floor(low * ich), 0)` and
`smax = min(max(ceil(high * ich), smin + 1), 8191)`, provided
`floor(low * ich) < 8191`. In particular on a fresh 4x4 grid with
`cs = ch = 1`, `bmin = (0,0,0)`, a triangle at height 2 inside cell (1,1) with
area 63 leaves the single span `(2, 3, 63)` in column (1,1) and nothing
elsewhere. -/
theorem rasterizeTri_single_cell_span_exact :
    (∀ (v0 v1 v2 : Vec3) (area : Nat) (hf : rcHeightfield) (bmin bmax : Vec3) (cs ics ich : ℚ)
      (flagMergeThr rasterizationFlags : Int) (rasterizationMasks : Option (Int → Int))
      (c : Int × Int),
      cellOf bmin ics v0 = c → cellOf bmin ics v1 = c → cellOf bmin ics v2 = c →
      (0 ≤ c.1 ∧ c.1 < hf.width) → (0 ≤ c.2 ∧ c.2 < hf.height) →
      0 ≤ max (max v0.y v1.y) v2.y - bmin.y →
      min (min v0.y v1.y) v2.y - bmin.y ≤ bmax.y - bmin.y →
      projectSpanToBottom rasterizationFlags rasterizationMasks (c.1 + c.2 * hf.width) = 0 →
      ⌊clampedLow v0 v1 v2 bmin * ich⌋ < 8191 →
      rasterizeTri v0 v1 v2 area hf bmin bmax cs ics ich flagMergeThr rasterizationFlags
          rasterizationMasks =
        addSpan hf c.1 c.2 (max ⌊clampedLow v0 v1 v2 bmin * ich⌋ 0).toNat
          (min (max ⌈clampedHigh v0 v1 v2 bmin bmax * ich⌉
            (max ⌊clampedLow v0 v1 v2 bmin * ich⌋ 0 + 1)) 8191).toNat
          area flagMergeThr) ∧
    (∀ (v0 v1 v2 bmax : Vec3) (flagMergeThr : Int),
      v0.y = 2 → v1.y = 2 → v2.y = 2 → 2 ≤ bmax.y →
      cellOf ⟨0, 0, 0⟩ 1 v0 = (1, 1) → cellOf ⟨0, 0, 0⟩ 1 v1 = (1, 1) →
      cellOf ⟨0, 0, 0⟩ 1 v2 = (1, 1) →
      ∀ idx : Int,
        (rasterizeTri v0 v1 v2 63 (rcCreateHeightfield 4 4 ⟨0, 0, 0⟩ bmax 1 1)
          ⟨0, 0, 0⟩ bmax 1 1 1 flagMergeThr 0 none).spans idx =
        if idx = 1 + 1 * 4 then [⟨2, 3, 63⟩] else []) := by
  have general : ∀ (v0 v1 v2 : Vec3) (area : Nat) (hf : rcHeightfield) (bmin bmax : Vec3)
      (cs ics ich : ℚ) (flagMergeThr rasterizationFlags : Int)
      (rasterizationMasks : Option (Int → Int)) (c : Int × Int),
      cellOf bmin ics v0 = c → cellOf bmin ics v1 = c → cellOf bmin ics v2 = c →
      (0 ≤ c.1 ∧ c.1 < hf.width) → (0 ≤ c.2 ∧ c.2 < hf.height) →
      0 ≤ max (max v0.y v1.y) v2.y - bmin.y →
      min (min v0.y v1.y) v2.y - bmin.y ≤ bmax.y - bmin.y →
      projectSpanToBottom rasterizationFlags rasterizationMasks (c.1 + c.2 * hf.width) = 0 →
      ⌊clampedLow v0 v1 v2 bmin * ich⌋ < 8191 →
      rasterizeTri v0 v1 v2 area hf bmin bmax cs ics ich flagMergeThr rasterizationFlags
          rasterizationMasks =
        addSpan hf c.1 c.2 (max ⌊clampedLow v0 v1 v2 bmin * ich⌋ 0).toNat
          (min (max ⌈clampedHigh v0 v1 v2 bmin bmax * ich⌉
            (max ⌊clampedLow v0 v1 v2 bmin * ich⌋ 0 + 1)) 8191).toNat
          area flagMergeThr := by
    intro v0 v1 v2 area hf bmin bmax cs ics ich thr flags masks c hc0 hc1 hc2 hx hy hlow hhigh
      hproj hfit
    rw [rasterizeTri_eq_singleCell v0 v1 v2 area hf bmin bmax cs ics ich thr flags masks c
      hc0 hc1 hc2 hx hy hlow hhigh]
    have elow : (if min (min v0.y v1.y) v2.y - bmin.y < 0 then (0 : ℚ)
        else min (min v0.y v1.y) v2.y - bmin.y) = clampedLow v0 v1 v2 bmin := by
      unfold clampedLow
      split
      · rw [max_eq_right (le_of_lt (by assumption))]
      · rw [max_eq_left (not_lt.1 (by assumption))]
    have ehigh : (if max (max v0.y v1.y) v2.y - bmin.y > bmax.y - bmin.y then bmax.y - bmin.y
        else max (max v0.y v1.y) v2.y - bmin.y) = clampedHigh v0 v1 v2 bmin bmax := by
      unfold clampedHigh
      split
      · rw [min_eq_right (le_of_lt (by assumption))]
      · rw [min_eq_left (not_lt.1 (by assumption))]
    have eproj : (match masks with
        | some m => Int.land flags (m (c.1 + c.2 * hf.width))
        | none => flags) = 0 := by
      cases masks <;> simpa [projectSpanToBottom] using hproj
    simp only [rasterizeTri.singleCell, elow, ehigh, eproj, ne_eq, not_true_eq_false, if_false,
      RC_SPAN_MAX_HEIGHT, RC_SPAN_HEIGHT_BITS]
    have hmax : ((1 <<< 13 - 1 : Nat) : Int) = 8191 := by decide
    rw [hmax]
    clear eproj hproj elow ehigh hlow hhigh hc0 hc1 hc2
    generalize ⌊clampedLow v0 v1 v2 bmin * ich⌋ = f at hfit ⊢
    generalize ⌈clampedHigh v0 v1 v2 bmin bmax * ich⌉ = g
    have e1 : toUShort (rcClamp f 0 8191) = (max f 0).toNat := by
      rw [rcClamp_int f 0 8191 (by omega),
        toUShort_of_range (min (max f 0) 8191) (by omega) (by omega)]
      congr 1; omega
    have e2 : (((max f 0).toNat : Nat) : Int) = max f 0 := Int.toNat_of_nonneg (by omega)
    rw [e1, e2, rcClamp_int g (max f 0 + 1) 8191 (by omega),
      toUShort_of_range (min (max g (max f 0 + 1)) 8191) (by omega) (by omega)]
  refine ⟨general, ?_⟩
  intro v0 v1 v2 bmax thr h0 h1 h2 hb c0 c1 c2 idx
  have hl : clampedLow v0 v1 v2 ⟨0, 0, 0⟩ = 2 := by simp [clampedLow, h0, h1, h2]
  have hh : clampedHigh v0 v1 v2 ⟨0, 0, 0⟩ bmax = 2 := by
    simp [clampedHigh, h0, h1, h2, hb]
  have g1 : (0 : Int) ≤ (1, 1).1 ∧
      ((1 : Int), (1 : Int)).1 < (rcCreateHeightfield 4 4 ⟨0, 0, 0⟩ bmax 1 1).width := by
    simp [rcCreateHeightfield]
  have g2 : (0 : Int) ≤ (1, 1).2 ∧
      ((1 : Int), (1 : Int)).2 < (rcCreateHeightfield 4 4 ⟨0, 0, 0⟩ bmax 1 1).height := by
    simp [rcCreateHeightfield]
  have g3 : 0 ≤ max (max v0.y v1.y) v2.y - (⟨0, 0, 0⟩ : Vec3).y := by simp [h0, h1, h2]
  have g4 : min (min v0.y v1.y) v2.y - (⟨0, 0, 0⟩ : Vec3).y ≤ bmax.y - (⟨0, 0, 0⟩ : Vec3).y := by
    simp [h0, h1, h2, hb]
  have g5 : ⌊clampedLow v0 v1 v2 ⟨0, 0, 0⟩ * 1⌋ < 8191 := by rw [hl]; norm_num
  have key := general v0 v1 v2 63 (rcCreateHeightfield 4 4 ⟨0, 0, 0⟩ bmax 1 1) ⟨0, 0, 0⟩ bmax
    1 1 1 thr 0 none (1, 1) c0 c1 c2 g1 g2 g3 g4 (by simp [projectSpanToBottom]) g5
  rw [key, hl, hh, addSpan_spans]
  norm_num [rcCreateHeightfield, addSpan.column, RC_SPAN_HEIGHT_BITS]
  split <;> rfl

theorem rasterizeTri_single_cell_span_exact_witness :
    rasterizeTri ⟨5 / 4, 2, 5 / 4⟩ ⟨7 / 4, 2, 5 / 4⟩ ⟨5 / 4, 3, 7 / 4⟩ 63
        (rcCreateHeightfield 4 4 ⟨0, 0, 0⟩ ⟨4, 4, 4⟩ 1 1) ⟨0, 0, 0⟩ ⟨4, 4, 4⟩ 1 1 1 4 0 none =
      addSpan (rcCreateHeightfield 4 4 ⟨0, 0, 0⟩ ⟨4, 4, 4⟩ 1 1) 1 1
        (max ⌊clampedLow ⟨5 / 4, 2, 5 / 4⟩ ⟨7 / 4, 2, 5 / 4⟩ ⟨5 / 4, 3, 7 / 4⟩ ⟨0, 0, 0⟩ * 1⌋ 0).toNat
        (min (max ⌈clampedHigh ⟨5 / 4, 2, 5 / 4⟩ ⟨7 / 4, 2, 5 / 4⟩ ⟨5 / 4, 3, 7 / 4⟩ ⟨0, 0, 0⟩
            ⟨4, 4, 4⟩ * 1⌉
          (max ⌊clampedLow ⟨5 / 4, 2, 5 / 4⟩ ⟨7 / 4, 2, 5 / 4⟩ ⟨5 / 4, 3, 7 / 4⟩ ⟨0, 0, 0⟩ * 1⌋ 0
            + 1)) 8191).toNat 63 4 :=
  rasterizeTri_single_cell_span_exact.1 ⟨5 / 4, 2, 5 / 4⟩ ⟨7 / 4, 2, 5 / 4⟩ ⟨5 / 4, 3, 7 / 4⟩ 63
    (rcCreateHeightfield 4 4 ⟨0, 0, 0⟩ ⟨4, 4, 4⟩ 1 1) ⟨0, 0, 0⟩ ⟨4, 4, 4⟩ 1 1 1 4 0 none (1, 1)
    (by decide!) (by decide!) (by decide!) (by decide!) (by decide!) (by decide!) (by decide!)
    (by decide!) (by decide!)

/-- With exact arithmetic, on the 4x4 grid of height 4 a triangle inside cell
(1,1) with heights 2, 2 and 10 is not rejected; the specification's formula
gives the span `(2, 10)`, but the height is first clamped to the grid top and
the span stored in column (1,1) is `(2, 4)`. -/
theorem rasterizeTri_single_cell_span_exact_counterexample :
    cellOf ⟨0, 0, 0⟩ 1 ⟨5 / 4, 2, 5 / 4⟩ = (1, 1) ∧ cellOf ⟨0, 0, 0⟩ 1 ⟨7 / 4, 2, 5 / 4⟩ = (1, 1) ∧
    cellOf ⟨0, 0, 0⟩ 1 ⟨5 / 4, 10, 7 / 4⟩ = (1, 1) ∧
    specSingleCellSpan 2 10 1 = (2, 10) ∧
    (rasterizeTri ⟨5 / 4, 2, 5 / 4⟩ ⟨7 / 4, 2, 5 / 4⟩ ⟨5 / 4, 10, 7 / 4⟩ 63
      (rcCreateHeightfield 4 4 ⟨0, 0, 0⟩ ⟨4, 4, 4⟩ 1 1) ⟨0, 0, 0⟩ ⟨4, 4, 4⟩ 1 1 1 4 0 none).spans
        (1 + 1 * 4) = [⟨2, 4, 63⟩] := by
  decide!

/-! ## Evaluations at the top of the height range -/

/-- C5 (failing input). Grids of height 9000 with `cs = ch = 1`; all vertices
at height 8191.5. A triangle inside cell (0,0) of a 1x1 grid takes the
single-cell case and leaves the span `(8191, 8191)`; a triangle over the cells
(0,0) and (1,0) of a 2x1 grid takes the flat path and leaves the span
`(8191, 0)` in column 0. Neither has `smin < smax`. -/
theorem rasterizeTri_top_span_not_an_interval :
    (rasterizeTri ⟨1 / 4, 16383 / 2, 1 / 4⟩ ⟨3 / 4, 16383 / 2, 1 / 4⟩ ⟨1 / 4, 16383 / 2, 3 / 4⟩ 63
      (rcCreateHeightfield 1 1 ⟨0, 0, 0⟩ ⟨1, 9000, 1⟩ 1 1) ⟨0, 0, 0⟩ ⟨1, 9000, 1⟩ 1 1 1 4 0
      none).spans 0 = [⟨8191, 8191, 63⟩] ∧
    (rasterizeTri ⟨1 / 4, 16383 / 2, 1 / 4⟩ ⟨7 / 4, 16383 / 2, 1 / 4⟩ ⟨1 / 4, 16383 / 2, 3 / 4⟩ 63
      (rcCreateHeightfield 2 1 ⟨0, 0, 0⟩ ⟨2, 9000, 1⟩ 1 1) ⟨0, 0, 0⟩ ⟨2, 9000, 1⟩ 1 1 1 4 0
      none).spans 0 = [⟨8191, 0, 63⟩] := by
  decide!

/-- C9 (failing input). A 1x1 grid of height 8191 with `cs = ch = 1` and a
triangle inside cell (0,0) with all vertices at height 8191. One call leaves
the span `(8191, 0)` in the column; the same call repeated leaves two. -/
theorem rasterizeTri_twice_differs_at_top :
    (rasterizeTri ⟨1 / 4, 8191, 1 / 4⟩ ⟨3 / 4, 8191, 1 / 4⟩ ⟨1 / 4, 8191, 3 / 4⟩ 63
      (rcCreateHeightfield 1 1 ⟨0, 0, 0⟩ ⟨1, 8191, 1⟩ 1 1) ⟨0, 0, 0⟩ ⟨1, 8191, 1⟩ 1 1 1 4 0
      none).spans 0 = [⟨8191, 0, 63⟩] ∧
    (rasterizeTri ⟨1 / 4, 8191, 1 / 4⟩ ⟨3 / 4, 8191, 1 / 4⟩ ⟨1 / 4, 8191, 3 / 4⟩ 63
      (rasterizeTri ⟨1 / 4, 8191, 1 / 4⟩ ⟨3 / 4, 8191, 1 / 4⟩ ⟨1 / 4, 8191, 3 / 4⟩ 63
        (rcCreateHeightfield 1 1 ⟨0, 0, 0⟩ ⟨1, 8191, 1⟩ 1 1) ⟨0, 0, 0⟩ ⟨1, 8191, 1⟩ 1 1 1 4 0
        none) ⟨0, 0, 0⟩ ⟨1, 8191, 1⟩ 1 1 1 4 0 none).spans 0 =
      [⟨8191, 0, 63⟩, ⟨8191, 0, 63⟩] := by
  decide!

/-! ## Theorems: what the sampling helpers change -/

theorem addFlatSpanSample_EdgeHits (hf : rcHeightfield) (x y : Int) :
    (addFlatSpanSample hf x y).EdgeHits = hf.EdgeHits := rfl

theorem addSpanSample_EdgeHits (hf : rcHeightfield) (x y sint : Int) :
    (addSpanSample hf x y sint).EdgeHits = hf.EdgeHits := rfl

theorem addFlatSpanSample_tempspans (hf : rcHeightfield) (x y : Int) :
    (addFlatSpanSample hf x y).tempspans = hf.tempspans := rfl

theorem addFlatSpanSample_width (hf : rcHeightfield) (x y : Int) :
    (addFlatSpanSample hf x y).width = hf.width := rfl

theorem addFlatSpanSample_height (hf : rcHeightfield) (x y : Int) :
    (addFlatSpanSample hf x y).height = hf.height := rfl

theorem addFlatSpanSample_spans (hf : rcHeightfield) (x y : Int) :
    (addFlatSpanSample hf x y).spans = hf.spans := rfl

theorem SampleIndex_inj (hf : rcHeightfield) (x y x' y' : Int)
    (hx : -1 ≤ x ∧ x ≤ hf.width) (hx' : -1 ≤ x' ∧ x' ≤ hf.width)
    (h : SampleIndex hf x y = SampleIndex hf x' y') : x = x' ∧ y = y' := by
  unfold SampleIndex at h
  have hw : 0 < hf.width + 2 := by omega
  have e : x - x' = (y' - y) * (hf.width + 2) := by linarith
  have hy : y' - y = 0 := by
    by_contra hne
    rcases lt_or_gt_of_ne hne with hlt | hgt
    · have : (y' - y) * (hf.width + 2) ≤ (-1) * (hf.width + 2) :=
        Int.mul_le_mul_of_nonneg_right (by omega) (by omega)
      omega
    · have : 1 * (hf.width + 2) ≤ (y' - y) * (hf.width + 2) :=
        Int.mul_le_mul_of_nonneg_right (by omega) (by omega)
      omega
  rw [hy] at e
  constructor <;> omega

theorem Tracked.refl (L : rasterizeTri.Locals) (B : rcHeightfield) : Tracked L B B :=
  ⟨rfl, rfl, rfl, fun _ _ _ _ => rfl, fun _ _ _ _ _ _ => Or.inl rfl⟩

theorem Tracked.step_flat {L : rasterizeTri.Locals} {B S : rcHeightfield}
    (t : Tracked L B S) (x y : Int) (hy : rowOK L B.height y) :
    Tracked L B (addFlatSpanSample S x y) := by
  refine ⟨t.width_eq, t.height_eq, t.spans_eq, ?_, ?_⟩
  · intro i h1 h2 h3
    have hne : i ≠ y + 1 := by
      unfold rowOK at hy
      omega
    simp only [Recast.addFlatSpanSample, Function.update_apply, if_neg hne]
    exact t.rowExt_frame i h1 h2 h3
  · intro a b ha1 ha2 hb1 hb2
    rcases t.temp_track a b ha1 ha2 hb1 hb2 with h | ⟨h1, h2, h3, h4, h5, h6⟩
    · exact Or.inl h
    · refine Or.inr ⟨h1, h2, h3, h4, ?_⟩
      simp only [Recast.addFlatSpanSample, Function.update_apply]
      split
      · rename_i e
        have e' : b = y := by omega
        subst e'
        simp only [intMin_eq_min, intMax_eq_max]
        omega
      · exact ⟨h5, h6⟩

theorem Tracked.step_sample {L : rasterizeTri.Locals} {B S : rcHeightfield}
    (t : Tracked L B S) (x y sint : Int) (hx : colOK L B.width x) (hy : rowOK L B.height y)
    (hx0 : 0 ≤ L.x0) (hx1 : L.x1 < B.width) :
    Tracked L B (addSpanSample S x y sint) := by
  have t' := t.step_flat x y hy
  refine ⟨t'.width_eq, t'.height_eq, t'.spans_eq, t'.rowExt_frame, ?_⟩
  intro a b ha1 ha2 hb1 hb2
  have hidx : SampleIndex (Recast.addFlatSpanSample S x y) x y = SampleIndex B x y := by
    simp only [SampleIndex, t'.width_eq]
  by_cases hab : SampleIndex B a b = SampleIndex B x y
  · have hxr : -1 ≤ x ∧ x ≤ B.width := by
      unfold colOK at hx
      omega
    obtain ⟨e1, e2⟩ := SampleIndex_inj B a b x y (by omega) hxr hab
    subst e1 e2
    refine Or.inr ⟨?_, ?_, ?_, ?_, ?_⟩
    · unfold colOK at hx; omega
    · unfold colOK at hx; omega
    · unfold rowOK at hy; omega
    · unfold rowOK at hy; omega
    · simp only [Recast.addSpanSample, Recast.addFlatSpanSample, Function.update_same,
        intMin_eq_min, intMax_eq_max]
      omega
  · have keep : (Recast.addSpanSample S x y sint).tempspans (SampleIndex B a b) =
        S.tempspans (SampleIndex B a b) := by
      simp only [Recast.addSpanSample, hidx, Function.update_apply, if_neg hab]
      rfl
    rw [keep]
    exact t'.temp_track a b ha1 ha2 hb1 hb2

theorem Tracked.congr {L : rasterizeTri.Locals} {B S S' : rcHeightfield} (t : Tracked L B S)
    (hw : S'.width = S.width) (hh : S'.height = S.height) (hs : S'.spans = S.spans)
    (hr : S'.RowExt = S.RowExt) (ht : S'.tempspans = S.tempspans) : Tracked L B S' := by
  refine ⟨hw.trans t.width_eq, hh.trans t.height_eq, hs.trans t.spans_eq, ?_, ?_⟩
  · intro i h1 h2 h3
    rw [hr]
    exact t.rowExt_frame i h1 h2 h3
  · intro a b ha1 ha2 hb1 hb2
    rw [hr, ht]
    exact t.temp_track a b ha1 ha2 hb1 hb2

theorem Consistent.x0_nonneg {L : rasterizeTri.Locals} {w h : Int} (c : L.Consistent w h) :
    0 ≤ L.x0 := by
  rw [c.x0_eq]; omega

theorem Consistent.x1_lt {L : rasterizeTri.Locals} {w h : Int} (c : L.Consistent w h) :
    L.x1 < w := by
  rw [c.x1_eq]; omega

/-- Columns reached by the loops over vertical grid lines and over the cells
between two crossings: `x` from `max(e + 1, x0)` to `x1_edge`, where `e` is at
least the least vertex column. -/
theorem Consistent.colOK_line {L : rasterizeTri.Locals} {w h : Int} (c : L.Consistent w h)
    (e x : Int) (he : L.minCol ≤ e) (h0 : max (e + 1) L.x0 ≤ x) (h1 : x ≤ L.x1_edge) :
    colOK L w x ∧ colOK L w (x - 1) := by
  have a := c.x0_eq
  have b := c.x1_eq
  have d := c.x1_edge_eq
  unfold colOK
  constructor <;> omega

/-- Rows reached by the loop over row boundaries. -/
theorem Consistent.rowOK_line {L : rasterizeTri.Locals} {w h : Int} (c : L.Consistent w h)
    (y : Int) (h0 : max (L.minRow + 1) L.y0 ≤ y) (h1 : y ≤ min L.maxRow L.y1_edge) :
    rowOK L h y ∧ rowOK L h (y - 1) := by
  have a := c.y0_eq
  have b := c.y1_eq
  have d := c.y1_edge_eq
  unfold rowOK
  constructor <;> omega

theorem Tracked.step_ite {L : rasterizeTri.Locals} {B a b : rcHeightfield} {c : Prop}
    [Decidable c] (ha : c → Tracked L B a) (hb : ¬ c → Tracked L B b) :
    Tracked L B (if c then a else b) := by
  by_cases h : c
  · rw [if_pos h]; exact ha h
  · rw [if_neg h]; exact hb h

theorem Locals.minCol_le (L : rasterizeTri.Locals) (b : Nat) (hb : b < 3) :
    L.minCol ≤ (L.intverts b).1 := by
  unfold rasterizeTri.Locals.minCol
  have : b = 0 ∨ b = 1 ∨ b = 2 := by omega
  rcases this with h | h | h <;> subst h <;> omega

theorem Locals.minRow_le (L : rasterizeTri.Locals) (b : Nat) (hb : b < 3) :
    L.minRow ≤ (L.intverts b).2 := by
  unfold rasterizeTri.Locals.minRow
  have : b = 0 ∨ b = 1 ∨ b = 2 := by omega
  rcases this with h | h | h <;> subst h <;> omega

theorem Locals.le_maxRow (L : rasterizeTri.Locals) (b : Nat) (hb : b < 3) :
    (L.intverts b).2 ≤ L.maxRow := by
  unfold rasterizeTri.Locals.maxRow
  have : b = 0 ∨ b = 1 ∨ b = 2 := by omega
  rcases this with h | h | h <;> subst h <;> omega

/-! ## Theorems: the edge hits recorded for one triangle -/

theorem edgeBits_values : edgeBits 0 = 36 ∧ edgeBits 1 = 9 ∧ edgeBits 2 = 18 := by decide

theorem recordHit_EdgeHits (bits : Nat) (i : Int) (T : rcHeightfield) :
    (rasterizeTri.recordHit bits i T).EdgeHits =
      Function.update T.EdgeHits i (recordedHit bits (T.EdgeHits i)) := rfl

theorem recordHit_loop (bits : Nat) (lo hi : Int) (S : rcHeightfield) (y : Int) :
    (forLoop lo hi (rasterizeTri.recordHit bits) S).EdgeHits y =
      if lo ≤ y ∧ y ≤ hi then recordedHit bits (S.EdgeHits y) else S.EdgeHits y := by
  have key := forLoop_induction
    (fun i (T : rcHeightfield) => ∀ y, T.EdgeHits y =
      if lo ≤ y ∧ y < i then recordedHit bits (S.EdgeHits y) else S.EdgeHits y)
    lo hi (rasterizeTri.recordHit bits) S
    (fun y => by
      have : ¬ (lo ≤ y ∧ y < lo) := by omega
      rw [if_neg this])
    (by
      intro i T hi1 hi2 hP y
      have hcur : T.EdgeHits i = S.EdgeHits i := by
        have : ¬ (lo ≤ i ∧ i < i) := by omega
        rw [hP i, if_neg this]
      rw [recordHit_EdgeHits, Function.update_apply]
      by_cases hyi : y = i
      · subst hyi
        have : lo ≤ y ∧ y < y + 1 := by omega
        rw [if_pos rfl, if_pos this, hcur]
      · have hiff : (lo ≤ y ∧ y < i + 1) ↔ (lo ≤ y ∧ y < i) := by omega
        rw [if_neg hyi, hP y]
        simp only [hiff])
  have hiff : (lo ≤ y ∧ y < max lo (hi + 1)) ↔ (lo ≤ y ∧ y ≤ hi) := by omega
  have := key y
  simp only [hiff] at this
  exact this

theorem recordEdge_EdgeHits (L : rasterizeTri.Locals) (b : Nat) (S : rcHeightfield) (y : Int) :
    (rasterizeTri.recordEdge L b S).EdgeHits y =
      if crossesRow L b y then recordedHit (edgeBits b) (S.EdgeHits y) else S.EdgeHits y := by
  unfold rasterizeTri.recordEdge crossesRow
  by_cases hne : (L.intverts b).2 ≠ (L.intverts (if b = 2 then 0 else b + 1)).2
  · simp only [if_pos hne, intMin_eq_min, intMax_eq_max, recordHit_loop]
    simp only [ne_eq, hne, not_false_eq_true, true_and]
    rfl
  · have : ¬ ((L.intverts b).2 ≠ (L.intverts (if b = 2 then 0 else b + 1)).2 ∧
        max (min (L.intverts b).2 (L.intverts (if b = 2 then 0 else b + 1)).2 + 1) L.y0 ≤ y ∧
        y ≤ min (max (L.intverts b).2 (L.intverts (if b = 2 then 0 else b + 1)).2)
          L.y1_edge) := fun hc => hne hc.1
    rw [if_neg hne, if_neg this]

theorem crossesRow_range (L : rasterizeTri.Locals) (b : Nat) (hb : b < 3) (y : Int)
    (h : crossesRow L b y) : max (L.minRow + 1) L.y0 ≤ y ∧ y ≤ min L.maxRow L.y1_edge := by
  have ho : (if b = 2 then 0 else b + 1) < 3 := by split <;> omega
  have m1 := Locals.minRow_le L b hb
  have m2 := Locals.minRow_le L _ ho
  have m3 := Locals.le_maxRow L b hb
  have m4 := Locals.le_maxRow L _ ho
  unfold crossesRow at h
  obtain ⟨_, h1, h2⟩ := h
  constructor <;> omega

theorem crossing_iff (p q lo hi y : Int) :
    (p ≠ q ∧ max (min p q + 1) lo ≤ y ∧ y ≤ min (max p q) hi) ↔
      (lo ≤ y ∧ y ≤ hi ∧ ((p < y ∧ y ≤ q) ∨ (q < y ∧ y ≤ p))) := by
  omega

/-- A row boundary is crossed by none or by exactly two of the three edges. -/
theorem crossesRow_pairs (L : rasterizeTri.Locals) (y : Int) :
    (¬ crossesRow L 0 y ∧ ¬ crossesRow L 1 y ∧ ¬ crossesRow L 2 y) ∨
    (crossesRow L 0 y ∧ crossesRow L 1 y ∧ ¬ crossesRow L 2 y) ∨
    (crossesRow L 0 y ∧ ¬ crossesRow L 1 y ∧ crossesRow L 2 y) ∨
    (¬ crossesRow L 0 y ∧ crossesRow L 1 y ∧ crossesRow L 2 y) := by
  have e0 : crossesRow L 0 y ↔ _ := crossing_iff (L.intverts 0).2 (L.intverts 1).2 L.y0 L.y1_edge y
  have e1 : crossesRow L 1 y ↔ _ := crossing_iff (L.intverts 1).2 (L.intverts 2).2 L.y0 L.y1_edge y
  have e2 : crossesRow L 2 y ↔ _ := crossing_iff (L.intverts 2).2 (L.intverts 0).2 L.y0 L.y1_edge y
  rw [e0, e1, e2]
  omega

/-- From empty edge hits the loop over `basevert` leaves, in every row
boundary, either nothing or the bytes of two edges; the latter only in the
rows that the loop over row boundaries visits. -/
theorem hitsAfterRecording_spec (L : rasterizeTri.Locals) (E : Int → rcEdgeHit) (y : Int)
    (hE : E y = ⟨0, 0⟩) :
    ((hitsAfterRecording L E y).Hits0 ≠ 0 →
      validHit (hitsAfterRecording L E y).Hits0 ∧ validHit (hitsAfterRecording L E y).Hits1 ∧
      max (L.minRow + 1) L.y0 ≤ y ∧ y ≤ min L.maxRow L.y1_edge) ∧
    ((hitsAfterRecording L E y).Hits0 = 0 → hitsAfterRecording L E y = ⟨0, 0⟩) := by
  obtain ⟨b0, b1, b2⟩ := edgeBits_values
  rcases crossesRow_pairs L y with ⟨c0, c1, c2⟩ | ⟨c0, c1, c2⟩ | ⟨c0, c1, c2⟩ | ⟨c0, c1, c2⟩
  · have hr : hitsAfterRecording L E y = ⟨0, 0⟩ := by
      simp only [hitsAfterRecording, if_neg c0, if_neg c1, if_neg c2, hE]
    rw [hr]
    exact ⟨fun h => absurd rfl h, fun _ => rfl⟩
  · have hr : hitsAfterRecording L E y = ⟨edgeBits 0, edgeBits 1⟩ := by
      simp only [hitsAfterRecording, if_pos c0, if_pos c1, if_neg c2, hE, recordedHit, b0]
      rfl
    rw [hr]
    refine ⟨fun _ => ⟨Or.inl rfl, Or.inr (Or.inl rfl), crossesRow_range L 0 (by omega) y c0⟩,
      fun h => ?_⟩
    rw [b0] at h
    exact absurd h (by decide)
  · have hr : hitsAfterRecording L E y = ⟨edgeBits 0, edgeBits 2⟩ := by
      simp only [hitsAfterRecording, if_pos c0, if_neg c1, if_pos c2, hE, recordedHit, b0]
      rfl
    rw [hr]
    refine ⟨fun _ => ⟨Or.inl rfl, Or.inr (Or.inr rfl), crossesRow_range L 0 (by omega) y c0⟩,
      fun h => ?_⟩
    rw [b0] at h
    exact absurd h (by decide)
  · have hr : hitsAfterRecording L E y = ⟨edgeBits 1, edgeBits 2⟩ := by
      simp only [hitsAfterRecording, if_neg c0, if_pos c1, if_pos c2, hE, recordedHit, b1]
      rfl
    rw [hr]
    refine ⟨fun _ => ⟨Or.inr (Or.inl rfl), Or.inr (Or.inr rfl),
      crossesRow_range L 1 (by omega) y c1⟩, fun h => ?_⟩
    rw [b1] at h
    exact absurd h (by decide)

/-! ## Theorems: the discovery phase keeps track of what it writes -/

theorem recordHit_tracked {L : rasterizeTri.Locals} {B S : rcHeightfield} (t : Tracked L B S)
    (edgeBits : Nat) (y : Int) : Tracked L B (rasterizeTri.recordHit edgeBits y S) :=
  t.congr rfl rfl rfl rfl rfl

theorem recordEdge_tracked {L : rasterizeTri.Locals} {B S : rcHeightfield} (t : Tracked L B S)
    (b : Nat) : Tracked L B (rasterizeTri.recordEdge L b S) := by
  unfold rasterizeTri.recordEdge
  exact Tracked.step_ite
    (fun _ => forLoop_invariant (fun S => Tracked L B S) _ _ _ _ t
      (fun i S _ _ h => recordHit_tracked h _ i))
    (fun _ => t)

theorem slopedVertical_tracked {L : rasterizeTri.Locals} {B : rcHeightfield}
    (c : L.Consistent B.width B.height) (b edge : Nat) (edges : Nat → Vec3) (e x : Int)
    (st : rcHeightfield × ℚ) (t : Tracked L B st.1)
    (he : L.minCol ≤ e) (h0 : max (e + 1) L.x0 ≤ x) (h1 : x ≤ L.x1_edge) :
    Tracked L B (rasterizeTri.slopedVertical L b edge edges x st).1 := by
  obtain ⟨cx, cx'⟩ := Consistent.colOK_line c e x he h0 h1
  unfold rasterizeTri.slopedVertical
  refine Tracked.step_ite (fun hy => ?_) (fun _ => t)
  have ry : rowOK L B.height _ := Or.inl ⟨hy.1, hy.2⟩
  exact (t.step_sample _ _ _ cx ry (Consistent.x0_nonneg c) (Consistent.x1_lt c)).step_sample
    _ _ _ cx' ry (Consistent.x0_nonneg c) (Consistent.x1_lt c)

theorem slopedBaseVert_tracked {L : rasterizeTri.Locals} {B : rcHeightfield}
    (c : L.Consistent B.width B.height) (b : Nat) (hb : b < 3)
    (st : rcHeightfield × (Nat → Vec3)) (t : Tracked L B st.1) :
    Tracked L B (rasterizeTri.slopedBaseVert L b st).1 := by
  unfold rasterizeTri.slopedBaseVert
  have ho : (if b = 2 then 0 else b + 1) < 3 := by split <;> omega
  have t1 : Tracked L B
      (if (L.intverts b).1 ≥ L.x0 ∧ (L.intverts b).1 ≤ L.x1 ∧ (L.intverts b).2 ≥ L.y0 ∧
          (L.intverts b).2 ≤ L.y1 then
        addSpanSample st.1 (L.intverts b).1 (L.intverts b).2
          (rasterizeTri.quantize L.ich ((L.vertarray b).y - L.bmin.y))
      else st.1) :=
    Tracked.step_ite
      (fun hg => t.step_sample _ _ _ (Or.inl ⟨hg.1, hg.2.1⟩) (Or.inl ⟨hg.2.2.1, hg.2.2.2⟩)
        (Consistent.x0_nonneg c) (Consistent.x1_lt c))
      (fun _ => t)
  have t2 := recordEdge_tracked t1 b
  refine Tracked.step_ite (fun _ => ?_) (fun _ => t2)
  refine forLoop_invariant (fun s : rcHeightfield × ℚ => Tracked L B s.1) _ _ _ _ t2 ?_
  intro i s hi1 hi2 hs
  refine slopedVertical_tracked c b _ _
    (intMin (L.intverts b).1 (L.intverts (if b = 2 then 0 else b + 1)).1) i s hs ?_ ?_ ?_
  · have := Locals.minCol_le L b hb
    have := Locals.minCol_le L _ ho
    rw [intMin_eq_min]; omega
  · rw [intMax_eq_max] at hi1; exact hi1
  · rw [intMin_eq_min] at hi2; omega

theorem setEdge_edgesSet (L : rasterizeTri.Locals) (edges : Nat → Vec3) :
    edgesSet L (rasterizeTri.setEdge L 2 (rasterizeTri.setEdge L 1
      (rasterizeTri.setEdge L 0 edges))) := by
  simp [edgesSet, rasterizeTri.setEdge, Function.update_apply]

theorem slopedVertical_EdgeHits (L : rasterizeTri.Locals) (b edge : Nat) (edges : Nat → Vec3)
    (x : Int) (st : rcHeightfield × ℚ) :
    (rasterizeTri.slopedVertical L b edge edges x st).1.EdgeHits = st.1.EdgeHits := by
  unfold rasterizeTri.slopedVertical
  simp only
  split <;> rfl

theorem slopedBaseVert_edges (L : rasterizeTri.Locals) (b : Nat)
    (st : rcHeightfield × (Nat → Vec3)) :
    (rasterizeTri.slopedBaseVert L b st).2 = rasterizeTri.setEdge L b st.2 := by
  unfold rasterizeTri.slopedBaseVert
  rfl

theorem slopedBaseVert_EdgeHits (L : rasterizeTri.Locals) (b : Nat)
    (st : rcHeightfield × (Nat → Vec3)) (y : Int) :
    (rasterizeTri.slopedBaseVert L b st).1.EdgeHits y =
      if crossesRow L b y then recordedHit (edgeBits b) (st.1.EdgeHits y)
      else st.1.EdgeHits y := by
  have h1 : ∀ (g : Prop) [Decidable g] (x z s : Int),
      (if g then addSpanSample st.1 x z s else st.1).EdgeHits = st.1.EdgeHits := by
    intro g _ x z s
    split <;> rfl
  have h2 : ∀ (S : rcHeightfield) (g : Prop) [Decidable g] (lo hi : Int) (e : Nat)
      (edges : Nat → Vec3) (cx : ℚ),
      (if g then (forLoop lo hi (rasterizeTri.slopedVertical L b e edges) (S, cx)).1
        else S).EdgeHits = S.EdgeHits := by
    intro S g _ lo hi e edges cx
    split
    · exact forLoop_invariant (fun s : rcHeightfield × ℚ => s.1.EdgeHits = S.EdgeHits) _ _ _ _
        rfl (fun i s _ _ h => (slopedVertical_EdgeHits L b e edges i s).trans h)
    · rfl
  unfold rasterizeTri.slopedBaseVert
  simp only
  rw [h2, recordEdge_EdgeHits, h1]

theorem slopedBaseVerts_spec {L : rasterizeTri.Locals} {B : rcHeightfield}
    (c : L.Consistent B.width B.height) (edges : Nat → Vec3) :
    Tracked L B
      ([0, 1, 2].foldl (fun st basevert => rasterizeTri.slopedBaseVert L basevert st)
        (B, edges)).1 ∧
    (∀ y, ([0, 1, 2].foldl (fun st basevert => rasterizeTri.slopedBaseVert L basevert st)
        (B, edges)).1.EdgeHits y = hitsAfterRecording L B.EdgeHits y) ∧
    edgesSet L ([0, 1, 2].foldl (fun st basevert => rasterizeTri.slopedBaseVert L basevert st)
        (B, edges)).2 := by
  simp only [List.foldl]
  refine ⟨?_, ?_, ?_⟩
  · exact slopedBaseVert_tracked c 2 (by omega) _
      (slopedBaseVert_tracked c 1 (by omega) _
        (slopedBaseVert_tracked c 0 (by omega) _ (Tracked.refl L B)))
  · intro y
    rw [slopedBaseVert_EdgeHits, slopedBaseVert_EdgeHits, slopedBaseVert_EdgeHits]
    rfl
  · rw [slopedBaseVert_edges, slopedBaseVert_edges, slopedBaseVert_edges]
    exact setEdge_edgesSet L edges

/-! ## Theorems: crossings lie between the end points of their edge -/

theorem rcClamp_unit (v : ℚ) : 0 ≤ rcClamp v 0 1 ∧ rcClamp v 0 1 ≤ 1 := by
  unfold rcClamp
  split
  · exact ⟨le_refl _, zero_le_one⟩
  · split
    · exact ⟨zero_le_one, le_refl _⟩
    · rename_i h1 h2
      exact ⟨not_lt.1 h1, not_lt.1 h2⟩

theorem lerp_between (a d t : ℚ) (h0 : 0 ≤ t) (h1 : t ≤ 1) :
    min a (a + d) ≤ a + t * d ∧ a + t * d ≤ max a (a + d) := by
  rcases le_total 0 d with hd | hd
  · rw [min_eq_left (by linarith), max_eq_right (by linarith)]
    constructor <;> nlinarith
  · rw [min_eq_right (by linarith), max_eq_left (by linarith)]
    constructor <;> nlinarith

theorem floor_scaled_between (a b p m k : ℚ) (h0 : min a b ≤ p) (h1 : p ≤ max a b) :
    min ⌊(a - m) * k⌋ ⌊(b - m) * k⌋ ≤ ⌊(p - m) * k⌋ ∧
      ⌊(p - m) * k⌋ ≤ max ⌊(a - m) * k⌋ ⌊(b - m) * k⌋ := by
  rcases le_total a b with hab | hab
  · rw [min_eq_left hab] at h0
    rw [max_eq_right hab] at h1
    rcases le_total 0 k with hk | hk
    · have e1 : ⌊(a - m) * k⌋ ≤ ⌊(p - m) * k⌋ := Int.floor_mono (by nlinarith)
      have e2 : ⌊(p - m) * k⌋ ≤ ⌊(b - m) * k⌋ := Int.floor_mono (by nlinarith)
      omega
    · have e1 : ⌊(b - m) * k⌋ ≤ ⌊(p - m) * k⌋ := Int.floor_mono (by nlinarith)
      have e2 : ⌊(p - m) * k⌋ ≤ ⌊(a - m) * k⌋ := Int.floor_mono (by nlinarith)
      omega
  · rw [min_eq_right hab] at h0
    rw [max_eq_left hab] at h1
    rcases le_total 0 k with hk | hk
    · have e1 : ⌊(b - m) * k⌋ ≤ ⌊(p - m) * k⌋ := Int.floor_mono (by nlinarith)
      have e2 : ⌊(p - m) * k⌋ ≤ ⌊(a - m) * k⌋ := Int.floor_mono (by nlinarith)
      omega
    · have e1 : ⌊(a - m) * k⌋ ≤ ⌊(p - m) * k⌋ := Int.floor_mono (by nlinarith)
      have e2 : ⌊(p - m) * k⌋ ≤ ⌊(b - m) * k⌋ := Int.floor_mono (by nlinarith)
      omega

/-- The column of the crossing of a recorded edge with a row boundary lies
between the least and the greatest vertex column. -/
theorem crossing_column_bounds {L : rasterizeTri.Locals} {w h : Int} (c : L.Consistent w h)
    (edges : Nat → Vec3) (he : edgesSet L edges) (hit : Nat) (hv : validHit hit) (cz : ℚ) :
    L.minCol ≤ ⌊((intersectZ (L.vertarray (hit &&& 3)) (edges (hit >>> 4))
        (edges (3 + hit >>> 4)) cz).x - L.bmin.x) * L.ics⌋ ∧
      ⌊((intersectZ (L.vertarray (hit &&& 3)) (edges (hit >>> 4))
        (edges (3 + hit >>> 4)) cz).x - L.bmin.x) * L.ics⌋ ≤ L.maxCol := by
  obtain ⟨e2, e0, e1⟩ := he
  have c0 := congrArg Prod.fst (c.cells 0)
  have c1 := congrArg Prod.fst (c.cells 1)
  have c2 := congrArg Prod.fst (c.cells 2)
  simp only [cellOf] at c0 c1 c2
  have key : ∀ (a b : Nat) (inv : Vec3),
      min ⌊((L.vertarray a).x - L.bmin.x) * L.ics⌋ ⌊((L.vertarray b).x - L.bmin.x) * L.ics⌋ ≤
        ⌊((intersectZ (L.vertarray a) (rcVsub (L.vertarray b) (L.vertarray a)) inv cz).x -
          L.bmin.x) * L.ics⌋ ∧
      ⌊((intersectZ (L.vertarray a) (rcVsub (L.vertarray b) (L.vertarray a)) inv cz).x -
          L.bmin.x) * L.ics⌋ ≤
        max ⌊((L.vertarray a).x - L.bmin.x) * L.ics⌋ ⌊((L.vertarray b).x - L.bmin.x) * L.ics⌋ := by
    intro a b inv
    apply floor_scaled_between
    · have := (lerp_between (L.vertarray a).x ((L.vertarray b).x - (L.vertarray a).x) _
        (rcClamp_unit (((cz - (L.vertarray a).z) * inv.z))).1
        (rcClamp_unit (((cz - (L.vertarray a).z) * inv.z))).2).1
      simpa [intersectZ, rcVsub] using this
    · have := (lerp_between (L.vertarray a).x ((L.vertarray b).x - (L.vertarray a).x) _
        (rcClamp_unit (((cz - (L.vertarray a).z) * inv.z))).1
        (rcClamp_unit (((cz - (L.vertarray a).z) * inv.z))).2).2
      simpa [intersectZ, rcVsub] using this
  unfold rasterizeTri.Locals.minCol rasterizeTri.Locals.maxCol
  rcases hv with h | h | h
  · have d1 : hit &&& 3 = 0 := by rw [h]; decide
    have d2 : hit >>> 4 = 2 := by rw [h]; decide
    rw [d1, d2, e2]
    have := key 0 1 (edges (3 + 2))
    omega
  · have d1 : hit &&& 3 = 1 := by rw [h]; decide
    have d2 : hit >>> 4 = 0 := by rw [h]; decide
    rw [d1, d2, e0]
    have := key 1 2 (edges (3 + 0))
    omega
  · have d1 : hit &&& 3 = 2 := by rw [h]; decide
    have d2 : hit >>> 4 = 1 := by rw [h]; decide
    rw [d1, d2, e1]
    have := key 2 0 (edges (3 + 1))
    omega

/-! ## Theorems: the loop over row boundaries (sloped path) -/

theorem slopedHit_tracked {L : rasterizeTri.Locals} {B S : rcHeightfield}
    (c : L.Consistent B.width B.height) (t : Tracked L B S) (edges : Nat → Vec3) (y : Int)
    (cz : ℚ) (hit : Nat) (hy : rowOK L B.height y ∧ rowOK L B.height (y - 1)) :
    Tracked L B (rasterizeTri.slopedHit L edges y cz hit S).1 := by
  unfold rasterizeTri.slopedHit
  refine Tracked.step_ite (fun hx => ?_) (fun _ => t)
  have cx : colOK L B.width _ := Or.inl ⟨hx.1, hx.2⟩
  exact (t.step_sample _ _ _ cx hy.1 (Consistent.x0_nonneg c) (Consistent.x1_lt c)).step_sample
    _ _ _ cx hy.2 (Consistent.x0_nonneg c) (Consistent.x1_lt c)

theorem slopedHit_EdgeHits (L : rasterizeTri.Locals) (S : rcHeightfield) (edges : Nat → Vec3)
    (y : Int) (cz : ℚ) (hit : Nat) :
    (rasterizeTri.slopedHit L edges y cz hit S).1.EdgeHits = S.EdgeHits := by
  unfold rasterizeTri.slopedHit
  simp only
  split <;> rfl

theorem slopedFillCell_tracked {L : rasterizeTri.Locals} {B : rcHeightfield}
    (c : L.Consistent B.width B.height) (y : Int) (ds : ℚ) (x : Int) (st : rcHeightfield × ℚ)
    (t : Tracked L B st.1) (hx : colOK L B.width x ∧ colOK L B.width (x - 1))
    (hy : rowOK L B.height y ∧ rowOK L B.height (y - 1)) :
    Tracked L B (rasterizeTri.slopedFillCell L y ds x st).1 := by
  unfold rasterizeTri.slopedFillCell
  have x0 := Consistent.x0_nonneg c
  have x1 := Consistent.x1_lt c
  exact (((t.step_sample _ _ _ hx.1 hy.1 x0 x1).step_sample _ _ _ hx.2 hy.1 x0
    x1).step_sample _ _ _ hx.1 hy.2 x0 x1).step_sample _ _ _ hx.2 hy.2 x0 x1

theorem slopedFillCell_EdgeHits (L : rasterizeTri.Locals) (y : Int) (ds : ℚ) (x : Int)
    (st : rcHeightfield × ℚ) :
    (rasterizeTri.slopedFillCell L y ds x st).1.EdgeHits = st.1.EdgeHits := by
  simp only [rasterizeTri.slopedFillCell, addSpanSample_EdgeHits]

theorem slopedFill_tracked {L : rasterizeTri.Locals} {B S : rcHeightfield}
    (c : L.Consistent B.width B.height) (t : Tracked L B S) (y : Int) (Inter0 Inter1 : Vec3)
    (xInter0 xInter1 : Int) (h0 : L.minCol ≤ xInter0) (h1 : L.minCol ≤ xInter1)
    (hy : rowOK L B.height y ∧ rowOK L B.height (y - 1)) :
    Tracked L B (rasterizeTri.slopedFill L y Inter0 Inter1 xInter0 xInter1 S) := by
  unfold rasterizeTri.slopedFill
  refine Tracked.step_ite (fun _ => ?_) (fun _ => t)
  refine forLoop_invariant (fun s : rcHeightfield × ℚ => Tracked L B s.1) _ _ _ _ t ?_
  intro i s hi1 hi2 hs
  refine slopedFillCell_tracked c y _ i s hs ?_ hy
  refine Consistent.colOK_line c
    (if decide (Inter1.x < Inter0.x) = true then xInter1 else xInter0) i ?_ ?_ ?_
  · split <;> assumption
  · rw [intMax_eq_max] at hi1; exact hi1
  · rw [intMin_eq_min] at hi2; omega

theorem slopedFill_EdgeHits (L : rasterizeTri.Locals) (S : rcHeightfield) (y : Int)
    (Inter0 Inter1 : Vec3) (xInter0 xInter1 : Int) :
    (rasterizeTri.slopedFill L y Inter0 Inter1 xInter0 xInter1 S).EdgeHits = S.EdgeHits := by
  unfold rasterizeTri.slopedFill
  simp only
  split
  · exact forLoop_invariant (fun s : rcHeightfield × ℚ => s.1.EdgeHits = S.EdgeHits) _ _ _ _ rfl
      (fun i s _ _ h => (slopedFillCell_EdgeHits L y _ i s).trans h)
  · rfl

theorem slopedHit_xInter (L : rasterizeTri.Locals) (S : rcHeightfield) (edges : Nat → Vec3)
    (y : Int) (cz : ℚ) (hit : Nat) :
    (rasterizeTri.slopedHit L edges y cz hit S).2.2 =
      ⌊((intersectZ (L.vertarray (hit &&& 3)) (edges (hit >>> 4))
        (edges (3 + hit >>> 4)) cz).x - L.bmin.x) * L.ics⌋ := by
  unfold rasterizeTri.slopedHit
  rfl

theorem slopedHorizontal_spec {L : rasterizeTri.Locals} {B : rcHeightfield}
    (c : L.Consistent B.width B.height) (edges : Nat → Vec3) (he : edgesSet L edges) (y : Int)
    (st : rcHeightfield × ℚ) (t : Tracked L B st.1)
    (hy : rowOK L B.height y ∧ rowOK L B.height (y - 1))
    (hv : (st.1.EdgeHits y).Hits0 ≠ 0 →
      validHit (st.1.EdgeHits y).Hits0 ∧ validHit (st.1.EdgeHits y).Hits1) :
    Tracked L B (rasterizeTri.slopedHorizontal L edges y st).1 ∧
      (rasterizeTri.slopedHorizontal L edges y st).1.EdgeHits =
        if (st.1.EdgeHits y).Hits0 ≠ 0 then Function.update st.1.EdgeHits y ⟨0, 0⟩
        else st.1.EdgeHits := by
  unfold rasterizeTri.slopedHorizontal
  by_cases h : (st.1.EdgeHits y).Hits0 ≠ 0
  · simp only [if_pos h]
    obtain ⟨v0, v1⟩ := hv h
    have t0 := slopedHit_tracked c t edges y st.2 (st.1.EdgeHits y).Hits0 hy
    have t1 := slopedHit_tracked c t0 edges y st.2 (st.1.EdgeHits y).Hits1 hy
    have b0 := (crossing_column_bounds c edges he _ v0 st.2).1
    have b1 := (crossing_column_bounds c edges he _ v1 st.2).1
    rw [← slopedHit_xInter L st.1 edges y st.2] at b0
    rw [← slopedHit_xInter L
      (rasterizeTri.slopedHit L edges y st.2 (st.1.EdgeHits y).Hits0 st.1).1 edges y st.2] at b1
    have t2 := slopedFill_tracked c t1 y
      (rasterizeTri.slopedHit L edges y st.2 (st.1.EdgeHits y).Hits0 st.1).2.1
      (rasterizeTri.slopedHit L edges y st.2 (st.1.EdgeHits y).Hits1
        (rasterizeTri.slopedHit L edges y st.2 (st.1.EdgeHits y).Hits0 st.1).1).2.1 _ _ b0 b1 hy
    refine ⟨t2.congr rfl rfl rfl rfl rfl, ?_⟩
    simp only [slopedFill_EdgeHits, slopedHit_EdgeHits]
  · simp only [if_neg h]
    exact ⟨t, trivial⟩

theorem slopedHorizontals_spec {L : rasterizeTri.Locals} {B S : rcHeightfield}
    (c : L.Consistent B.width B.height) (edges : Nat → Vec3) (he : edgesSet L edges)
    (t : Tracked L B S)
    (hv : ∀ y, max (L.minRow + 1) L.y0 ≤ y → y ≤ min L.maxRow L.y1_edge →
      (S.EdgeHits y).Hits0 ≠ 0 →
      validHit (S.EdgeHits y).Hits0 ∧ validHit (S.EdgeHits y).Hits1) :
    Tracked L B (rasterizeTri.slopedHorizontals L edges S) ∧
      ∀ y, (rasterizeTri.slopedHorizontals L edges S).EdgeHits y =
        if max (L.minRow + 1) L.y0 ≤ y ∧ y ≤ min L.maxRow L.y1_edge ∧
            (S.EdgeHits y).Hits0 ≠ 0 then ⟨0, 0⟩
        else S.EdgeHits y := by
  unfold rasterizeTri.slopedHorizontals
  have e1 : intMin (L.intverts 0).2 (intMin (L.intverts 1).2 (L.intverts 2).2) = L.minRow := by
    simp only [intMin_eq_min, rasterizeTri.Locals.minRow]
  have e2 : intMax (L.intverts 0).2 (intMax (L.intverts 1).2 (L.intverts 2).2) = L.maxRow := by
    simp only [intMax_eq_max, rasterizeTri.Locals.maxRow]
  rw [e1, e2]
  simp only [intMin_eq_min, intMax_eq_max]
  have key := forLoop_induction
    (fun i (st : rcHeightfield × ℚ) => Tracked L B st.1 ∧
      ∀ y, st.1.EdgeHits y =
        if max (L.minRow + 1) L.y0 ≤ y ∧ y < i ∧ (S.EdgeHits y).Hits0 ≠ 0 then ⟨0, 0⟩
        else S.EdgeHits y)
    (max (L.minRow + 1) L.y0) (min L.maxRow L.y1_edge)
    (rasterizeTri.slopedHorizontal L edges)
    (S, L.bmin.z + L.cs * ((max (L.minRow + 1) L.y0 : Int) : ℚ))
    ⟨t, fun y => by
      rw [if_neg]
      intro h
      omega⟩
    (by
      intro i st hi1 hi2 hP
      have hrow := Consistent.rowOK_line c i hi1 hi2
      have hcur : st.1.EdgeHits i = S.EdgeHits i := by
        rw [hP.2 i, if_neg]
        intro h
        omega
      obtain ⟨t', e'⟩ := slopedHorizontal_spec c edges he i st hP.1 hrow
        (by rw [hcur]; exact hv i hi1 hi2)
      refine ⟨t', fun y => ?_⟩
      rw [e', hcur]
      by_cases hz : (S.EdgeHits i).Hits0 ≠ 0
      · rw [if_pos hz, Function.update_apply]
        by_cases hyi : y = i
        · subst hyi
          rw [if_pos rfl, if_pos ⟨hi1, by omega, hz⟩]
        · rw [if_neg hyi, hP.2 y]
          by_cases hc : max (L.minRow + 1) L.y0 ≤ y ∧ y < i ∧ (S.EdgeHits y).Hits0 ≠ 0
          · rw [if_pos hc, if_pos ⟨hc.1, by omega, hc.2.2⟩]
          · rw [if_neg hc, if_neg]
            intro hc'
            exact hc ⟨hc'.1, by omega, hc'.2.2⟩
      · rw [if_neg hz, hP.2 y]
        by_cases hc : max (L.minRow + 1) L.y0 ≤ y ∧ y < i ∧ (S.EdgeHits y).Hits0 ≠ 0
        · rw [if_pos hc, if_pos ⟨hc.1, by omega, hc.2.2⟩]
        · rw [if_neg hc, if_neg]
          intro hc'
          by_cases hyi : y = i
          · subst hyi; exact hz hc'.2.2
          · exact hc ⟨hc'.1, by omega, hc'.2.2⟩)
  refine ⟨key.1, fun y => ?_⟩
  have := key.2 y
  simp only at this
  rw [this]
  by_cases hc : max (L.minRow + 1) L.y0 ≤ y ∧ y ≤ min L.maxRow L.y1_edge ∧
      (S.EdgeHits y).Hits0 ≠ 0
  · rw [if_pos hc, if_pos ⟨hc.1, by omega, hc.2.2⟩]
  · rw [if_neg hc, if_neg]
    intro hc'
    exact hc ⟨hc'.1, by omega, hc'.2.2⟩

/-! ## Theorems: the emission loops put the sentinels back (sloped path) -/

theorem slopedEmitCell_fields (area : Nat) (thr flags : Int) (masks : Option (Int → Int))
    (y x : Int) (S : rcHeightfield) :
    (rasterizeTri.slopedEmitCell area thr flags masks y x S).width = S.width ∧
    (rasterizeTri.slopedEmitCell area thr flags masks y x S).height = S.height ∧
    (rasterizeTri.slopedEmitCell area thr flags masks y x S).EdgeHits = S.EdgeHits ∧
    (rasterizeTri.slopedEmitCell area thr flags masks y x S).RowExt = S.RowExt ∧
    (rasterizeTri.slopedEmitCell area thr flags masks y x S).tempspans =
      Function.update S.tempspans (SampleIndex S x y) ⟨32000, -32000⟩ := by
  unfold rasterizeTri.slopedEmitCell
  simp only
  split
  · exact ⟨rfl, rfl, rfl, rfl, rfl⟩
  · exact ⟨rfl, rfl, rfl, rfl, rfl⟩

theorem slopedEmitRow_spec (L : rasterizeTri.Locals) (area : Nat) (thr flags : Int)
    (masks : Option (Int → Int)) (y : Int) (S : rcHeightfield) :
    (rasterizeTri.slopedEmitRow L area thr flags masks y S).width = S.width ∧
    (rasterizeTri.slopedEmitRow L area thr flags masks y S).height = S.height ∧
    (rasterizeTri.slopedEmitRow L area thr flags masks y S).EdgeHits = S.EdgeHits ∧
    (rasterizeTri.slopedEmitRow L area thr flags masks y S).RowExt =
      Function.update S.RowExt (y + 1) ⟨S.width + 2, -2⟩ ∧
    (∀ k, (rasterizeTri.slopedEmitRow L area thr flags masks y S).tempspans k = ⟨32000, -32000⟩ ∨
      (rasterizeTri.slopedEmitRow L area thr flags masks y S).tempspans k = S.tempspans k) ∧
    (∀ x, max (S.RowExt (y + 1)).MinCol L.x0 ≤ x → x ≤ min (S.RowExt (y + 1)).MaxCol L.x1 →
      (rasterizeTri.slopedEmitRow L area thr flags masks y S).tempspans (SampleIndex S x y) =
        ⟨32000, -32000⟩) := by
  have key := forLoop_induction
    (fun i (T : rcHeightfield) => T.width = S.width ∧ T.height = S.height ∧
      T.EdgeHits = S.EdgeHits ∧ T.RowExt = S.RowExt ∧
      (∀ k, T.tempspans k = ⟨32000, -32000⟩ ∨ T.tempspans k = S.tempspans k) ∧
      (∀ x, max (S.RowExt (y + 1)).MinCol L.x0 ≤ x → x < i →
        T.tempspans (SampleIndex S x y) = ⟨32000, -32000⟩))
    (max (S.RowExt (y + 1)).MinCol L.x0) (min (S.RowExt (y + 1)).MaxCol L.x1)
    (rasterizeTri.slopedEmitCell area thr flags masks y) S
    ⟨rfl, rfl, rfl, rfl, fun _ => Or.inr rfl, fun x h1 h2 => by omega⟩
    (by
      intro i T hi1 hi2 ⟨p1, p2, p3, p4, p5, p6⟩
      obtain ⟨f1, f2, f3, f4, f5⟩ := slopedEmitCell_fields area thr flags masks y i T
      have hidx : SampleIndex T i y = SampleIndex S i y := by
        simp only [SampleIndex, p1]
      refine ⟨f1.trans p1, f2.trans p2, f3.trans p3, f4.trans p4, ?_, ?_⟩
      · intro k
        rw [f5, Function.update_apply]
        split
        · exact Or.inl rfl
        · exact p5 k
      · intro x h1 h2
        rw [f5, Function.update_apply]
        split
        · rfl
        · rename_i hne
          by_cases hxi : x = i
          · subst hxi
            exact absurd hidx.symm hne
          · exact p6 x h1 (by omega))
  obtain ⟨p1, p2, p3, p4, p5, p6⟩ := key
  unfold rasterizeTri.slopedEmitRow
  simp only [intMin_eq_min, intMax_eq_max]
  refine ⟨p1, p2, p3, ?_, p5, fun x h1 h2 => p6 x h1 (by omega)⟩
  rw [p4, p1]

theorem slopedEmit_spec (L : rasterizeTri.Locals) (area : Nat) (thr flags : Int)
    (masks : Option (Int → Int)) (D : rcHeightfield) :
    (forLoop L.y0 L.y1 (rasterizeTri.slopedEmitRow L area thr flags masks) D).width = D.width ∧
    (forLoop L.y0 L.y1 (rasterizeTri.slopedEmitRow L area thr flags masks) D).height =
      D.height ∧
    (forLoop L.y0 L.y1 (rasterizeTri.slopedEmitRow L area thr flags masks) D).EdgeHits =
      D.EdgeHits ∧
    (∀ m, (forLoop L.y0 L.y1 (rasterizeTri.slopedEmitRow L area thr flags masks) D).RowExt m =
      if L.y0 + 1 ≤ m ∧ m ≤ L.y1 + 1 then ⟨D.width + 2, -2⟩ else D.RowExt m) ∧
    (∀ k, (forLoop L.y0 L.y1 (rasterizeTri.slopedEmitRow L area thr flags masks) D).tempspans k =
        ⟨32000, -32000⟩ ∨
      (forLoop L.y0 L.y1 (rasterizeTri.slopedEmitRow L area thr flags masks) D).tempspans k =
        D.tempspans k) ∧
    (∀ x y, L.y0 ≤ y → y ≤ L.y1 → max (D.RowExt (y + 1)).MinCol L.x0 ≤ x →
      x ≤ min (D.RowExt (y + 1)).MaxCol L.x1 →
      (forLoop L.y0 L.y1 (rasterizeTri.slopedEmitRow L area thr flags masks) D).tempspans
        (SampleIndex D x y) = ⟨32000, -32000⟩) := by
  have key := forLoop_induction
    (fun i (T : rcHeightfield) => T.width = D.width ∧ T.height = D.height ∧
      T.EdgeHits = D.EdgeHits ∧
      (∀ m, T.RowExt m = if L.y0 + 1 ≤ m ∧ m < i + 1 then ⟨D.width + 2, -2⟩ else D.RowExt m) ∧
      (∀ k, T.tempspans k = ⟨32000, -32000⟩ ∨ T.tempspans k = D.tempspans k) ∧
      (∀ x y, L.y0 ≤ y → y < i → max (D.RowExt (y + 1)).MinCol L.x0 ≤ x →
        x ≤ min (D.RowExt (y + 1)).MaxCol L.x1 →
        T.tempspans (SampleIndex D x y) = ⟨32000, -32000⟩))
    L.y0 L.y1 (rasterizeTri.slopedEmitRow L area thr flags masks) D
    ⟨rfl, rfl, rfl, fun m => by
        have : ¬ (L.y0 + 1 ≤ m ∧ m < L.y0 + 1) := by omega
        rw [if_neg this],
      fun _ => Or.inr rfl, fun x y h1 h2 => by omega⟩
    (by
      intro i T hi1 hi2 ⟨p1, p2, p3, p4, p5, p6⟩
      obtain ⟨f1, f2, f3, f4, f5, f6⟩ := slopedEmitRow_spec L area thr flags masks i T
      have hrow : T.RowExt (i + 1) = D.RowExt (i + 1) := by
        have : ¬ (L.y0 + 1 ≤ i + 1 ∧ i + 1 < i + 1) := by omega
        rw [p4, if_neg this]
      refine ⟨f1.trans p1, f2.trans p2, f3.trans p3, ?_, ?_, ?_⟩
      · intro m
        rw [f4, Function.update_apply, p1]
        by_cases hm : m = i + 1
        · subst hm
          have : L.y0 + 1 ≤ i + 1 ∧ i + 1 < i + 1 + 1 := by omega
          rw [if_pos rfl, if_pos this]
        · have hiff : (L.y0 + 1 ≤ m ∧ m < i + 1 + 1) ↔ (L.y0 + 1 ≤ m ∧ m < i + 1) := by omega
          rw [if_neg hm, p4 m]
          simp only [hiff]
      · intro k
        rcases f5 k with h | h
        · exact Or.inl h
        · rw [h]; exact p5 k
      · intro x y h1 h2 h3 h4
        by_cases hyi : y = i
        · subst hyi
          have hidx : SampleIndex T x y = SampleIndex D x y := by
            simp only [SampleIndex, p1]
          rw [← hidx]
          apply f6 x
          · rw [hrow]; exact h3
          · rw [hrow]; exact h4
        · rcases f5 (SampleIndex D x y) with h | h
          · exact h
          · rw [h]
            exact p6 x y h1 (by omega) h3 h4)
  obtain ⟨p1, p2, p3, p4, p5, p6⟩ := key
  refine ⟨p1, p2, p3, ?_, p5, fun x y h1 h2 h3 h4 => p6 x y h1 (by omega) h3 h4⟩
  intro m
  have hiff : (L.y0 + 1 ≤ m ∧ m < max L.y0 (L.y1 + 1) + 1) ↔ (L.y0 + 1 ≤ m ∧ m ≤ L.y1 + 1) := by
    omega
  rw [p4 m]
  simp only [hiff]

/-- The sloped path leaves clean scratch buffers clean. -/
theorem sloped_scratchClean {L : rasterizeTri.Locals} {B : rcHeightfield}
    (c : L.Consistent B.width B.height) (hB : scratchClean B) (area : Nat) (thr flags : Int)
    (masks : Option (Int → Int)) :
    (rasterizeTri.sloped L area thr flags masks B).width = B.width ∧
    (rasterizeTri.sloped L area thr flags masks B).height = B.height ∧
    scratchClean (rasterizeTri.sloped L area thr flags masks B) := by
  obtain ⟨t0, e0, g0⟩ := slopedBaseVerts_spec c (fun _ => (⟨0, 0, 0⟩ : Vec3))
  have hy0 : 0 ≤ L.y0 := by rw [c.y0_eq]; omega
  have hy1 : L.y1_edge ≤ B.height := by rw [c.y1_edge_eq]; omega
  obtain ⟨t1, e1⟩ := slopedHorizontals_spec c _ g0 t0 (by
    intro y h1 h2 h3
    rw [e0 y] at h3 ⊢
    have := ((hitsAfterRecording_spec L B.EdgeHits y
      (hB.edgeHits y (by omega) (by omega))).1 h3)
    exact ⟨this.1, this.2.1⟩)
  obtain ⟨f1, f2, f3, f4, f5, f6⟩ := slopedEmit_spec L area thr flags masks
    (rasterizeTri.slopedHorizontals L
      ([0, 1, 2].foldl (fun st basevert => rasterizeTri.slopedBaseVert L basevert st)
        (B, fun _ => (⟨0, 0, 0⟩ : Vec3))).2
      ([0, 1, 2].foldl (fun st basevert => rasterizeTri.slopedBaseVert L basevert st)
        (B, fun _ => (⟨0, 0, 0⟩ : Vec3))).1)
  unfold rasterizeTri.sloped
  simp only
  refine ⟨f1.trans t1.width_eq, f2.trans t1.height_eq, ?_, ?_, ?_⟩
  · intro y h1 h2
    rw [f2.trans t1.height_eq] at h2
    rw [f3, e1 y, e0 y]
    obtain ⟨s1, s2⟩ := hitsAfterRecording_spec L B.EdgeHits y (hB.edgeHits y h1 h2)
    by_cases hz : (hitsAfterRecording L B.EdgeHits y).Hits0 ≠ 0
    · have := s1 hz
      rw [if_pos ⟨this.2.2.1, this.2.2.2, hz⟩]
    · have hz' : (hitsAfterRecording L B.EdgeHits y).Hits0 = 0 := not_not.1 hz
      have : ¬ (max (L.minRow + 1) L.y0 ≤ y ∧ y ≤ min L.maxRow L.y1_edge ∧
          (hitsAfterRecording L B.EdgeHits y).Hits0 ≠ 0) := fun h => hz h.2.2
      rw [if_neg this]
      exact s2 hz'
  · intro i h1 h2
    rw [f2.trans t1.height_eq] at h2
    rw [f4 i, f1.trans t1.width_eq, t1.width_eq]
    by_cases hr : L.y0 + 1 ≤ i ∧ i ≤ L.y1 + 1
    · rw [if_pos hr]
    · rw [if_neg hr, t1.rowExt_frame i hr (by omega) (by omega)]
      exact hB.rowExt i h1 h2
  · intro x y hx0 hx1 hy0' hy1'
    rw [f1.trans t1.width_eq] at hx1
    rw [f2.trans t1.height_eq] at hy1'
    have hidx : SampleIndex (forLoop L.y0 L.y1
        (rasterizeTri.slopedEmitRow L area thr flags masks)
        (rasterizeTri.slopedHorizontals L
          ([0, 1, 2].foldl (fun st basevert => rasterizeTri.slopedBaseVert L basevert st)
            (B, fun _ => (⟨0, 0, 0⟩ : Vec3))).2
          ([0, 1, 2].foldl (fun st basevert => rasterizeTri.slopedBaseVert L basevert st)
            (B, fun _ => (⟨0, 0, 0⟩ : Vec3))).1)) x y = SampleIndex B x y := by
      simp only [SampleIndex, f1.trans t1.width_eq]
    have hidx' : SampleIndex (rasterizeTri.slopedHorizontals L
          ([0, 1, 2].foldl (fun st basevert => rasterizeTri.slopedBaseVert L basevert st)
            (B, fun _ => (⟨0, 0, 0⟩ : Vec3))).2
          ([0, 1, 2].foldl (fun st basevert => rasterizeTri.slopedBaseVert L basevert st)
            (B, fun _ => (⟨0, 0, 0⟩ : Vec3))).1) x y = SampleIndex B x y := by
      simp only [SampleIndex, t1.width_eq]
    rw [hidx]
    rcases t1.temp_track x y hx0 hx1 hy0' hy1' with h | ⟨a1, a2, a3, a4, a5, a6⟩
    · rcases f5 (SampleIndex B x y) with h' | h'
      · exact h'
      · rw [h', h]
        exact hB.tempspans x y hx0 hx1 hy0' hy1'
    · rw [← hidx']
      exact f6 x y a3 a4 (by omega) (by omega)

/-! ## Theorems: the flat path -/

theorem FlatTracked.flat_step {L : rasterizeTri.Locals} {B S : rcHeightfield}
    (t : FlatTracked L B S) (x y : Int) (hy : rowOK L B.height y) :
    FlatTracked L B (addFlatSpanSample S x y) :=
  ⟨t.1.step_flat x y hy, t.2⟩

theorem FlatTracked.flat_ite {L : rasterizeTri.Locals} {B a b : rcHeightfield} {c : Prop}
    [Decidable c] (ha : c → FlatTracked L B a) (hb : ¬ c → FlatTracked L B b) :
    FlatTracked L B (if c then a else b) := by
  by_cases h : c
  · rw [if_pos h]; exact ha h
  · rw [if_neg h]; exact hb h

theorem recordEdge_flatTracked {L : rasterizeTri.Locals} {B S : rcHeightfield}
    (t : FlatTracked L B S) (b : Nat) : FlatTracked L B (rasterizeTri.recordEdge L b S) := by
  refine ⟨recordEdge_tracked t.1 b, ?_⟩
  unfold rasterizeTri.recordEdge
  exact ite_field _ _ _ (fun T => T.tempspans) _
    (forLoop_invariant (fun T : rcHeightfield => T.tempspans = B.tempspans) _ _ _ _ t.2
      (fun i T _ _ h => h)) t.2

theorem flatVertical_tracked {L : rasterizeTri.Locals} {B : rcHeightfield} (b edge : Nat)
    (edges : Nat → Vec3) (x : Int) (st : rcHeightfield × ℚ) (t : FlatTracked L B st.1) :
    FlatTracked L B (rasterizeTri.flatVertical L b edge edges x st).1 := by
  unfold rasterizeTri.flatVertical
  refine FlatTracked.flat_ite (fun hy => ?_) (fun _ => t)
  have ry : rowOK L B.height _ := Or.inl ⟨hy.1, hy.2⟩
  exact (t.flat_step _ _ ry).flat_step _ _ ry

theorem flatVertical_EdgeHits (L : rasterizeTri.Locals) (b edge : Nat) (edges : Nat → Vec3)
    (x : Int) (st : rcHeightfield × ℚ) :
    (rasterizeTri.flatVertical L b edge edges x st).1.EdgeHits = st.1.EdgeHits := by
  unfold rasterizeTri.flatVertical
  simp only
  split <;> rfl

theorem flatBaseVert_tracked {L : rasterizeTri.Locals} {B : rcHeightfield} (b : Nat)
    (st : rcHeightfield × (Nat → Vec3)) (t : FlatTracked L B st.1) :
    FlatTracked L B (rasterizeTri.flatBaseVert L b st).1 := by
  unfold rasterizeTri.flatBaseVert
  have t1 : FlatTracked L B
      (if (L.intverts b).1 ≥ L.x0 ∧ (L.intverts b).1 ≤ L.x1 ∧ (L.intverts b).2 ≥ L.y0 ∧
          (L.intverts b).2 ≤ L.y1 then
        addFlatSpanSample st.1 (L.intverts b).1 (L.intverts b).2
      else st.1) :=
    FlatTracked.flat_ite (fun hg => t.flat_step _ _ (Or.inl ⟨hg.2.2.1, hg.2.2.2⟩))
      (fun _ => t)
  have t2 := recordEdge_flatTracked t1 b
  refine FlatTracked.flat_ite (fun _ => ?_) (fun _ => t2)
  exact forLoop_invariant (fun s : rcHeightfield × ℚ => FlatTracked L B s.1) _ _ _ _ t2
    (fun i s _ _ hs => flatVertical_tracked b _ _ i s hs)

theorem flatBaseVert_edges (L : rasterizeTri.Locals) (b : Nat)
    (st : rcHeightfield × (Nat → Vec3)) :
    (rasterizeTri.flatBaseVert L b st).2 = rasterizeTri.setEdge L b st.2 := by
  unfold rasterizeTri.flatBaseVert
  rfl

theorem flatBaseVert_EdgeHits (L : rasterizeTri.Locals) (b : Nat)
    (st : rcHeightfield × (Nat → Vec3)) (y : Int) :
    (rasterizeTri.flatBaseVert L b st).1.EdgeHits y =
      if crossesRow L b y then recordedHit (edgeBits b) (st.1.EdgeHits y)
      else st.1.EdgeHits y := by
  have h1 : ∀ (g : Prop) [Decidable g] (x z : Int),
      (if g then addFlatSpanSample st.1 x z else st.1).EdgeHits = st.1.EdgeHits := by
    intro g _ x z
    split <;> rfl
  have h2 : ∀ (S : rcHeightfield) (g : Prop) [Decidable g] (lo hi : Int) (e : Nat)
      (edges : Nat → Vec3) (cx : ℚ),
      (if g then (forLoop lo hi (rasterizeTri.flatVertical L b e edges) (S, cx)).1
        else S).EdgeHits = S.EdgeHits := by
    intro S g _ lo hi e edges cx
    split
    · exact forLoop_invariant (fun s : rcHeightfield × ℚ => s.1.EdgeHits = S.EdgeHits) _ _ _ _
        rfl (fun i s _ _ h => (flatVertical_EdgeHits L b e edges i s).trans h)
    · rfl
  unfold rasterizeTri.flatBaseVert
  simp only
  rw [h2, recordEdge_EdgeHits, h1]

theorem flatBaseVerts_spec (L : rasterizeTri.Locals) (B : rcHeightfield) (edges : Nat → Vec3) :
    FlatTracked L B
      ([0, 1, 2].foldl (fun st basevert => rasterizeTri.flatBaseVert L basevert st)
        (B, edges)).1 ∧
    (∀ y, ([0, 1, 2].foldl (fun st basevert => rasterizeTri.flatBaseVert L basevert st)
        (B, edges)).1.EdgeHits y = hitsAfterRecording L B.EdgeHits y) ∧
    edgesSet L ([0, 1, 2].foldl (fun st basevert => rasterizeTri.flatBaseVert L basevert st)
        (B, edges)).2 := by
  simp only [List.foldl]
  refine ⟨?_, ?_, ?_⟩
  · exact flatBaseVert_tracked 2 _
      (flatBaseVert_tracked 1 _ (flatBaseVert_tracked 0 _ ⟨Tracked.refl L B, rfl⟩))
  · intro y
    rw [flatBaseVert_EdgeHits, flatBaseVert_EdgeHits, flatBaseVert_EdgeHits]
    rfl
  · rw [flatBaseVert_edges, flatBaseVert_edges, flatBaseVert_edges]
    exact setEdge_edgesSet L edges

theorem flatHit_tracked {L : rasterizeTri.Locals} {B S : rcHeightfield}
    (t : FlatTracked L B S) (edges : Nat → Vec3) (y : Int)
    (cz : ℚ) (hit : Nat) (hy : rowOK L B.height y ∧ rowOK L B.height (y - 1)) :
    FlatTracked L B (rasterizeTri.flatHit L edges y cz hit S).1 := by
  unfold rasterizeTri.flatHit
  exact FlatTracked.flat_ite (fun _ => (t.flat_step _ _ hy.1).flat_step _ _ hy.2)
    (fun _ => t)

theorem flatHit_EdgeHits (L : rasterizeTri.Locals) (S : rcHeightfield) (edges : Nat → Vec3)
    (y : Int) (cz : ℚ) (hit : Nat) :
    (rasterizeTri.flatHit L edges y cz hit S).1.EdgeHits = S.EdgeHits := by
  unfold rasterizeTri.flatHit
  simp only
  split <;> rfl

theorem flatFill_tracked {L : rasterizeTri.Locals} {B S : rcHeightfield}
    (t : FlatTracked L B S) (y : Int) (Inter0 Inter1 : Vec3) (xInter0 xInter1 : Int)
    (hy : rowOK L B.height y ∧ rowOK L B.height (y - 1)) :
    FlatTracked L B (rasterizeTri.flatFill L y Inter0 Inter1 xInter0 xInter1 S) := by
  unfold rasterizeTri.flatFill
  refine FlatTracked.flat_ite (fun _ => ?_) (fun _ => t)
  refine FlatTracked.flat_ite (fun _ => ?_) (fun _ => t)
  exact (((((((t.flat_step _ _ hy.1).flat_step _ _ hy.1).flat_step _ _
    hy.1).flat_step _ _ hy.1).flat_step _ _ hy.2).flat_step _ _
    hy.2).flat_step _ _ hy.2).flat_step _ _ hy.2

theorem flatFill_EdgeHits (L : rasterizeTri.Locals) (S : rcHeightfield) (y : Int)
    (Inter0 Inter1 : Vec3) (xInter0 xInter1 : Int) :
    (rasterizeTri.flatFill L y Inter0 Inter1 xInter0 xInter1 S).EdgeHits = S.EdgeHits := by
  unfold rasterizeTri.flatFill
  exact ite_field _ _ _ (fun T => T.EdgeHits) _
    (ite_field _ _ _ (fun T => T.EdgeHits) _
      (by simp only [addFlatSpanSample_EdgeHits]) rfl) rfl

theorem flatHorizontal_spec {L : rasterizeTri.Locals} {B : rcHeightfield}
    (edges : Nat → Vec3) (y : Int) (st : rcHeightfield × ℚ) (t : FlatTracked L B st.1)
    (hy : rowOK L B.height y ∧ rowOK L B.height (y - 1)) :
    FlatTracked L B (rasterizeTri.flatHorizontal L edges y st).1 ∧
      (rasterizeTri.flatHorizontal L edges y st).1.EdgeHits =
        if (st.1.EdgeHits y).Hits0 ≠ 0 then Function.update st.1.EdgeHits y ⟨0, 0⟩
        else st.1.EdgeHits := by
  unfold rasterizeTri.flatHorizontal
  by_cases h : (st.1.EdgeHits y).Hits0 ≠ 0
  · simp only [if_pos h]
    have t0 := flatHit_tracked t edges y st.2 (st.1.EdgeHits y).Hits0 hy
    have t1 := flatHit_tracked t0 edges y st.2 (st.1.EdgeHits y).Hits1 hy
    have t2 := flatFill_tracked t1 y
      (rasterizeTri.flatHit L edges y st.2 (st.1.EdgeHits y).Hits0 st.1).2.1
      (rasterizeTri.flatHit L edges y st.2 (st.1.EdgeHits y).Hits1
        (rasterizeTri.flatHit L edges y st.2 (st.1.EdgeHits y).Hits0 st.1).1).2.1
      (rasterizeTri.flatHit L edges y st.2 (st.1.EdgeHits y).Hits0 st.1).2.2
      (rasterizeTri.flatHit L edges y st.2 (st.1.EdgeHits y).Hits1
        (rasterizeTri.flatHit L edges y st.2 (st.1.EdgeHits y).Hits0 st.1).1).2.2 hy
    refine ⟨⟨t2.1.congr rfl rfl rfl rfl rfl, t2.2⟩, ?_⟩
    simp only [flatFill_EdgeHits, flatHit_EdgeHits]
  · simp only [if_neg h]
    exact ⟨t, trivial⟩

theorem flatHorizontals_spec {L : rasterizeTri.Locals} {B S : rcHeightfield}
    (c : L.Consistent B.width B.height) (edges : Nat → Vec3) (t : FlatTracked L B S) :
    FlatTracked L B (rasterizeTri.flatHorizontals L edges S) ∧
      ∀ y, (rasterizeTri.flatHorizontals L edges S).EdgeHits y =
        if max (L.minRow + 1) L.y0 ≤ y ∧ y ≤ min L.maxRow L.y1_edge ∧
            (S.EdgeHits y).Hits0 ≠ 0 then ⟨0, 0⟩
        else S.EdgeHits y := by
  unfold rasterizeTri.flatHorizontals
  have e1 : intMin (L.intverts 0).2 (intMin (L.intverts 1).2 (L.intverts 2).2) = L.minRow := by
    simp only [intMin_eq_min, rasterizeTri.Locals.minRow]
  have e2 : intMax (L.intverts 0).2 (intMax (L.intverts 1).2 (L.intverts 2).2) = L.maxRow := by
    simp only [intMax_eq_max, rasterizeTri.Locals.maxRow]
  rw [e1, e2]
  simp only [intMin_eq_min, intMax_eq_max]
  have key := forLoop_induction
    (fun i (st : rcHeightfield × ℚ) => FlatTracked L B st.1 ∧
      ∀ y, st.1.EdgeHits y =
        if max (L.minRow + 1) L.y0 ≤ y ∧ y < i ∧ (S.EdgeHits y).Hits0 ≠ 0 then ⟨0, 0⟩
        else S.EdgeHits y)
    (max (L.minRow + 1) L.y0) (min L.maxRow L.y1_edge)
    (rasterizeTri.flatHorizontal L edges)
    (S, L.bmin.z + L.cs * ((max (L.minRow + 1) L.y0 : Int) : ℚ))
    ⟨t, fun y => by
      rw [if_neg]
      intro h
      omega⟩
    (by
      intro i st hi1 hi2 hP
      have hrow := Consistent.rowOK_line c i hi1 hi2
      have hcur : st.1.EdgeHits i = S.EdgeHits i := by
        rw [hP.2 i, if_neg]
        intro h
        omega
      obtain ⟨t', e'⟩ := flatHorizontal_spec edges i st hP.1 hrow
      refine ⟨t', fun y => ?_⟩
      rw [e', hcur]
      by_cases hz : (S.EdgeHits i).Hits0 ≠ 0
      · rw [if_pos hz, Function.update_apply]
        by_cases hyi : y = i
        · subst hyi
          rw [if_pos rfl, if_pos ⟨hi1, by omega, hz⟩]
        · rw [if_neg hyi, hP.2 y]
          by_cases hc : max (L.minRow + 1) L.y0 ≤ y ∧ y < i ∧ (S.EdgeHits y).Hits0 ≠ 0
          · rw [if_pos hc, if_pos ⟨hc.1, by omega, hc.2.2⟩]
          · rw [if_neg hc, if_neg]
            intro hc'
            exact hc ⟨hc'.1, by omega, hc'.2.2⟩
      · rw [if_neg hz, hP.2 y]
        by_cases hc : max (L.minRow + 1) L.y0 ≤ y ∧ y < i ∧ (S.EdgeHits y).Hits0 ≠ 0
        · rw [if_pos hc, if_pos ⟨hc.1, by omega, hc.2.2⟩]
        · rw [if_neg hc, if_neg]
          intro hc'
          by_cases hyi : y = i
          · subst hyi; exact hz hc'.2.2
          · exact hc ⟨hc'.1, by omega, hc'.2.2⟩)
  refine ⟨key.1, fun y => ?_⟩
  have := key.2 y
  simp only at this
  rw [this]
  by_cases hc : max (L.minRow + 1) L.y0 ≤ y ∧ y ≤ min L.maxRow L.y1_edge ∧
      (S.EdgeHits y).Hits0 ≠ 0
  · rw [if_pos hc, if_pos ⟨hc.1, by omega, hc.2.2⟩]
  · rw [if_neg hc, if_neg]
    intro hc'
    exact hc ⟨hc'.1, by omega, hc'.2.2⟩

theorem flatEmitRow_spec (L : rasterizeTri.Locals) (area : Nat) (thr : Int)
    (smin smax : Int → Nat) (y : Int) (S : rcHeightfield) :
    (rasterizeTri.flatEmitRow L area thr smin smax y S).width = S.width ∧
    (rasterizeTri.flatEmitRow L area thr smin smax y S).height = S.height ∧
    (rasterizeTri.flatEmitRow L area thr smin smax y S).EdgeHits = S.EdgeHits ∧
    (rasterizeTri.flatEmitRow L area thr smin smax y S).tempspans = S.tempspans ∧
    (rasterizeTri.flatEmitRow L area thr smin smax y S).RowExt =
      Function.update S.RowExt (y + 1) ⟨S.width + 2, -2⟩ := by
  have key := forLoop_invariant
    (fun T : rcHeightfield => T.width = S.width ∧ T.height = S.height ∧
      T.EdgeHits = S.EdgeHits ∧ T.tempspans = S.tempspans ∧ T.RowExt = S.RowExt)
    (intMax (S.RowExt (y + 1)).MinCol L.x0) (intMin (S.RowExt (y + 1)).MaxCol L.x1)
    (fun x hf => addSpan hf x y (smin x) (smax x) area thr) S
    ⟨rfl, rfl, rfl, rfl, rfl⟩
    (fun i T _ _ h => h)
  obtain ⟨p1, p2, p3, p4, p5⟩ := key
  unfold rasterizeTri.flatEmitRow
  refine ⟨p1, p2, p3, p4, ?_⟩
  simp only [p5, p1]

theorem flatEmitRows_spec (L : rasterizeTri.Locals) (area : Nat) (thr : Int)
    (smin smax : Int → Int → Nat) (D : rcHeightfield) :
    (forLoop L.y0 L.y1
      (fun y hf => rasterizeTri.flatEmitRow L area thr (smin y) (smax y) y hf) D).width =
        D.width ∧
    (forLoop L.y0 L.y1
      (fun y hf => rasterizeTri.flatEmitRow L area thr (smin y) (smax y) y hf) D).height =
        D.height ∧
    (forLoop L.y0 L.y1
      (fun y hf => rasterizeTri.flatEmitRow L area thr (smin y) (smax y) y hf) D).EdgeHits =
        D.EdgeHits ∧
    (forLoop L.y0 L.y1
      (fun y hf => rasterizeTri.flatEmitRow L area thr (smin y) (smax y) y hf) D).tempspans =
        D.tempspans ∧
    (∀ m, (forLoop L.y0 L.y1
      (fun y hf => rasterizeTri.flatEmitRow L area thr (smin y) (smax y) y hf) D).RowExt m =
        if L.y0 + 1 ≤ m ∧ m ≤ L.y1 + 1 then ⟨D.width + 2, -2⟩ else D.RowExt m) := by
  have key := forLoop_induction
    (fun i (T : rcHeightfield) => T.width = D.width ∧ T.height = D.height ∧
      T.EdgeHits = D.EdgeHits ∧ T.tempspans = D.tempspans ∧
      (∀ m, T.RowExt m = if L.y0 + 1 ≤ m ∧ m < i + 1 then ⟨D.width + 2, -2⟩ else D.RowExt m))
    L.y0 L.y1 (fun y hf => rasterizeTri.flatEmitRow L area thr (smin y) (smax y) y hf) D
    ⟨rfl, rfl, rfl, rfl, fun m => by
        have : ¬ (L.y0 + 1 ≤ m ∧ m < L.y0 + 1) := by omega
        rw [if_neg this]⟩
    (by
      intro i T hi1 hi2 ⟨p1, p2, p3, p4, p5⟩
      obtain ⟨f1, f2, f3, f4, f5⟩ := flatEmitRow_spec L area thr (smin i) (smax i) i T
      refine ⟨f1.trans p1, f2.trans p2, f3.trans p3, f4.trans p4, ?_⟩
      intro m
      simp only
      rw [f5, Function.update_apply, p1]
      by_cases hm : m = i + 1
      · subst hm
        have : L.y0 + 1 ≤ i + 1 ∧ i + 1 < i + 1 + 1 := by omega
        rw [if_pos rfl, if_pos this]
      · have hiff : (L.y0 + 1 ≤ m ∧ m < i + 1 + 1) ↔ (L.y0 + 1 ≤ m ∧ m < i + 1) := by omega
        rw [if_neg hm, p5 m]
        simp only [hiff])
  obtain ⟨p1, p2, p3, p4, p5⟩ := key
  refine ⟨p1, p2, p3, p4, ?_⟩
  intro m
  have hiff : (L.y0 + 1 ≤ m ∧ m < max L.y0 (L.y1 + 1) + 1) ↔ (L.y0 + 1 ≤ m ∧ m ≤ L.y1 + 1) := by
    omega
  rw [p5 m]
  simp only [hiff]

theorem flatEmit_spec (L : rasterizeTri.Locals) (area : Nat) (thr flags : Int)
    (masks : Option (Int → Int)) (ismin ismax : Int) (D : rcHeightfield) :
    (rasterizeTri.flatEmit L area thr flags masks ismin ismax D).width = D.width ∧
    (rasterizeTri.flatEmit L area thr flags masks ismin ismax D).height = D.height ∧
    (rasterizeTri.flatEmit L area thr flags masks ismin ismax D).EdgeHits = D.EdgeHits ∧
    (rasterizeTri.flatEmit L area thr flags masks ismin ismax D).tempspans = D.tempspans ∧
    (∀ m, (rasterizeTri.flatEmit L area thr flags masks ismin ismax D).RowExt m =
        if L.y0 + 1 ≤ m ∧ m ≤ L.y1 + 1 then ⟨D.width + 2, -2⟩ else D.RowExt m) := by
  unfold rasterizeTri.flatEmit
  cases masks with
  | none => exact flatEmitRows_spec L area thr _ _ D
  | some m => exact flatEmitRows_spec L area thr _ _ D

/-- The flat path leaves clean scratch buffers clean. -/
theorem flat_scratchClean {L : rasterizeTri.Locals} {B : rcHeightfield}
    (c : L.Consistent B.width B.height) (hB : scratchClean B) (area : Nat) (thr flags : Int)
    (masks : Option (Int → Int)) (ismin ismax : Int) :
    (rasterizeTri.flat L area thr flags masks ismin ismax B).width = B.width ∧
    (rasterizeTri.flat L area thr flags masks ismin ismax B).height = B.height ∧
    scratchClean (rasterizeTri.flat L area thr flags masks ismin ismax B) := by
  obtain ⟨t0, e0, _⟩ := flatBaseVerts_spec L B (fun _ => (⟨0, 0, 0⟩ : Vec3))
  have hy0 : 0 ≤ L.y0 := by rw [c.y0_eq]; omega
  have hy1 : L.y1_edge ≤ B.height := by rw [c.y1_edge_eq]; omega
  obtain ⟨t1, e1⟩ := flatHorizontals_spec c
    ([0, 1, 2].foldl (fun st basevert => rasterizeTri.flatBaseVert L basevert st)
      (B, fun _ => (⟨0, 0, 0⟩ : Vec3))).2 t0
  obtain ⟨f1, f2, f3, f4, f5⟩ := flatEmit_spec L area thr flags masks ismin ismax
    (rasterizeTri.flatHorizontals L
      ([0, 1, 2].foldl (fun st basevert => rasterizeTri.flatBaseVert L basevert st)
        (B, fun _ => (⟨0, 0, 0⟩ : Vec3))).2
      ([0, 1, 2].foldl (fun st basevert => rasterizeTri.flatBaseVert L basevert st)
        (B, fun _ => (⟨0, 0, 0⟩ : Vec3))).1)
  unfold rasterizeTri.flat
  simp only
  refine ⟨f1.trans t1.1.width_eq, f2.trans t1.1.height_eq, ?_, ?_, ?_⟩
  · intro y h1 h2
    rw [f2.trans t1.1.height_eq] at h2
    rw [f3, e1 y, e0 y]
    obtain ⟨s1, s2⟩ := hitsAfterRecording_spec L B.EdgeHits y (hB.edgeHits y h1 h2)
    by_cases hz : (hitsAfterRecording L B.EdgeHits y).Hits0 ≠ 0
    · have := s1 hz
      rw [if_pos ⟨this.2.2.1, this.2.2.2, hz⟩]
    · have hz' : (hitsAfterRecording L B.EdgeHits y).Hits0 = 0 := not_not.1 hz
      have : ¬ (max (L.minRow + 1) L.y0 ≤ y ∧ y ≤ min L.maxRow L.y1_edge ∧
          (hitsAfterRecording L B.EdgeHits y).Hits0 ≠ 0) := fun h => hz h.2.2
      rw [if_neg this]
      exact s2 hz'
  · intro i h1 h2
    rw [f2.trans t1.1.height_eq] at h2
    rw [f5 i, f1.trans t1.1.width_eq, t1.1.width_eq]
    by_cases hr : L.y0 + 1 ≤ i ∧ i ≤ L.y1 + 1
    · rw [if_pos hr]
    · rw [if_neg hr, t1.1.rowExt_frame i hr (by omega) (by omega)]
      exact hB.rowExt i h1 h2
  · intro x y hx0 hx1 hy0' hy1'
    rw [f1.trans t1.1.width_eq] at hx1
    rw [f2.trans t1.1.height_eq] at hy1'
    rw [f4, t1.2]
    have := hB.tempspans x y hx0 hx1 hy0' hy1'
    simp only [SampleIndex, f1.trans t1.1.width_eq] at this ⊢
    exact this

/-! ## Theorems: rasterizeTri and the scratch buffers -/

theorem locals_consistent (v0 v1 v2 : Vec3) (hf : rcHeightfield) (bmin : Vec3) (cs ics ich : ℚ) :
    (rasterizeTri.locals v0 v1 v2 hf bmin cs ics ich).Consistent hf.width hf.height := by
  refine ⟨?_, ?_, ?_, ?_, ?_, ?_, ?_⟩
  · intro i
    simp only [rasterizeTri.locals, rasterizeTri.intverts, cellOf]
    split
    · rfl
    · split <;> rfl
  all_goals
    simp only [rasterizeTri.locals, rasterizeTri.Locals.minCol, rasterizeTri.Locals.maxCol,
      rasterizeTri.Locals.minRow, rasterizeTri.Locals.maxRow, intMin_eq_min, intMax_eq_max]

theorem rcCreateHeightfield_scratchClean (width height : Int) (bmin bmax : Vec3) (cs ch : ℚ) :
    scratchClean (rcCreateHeightfield width height bmin bmax cs ch) :=
  ⟨fun _ _ _ => rfl, fun _ _ _ => rfl, fun _ _ _ _ _ _ => rfl⟩

/-- `rasterizeTri` keeps the dimensions of the grid and leaves clean scratch
buffers clean, whatever the triangle. -/
theorem rasterizeTri_scratchClean (v0 v1 v2 : Vec3) (area : Nat) (hf : rcHeightfield)
    (bmin bmax : Vec3) (cs ics ich : ℚ) (flagMergeThr rasterizationFlags : Int)
    (rasterizationMasks : Option (Int → Int)) (h : scratchClean hf) :
    (rasterizeTri v0 v1 v2 area hf bmin bmax cs ics ich flagMergeThr rasterizationFlags
      rasterizationMasks).width = hf.width ∧
    (rasterizeTri v0 v1 v2 area hf bmin bmax cs ics ich flagMergeThr rasterizationFlags
      rasterizationMasks).height = hf.height ∧
    scratchClean (rasterizeTri v0 v1 v2 area hf bmin bmax cs ics ich flagMergeThr
      rasterizationFlags rasterizationMasks) := by
  have c := locals_consistent v0 v1 v2 hf bmin cs ics ich
  unfold rasterizeTri
  simp only
  split
  · exact ⟨rfl, rfl, h⟩
  · split
    · exact ⟨rfl, rfl, h⟩
    · split
      · exact ⟨rfl, rfl, h⟩
      · split
        · exact ⟨rfl, rfl, ⟨h.edgeHits, h.rowExt, h.tempspans⟩⟩
        · split
          · exact flat_scratchClean c h area flagMergeThr rasterizationFlags
              rasterizationMasks _ _
          · exact sloped_scratchClean c h area flagMergeThr rasterizationFlags
              rasterizationMasks

/-- The scratch buffers with exact arithmetic (the first embedding; in single
precision the statement fails, see the last sections of this file). If
before `rasterizeTri` no edge hit is pending, every
`RowExt` entry of a grid row (indices `1..height`) is `(width+2, -2)` and every
`tempspans` entry of an in-grid cell is `(32000, -32000)`, then the same holds
when `rasterizeTri` returns, for every triangle. (The entries of the padding
rows and columns are not covered.) -/
theorem rasterizeTri_restores_scratch_exact (v0 v1 v2 : Vec3) (area : Nat) (hf : rcHeightfield)
    (bmin bmax : Vec3) (cs ics ich : ℚ) (flagMergeThr rasterizationFlags : Int)
    (rasterizationMasks : Option (Int → Int))
    (hE : ∀ y, 0 ≤ y → y ≤ hf.height → hf.EdgeHits y = ⟨0, 0⟩)
    (hR : ∀ i, 1 ≤ i → i ≤ hf.height → hf.RowExt i = ⟨hf.width + 2, -2⟩)
    (hT : ∀ x y, 0 ≤ x → x < hf.width → 0 ≤ y → y < hf.height →
      hf.tempspans (SampleIndex hf x y) = ⟨32000, -32000⟩) :
    (∀ y, 0 ≤ y → y ≤ hf.height →
      (rasterizeTri v0 v1 v2 area hf bmin bmax cs ics ich flagMergeThr rasterizationFlags
        rasterizationMasks).EdgeHits y = ⟨0, 0⟩) ∧
    (∀ i, 1 ≤ i → i ≤ hf.height →
      (rasterizeTri v0 v1 v2 area hf bmin bmax cs ics ich flagMergeThr rasterizationFlags
        rasterizationMasks).RowExt i = ⟨hf.width + 2, -2⟩) ∧
    (∀ x y, 0 ≤ x → x < hf.width → 0 ≤ y → y < hf.height →
      (rasterizeTri v0 v1 v2 area hf bmin bmax cs ics ich flagMergeThr rasterizationFlags
        rasterizationMasks).tempspans (SampleIndex hf x y) = ⟨32000, -32000⟩) := by
  obtain ⟨hw, hh, hc⟩ := rasterizeTri_scratchClean v0 v1 v2 area hf bmin bmax cs ics ich
    flagMergeThr rasterizationFlags rasterizationMasks ⟨hE, hR, hT⟩
  refine ⟨fun y h1 h2 => hc.edgeHits y h1 (by rw [hh]; exact h2),
    fun i h1 h2 => ?_, fun x y h1 h2 h3 h4 => ?_⟩
  · have := hc.rowExt i h1 (by rw [hh]; exact h2)
    rw [hw] at this
    exact this
  · have := hc.tempspans x y h1 (by rw [hw]; exact h2) h3 (by rw [hh]; exact h4)
    simp only [SampleIndex, hw] at this ⊢
    exact this

theorem rasterizeTri_restores_scratch_exact_witness :
    (rasterizeTri ⟨1 / 2, 0, -1 / 2⟩ ⟨1 / 2, 1, 1 / 2⟩ ⟨1 / 4, 0, 1 / 2⟩ 63
      (rcCreateHeightfield 1 1 ⟨0, 0, 0⟩ ⟨1, 1, 1⟩ 1 1) ⟨0, 0, 0⟩ ⟨1, 1, 1⟩ 1 1 1 4 0
      none).RowExt 1 = ⟨1 + 2, -2⟩ :=
  (rasterizeTri_restores_scratch_exact ⟨1 / 2, 0, -1 / 2⟩ ⟨1 / 2, 1, 1 / 2⟩ ⟨1 / 4, 0, 1 / 2⟩ 63
    (rcCreateHeightfield 1 1 ⟨0, 0, 0⟩ ⟨1, 1, 1⟩ 1 1) ⟨0, 0, 0⟩ ⟨1, 1, 1⟩ 1 1 1 4 0 none
    (fun _ _ _ => rfl) (fun _ _ _ => rfl) (fun _ _ _ _ _ _ => rfl)).2.1 1 (by decide)
    (by decide)

/-- The padding entries are not restored, with exact arithmetic already. On a
fresh 1x1 grid every `RowExt` and every
`tempspans` entry holds its sentinel. A flat triangle that reaches from row -1
into row 0 of column 0 leaves `RowExt[0]`, the entry of the padding row -1, at
`(0, 0)` instead of `(3, -2)`; the same triangle with one vertex raised takes
the sloped path and leaves the `tempspans` entry of the padding cell (0, -1),
which it wrote, at `(0, 0)` instead of `(32000, -32000)`. -/
theorem rasterizeTri_restores_scratch_exact_counterexample :
    (∀ i, (rcCreateHeightfield 1 1 ⟨0, 0, 0⟩ ⟨1, 1, 1⟩ 1 1).RowExt i = ⟨1 + 2, -2⟩) ∧
    (∀ i, (rcCreateHeightfield 1 1 ⟨0, 0, 0⟩ ⟨1, 1, 1⟩ 1 1).tempspans i = ⟨32000, -32000⟩) ∧
    (rasterizeTri ⟨1 / 2, 0, -1 / 2⟩ ⟨1 / 2, 0, 1 / 2⟩ ⟨1 / 4, 0, 1 / 2⟩ 63
      (rcCreateHeightfield 1 1 ⟨0, 0, 0⟩ ⟨1, 1, 1⟩ 1 1) ⟨0, 0, 0⟩ ⟨1, 1, 1⟩ 1 1 1 4 0
      none).RowExt 0 = ⟨0, 0⟩ ∧
    (rasterizeTri ⟨1 / 2, 0, -1 / 2⟩ ⟨1 / 2, 1, 1 / 2⟩ ⟨1 / 4, 0, 1 / 2⟩ 63
      (rcCreateHeightfield 1 1 ⟨0, 0, 0⟩ ⟨1, 1, 1⟩ 1 1) ⟨0, 0, 0⟩ ⟨1, 1, 1⟩ 1 1 1 4 0
      none).tempspans (SampleIndex (rcCreateHeightfield 1 1 ⟨0, 0, 0⟩ ⟨1, 1, 1⟩ 1 1) 0 (-1)) =
        ⟨0, 0⟩ :=
  ⟨fun _ => rfl, fun _ => rfl, by decide!, by decide!⟩


/-! ## Theorems: the row ranges as a record of samples -/

theorem addFlatSpanSample_RowExt (S : rcHeightfield) (x y : Int) :
    (addFlatSpanSample S x y).RowExt = markRow S.RowExt x y := rfl

theorem addSpanSample_RowExt (S : rcHeightfield) (x y s : Int) :
    (addSpanSample S x y s).RowExt = markRow S.RowExt x y := rfl

theorem Marks.start (R : Int → rcRowExt) : Marks (fun _ _ => False) R R :=
  ⟨fun _ => le_refl _, fun _ => le_refl _, fun _ _ h => absurd h id, fun _ => Or.inl rfl,
    fun _ => Or.inl rfl⟩

theorem Marks.of_iff {K K' : Int → Int → Prop} {R0 R : Int → rcRowExt} (h : Marks K R0 R)
    (e : ∀ c y, K c y ↔ K' c y) : Marks K' R0 R :=
  ⟨h.le_min, h.le_max, fun c y hk => h.covers c y ((e c y).2 hk),
    fun y => (h.min_mark y).imp id (e _ y).1, fun y => (h.max_mark y).imp id (e _ y).1⟩

/-- Recording one more sample. -/
theorem Marks.mark {K : Int → Int → Prop} {R0 R : Int → rcRowExt} (h : Marks K R0 R)
    (c0 y0 : Int) : Marks (fun c y => K c y ∨ (c = c0 ∧ y = y0)) R0 (markRow R c0 y0) := by
  have hrow : ∀ y, y ≠ y0 → markRow R c0 y0 (y + 1) = R (y + 1) := by
    intro y hy
    unfold markRow
    rw [Function.update_noteq (by omega)]
  have hrow0 : markRow R c0 y0 (y0 + 1) =
      ⟨min (R (y0 + 1)).MinCol c0, max (R (y0 + 1)).MaxCol c0⟩ := by
    unfold markRow
    rw [Function.update_same, intMin_eq_min, intMax_eq_max]
  refine ⟨fun y => ?_, fun y => ?_, fun c y hk => ?_, fun y => ?_, fun y => ?_⟩
  · by_cases hy : y = y0
    · rw [hy, hrow0]
      exact le_trans (min_le_left _ _) (h.le_min y0)
    · rw [hrow y hy]; exact h.le_min y
  · by_cases hy : y = y0
    · rw [hy, hrow0]
      exact le_trans (h.le_max y0) (le_max_left _ _)
    · rw [hrow y hy]; exact h.le_max y
  · by_cases hy : y = y0
    · rw [hy, hrow0]
      rcases hk with hk | ⟨hc, _⟩
      · have := h.covers c y0 (hy ▸ hk)
        exact ⟨le_trans (min_le_left _ _) this.1, le_trans this.2 (le_max_left _ _)⟩
      · rw [hc]
        exact ⟨min_le_right _ _, le_max_right _ _⟩
    · rw [hrow y hy]
      rcases hk with hk | ⟨_, hy'⟩
      · exact h.covers c y hk
      · exact absurd hy' hy
  · by_cases hy : y = y0
    · rw [hy, hrow0]
      rcases le_total (R (y0 + 1)).MinCol c0 with hle | hle
      · simp only [min_eq_left hle]
        exact (h.min_mark y0).imp id Or.inl
      · refine Or.inr (Or.inr ?_)
        simp [min_eq_right hle]
    · rw [hrow y hy]; exact (h.min_mark y).imp id Or.inl
  · by_cases hy : y = y0
    · rw [hy, hrow0]
      rcases le_total (R (y0 + 1)).MaxCol c0 with hle | hle
      · refine Or.inr (Or.inr ?_)
        simp [max_eq_right hle]
      · simp only [max_eq_left hle]
        exact (h.max_mark y0).imp id Or.inl
    · rw [hrow y hy]; exact (h.max_mark y).imp id Or.inl

/-- Recording samples in every turn of a loop. `proj` reads the row ranges off
the loop state, `A` is an invariant of the rest of the state, and `Kb i` are the
samples of turn `i`. -/
theorem Marks.loop {σ : Type} (proj : σ → (Int → rcRowExt)) (A : Int → σ → Prop)
    (Kb : Int → Int → Int → Prop) (lo hi : Int) (body : Int → σ → σ) (s : σ)
    (K0 : Int → Int → Prop) (R0 : Int → rcRowExt) (h0 : Marks K0 R0 (proj s)) (hA0 : A lo s)
    (hstep : ∀ i t, lo ≤ i → i ≤ hi → A i t →
      A (i + 1) (body i t) ∧
      ∀ K, Marks K R0 (proj t) → Marks (fun c y => K c y ∨ Kb i c y) R0 (proj (body i t))) :
    Marks (fun c y => K0 c y ∨ ∃ i, lo ≤ i ∧ i ≤ hi ∧ Kb i c y) R0
        (proj (forLoop lo hi body s)) ∧
      A (max lo (hi + 1)) (forLoop lo hi body s) := by
  have key := forLoop_induction
    (fun i t => A i t ∧
      Marks (fun c y => K0 c y ∨ ∃ k, lo ≤ k ∧ k < i ∧ Kb k c y) R0 (proj t))
    lo hi body s
    ⟨hA0, h0.of_iff (fun c y => ⟨Or.inl, fun h => h.elim id
      (fun ⟨k, h1, h2, _⟩ => absurd h2 (not_lt.2 h1))⟩)⟩
    (by
      intro i t hi1 hi2 ⟨hA, hM⟩
      obtain ⟨hA', hM'⟩ := hstep i t hi1 hi2 hA
      refine ⟨hA', (hM' _ hM).of_iff (fun c y => ⟨?_, ?_⟩)⟩
      · rintro ((h | ⟨k, h1, h2, h3⟩) | h)
        · exact Or.inl h
        · exact Or.inr ⟨k, h1, by omega, h3⟩
        · exact Or.inr ⟨i, hi1, by omega, h⟩
      · rintro (h | ⟨k, h1, h2, h3⟩)
        · exact Or.inl (Or.inl h)
        · by_cases hk : k = i
          · subst hk; exact Or.inr h3
          · exact Or.inl (Or.inr ⟨k, h1, by omega, h3⟩))
  refine ⟨key.2.of_iff (fun c y => ⟨?_, ?_⟩), key.1⟩
  · rintro (h | ⟨k, h1, h2, h3⟩)
    · exact Or.inl h
    · exact Or.inr ⟨k, h1, by omega, h3⟩
  · rintro (h | ⟨k, h1, h2, h3⟩)
    · exact Or.inl h
    · exact Or.inr ⟨k, h1, by omega, h3⟩

theorem Marks.ite {K : Int → Int → Prop} {R0 : Int → rcRowExt} {g : Prop} [Decidable g]
    {a b : rcHeightfield} (ha : g → Marks K R0 a.RowExt) (hb : ¬ g → Marks K R0 b.RowExt) :
    Marks K R0 (if g then a else b).RowExt := by
  by_cases h : g
  · rw [if_pos h]; exact ha h
  · rw [if_neg h]; exact hb h

/-! ## Theorems: plane geometry of a triangle over the grid lines -/

theorem OnSeg.rev {A B q : ℚ × ℚ} (h : OnSeg A B q) : OnSeg B A q := by
  obtain ⟨t, h0, h1, hx, hy⟩ := h
  exact ⟨1 - t, by linarith, by linarith, by rw [hx]; ring, by rw [hy]; ring⟩

theorem OnSeg.left (A B : ℚ × ℚ) : OnSeg A B A := ⟨0, le_refl _, zero_le_one, by ring, by ring⟩

theorem OnSeg.right (A B : ℚ × ℚ) : OnSeg A B B := (OnSeg.left B A).rev

theorem InTri.swap {A B C q : ℚ × ℚ} (h : InTri A B C q) : InTri B A C q := by
  obtain ⟨a, b, c, ha, hb, hc, hs, hx, hy⟩ := h
  exact ⟨b, a, c, hb, ha, hc, by linarith, by rw [hx]; ring, by rw [hy]; ring⟩

/-- A weighted mean is at most the greatest of the values. -/
theorem mean_le (m a0 a1 a2 α β γ : ℚ) (hα : 0 ≤ α) (hβ : 0 ≤ β) (hγ : 0 ≤ γ)
    (hs : α + β + γ = 1) (h0 : a0 ≤ m) (h1 : a1 ≤ m) (h2 : a2 ≤ m) :
    α * a0 + β * a1 + γ * a2 ≤ m := by
  have e : m = α * m + β * m + γ * m := by rw [← add_mul, ← add_mul, hs, one_mul]
  linarith [mul_le_mul_of_nonneg_left h0 hα, mul_le_mul_of_nonneg_left h1 hβ,
    mul_le_mul_of_nonneg_left h2 hγ]

theorem setEdge_at (L : rasterizeTri.Locals) (b : Nat) (E : Nat → Vec3) :
    rasterizeTri.setEdge L b E (if b = 0 then 2 else b - 1) = L.edgeVec b ∧
    rasterizeTri.setEdge L b E (3 + (if b = 0 then 2 else b - 1)) = L.edgeInv b := by
  unfold rasterizeTri.setEdge rasterizeTri.Locals.edgeInv rasterizeTri.Locals.edgeVec
  constructor
  · rw [Function.update_noteq (by omega), Function.update_same]
  · rw [Function.update_same]

theorem setEdge_edgesInv (L : rasterizeTri.Locals) (edges : Nat → Vec3) :
    edgesInv L (rasterizeTri.setEdge L 2 (rasterizeTri.setEdge L 1
      (rasterizeTri.setEdge L 0 edges))) := by
  simp [edgesInv, rasterizeTri.setEdge, Function.update_apply, rasterizeTri.Locals.edgeInv,
    rasterizeTri.Locals.edgeVec]

theorem recordEdge_RowExt (L : rasterizeTri.Locals) (b : Nat) (S : rcHeightfield) :
    (rasterizeTri.recordEdge L b S).RowExt = S.RowExt := by
  unfold rasterizeTri.recordEdge
  exact ite_field _ _ _ (fun T => T.RowExt) _
    (forLoop_invariant (fun T : rcHeightfield => T.RowExt = S.RowExt) _ _ _ _ rfl
      (fun i T _ _ h => h)) rfl

/-- The edge hits of a row boundary after the loop over `basevert`: nothing, or
the bytes of the two edges that cross it, in the order of their vertices. -/
theorem hits_cases (L : rasterizeTri.Locals) (E : Int → rcEdgeHit) (k : Int)
    (hE : E k = ⟨0, 0⟩) :
    (hitsAfterRecording L E k = ⟨0, 0⟩ ∧ ∀ b, b < 3 → ¬ crossesRow L b k) ∨
    ∃ b1 b2, b1 < b2 ∧ b2 < 3 ∧ crossesRow L b1 k ∧ crossesRow L b2 k ∧
      (∀ b, b < 3 → crossesRow L b k → b = b1 ∨ b = b2) ∧
      hitsAfterRecording L E k = ⟨edgeBits b1, edgeBits b2⟩ := by
  obtain ⟨b0, b1, b2⟩ := edgeBits_values
  rcases crossesRow_pairs L k with ⟨c0, c1, c2⟩ | ⟨c0, c1, c2⟩ | ⟨c0, c1, c2⟩ | ⟨c0, c1, c2⟩
  · left
    refine ⟨by simp only [hitsAfterRecording, if_neg c0, if_neg c1, if_neg c2, hE], ?_⟩
    intro b hb
    interval_cases b
    · exact c0
    · exact c1
    · exact c2
  · right
    refine ⟨0, 1, by omega, by omega, c0, c1, ?_, ?_⟩
    · intro b hb hc
      interval_cases b
      · exact Or.inl rfl
      · exact Or.inr rfl
      · exact absurd hc c2
    · simp only [hitsAfterRecording, if_pos c0, if_pos c1, if_neg c2, hE, recordedHit, b0]
      rfl
  · right
    refine ⟨0, 2, by omega, by omega, c0, c2, ?_, ?_⟩
    · intro b hb hc
      interval_cases b
      · exact Or.inl rfl
      · exact absurd hc c1
      · exact Or.inr rfl
    · simp only [hitsAfterRecording, if_pos c0, if_neg c1, if_pos c2, hE, recordedHit, b0]
      rfl
  · right
    refine ⟨1, 2, by omega, by omega, c1, c2, ?_, ?_⟩
    · intro b hb hc
      interval_cases b
      · exact absurd hc c0
      · exact Or.inl rfl
      · exact Or.inr rfl
    · simp only [hitsAfterRecording, if_neg c0, if_pos c1, if_pos c2, hE, recordedHit, b1]
      rfl

/-- The decoding of a recorded byte (lines 365-366 and 540-541). -/
theorem edgeBits_decode (b : Nat) (hb : b < 3) :
    edgeBits b &&& 3 = b ∧ edgeBits b >>> 4 = (if b = 0 then 2 else b - 1) ∧
      edgeBits b ≠ 0 := by
  interval_cases b <;> decide

/-- With the three edges set, the rows of `edges` that a recorded byte selects
hold the vector of the edge and its inverse. -/
theorem edges_of_hit (L : rasterizeTri.Locals) (edges : Nat → Vec3) (he : edgesSet L edges)
    (hi : edgesInv L edges) (b : Nat) (hb : b < 3) :
    edges (edgeBits b >>> 4) = L.edgeVec b ∧ edges (3 + edgeBits b >>> 4) = L.edgeInv b := by
  obtain ⟨e2, e0, e1⟩ := he
  obtain ⟨i5, i3, i4⟩ := hi
  interval_cases b
  · exact ⟨by rw [show edgeBits 0 >>> 4 = 2 from by decide, e2]; rfl,
      by rw [show 3 + edgeBits 0 >>> 4 = 5 from by decide, i5]⟩
  · exact ⟨by rw [show edgeBits 1 >>> 4 = 0 from by decide, e0]; rfl,
      by rw [show 3 + edgeBits 1 >>> 4 = 3 from by decide, i3]⟩
  · exact ⟨by rw [show edgeBits 2 >>> 4 = 1 from by decide, e1]; rfl,
      by rw [show 3 + edgeBits 2 >>> 4 = 4 from by decide, i4]⟩

theorem flatVertical_marks (L : rasterizeTri.Locals) (b : Nat) (edges : Nat → Vec3) (x : Int)
    (st : rcHeightfield × ℚ) (he : edges (if b = 0 then 2 else b - 1) = L.edgeVec b)
    (hi : edges (3 + (if b = 0 then 2 else b - 1)) = L.edgeInv b)
    (hcx : st.2 = L.bmin.x + L.cs * (x : ℚ)) (R0 : Int → rcRowExt) :
    (rasterizeTri.flatVertical L b (if b = 0 then 2 else b - 1) edges x st).2 =
      L.bmin.x + L.cs * ((x + 1 : Int) : ℚ) ∧
    ∀ K, Marks K R0 st.1.RowExt → Marks (fun c y => K c y ∨ columnMarkAt L b x c y) R0
      (rasterizeTri.flatVertical L b (if b = 0 then 2 else b - 1) edges x st).1.RowExt := by
  constructor
  · show st.2 + L.cs = _
    rw [hcx]; push_cast; ring
  · intro K hK
    unfold rasterizeTri.flatVertical
    simp only [he, hi, hcx]
    by_cases hg : (cellOf L.bmin L.ics (L.crossX b x)).2 ≥ L.y0 ∧
        (cellOf L.bmin L.ics (L.crossX b x)).2 ≤ L.y1
    · have hg' := hg
      simp only [cellOf, rasterizeTri.Locals.crossX] at hg'
      rw [if_pos hg']
      simp only [addFlatSpanSample_RowExt]
      refine ((hK.mark _ _).mark _ _).of_iff (fun c y => ?_)
      unfold columnMarkAt
      constructor
      · rintro ((h | ⟨h1, h2⟩) | ⟨h1, h2⟩)
        · exact Or.inl h
        · exact Or.inr ⟨by rw [h2]; exact hg, h2, Or.inl h1⟩
        · exact Or.inr ⟨by rw [h2]; exact hg, h2, Or.inr h1⟩
      · rintro (h | ⟨_, h2, h3 | h3⟩)
        · exact Or.inl (Or.inl h)
        · exact Or.inl (Or.inr ⟨h3, h2⟩)
        · exact Or.inr ⟨h3, h2⟩
    · have hg' := hg
      simp only [cellOf, rasterizeTri.Locals.crossX] at hg'
      rw [if_neg hg']
      refine hK.of_iff (fun c y => ⟨Or.inl, ?_⟩)
      rintro (h | ⟨h1, h2, _⟩)
      · exact h
      · rw [h2] at h1
        exact absurd h1 hg

theorem flatVertical_loop_marks (L : rasterizeTri.Locals) (b : Nat) (edges : Nat → Vec3)
    (lo hi : Int) (S : rcHeightfield) (R0 : Int → rcRowExt) (K : Int → Int → Prop)
    (he : edges (if b = 0 then 2 else b - 1) = L.edgeVec b)
    (hi' : edges (3 + (if b = 0 then 2 else b - 1)) = L.edgeInv b)
    (hK : Marks K R0 S.RowExt) :
    Marks (fun c y => K c y ∨ ∃ k, lo ≤ k ∧ k ≤ hi ∧ columnMarkAt L b k c y) R0
      (forLoop lo hi (rasterizeTri.flatVertical L b (if b = 0 then 2 else b - 1) edges)
        (S, L.bmin.x + L.cs * (lo : ℚ))).1.RowExt :=
  (Marks.loop (fun s : rcHeightfield × ℚ => s.1.RowExt)
    (fun i s => s.2 = L.bmin.x + L.cs * (i : ℚ)) (columnMarkAt L b) lo hi
    (rasterizeTri.flatVertical L b (if b = 0 then 2 else b - 1) edges)
    (S, L.bmin.x + L.cs * (lo : ℚ)) K R0 hK rfl
    (fun i t _ _ hA => flatVertical_marks L b edges i t he hi' hA R0)).1

theorem flatBaseVert_marks (L : rasterizeTri.Locals) (b : Nat)
    (st : rcHeightfield × (Nat → Vec3)) (R0 : Int → rcRowExt) (K : Int → Int → Prop)
    (hK : Marks K R0 st.1.RowExt) :
    Marks (fun c y => K c y ∨ vertexMark L b c y ∨ columnMark L b c y) R0
      (rasterizeTri.flatBaseVert L b st).1.RowExt := by
  have t1 : Marks (fun c y => K c y ∨ vertexMark L b c y) R0
      (if (L.intverts b).1 ≥ L.x0 ∧ (L.intverts b).1 ≤ L.x1 ∧ (L.intverts b).2 ≥ L.y0 ∧
          (L.intverts b).2 ≤ L.y1 then
        addFlatSpanSample st.1 (L.intverts b).1 (L.intverts b).2
      else st.1).RowExt :=
    Marks.ite
      (fun hg => (hK.mark _ _).of_iff (fun c y =>
        ⟨fun h => h.imp id (fun h' => ⟨hg, h'.1, h'.2⟩),
          fun h => h.imp id (fun h' => ⟨h'.2.1, h'.2.2⟩)⟩))
      (fun hg => hK.of_iff (fun c y => ⟨Or.inl, fun h => h.elim id (fun h' => absurd h'.1 hg)⟩))
  have t2 : Marks (fun c y => K c y ∨ vertexMark L b c y) R0
      (rasterizeTri.recordEdge L b
        (if (L.intverts b).1 ≥ L.x0 ∧ (L.intverts b).1 ≤ L.x1 ∧ (L.intverts b).2 ≥ L.y0 ∧
          (L.intverts b).2 ≤ L.y1 then
        addFlatSpanSample st.1 (L.intverts b).1 (L.intverts b).2
      else st.1)).RowExt := by
    rw [recordEdge_RowExt]; exact t1
  unfold rasterizeTri.flatBaseVert
  refine Marks.ite (fun hne => ?_) (fun hne => t2.of_iff (fun c y => ⟨?_, ?_⟩))
  · refine (flatVertical_loop_marks L b _ _ _ _ R0 _ (setEdge_at L b st.2).1
      (setEdge_at L b st.2).2 t2).of_iff (fun c y => ⟨?_, ?_⟩)
    · rintro ((h | h) | ⟨k, h1, h2, h3⟩)
      · exact Or.inl h
      · exact Or.inr (Or.inl h)
      · exact Or.inr (Or.inr ⟨hne, k, h1, h2, h3⟩)
    · rintro (h | h | ⟨_, k, h1, h2, h3⟩)
      · exact Or.inl (Or.inl h)
      · exact Or.inl (Or.inr h)
      · exact Or.inr ⟨k, h1, h2, h3⟩
  · rintro (h | h)
    · exact Or.inl h
    · exact Or.inr (Or.inl h)
  · rintro (h | h | ⟨h, _⟩)
    · exact Or.inl h
    · exact Or.inr h
    · exact absurd h hne

theorem flatBaseVerts_marks (L : rasterizeTri.Locals) (B : rcHeightfield)
    (edges : Nat → Vec3) :
    Marks (fun c y => ∃ b, b < 3 ∧ (vertexMark L b c y ∨ columnMark L b c y)) B.RowExt
      ([0, 1, 2].foldl (fun st basevert => rasterizeTri.flatBaseVert L basevert st)
        (B, edges)).1.RowExt ∧
    edgesInv L ([0, 1, 2].foldl (fun st basevert => rasterizeTri.flatBaseVert L basevert st)
        (B, edges)).2 := by
  simp only [List.foldl]
  constructor
  · refine (flatBaseVert_marks L 2 _ _ _ (flatBaseVert_marks L 1 _ _ _
      (flatBaseVert_marks L 0 (B, edges) _ _ (Marks.start _)))).of_iff (fun c y => ⟨?_, ?_⟩)
    · rintro (((h | h) | h) | h)
      · exact absurd h id
      · exact ⟨0, by omega, h⟩
      · exact ⟨1, by omega, h⟩
      · exact ⟨2, by omega, h⟩
    · rintro ⟨b, hb, h⟩
      interval_cases b
      · exact Or.inl (Or.inl (Or.inr h))
      · exact Or.inl (Or.inr h)
      · exact Or.inr h
  · rw [flatBaseVert_edges, flatBaseVert_edges, flatBaseVert_edges]
    exact setEdge_edgesInv L edges

theorem flatHit_marks (L : rasterizeTri.Locals) (edges : Nat → Vec3) (he : edgesSet L edges)
    (hi : edgesInv L edges) (b : Nat) (hb : b < 3) (k : Int) (S : rcHeightfield)
    (R0 : Int → rcRowExt) (K : Int → Int → Prop) (hK : Marks K R0 S.RowExt) :
    (rasterizeTri.flatHit L edges k (L.bmin.z + L.cs * (k : ℚ)) (edgeBits b) S).2.1 =
      L.crossZ b k ∧
    (rasterizeTri.flatHit L edges k (L.bmin.z + L.cs * (k : ℚ)) (edgeBits b) S).2.2 =
      (cellOf L.bmin L.ics (L.crossZ b k)).1 ∧
    Marks (fun c y => K c y ∨ hitMark L b k c y) R0
      (rasterizeTri.flatHit L edges k (L.bmin.z + L.cs * (k : ℚ)) (edgeBits b) S).1.RowExt := by
  obtain ⟨e1, e2⟩ := edges_of_hit L edges he hi b hb
  have e3 := (edgeBits_decode b hb).1
  unfold rasterizeTri.flatHit
  simp only [e1, e2, e3]
  refine ⟨rfl, rfl, ?_⟩
  refine Marks.ite
    (fun hg => ((hK.mark _ _).mark _ _).of_iff (fun c y => ⟨?_, ?_⟩))
    (fun hg => hK.of_iff (fun c y => ⟨Or.inl, fun h => h.elim id (fun h' => ?_)⟩))
  · rintro ((h | ⟨h1, h2⟩) | ⟨h1, h2⟩)
    · exact Or.inl h
    · exact Or.inr ⟨h1, by rw [h1]; exact hg, Or.inl h2⟩
    · exact Or.inr ⟨h1, by rw [h1]; exact hg, Or.inr h2⟩
  · rintro (h | ⟨h1, _, h3 | h3⟩)
    · exact Or.inl (Or.inl h)
    · exact Or.inl (Or.inr ⟨h1, h3⟩)
    · exact Or.inr ⟨h1, h3⟩
  · obtain ⟨h1, h2, _⟩ := h'
    rw [h1] at h2
    exact absurd h2 hg

theorem flatFill_marks (L : rasterizeTri.Locals) (b1 b2 : Nat) (k : Int) (S : rcHeightfield)
    (R0 : Int → rcRowExt) (K : Int → Int → Prop) (hK : Marks K R0 S.RowExt) :
    Marks (fun c y => K c y ∨ fillMarkFlat L b1 b2 k c y) R0
      (rasterizeTri.flatFill L k (L.crossZ b1 k) (L.crossZ b2 k)
        (cellOf L.bmin L.ics (L.crossZ b1 k)).1 (cellOf L.bmin L.ics (L.crossZ b2 k)).1
        S).RowExt := by
  unfold rasterizeTri.flatFill
  simp only [decide_eq_true_eq]
  refine Marks.ite (fun hne => ?_)
    (fun hne => hK.of_iff (fun c y => ⟨Or.inl, fun h => h.elim id (fun h' => absurd h'.1 hne)⟩))
  refine Marks.ite (fun hle => ?_)
    (fun hle => hK.of_iff (fun c y => ⟨Or.inl, fun h => h.elim id
      (fun h' => absurd h'.2.1 hle)⟩))
  simp only [addFlatSpanSample_RowExt]
  refine ((((((((hK.mark _ _).mark _ _).mark _ _).mark _ _).mark _ _).mark _ _).mark _
    _).mark _ _).of_iff (fun c y => ⟨?_, ?_⟩)
  · rintro ((((((((h | h) | h) | h) | h) | h) | h) | h) | h)
    · exact Or.inl h
    · exact Or.inr ⟨hne, hle, Or.inl h.1, Or.inl h.2⟩
    · exact Or.inr ⟨hne, hle, Or.inr (Or.inl h.1), Or.inl h.2⟩
    · exact Or.inr ⟨hne, hle, Or.inr (Or.inr (Or.inl h.1)), Or.inl h.2⟩
    · exact Or.inr ⟨hne, hle, Or.inr (Or.inr (Or.inr h.1)), Or.inl h.2⟩
    · exact Or.inr ⟨hne, hle, Or.inl h.1, Or.inr h.2⟩
    · exact Or.inr ⟨hne, hle, Or.inr (Or.inl h.1), Or.inr h.2⟩
    · exact Or.inr ⟨hne, hle, Or.inr (Or.inr (Or.inl h.1)), Or.inr h.2⟩
    · exact Or.inr ⟨hne, hle, Or.inr (Or.inr (Or.inr h.1)), Or.inr h.2⟩
  · rintro (h | ⟨_, _, hc, hy⟩)
    · exact Or.inl (Or.inl (Or.inl (Or.inl (Or.inl (Or.inl (Or.inl (Or.inl h)))))))
    · rcases hy with hy | hy
      · rcases hc with hc | hc | hc | hc
        · exact Or.inl (Or.inl (Or.inl (Or.inl (Or.inl (Or.inl (Or.inl
            (Or.inr ⟨hc, hy⟩)))))))
        · exact Or.inl (Or.inl (Or.inl (Or.inl (Or.inl (Or.inl (Or.inr ⟨hc, hy⟩))))))
        · exact Or.inl (Or.inl (Or.inl (Or.inl (Or.inl (Or.inr ⟨hc, hy⟩)))))
        · exact Or.inl (Or.inl (Or.inl (Or.inl (Or.inr ⟨hc, hy⟩))))
      · rcases hc with hc | hc | hc | hc
        · exact Or.inl (Or.inl (Or.inl (Or.inr ⟨hc, hy⟩)))
        · exact Or.inl (Or.inl (Or.inr ⟨hc, hy⟩))
        · exact Or.inl (Or.inr ⟨hc, hy⟩)
        · exact Or.inr ⟨hc, hy⟩

theorem flatHorizontal_EdgeHits (L : rasterizeTri.Locals) (edges : Nat → Vec3) (y : Int)
    (st : rcHeightfield × ℚ) :
    (rasterizeTri.flatHorizontal L edges y st).1.EdgeHits =
      if (st.1.EdgeHits y).Hits0 ≠ 0 then Function.update st.1.EdgeHits y ⟨0, 0⟩
      else st.1.EdgeHits := by
  unfold rasterizeTri.flatHorizontal
  by_cases h : (st.1.EdgeHits y).Hits0 ≠ 0
  · simp only [if_pos h, flatFill_EdgeHits, flatHit_EdgeHits]
  · simp only [if_neg h]

theorem flatHorizontal_marks (L : rasterizeTri.Locals) (edges : Nat → Vec3)
    (he : edgesSet L edges) (hi : edgesInv L edges) (k : Int) (st : rcHeightfield × ℚ)
    (E : Int → rcEdgeHit) (hE : E k = ⟨0, 0⟩)
    (hH : st.1.EdgeHits k = hitsAfterRecording L E k)
    (hcz : st.2 = L.bmin.z + L.cs * (k : ℚ)) (R0 : Int → rcRowExt) (K : Int → Int → Prop)
    (hK : Marks K R0 st.1.RowExt) :
    Marks (fun c y => K c y ∨ boundaryMark false L k c y) R0
      (rasterizeTri.flatHorizontal L edges k st).1.RowExt := by
  unfold rasterizeTri.flatHorizontal
  rcases hits_cases L E k hE with ⟨hz, hno⟩ | ⟨b1, b2, h12, h23, c1, c2, huniq, hp⟩
  · have h0 : ¬ (st.1.EdgeHits k).Hits0 ≠ 0 := by
      rw [hH, hz]; exact fun h => h rfl
    simp only [if_neg h0]
    exact hK.of_iff (fun c y => ⟨Or.inl, fun h => h.elim id
      (fun ⟨b1, b2, _, h2, hc1, _⟩ => absurd hc1 (hno b1 (by omega)))⟩)
  · have hh0 : (st.1.EdgeHits k).Hits0 = edgeBits b1 := by rw [hH, hp]
    have hh1 : (st.1.EdgeHits k).Hits1 = edgeBits b2 := by rw [hH, hp]
    have h0 : edgeBits b1 ≠ 0 := (edgeBits_decode b1 (by omega)).2.2
    simp only [hh0, hh1, hcz, if_pos h0]
    obtain ⟨a1, a2, a3⟩ := flatHit_marks L edges he hi b1 (by omega) k st.1 R0 K hK
    obtain ⟨d1, d2, d3⟩ := flatHit_marks L edges he hi b2 h23 k
      (rasterizeTri.flatHit L edges k (L.bmin.z + L.cs * (k : ℚ)) (edgeBits b1) st.1).1 R0 _ a3
    rw [a1, a2, d1, d2]
    refine (flatFill_marks L b1 b2 k _ R0 _ d3).of_iff (fun c y => ⟨?_, ?_⟩)
    · rintro (((h | h) | h) | h)
      · exact Or.inl h
      · exact Or.inr ⟨b1, b2, h12, h23, c1, c2, Or.inl h⟩
      · exact Or.inr ⟨b1, b2, h12, h23, c1, c2, Or.inr (Or.inl h)⟩
      · exact Or.inr ⟨b1, b2, h12, h23, c1, c2, Or.inr (Or.inr h)⟩
    · rintro (h | ⟨b1', b2', h12', h23', c1', c2', hm⟩)
      · exact Or.inl (Or.inl (Or.inl h))
      · have u1 := huniq b1' (by omega) c1'
        have u2 := huniq b2' h23' c2'
        have e1 : b1' = b1 := by omega
        have e2 : b2' = b2 := by omega
        subst e1 e2
        rcases hm with hm | hm | hm
        · exact Or.inl (Or.inl (Or.inr hm))
        · exact Or.inl (Or.inr hm)
        · exact Or.inr hm

theorem flatHorizontals_marks (L : rasterizeTri.Locals) (edges : Nat → Vec3)
    (he : edgesSet L edges) (hi : edgesInv L edges) (S : rcHeightfield) (E : Int → rcEdgeHit)
    (hE : ∀ k, intMax (intMin (L.intverts 0).2 (intMin (L.intverts 1).2 (L.intverts 2).2) + 1)
        L.y0 ≤ k →
      k ≤ intMin (intMax (L.intverts 0).2 (intMax (L.intverts 1).2 (L.intverts 2).2))
        L.y1_edge → E k = ⟨0, 0⟩)
    (hH : ∀ k, S.EdgeHits k = hitsAfterRecording L E k) (R0 : Int → rcRowExt)
    (K : Int → Int → Prop) (hK : Marks K R0 S.RowExt) :
    Marks (fun c y => K c y ∨ ∃ k, boundaryMark false L k c y) R0
      (rasterizeTri.flatHorizontals L edges S).RowExt := by
  unfold rasterizeTri.flatHorizontals
  have key := (Marks.loop (fun s : rcHeightfield × ℚ => s.1.RowExt)
    (fun i s => s.2 = L.bmin.z + L.cs * (i : ℚ) ∧
      ∀ y, i ≤ y → s.1.EdgeHits y = hitsAfterRecording L E y)
    (boundaryMark false L)
    (intMax (intMin (L.intverts 0).2 (intMin (L.intverts 1).2 (L.intverts 2).2) + 1) L.y0)
    (intMin (intMax (L.intverts 0).2 (intMax (L.intverts 1).2 (L.intverts 2).2)) L.y1_edge)
    (rasterizeTri.flatHorizontal L edges)
    (S, L.bmin.z + L.cs * ((intMax (intMin (L.intverts 0).2
      (intMin (L.intverts 1).2 (L.intverts 2).2) + 1) L.y0 : Int) : ℚ)) K R0 hK
    ⟨rfl, fun y _ => hH y⟩
    (by
      intro i t hi1 hi2 hA
      refine ⟨⟨?_, fun y hy => ?_⟩, fun K' hK' =>
        flatHorizontal_marks L edges he hi i t E (hE i hi1 hi2) (hA.2 i (le_refl _)) hA.1 R0
          K' hK'⟩
      · show t.2 + L.cs = _
        rw [hA.1]; push_cast; ring
      · rw [flatHorizontal_EdgeHits]
        split
        · rw [Function.update_noteq (by omega)]
          exact hA.2 y (by omega)
        · exact hA.2 y (by omega))).1
  refine key.of_iff (fun c y => ⟨?_, ?_⟩)
  · rintro (h | ⟨k, _, _, h⟩)
    · exact Or.inl h
    · exact Or.inr ⟨k, h⟩
  · rintro (h | ⟨k, h⟩)
    · exact Or.inl h
    · obtain ⟨b1, b2, h12, h23, c1, c2, hm⟩ := h
      have hr := crossesRow_range L b1 (by omega) k c1
      simp only [intMin_eq_min, intMax_eq_max]
      exact Or.inr ⟨k, hr.1, hr.2, b1, b2, h12, h23, c1, c2, hm⟩

/-- The samples that the discovery phase of the flat path records. -/
theorem flatDiscovery_marks {L : rasterizeTri.Locals} {B : rcHeightfield}
    (c : L.Consistent B.width B.height)
    (hE : ∀ y, 0 ≤ y → y ≤ B.height → B.EdgeHits y = ⟨0, 0⟩) :
    Marks (discoveryMark false L) B.RowExt (rasterizeTri.flatDiscovery L B).RowExt := by
  unfold rasterizeTri.flatDiscovery
  obtain ⟨_, h2, h3⟩ := flatBaseVerts_spec L B (fun _ => (⟨0, 0, 0⟩ : Vec3))
  obtain ⟨m1, m2⟩ := flatBaseVerts_marks L B (fun _ => (⟨0, 0, 0⟩ : Vec3))
  have hy0 : 0 ≤ L.y0 := by rw [c.y0_eq]; omega
  have hy1 : L.y1_edge ≤ B.height := by rw [c.y1_edge_eq]; omega
  exact flatHorizontals_marks L _ h3 m2 _ B.EdgeHits
    (fun k hk1 hk2 => hE k (by rw [intMax_eq_max] at hk1; omega)
      (by rw [intMin_eq_min] at hk2; omega)) h2 _ _ m1

theorem slopedVertical_marks (L : rasterizeTri.Locals) (b : Nat) (edges : Nat → Vec3) (x : Int)
    (st : rcHeightfield × ℚ) (he : edges (if b = 0 then 2 else b - 1) = L.edgeVec b)
    (hi : edges (3 + (if b = 0 then 2 else b - 1)) = L.edgeInv b)
    (hcx : st.2 = L.bmin.x + L.cs * (x : ℚ)) (R0 : Int → rcRowExt) :
    (rasterizeTri.slopedVertical L b (if b = 0 then 2 else b - 1) edges x st).2 =
      L.bmin.x + L.cs * ((x + 1 : Int) : ℚ) ∧
    ∀ K, Marks K R0 st.1.RowExt → Marks (fun c y => K c y ∨ columnMarkAt L b x c y) R0
      (rasterizeTri.slopedVertical L b (if b = 0 then 2 else b - 1) edges x st).1.RowExt := by
  constructor
  · show st.2 + L.cs = _
    rw [hcx]; push_cast; ring
  · intro K hK
    unfold rasterizeTri.slopedVertical
    simp only [he, hi, hcx]
    by_cases hg : (cellOf L.bmin L.ics (L.crossX b x)).2 ≥ L.y0 ∧
        (cellOf L.bmin L.ics (L.crossX b x)).2 ≤ L.y1
    · have hg' := hg
      simp only [cellOf, rasterizeTri.Locals.crossX] at hg'
      rw [if_pos hg']
      simp only [addSpanSample_RowExt]
      refine ((hK.mark _ _).mark _ _).of_iff (fun c y => ?_)
      unfold columnMarkAt
      constructor
      · rintro ((h | ⟨h1, h2⟩) | ⟨h1, h2⟩)
        · exact Or.inl h
        · exact Or.inr ⟨by rw [h2]; exact hg, h2, Or.inl h1⟩
        · exact Or.inr ⟨by rw [h2]; exact hg, h2, Or.inr h1⟩
      · rintro (h | ⟨_, h2, h3 | h3⟩)
        · exact Or.inl (Or.inl h)
        · exact Or.inl (Or.inr ⟨h3, h2⟩)
        · exact Or.inr ⟨h3, h2⟩
    · have hg' := hg
      simp only [cellOf, rasterizeTri.Locals.crossX] at hg'
      rw [if_neg hg']
      refine hK.of_iff (fun c y => ⟨Or.inl, ?_⟩)
      rintro (h | ⟨h1, h2, _⟩)
      · exact h
      · rw [h2] at h1
        exact absurd h1 hg

theorem slopedVertical_loop_marks (L : rasterizeTri.Locals) (b : Nat) (edges : Nat → Vec3)
    (lo hi : Int) (S : rcHeightfield) (R0 : Int → rcRowExt) (K : Int → Int → Prop)
    (he : edges (if b = 0 then 2 else b - 1) = L.edgeVec b)
    (hi' : edges (3 + (if b = 0 then 2 else b - 1)) = L.edgeInv b)
    (hK : Marks K R0 S.RowExt) :
    Marks (fun c y => K c y ∨ ∃ k, lo ≤ k ∧ k ≤ hi ∧ columnMarkAt L b k c y) R0
      (forLoop lo hi (rasterizeTri.slopedVertical L b (if b = 0 then 2 else b - 1) edges)
        (S, L.bmin.x + L.cs * (lo : ℚ))).1.RowExt :=
  (Marks.loop (fun s : rcHeightfield × ℚ => s.1.RowExt)
    (fun i s => s.2 = L.bmin.x + L.cs * (i : ℚ)) (columnMarkAt L b) lo hi
    (rasterizeTri.slopedVertical L b (if b = 0 then 2 else b - 1) edges)
    (S, L.bmin.x + L.cs * (lo : ℚ)) K R0 hK rfl
    (fun i t _ _ hA => slopedVertical_marks L b edges i t he hi' hA R0)).1

theorem slopedBaseVert_marks (L : rasterizeTri.Locals) (b : Nat)
    (st : rcHeightfield × (Nat → Vec3)) (R0 : Int → rcRowExt) (K : Int → Int → Prop)
    (hK : Marks K R0 st.1.RowExt) :
    Marks (fun c y => K c y ∨ vertexMark L b c y ∨ columnMark L b c y) R0
      (rasterizeTri.slopedBaseVert L b st).1.RowExt := by
  have t1 : Marks (fun c y => K c y ∨ vertexMark L b c y) R0
      (if (L.intverts b).1 ≥ L.x0 ∧ (L.intverts b).1 ≤ L.x1 ∧ (L.intverts b).2 ≥ L.y0 ∧
          (L.intverts b).2 ≤ L.y1 then
        addSpanSample st.1 (L.intverts b).1 (L.intverts b).2
          (rasterizeTri.quantize L.ich ((L.vertarray b).y - L.bmin.y))
      else st.1).RowExt :=
    Marks.ite
      (fun hg => (hK.mark _ _).of_iff (fun c y =>
        ⟨fun h => h.imp id (fun h' => ⟨hg, h'.1, h'.2⟩),
          fun h => h.imp id (fun h' => ⟨h'.2.1, h'.2.2⟩)⟩))
      (fun hg => hK.of_iff (fun c y => ⟨Or.inl, fun h => h.elim id (fun h' => absurd h'.1 hg)⟩))
  have t2 : Marks (fun c y => K c y ∨ vertexMark L b c y) R0
      (rasterizeTri.recordEdge L b
        (if (L.intverts b).1 ≥ L.x0 ∧ (L.intverts b).1 ≤ L.x1 ∧ (L.intverts b).2 ≥ L.y0 ∧
          (L.intverts b).2 ≤ L.y1 then
        addSpanSample st.1 (L.intverts b).1 (L.intverts b).2
          (rasterizeTri.quantize L.ich ((L.vertarray b).y - L.bmin.y))
      else st.1)).RowExt := by
    rw [recordEdge_RowExt]; exact t1
  unfold rasterizeTri.slopedBaseVert
  refine Marks.ite (fun hne => ?_) (fun hne => t2.of_iff (fun c y => ⟨?_, ?_⟩))
  · refine (slopedVertical_loop_marks L b _ _ _ _ R0 _ (setEdge_at L b st.2).1
      (setEdge_at L b st.2).2 t2).of_iff (fun c y => ⟨?_, ?_⟩)
    · rintro ((h | h) | ⟨k, h1, h2, h3⟩)
      · exact Or.inl h
      · exact Or.inr (Or.inl h)
      · exact Or.inr (Or.inr ⟨hne, k, h1, h2, h3⟩)
    · rintro (h | h | ⟨_, k, h1, h2, h3⟩)
      · exact Or.inl (Or.inl h)
      · exact Or.inl (Or.inr h)
      · exact Or.inr ⟨k, h1, h2, h3⟩
  · rintro (h | h)
    · exact Or.inl h
    · exact Or.inr (Or.inl h)
  · rintro (h | h | ⟨h, _⟩)
    · exact Or.inl h
    · exact Or.inr h
    · exact absurd h hne

theorem slopedBaseVerts_marks (L : rasterizeTri.Locals) (B : rcHeightfield)
    (edges : Nat → Vec3) :
    Marks (fun c y => ∃ b, b < 3 ∧ (vertexMark L b c y ∨ columnMark L b c y)) B.RowExt
      ([0, 1, 2].foldl (fun st basevert => rasterizeTri.slopedBaseVert L basevert st)
        (B, edges)).1.RowExt ∧
    edgesInv L ([0, 1, 2].foldl (fun st basevert => rasterizeTri.slopedBaseVert L basevert st)
        (B, edges)).2 := by
  simp only [List.foldl]
  constructor
  · refine (slopedBaseVert_marks L 2 _ _ _ (slopedBaseVert_marks L 1 _ _ _
      (slopedBaseVert_marks L 0 (B, edges) _ _ (Marks.start _)))).of_iff (fun c y => ⟨?_, ?_⟩)
    · rintro (((h | h) | h) | h)
      · exact absurd h id
      · exact ⟨0, by omega, h⟩
      · exact ⟨1, by omega, h⟩
      · exact ⟨2, by omega, h⟩
    · rintro ⟨b, hb, h⟩
      interval_cases b
      · exact Or.inl (Or.inl (Or.inr h))
      · exact Or.inl (Or.inr h)
      · exact Or.inr h
  · rw [slopedBaseVert_edges, slopedBaseVert_edges, slopedBaseVert_edges]
    exact setEdge_edgesInv L edges

theorem slopedHit_marks (L : rasterizeTri.Locals) (edges : Nat → Vec3) (he : edgesSet L edges)
    (hi : edgesInv L edges) (b : Nat) (hb : b < 3) (k : Int) (S : rcHeightfield)
    (R0 : Int → rcRowExt) (K : Int → Int → Prop) (hK : Marks K R0 S.RowExt) :
    (rasterizeTri.slopedHit L edges k (L.bmin.z + L.cs * (k : ℚ)) (edgeBits b) S).2.1 =
      L.crossZ b k ∧
    (rasterizeTri.slopedHit L edges k (L.bmin.z + L.cs * (k : ℚ)) (edgeBits b) S).2.2 =
      (cellOf L.bmin L.ics (L.crossZ b k)).1 ∧
    Marks (fun c y => K c y ∨ hitMark L b k c y) R0
      (rasterizeTri.slopedHit L edges k (L.bmin.z + L.cs * (k : ℚ)) (edgeBits b) S).1.RowExt := by
  obtain ⟨e1, e2⟩ := edges_of_hit L edges he hi b hb
  have e3 := (edgeBits_decode b hb).1
  unfold rasterizeTri.slopedHit
  simp only [e1, e2, e3]
  refine ⟨rfl, rfl, ?_⟩
  refine Marks.ite
    (fun hg => ((hK.mark _ _).mark _ _).of_iff (fun c y => ⟨?_, ?_⟩))
    (fun hg => hK.of_iff (fun c y => ⟨Or.inl, fun h => h.elim id (fun h' => ?_)⟩))
  · rintro ((h | ⟨h1, h2⟩) | ⟨h1, h2⟩)
    · exact Or.inl h
    · exact Or.inr ⟨h1, by rw [h1]; exact hg, Or.inl h2⟩
    · exact Or.inr ⟨h1, by rw [h1]; exact hg, Or.inr h2⟩
  · rintro (h | ⟨h1, _, h3 | h3⟩)
    · exact Or.inl (Or.inl h)
    · exact Or.inl (Or.inr ⟨h1, h3⟩)
    · exact Or.inr ⟨h1, h3⟩
  · obtain ⟨h1, h2, _⟩ := h'
    rw [h1] at h2
    exact absurd h2 hg

theorem slopedFillCell_marks (L : rasterizeTri.Locals) (k : Int) (ds : ℚ) (x : Int)
    (st : rcHeightfield × ℚ) (R0 : Int → rcRowExt) (K : Int → Int → Prop)
    (hK : Marks K R0 st.1.RowExt) :
    Marks (fun c y => K c y ∨ ((c = x ∨ c = x - 1) ∧ (y = k ∨ y = k - 1))) R0
      (rasterizeTri.slopedFillCell L k ds x st).1.RowExt := by
  unfold rasterizeTri.slopedFillCell
  simp only [addSpanSample_RowExt]
  refine ((((hK.mark _ _).mark _ _).mark _ _).mark _ _).of_iff (fun c y => ⟨?_, ?_⟩)
  · rintro ((((h | h) | h) | h) | h)
    · exact Or.inl h
    · exact Or.inr ⟨Or.inl h.1, Or.inl h.2⟩
    · exact Or.inr ⟨Or.inr h.1, Or.inl h.2⟩
    · exact Or.inr ⟨Or.inl h.1, Or.inr h.2⟩
    · exact Or.inr ⟨Or.inr h.1, Or.inr h.2⟩
  · rintro (h | ⟨hc | hc, hy | hy⟩)
    · exact Or.inl (Or.inl (Or.inl (Or.inl h)))
    · exact Or.inl (Or.inl (Or.inl (Or.inr ⟨hc, hy⟩)))
    · exact Or.inl (Or.inr ⟨hc, hy⟩)
    · exact Or.inl (Or.inl (Or.inr ⟨hc, hy⟩))
    · exact Or.inr ⟨hc, hy⟩

theorem slopedFill_marks (L : rasterizeTri.Locals) (b1 b2 : Nat) (k : Int) (S : rcHeightfield)
    (R0 : Int → rcRowExt) (K : Int → Int → Prop) (hK : Marks K R0 S.RowExt) :
    Marks (fun c y => K c y ∨ fillMarkSloped L b1 b2 k c y) R0
      (rasterizeTri.slopedFill L k (L.crossZ b1 k) (L.crossZ b2 k)
        (cellOf L.bmin L.ics (L.crossZ b1 k)).1 (cellOf L.bmin L.ics (L.crossZ b2 k)).1
        S).RowExt := by
  unfold rasterizeTri.slopedFill
  simp only [decide_eq_true_eq]
  refine Marks.ite (fun hne => ?_)
    (fun hne => hK.of_iff (fun c y => ⟨Or.inl, fun h => h.elim id (fun h' => absurd h'.1 hne)⟩))
  refine ((Marks.loop (fun s : rcHeightfield × ℚ => s.1.RowExt) (fun _ _ => True)
    (fun x c y => (c = x ∨ c = x - 1) ∧ (y = k ∨ y = k - 1)) _ _ _ _ K R0 hK trivial
    (fun i t _ _ _ => ⟨trivial, fun K' hK' => slopedFillCell_marks L k _ i t R0 K' hK'⟩)).1).of_iff
    (fun c y => ⟨?_, ?_⟩)
  · rintro (h | ⟨x, h1, h2, h3, h4⟩)
    · exact Or.inl h
    · exact Or.inr ⟨hne, x, h1, h2, h3, h4⟩
  · rintro (h | ⟨_, x, h1, h2, h3, h4⟩)
    · exact Or.inl h
    · exact Or.inr ⟨x, h1, h2, h3, h4⟩

theorem slopedHorizontal_EdgeHits (L : rasterizeTri.Locals) (edges : Nat → Vec3) (y : Int)
    (st : rcHeightfield × ℚ) :
    (rasterizeTri.slopedHorizontal L edges y st).1.EdgeHits =
      if (st.1.EdgeHits y).Hits0 ≠ 0 then Function.update st.1.EdgeHits y ⟨0, 0⟩
      else st.1.EdgeHits := by
  unfold rasterizeTri.slopedHorizontal
  by_cases h : (st.1.EdgeHits y).Hits0 ≠ 0
  · simp only [if_pos h, slopedFill_EdgeHits, slopedHit_EdgeHits]
  · simp only [if_neg h]

theorem slopedHorizontal_marks (L : rasterizeTri.Locals) (edges : Nat → Vec3)
    (he : edgesSet L edges) (hi : edgesInv L edges) (k : Int) (st : rcHeightfield × ℚ)
    (E : Int → rcEdgeHit) (hE : E k = ⟨0, 0⟩)
    (hH : st.1.EdgeHits k = hitsAfterRecording L E k)
    (hcz : st.2 = L.bmin.z + L.cs * (k : ℚ)) (R0 : Int → rcRowExt) (K : Int → Int → Prop)
    (hK : Marks K R0 st.1.RowExt) :
    Marks (fun c y => K c y ∨ boundaryMark true L k c y) R0
      (rasterizeTri.slopedHorizontal L edges k st).1.RowExt := by
  unfold rasterizeTri.slopedHorizontal
  rcases hits_cases L E k hE with ⟨hz, hno⟩ | ⟨b1, b2, h12, h23, c1, c2, huniq, hp⟩
  · have h0 : ¬ (st.1.EdgeHits k).Hits0 ≠ 0 := by
      rw [hH, hz]; exact fun h => h rfl
    simp only [if_neg h0]
    exact hK.of_iff (fun c y => ⟨Or.inl, fun h => h.elim id
      (fun ⟨b1, b2, _, h2, hc1, _⟩ => absurd hc1 (hno b1 (by omega)))⟩)
  · have hh0 : (st.1.EdgeHits k).Hits0 = edgeBits b1 := by rw [hH, hp]
    have hh1 : (st.1.EdgeHits k).Hits1 = edgeBits b2 := by rw [hH, hp]
    have h0 : edgeBits b1 ≠ 0 := (edgeBits_decode b1 (by omega)).2.2
    simp only [hh0, hh1, hcz, if_pos h0]
    obtain ⟨a1, a2, a3⟩ := slopedHit_marks L edges he hi b1 (by omega) k st.1 R0 K hK
    obtain ⟨d1, d2, d3⟩ := slopedHit_marks L edges he hi b2 h23 k
      (rasterizeTri.slopedHit L edges k (L.bmin.z + L.cs * (k : ℚ)) (edgeBits b1) st.1).1 R0 _ a3
    rw [a1, a2, d1, d2]
    refine (slopedFill_marks L b1 b2 k _ R0 _ d3).of_iff (fun c y => ⟨?_, ?_⟩)
    · rintro (((h | h) | h) | h)
      · exact Or.inl h
      · exact Or.inr ⟨b1, b2, h12, h23, c1, c2, Or.inl h⟩
      · exact Or.inr ⟨b1, b2, h12, h23, c1, c2, Or.inr (Or.inl h)⟩
      · exact Or.inr ⟨b1, b2, h12, h23, c1, c2, Or.inr (Or.inr h)⟩
    · rintro (h | ⟨b1', b2', h12', h23', c1', c2', hm⟩)
      · exact Or.inl (Or.inl (Or.inl h))
      · have u1 := huniq b1' (by omega) c1'
        have u2 := huniq b2' h23' c2'
        have e1 : b1' = b1 := by omega
        have e2 : b2' = b2 := by omega
        subst e1 e2
        rcases hm with hm | hm | hm
        · exact Or.inl (Or.inl (Or.inr hm))
        · exact Or.inl (Or.inr hm)
        · exact Or.inr hm

theorem slopedHorizontals_marks (L : rasterizeTri.Locals) (edges : Nat → Vec3)
    (he : edgesSet L edges) (hi : edgesInv L edges) (S : rcHeightfield) (E : Int → rcEdgeHit)
    (hE : ∀ k, intMax (intMin (L.intverts 0).2 (intMin (L.intverts 1).2 (L.intverts 2).2) + 1)
        L.y0 ≤ k →
      k ≤ intMin (intMax (L.intverts 0).2 (intMax (L.intverts 1).2 (L.intverts 2).2))
        L.y1_edge → E k = ⟨0, 0⟩)
    (hH : ∀ k, S.EdgeHits k = hitsAfterRecording L E k) (R0 : Int → rcRowExt)
    (K : Int → Int → Prop) (hK : Marks K R0 S.RowExt) :
    Marks (fun c y => K c y ∨ ∃ k, boundaryMark true L k c y) R0
      (rasterizeTri.slopedHorizontals L edges S).RowExt := by
  unfold rasterizeTri.slopedHorizontals
  have key := (Marks.loop (fun s : rcHeightfield × ℚ => s.1.RowExt)
    (fun i s => s.2 = L.bmin.z + L.cs * (i : ℚ) ∧
      ∀ y, i ≤ y → s.1.EdgeHits y = hitsAfterRecording L E y)
    (boundaryMark true L)
    (intMax (intMin (L.intverts 0).2 (intMin (L.intverts 1).2 (L.intverts 2).2) + 1) L.y0)
    (intMin (intMax (L.intverts 0).2 (intMax (L.intverts 1).2 (L.intverts 2).2)) L.y1_edge)
    (rasterizeTri.slopedHorizontal L edges)
    (S, L.bmin.z + L.cs * ((intMax (intMin (L.intverts 0).2
      (intMin (L.intverts 1).2 (L.intverts 2).2) + 1) L.y0 : Int) : ℚ)) K R0 hK
    ⟨rfl, fun y _ => hH y⟩
    (by
      intro i t hi1 hi2 hA
      refine ⟨⟨?_, fun y hy => ?_⟩, fun K' hK' =>
        slopedHorizontal_marks L edges he hi i t E (hE i hi1 hi2) (hA.2 i (le_refl _)) hA.1 R0
          K' hK'⟩
      · show t.2 + L.cs = _
        rw [hA.1]; push_cast; ring
      · rw [slopedHorizontal_EdgeHits]
        split
        · rw [Function.update_noteq (by omega)]
          exact hA.2 y (by omega)
        · exact hA.2 y (by omega))).1
  refine key.of_iff (fun c y => ⟨?_, ?_⟩)
  · rintro (h | ⟨k, _, _, h⟩)
    · exact Or.inl h
    · exact Or.inr ⟨k, h⟩
  · rintro (h | ⟨k, h⟩)
    · exact Or.inl h
    · obtain ⟨b1, b2, h12, h23, c1, c2, hm⟩ := h
      have hr := crossesRow_range L b1 (by omega) k c1
      simp only [intMin_eq_min, intMax_eq_max]
      exact Or.inr ⟨k, hr.1, hr.2, b1, b2, h12, h23, c1, c2, hm⟩

/-- The samples that the discovery phase of the sloped path records. -/
theorem slopedDiscovery_marks {L : rasterizeTri.Locals} {B : rcHeightfield}
    (c : L.Consistent B.width B.height)
    (hE : ∀ y, 0 ≤ y → y ≤ B.height → B.EdgeHits y = ⟨0, 0⟩) :
    Marks (discoveryMark true L) B.RowExt (rasterizeTri.slopedDiscovery L B).RowExt := by
  unfold rasterizeTri.slopedDiscovery
  obtain ⟨_, h2, h3⟩ := slopedBaseVerts_spec c (fun _ => (⟨0, 0, 0⟩ : Vec3))
  obtain ⟨m1, m2⟩ := slopedBaseVerts_marks L B (fun _ => (⟨0, 0, 0⟩ : Vec3))
  have hy0 : 0 ≤ L.y0 := by rw [c.y0_eq]; omega
  have hy1 : L.y1_edge ≤ B.height := by rw [c.y1_edge_eq]; omega
  exact slopedHorizontals_marks L _ h3 m2 _ B.EdgeHits
    (fun k hk1 hk2 => hE k (by rw [intMax_eq_max] at hk1; omega)
      (by rw [intMin_eq_min] at hk2; omega)) h2 _ _ m1

/-! ## Theorems: the crossings computed by `intersectX` and `intersectZ` -/

theorem mem_loopRange (lo hi x : Int) : x ∈ loopRange lo hi ↔ lo ≤ x ∧ x ≤ hi := by
  unfold loopRange
  rw [List.mem_map]
  constructor
  · rintro ⟨k, hk, rfl⟩
    rw [List.mem_range] at hk
    omega
  · rintro ⟨h1, h2⟩
    refine ⟨(x - lo).toNat, ?_, ?_⟩
    · rw [List.mem_range]; omega
    · omega

theorem forLoop_eq_foldl {σ : Type} (lo hi : Int) (body : Int → σ → σ) (s : σ) :
    forLoop lo hi body s = (loopRange lo hi).foldl (fun acc i => body i acc) s := by
  unfold forLoop loopRange
  rw [List.foldl_map]

theorem loopRange_succ (lo i : Int) (h : lo ≤ i) :
    loopRange lo i = loopRange lo (i - 1) ++ [i] := by
  unfold loopRange
  have e : (i + 1 - lo).toNat = (i - 1 + 1 - lo).toNat + 1 := by omega
  rw [e, List.range_succ, List.map_append, List.map_singleton]
  congr 2
  omega

theorem loopRange_empty (lo hi : Int) (h : hi < lo) : loopRange lo hi = [] := by
  unfold loopRange
  have e : (hi + 1 - lo).toNat = 0 := by omega
  rw [e]
  rfl

theorem withRowExt_self (S : rcHeightfield) : S.withRowExt S.RowExt = S := rfl

theorem withRowExt_withRowExt (S : rcHeightfield) (R R' : Int → rcRowExt) :
    (S.withRowExt R).withRowExt R' = S.withRowExt R' := rfl

/-- A body that neither reads nor writes the row ranges can be run with any
row ranges in place. -/
theorem fold_rowExt (cell : Int → Int → rcHeightfield → rcHeightfield)
    (hcomm : ∀ y x (S : rcHeightfield) (R : Int → rcRowExt),
      cell y x (S.withRowExt R) = (cell y x S).withRowExt R)
    (cells : List (Int × Int)) (S : rcHeightfield) (R : Int → rcRowExt) :
    cells.foldl (fun T c => cell c.2 c.1 T) (S.withRowExt R) =
      (cells.foldl (fun T c => cell c.2 c.1 T) S).withRowExt R := by
  induction cells generalizing S with
  | nil => rfl
  | cons c rest ih =>
    simp only [List.foldl_cons]
    rw [hcomm, ih]

theorem fold_width (cell : Int → Int → rcHeightfield → rcHeightfield)
    (hW : ∀ y x S, (cell y x S).width = S.width) (cells : List (Int × Int))
    (S : rcHeightfield) : (cells.foldl (fun T c => cell c.2 c.1 T) S).width = S.width := by
  induction cells generalizing S with
  | nil => rfl
  | cons c rest ih =>
    simp only [List.foldl_cons]
    rw [ih, hW]

theorem fold_RowExt (cell : Int → Int → rcHeightfield → rcHeightfield)
    (hcomm : ∀ y x (S : rcHeightfield) (R : Int → rcRowExt),
      cell y x (S.withRowExt R) = (cell y x S).withRowExt R)
    (cells : List (Int × Int)) (S : rcHeightfield) :
    (cells.foldl (fun T c => cell c.2 c.1 T) S).RowExt = S.RowExt := by
  have h := fold_rowExt cell hcomm cells S S.RowExt
  rw [withRowExt_self] at h
  exact (congrArg rcHeightfield.RowExt h).trans rfl

/-- The two nested emission loops run the body `cell` once for each element of
`emissionCells`, in order, and reset the row ranges of the rows `y0..y1`. -/
theorem emitRows_eq_fold (L : rasterizeTri.Locals)
    (cell : Int → Int → rcHeightfield → rcHeightfield)
    (row : Int → rcHeightfield → rcHeightfield)
    (hrow : ∀ y S, row y S =
      (forLoop (intMax (S.RowExt (y + 1)).MinCol L.x0) (intMin (S.RowExt (y + 1)).MaxCol L.x1)
          (cell y) S).withRowExt
        (Function.update
          (forLoop (intMax (S.RowExt (y + 1)).MinCol L.x0)
            (intMin (S.RowExt (y + 1)).MaxCol L.x1) (cell y) S).RowExt (y + 1)
          ⟨(forLoop (intMax (S.RowExt (y + 1)).MinCol L.x0)
            (intMin (S.RowExt (y + 1)).MaxCol L.x1) (cell y) S).width + 2, -2⟩))
    (hW : ∀ y x S, (cell y x S).width = S.width)
    (hcomm : ∀ y x (S : rcHeightfield) (R : Int → rcRowExt),
      cell y x (S.withRowExt R) = (cell y x S).withRowExt R)
    (D : rcHeightfield) :
    forLoop L.y0 L.y1 row D =
      resetRowExt L ((emissionCells L D).foldl (fun T c => cell c.2 c.1 T) D) := by
  have key := forLoop_induction
    (fun i S => S =
      (((loopRange L.y0 (i - 1)).flatMap fun y =>
          (loopRange (intMax (D.RowExt (y + 1)).MinCol L.x0)
            (intMin (D.RowExt (y + 1)).MaxCol L.x1)).map fun x => (x, y)).foldl
          (fun T c => cell c.2 c.1 T) D).withRowExt
        (fun r => if L.y0 + 1 ≤ r ∧ r ≤ i then ⟨D.width + 2, -2⟩ else D.RowExt r))
    L.y0 L.y1 row D
    (by
      show D = _
      rw [loopRange_empty _ _ (by omega)]
      have e : (fun r => if L.y0 + 1 ≤ r ∧ r ≤ L.y0 then (⟨D.width + 2, -2⟩ : rcRowExt)
          else D.RowExt r) = D.RowExt :=
        funext fun r => if_neg (by omega)
      rw [e]
      rfl)
    (by
      intro i S hi1 hi2 hS
      show row i S = _
      have hR : S.RowExt (i + 1) = D.RowExt (i + 1) := by
        rw [hS]
        exact if_neg (by omega)
      rw [hrow, hR, forLoop_eq_foldl]
      have e1 : (loopRange (intMax (D.RowExt (i + 1)).MinCol L.x0)
          (intMin (D.RowExt (i + 1)).MaxCol L.x1)).foldl (fun acc x => cell i x acc) S =
          ((loopRange (intMax (D.RowExt (i + 1)).MinCol L.x0)
            (intMin (D.RowExt (i + 1)).MaxCol L.x1)).map fun x => (x, i)).foldl
            (fun T c => cell c.2 c.1 T) S := by
        rw [List.foldl_map]
      rw [e1]
      have e2 : loopRange L.y0 (i + 1 - 1) = loopRange L.y0 (i - 1) ++ [i] := by
        rw [show i + 1 - 1 = i from by omega]
        exact loopRange_succ _ _ hi1
      rw [e2, List.flatMap_append, List.foldl_append, List.flatMap_singleton]
      rw [hS, fold_rowExt cell hcomm, withRowExt_withRowExt]
      have hw : ((List.foldl (fun T c => cell c.2 c.1 T)
          (List.foldl (fun T c => cell c.2 c.1 T) D
            ((loopRange L.y0 (i - 1)).flatMap fun y =>
              (loopRange (intMax (D.RowExt (y + 1)).MinCol L.x0)
                (intMin (D.RowExt (y + 1)).MaxCol L.x1)).map fun x => (x, y)))
          ((loopRange (intMax (D.RowExt (i + 1)).MinCol L.x0)
            (intMin (D.RowExt (i + 1)).MaxCol L.x1)).map fun x => (x, i))).withRowExt
          (fun r => if L.y0 + 1 ≤ r ∧ r ≤ i then (⟨D.width + 2, -2⟩ : rcRowExt)
            else D.RowExt r)).width = D.width := by
        exact (fold_width cell hW _ _).trans (fold_width cell hW _ _)
      have e3 : Function.update
          (fun r => if L.y0 + 1 ≤ r ∧ r ≤ i then (⟨D.width + 2, -2⟩ : rcRowExt) else D.RowExt r)
          (i + 1) ⟨D.width + 2, -2⟩ =
          fun r => if L.y0 + 1 ≤ r ∧ r ≤ i + 1 then (⟨D.width + 2, -2⟩ : rcRowExt)
            else D.RowExt r := by
        funext r
        by_cases hr : r = i + 1
        · rw [hr, Function.update_same, if_pos ⟨by omega, le_refl _⟩]
        · rw [Function.update_noteq hr]
          by_cases hc : L.y0 + 1 ≤ r ∧ r ≤ i
          · rw [if_pos hc, if_pos ⟨hc.1, by omega⟩]
          · rw [if_neg hc, if_neg (by omega)]
      rw [hw]
      show rcHeightfield.withRowExt _ (Function.update
          (fun r => if L.y0 + 1 ≤ r ∧ r ≤ i then (⟨D.width + 2, -2⟩ : rcRowExt) else D.RowExt r)
          (i + 1) ⟨D.width + 2, -2⟩) = _
      rw [e3])
  simp only at key
  rw [key]
  unfold resetRowExt emissionCells
  by_cases hle : L.y0 ≤ L.y1
  · have e : max L.y0 (L.y1 + 1) = L.y1 + 1 := by omega
    rw [e, show L.y1 + 1 - 1 = L.y1 from by omega, fold_width cell hW, fold_RowExt cell hcomm]
  · have e : max L.y0 (L.y1 + 1) = L.y0 := by omega
    rw [e, loopRange_empty _ _ (by omega), loopRange_empty _ _ (by omega)]
    simp only [List.flatMap_nil, List.foldl_nil]
    congr 1
    funext r
    rw [if_neg (by omega), if_neg (by omega)]

theorem slopedEmitCell_withRowExt (area : Nat) (thr flags : Int) (masks : Option (Int → Int))
    (y x : Int) (S : rcHeightfield) (R : Int → rcRowExt) :
    rasterizeTri.slopedEmitCell area thr flags masks y x (S.withRowExt R) =
      (rasterizeTri.slopedEmitCell area thr flags masks y x S).withRowExt R := by
  unfold rasterizeTri.slopedEmitCell
  by_cases hg : (S.tempspans (SampleIndex S x y)).sminmax0 ≥ (RC_SPAN_MAX_HEIGHT : Int) ∨
      (S.tempspans (SampleIndex S x y)).sminmax1 < 0
  · have hg' : ((S.withRowExt R).tempspans (SampleIndex (S.withRowExt R) x y)).sminmax0 ≥
        (RC_SPAN_MAX_HEIGHT : Int) ∨
        ((S.withRowExt R).tempspans (SampleIndex (S.withRowExt R) x y)).sminmax1 < 0 := hg
    simp only [if_pos hg, if_pos hg']
    rfl
  · have hg' : ¬ (((S.withRowExt R).tempspans (SampleIndex (S.withRowExt R) x y)).sminmax0 ≥
        (RC_SPAN_MAX_HEIGHT : Int) ∨
        ((S.withRowExt R).tempspans (SampleIndex (S.withRowExt R) x y)).sminmax1 < 0) := hg
    simp only [if_neg hg, if_neg hg']
    rfl

theorem slopedEmitCell_width (area : Nat) (thr flags : Int) (masks : Option (Int → Int))
    (y x : Int) (S : rcHeightfield) :
    (rasterizeTri.slopedEmitCell area thr flags masks y x S).width = S.width := by
  unfold rasterizeTri.slopedEmitCell
  simp only
  split <;> rfl

/-- The emission loops of the sloped path (lines 596-663) run the body of the
loop over `x` once for each element of `emissionCells`, in order. -/
theorem slopedEmit_eq_fold (L : rasterizeTri.Locals) (area : Nat) (thr flags : Int)
    (masks : Option (Int → Int)) (D : rcHeightfield) :
    forLoop L.y0 L.y1 (rasterizeTri.slopedEmitRow L area thr flags masks) D =
      resetRowExt L ((emissionCells L D).foldl
        (fun T c => rasterizeTri.slopedEmitCell area thr flags masks c.2 c.1 T) D) :=
  emitRows_eq_fold L (rasterizeTri.slopedEmitCell area thr flags masks)
    (rasterizeTri.slopedEmitRow L area thr flags masks) (fun _ _ => rfl)
    (slopedEmitCell_width area thr flags masks)
    (slopedEmitCell_withRowExt area thr flags masks) D

/-- The emission loops of the flat path (lines 403-452) run the body of the
loop over `x` once for each element of `emissionCells`, in order. -/
theorem flatEmit_eq_fold (L : rasterizeTri.Locals) (area : Nat) (thr flags : Int)
    (masks : Option (Int → Int)) (ismin ismax : Int) (D : rcHeightfield) :
    rasterizeTri.flatEmit L area thr flags masks ismin ismax D =
      resetRowExt L ((emissionCells L D).foldl
        (fun T c => rasterizeTri.flatEmitCell area thr flags masks ismin ismax D.width c.2 c.1 T)
        D) := by
  unfold rasterizeTri.flatEmit
  cases masks with
  | none =>
    exact emitRows_eq_fold L (rasterizeTri.flatEmitCell area thr flags none ismin ismax D.width)
      _ (fun _ _ => rfl) (fun _ _ _ => rfl) (fun _ _ _ _ => rfl) D
  | some m =>
    exact emitRows_eq_fold L
      (rasterizeTri.flatEmitCell area thr flags (some m) ismin ismax D.width)
      _ (fun _ _ => rfl) (fun _ _ _ => rfl) (fun _ _ _ _ => rfl) D

/-! ## Theorems: which cells a triangle is emitted to -/

/-- A triangle that passes the rejection tests and does not fall in a single
cell takes the flat path if its lowest and highest quantized heights agree,
and the sloped path otherwise. -/
theorem rasterizeTri_eq_paths (v0 v1 v2 : Vec3) (area : Nat) (hf : rcHeightfield)
    (bmin bmax : Vec3) (cs ics ich : ℚ) (flagMergeThr rasterizationFlags : Int)
    (rasterizationMasks : Option (Int → Int)) (L : rasterizeTri.Locals)
    (hL : L = rasterizeTri.locals v0 v1 v2 hf bmin cs ics ich)
    (hfoot : 0 ≤ L.maxCol ∧ L.minCol < hf.width ∧ 0 ≤ L.maxRow ∧ L.minRow < hf.height)
    (hheight : 0 ≤ max (max v0.y v1.y) v2.y - bmin.y ∧
      min (min v0.y v1.y) v2.y - bmin.y ≤ bmax.y - bmin.y)
    (hmulti : L.minCol ≠ L.maxCol ∨ L.minRow ≠ L.maxRow) :
    rasterizeTri v0 v1 v2 area hf bmin bmax cs ics ich flagMergeThr rasterizationFlags
        rasterizationMasks =
      if rasterizeTri.quantize ich (min (min v0.y v1.y) v2.y - bmin.y) =
          rasterizeTri.quantize ich (max (max v0.y v1.y) v2.y - bmin.y) then
        rasterizeTri.flat L area flagMergeThr rasterizationFlags rasterizationMasks
          (rasterizeTri.quantize ich (min (min v0.y v1.y) v2.y - bmin.y))
          (rasterizeTri.quantize ich (max (max v0.y v1.y) v2.y - bmin.y)) hf
      else rasterizeTri.sloped L area flagMergeThr rasterizationFlags rasterizationMasks hf := by
  subst hL
  simp only [rasterizeTri.Locals.minCol, rasterizeTri.Locals.maxCol,
    rasterizeTri.Locals.minRow, rasterizeTri.Locals.maxRow, rasterizeTri.locals] at hfoot hmulti
  unfold rasterizeTri
  simp only [intMin_eq_min, intMax_eq_max, rcMin_eq_min, rcMax_eq_max]
  rw [if_neg (by omega), if_neg (by linarith [hheight.1]), if_neg (by linarith [hheight.2]),
    if_neg (by omega)]

theorem flatDiscovery_width {L : rasterizeTri.Locals} {B : rcHeightfield}
    (c : L.Consistent B.width B.height) : (rasterizeTri.flatDiscovery L B).width = B.width := by
  obtain ⟨t0, _, _⟩ := flatBaseVerts_spec L B (fun _ => (⟨0, 0, 0⟩ : Vec3))
  exact (flatHorizontals_spec c _ t0).1.1.width_eq

/-- A row boundary whose entry was empty is empty again once the loop over the
row boundaries has consumed what the loop over `basevert` recorded. -/
theorem consumed_hits (L : rasterizeTri.Locals) (E : Int → rcEdgeHit) (y : Int)
    (hE : E y = ⟨0, 0⟩) :
    (if max (L.minRow + 1) L.y0 ≤ y ∧ y ≤ min L.maxRow L.y1_edge ∧
        (hitsAfterRecording L E y).Hits0 ≠ 0 then (⟨0, 0⟩ : rcEdgeHit)
      else hitsAfterRecording L E y) = ⟨0, 0⟩ := by
  obtain ⟨s1, s2⟩ := hitsAfterRecording_spec L E y hE
  by_cases hz : (hitsAfterRecording L E y).Hits0 ≠ 0
  · have := s1 hz
    rw [if_pos ⟨this.2.2.1, this.2.2.2, hz⟩]
  · have : ¬ (max (L.minRow + 1) L.y0 ≤ y ∧ y ≤ min L.maxRow L.y1_edge ∧
        (hitsAfterRecording L E y).Hits0 ≠ 0) := fun h => hz h.2.2
    rw [if_neg this]
    exact s2 (not_not.1 hz)

/-- The flat path returns empty edge hits if it is entered with empty edge
hits, whatever the other scratch buffers hold. -/
theorem flat_EdgeHits {L : rasterizeTri.Locals} {B : rcHeightfield}
    (c : L.Consistent B.width B.height)
    (hE : ∀ y, 0 ≤ y → y ≤ B.height → B.EdgeHits y = ⟨0, 0⟩) (area : Nat) (thr flags : Int)
    (masks : Option (Int → Int)) (ismin ismax : Int) (y : Int) (h1 : 0 ≤ y)
    (h2 : y ≤ B.height) :
    (rasterizeTri.flat L area thr flags masks ismin ismax B).EdgeHits y = ⟨0, 0⟩ := by
  obtain ⟨t0, e0, _⟩ := flatBaseVerts_spec L B (fun _ => (⟨0, 0, 0⟩ : Vec3))
  obtain ⟨_, e1⟩ := flatHorizontals_spec c
    ([0, 1, 2].foldl (fun st basevert => rasterizeTri.flatBaseVert L basevert st)
      (B, fun _ => (⟨0, 0, 0⟩ : Vec3))).2 t0
  obtain ⟨_, _, f3, _, _⟩ := flatEmit_spec L area thr flags masks ismin ismax
    (rasterizeTri.flatHorizontals L
      ([0, 1, 2].foldl (fun st basevert => rasterizeTri.flatBaseVert L basevert st)
        (B, fun _ => (⟨0, 0, 0⟩ : Vec3))).2
      ([0, 1, 2].foldl (fun st basevert => rasterizeTri.flatBaseVert L basevert st)
        (B, fun _ => (⟨0, 0, 0⟩ : Vec3))).1)
  unfold rasterizeTri.flat
  simp only
  rw [f3, e1 y, e0 y]
  exact consumed_hits L B.EdgeHits y (hE y h1 h2)

/-- The sloped path returns empty edge hits if it is entered with empty edge
hits, whatever the other scratch buffers hold. -/
theorem sloped_EdgeHits {L : rasterizeTri.Locals} {B : rcHeightfield}
    (c : L.Consistent B.width B.height)
    (hE : ∀ y, 0 ≤ y → y ≤ B.height → B.EdgeHits y = ⟨0, 0⟩) (area : Nat) (thr flags : Int)
    (masks : Option (Int → Int)) (y : Int) (h1 : 0 ≤ y) (h2 : y ≤ B.height) :
    (rasterizeTri.sloped L area thr flags masks B).EdgeHits y = ⟨0, 0⟩ := by
  obtain ⟨t0, e0, g0⟩ := slopedBaseVerts_spec c (fun _ => (⟨0, 0, 0⟩ : Vec3))
  have hy0 : 0 ≤ L.y0 := by rw [c.y0_eq]; omega
  have hy1 : L.y1_edge ≤ B.height := by rw [c.y1_edge_eq]; omega
  obtain ⟨_, e1⟩ := slopedHorizontals_spec c _ g0 t0 (by
    intro z z1 z2 z3
    rw [e0 z] at z3 ⊢
    have := ((hitsAfterRecording_spec L B.EdgeHits z
      (hE z (by omega) (by omega))).1 z3)
    exact ⟨this.1, this.2.1⟩)
  obtain ⟨_, _, f3, _, _, _⟩ := slopedEmit_spec L area thr flags masks
    (rasterizeTri.slopedHorizontals L
      ([0, 1, 2].foldl (fun st basevert => rasterizeTri.slopedBaseVert L basevert st)
        (B, fun _ => (⟨0, 0, 0⟩ : Vec3))).2
      ([0, 1, 2].foldl (fun st basevert => rasterizeTri.slopedBaseVert L basevert st)
        (B, fun _ => (⟨0, 0, 0⟩ : Vec3))).1)
  unfold rasterizeTri.sloped
  simp only
  rw [f3, e1 y, e0 y]
  exact consumed_hits L B.EdgeHits y (hE y h1 h2)

/-- C11. For every triangle, if every `EdgeHits` entry (the entries of the row
boundaries `0..height`) is empty before `rasterizeTri`, then every `EdgeHits`
entry is empty again when `rasterizeTri` returns: in the rejected cases, in the
single-cell case, in the flat path and in the sloped path. Nothing is assumed
about the other scratch buffers. -/
theorem rasterizeTri_clears_edge_hits (v0 v1 v2 : Vec3) (area : Nat) (hf : rcHeightfield)
    (bmin bmax : Vec3) (cs ics ich : ℚ) (flagMergeThr rasterizationFlags : Int)
    (rasterizationMasks : Option (Int → Int))
    (hE : ∀ y, 0 ≤ y → y ≤ hf.height → hf.EdgeHits y = ⟨0, 0⟩) :
    ∀ y, 0 ≤ y → y ≤ hf.height →
      (rasterizeTri v0 v1 v2 area hf bmin bmax cs ics ich flagMergeThr rasterizationFlags
        rasterizationMasks).EdgeHits y = ⟨0, 0⟩ := by
  intro y h1 h2
  have c := locals_consistent v0 v1 v2 hf bmin cs ics ich
  unfold rasterizeTri
  simp only
  split
  · exact hE y h1 h2
  · split
    · exact hE y h1 h2
    · split
      · exact hE y h1 h2
      · split
        · exact hE y h1 h2
        · split
          · exact flat_EdgeHits c hE area flagMergeThr rasterizationFlags
              rasterizationMasks _ _ y h1 h2
          · exact sloped_EdgeHits c hE area flagMergeThr rasterizationFlags
              rasterizationMasks y h1 h2

/-- A sloped triangle over two rows of a fresh 2x2 grid: the row boundary 1,
which two of its edges cross, is empty again after the call. -/
theorem rasterizeTri_clears_edge_hits_witness :
    (rasterizeTri ⟨1 / 2, 0, 1 / 2⟩ ⟨3 / 2, 1, 3 / 2⟩ ⟨1 / 2, 0, 3 / 2⟩ 63
      (rcCreateHeightfield 2 2 ⟨0, 0, 0⟩ ⟨2, 2, 2⟩ 1 1) ⟨0, 0, 0⟩ ⟨2, 2, 2⟩ 1 1 1 4 0
      none).EdgeHits 1 = ⟨0, 0⟩ :=
  rasterizeTri_clears_edge_hits ⟨1 / 2, 0, 1 / 2⟩ ⟨3 / 2, 1, 3 / 2⟩ ⟨1 / 2, 0, 3 / 2⟩ 63
    (rcCreateHeightfield 2 2 ⟨0, 0, 0⟩ ⟨2, 2, 2⟩ 1 1) ⟨0, 0, 0⟩ ⟨2, 2, 2⟩ 1 1 1 4 0 none
    (fun _ _ _ => rfl) 1 (by decide) (by decide)

/-! ## Theorems: the calls of addSpan that a triangle makes -/

theorem singleCell_eq_addSpan (area : Nat) (hf : rcHeightfield) (ich : ℚ) (thr flags : Int)
    (masks : Option (Int → Int)) (by_ lo hi : ℚ) (x0 y0 : Int) :
    rasterizeTri.singleCell area hf ich thr flags masks by_ lo hi x0 y0 =
      addSpan hf x0 y0
        (projectedLow flags masks (x0 + y0 * hf.width)
          (rasterizeTri.singleCellBounds ich by_ lo hi).1)
        (rasterizeTri.singleCellBounds ich by_ lo hi).2 area thr := by
  cases masks <;> rfl

theorem flatEmitCell_eq_addSpan (area : Nat) (thr flags : Int) (masks : Option (Int → Int))
    (ismin ismax w y x : Int) (T : rcHeightfield) :
    rasterizeTri.flatEmitCell area thr flags masks ismin ismax w y x T =
      addSpan T x y (projectedLow flags masks (x + y * w) (rasterizeTri.flatBounds ismin ismax).1)
        (rasterizeTri.flatBounds ismin ismax).2 area thr := rfl

theorem slopedEmitCell_eq_insertion (area : Nat) (thr flags : Int)
    (masks : Option (Int → Int)) (y x : Int) (T : rcHeightfield) :
    rasterizeTri.slopedEmitCell area thr flags masks y x T =
      slopedInsertion area thr flags masks T.width T (x, y) := by
  unfold rasterizeTri.slopedEmitCell slopedInsertion rasterizeTri.slopedSkip
  by_cases hg : (T.tempspans (SampleIndex T x y)).sminmax0 ≥ (RC_SPAN_MAX_HEIGHT : Int) ∨
      (T.tempspans (SampleIndex T x y)).sminmax1 < 0
  · simp only [if_pos hg]
    rfl
  · simp only [if_neg hg]
    have e : ∀ (g : Prop) [Decidable g] (a : Int),
        toUShort (if g then 0 else a) = if g then 0 else toUShort a := by
      intro g _ a
      split <;> rfl
    cases masks <;> simp only [e] <;> rfl

/-- Two bodies that agree on the states of a given width, and keep the width,
give the same fold from a state of that width. -/
theorem foldl_congr_width (f g : rcHeightfield → Int × Int → rcHeightfield) (w : Int)
    (hfg : ∀ T c, T.width = w → f T c = g T c) (hw : ∀ T c, (g T c).width = T.width)
    (cells : List (Int × Int)) (S : rcHeightfield) (hS : S.width = w) :
    cells.foldl f S = cells.foldl g S := by
  induction cells generalizing S with
  | nil => rfl
  | cons c rest ih =>
    simp only [List.foldl_cons]
    rw [hfg S c hS]
    exact ih (g S c) ((hw S c).trans hS)

theorem slopedInsertion_width (area : Nat) (thr flags : Int) (masks : Option (Int → Int))
    (w : Int) (T : rcHeightfield) (c : Int × Int) :
    (slopedInsertion area thr flags masks w T c).width = T.width := by
  unfold slopedInsertion
  split <;> rfl

theorem recordEdge_width (L : rasterizeTri.Locals) (b : Nat) (S : rcHeightfield) :
    (rasterizeTri.recordEdge L b S).width = S.width := by
  unfold rasterizeTri.recordEdge
  simp only
  exact ite_field _ _ _ (fun T : rcHeightfield => T.width) _
    (forLoop_invariant (fun T : rcHeightfield => T.width = S.width) _ _ _ _ rfl
      (fun _ T _ _ h => (show (rasterizeTri.recordHit _ _ T).width = T.width from rfl).trans h))
    rfl

theorem slopedVertical_width (L : rasterizeTri.Locals) (b edge : Nat) (edges : Nat → Vec3)
    (x : Int) (st : rcHeightfield × ℚ) :
    (rasterizeTri.slopedVertical L b edge edges x st).1.width = st.1.width := by
  unfold rasterizeTri.slopedVertical
  simp only
  split <;> rfl

theorem slopedBaseVert_width (L : rasterizeTri.Locals) (b : Nat)
    (st : rcHeightfield × (Nat → Vec3)) :
    (rasterizeTri.slopedBaseVert L b st).1.width = st.1.width := by
  have h1 : ∀ (g : Prop) [Decidable g] (x z s : Int),
      (if g then addSpanSample st.1 x z s else st.1).width = st.1.width := by
    intro g _ x z s
    split <;> rfl
  have h2 : ∀ (S : rcHeightfield) (g : Prop) [Decidable g] (lo hi : Int) (e : Nat)
      (edges : Nat → Vec3) (cx : ℚ),
      (if g then (forLoop lo hi (rasterizeTri.slopedVertical L b e edges) (S, cx)).1
        else S).width = S.width := by
    intro S g _ lo hi e edges cx
    split
    · exact forLoop_invariant (fun s : rcHeightfield × ℚ => s.1.width = S.width) _ _ _ _
        rfl (fun i s _ _ h => (slopedVertical_width L b e edges i s).trans h)
    · rfl
  unfold rasterizeTri.slopedBaseVert
  simp only
  rw [h2, recordEdge_width, h1]

theorem slopedHit_width (L : rasterizeTri.Locals) (S : rcHeightfield) (edges : Nat → Vec3)
    (y : Int) (cz : ℚ) (hit : Nat) :
    (rasterizeTri.slopedHit L edges y cz hit S).1.width = S.width := by
  unfold rasterizeTri.slopedHit
  simp only
  split <;> rfl

theorem addSpanSample_width (hf : rcHeightfield) (x y sint : Int) :
    (addSpanSample hf x y sint).width = hf.width := rfl

theorem slopedFillCell_width (L : rasterizeTri.Locals) (y : Int) (ds : ℚ) (x : Int)
    (st : rcHeightfield × ℚ) :
    (rasterizeTri.slopedFillCell L y ds x st).1.width = st.1.width := by
  simp only [rasterizeTri.slopedFillCell, addSpanSample_width]

theorem slopedFill_width (L : rasterizeTri.Locals) (S : rcHeightfield) (y : Int)
    (Inter0 Inter1 : Vec3) (xInter0 xInter1 : Int) :
    (rasterizeTri.slopedFill L y Inter0 Inter1 xInter0 xInter1 S).width = S.width := by
  unfold rasterizeTri.slopedFill
  simp only
  split
  · exact forLoop_invariant (fun s : rcHeightfield × ℚ => s.1.width = S.width) _ _ _ _
      rfl (fun i s _ _ h => (slopedFillCell_width L y _ i s).trans h)
  · rfl

theorem slopedHorizontal_width (L : rasterizeTri.Locals) (edges : Nat → Vec3) (y : Int)
    (st : rcHeightfield × ℚ) :
    (rasterizeTri.slopedHorizontal L edges y st).1.width = st.1.width := by
  unfold rasterizeTri.slopedHorizontal
  simp only
  split
  · exact (slopedFill_width L _ y _ _ _ _).trans
      ((slopedHit_width L _ edges y st.2 _).trans (slopedHit_width L _ edges y st.2 _))
  · rfl

/-- The discovery phase of the sloped path keeps the width of the grid. -/
theorem slopedDiscovery_width (L : rasterizeTri.Locals) (B : rcHeightfield) :
    (rasterizeTri.slopedDiscovery L B).width = B.width := by
  unfold rasterizeTri.slopedDiscovery rasterizeTri.slopedHorizontals
  simp only [List.foldl]
  refine (forLoop_invariant (fun st : rcHeightfield × ℚ => st.1.width =
    (rasterizeTri.slopedBaseVert L 2 (rasterizeTri.slopedBaseVert L 1
      (rasterizeTri.slopedBaseVert L 0 (B, fun _ => (⟨0, 0, 0⟩ : Vec3))))).1.width) _ _ _ _
    rfl (fun i st _ _ h => (slopedHorizontal_width L _ i st).trans h)).trans ?_
  rw [slopedBaseVert_width, slopedBaseVert_width, slopedBaseVert_width]

/-- A triangle that passes the rejection tests is handled by the single-cell
case, by the flat path or by the sloped path; the two paths run the body of
their emission loop once for each element of `emissionCells`, from the state
that their discovery phase leaves. -/
theorem rasterizeTri_eq_bodies (v0 v1 v2 : Vec3) (area : Nat) (hf : rcHeightfield)
    (bmin bmax : Vec3) (cs ics ich : ℚ) (flagMergeThr rasterizationFlags : Int)
    (rasterizationMasks : Option (Int → Int)) (L : rasterizeTri.Locals)
    (hL : L = rasterizeTri.locals v0 v1 v2 hf bmin cs ics ich)
    (hfoot : 0 ≤ L.maxCol ∧ L.minCol < hf.width ∧ 0 ≤ L.maxRow ∧ L.minRow < hf.height)
    (hheight : 0 ≤ max (max v0.y v1.y) v2.y - bmin.y ∧
      min (min v0.y v1.y) v2.y - bmin.y ≤ bmax.y - bmin.y) :
    rasterizeTri v0 v1 v2 area hf bmin bmax cs ics ich flagMergeThr rasterizationFlags
        rasterizationMasks =
      if L.minCol = L.maxCol ∧ L.minRow = L.maxRow then
        rasterizeTri.singleCell area hf ich flagMergeThr rasterizationFlags rasterizationMasks
          (bmax.y - bmin.y) (min (min v0.y v1.y) v2.y - bmin.y)
          (max (max v0.y v1.y) v2.y - bmin.y) L.minCol L.minRow
      else if rasterizeTri.quantize ich (min (min v0.y v1.y) v2.y - bmin.y) =
          rasterizeTri.quantize ich (max (max v0.y v1.y) v2.y - bmin.y) then
        resetRowExt L ((emissionCells L (rasterizeTri.flatDiscovery L hf)).foldl
          (fun T c => rasterizeTri.flatEmitCell area flagMergeThr rasterizationFlags
            rasterizationMasks (rasterizeTri.quantize ich (min (min v0.y v1.y) v2.y - bmin.y))
            (rasterizeTri.quantize ich (max (max v0.y v1.y) v2.y - bmin.y)) hf.width c.2 c.1 T)
          (rasterizeTri.flatDiscovery L hf))
      else
        resetRowExt L ((emissionCells L (rasterizeTri.slopedDiscovery L hf)).foldl
          (fun T c => rasterizeTri.slopedEmitCell area flagMergeThr rasterizationFlags
            rasterizationMasks c.2 c.1 T)
          (rasterizeTri.slopedDiscovery L hf)) := by
  have c : L.Consistent hf.width hf.height := by
    rw [hL]; exact locals_consistent v0 v1 v2 hf bmin cs ics ich
  by_cases hsingle : L.minCol = L.maxCol ∧ L.minRow = L.maxRow
  · rw [if_pos hsingle]
    subst hL
    simp only [rasterizeTri.Locals.minCol, rasterizeTri.Locals.maxCol,
      rasterizeTri.Locals.minRow, rasterizeTri.Locals.maxRow, rasterizeTri.locals]
      at hfoot hsingle ⊢
    unfold rasterizeTri
    simp only [intMin_eq_min, intMax_eq_max, rcMin_eq_min, rcMax_eq_max]
    rw [if_neg (by omega), if_neg (by linarith [hheight.1]), if_neg (by linarith [hheight.2]),
      if_pos hsingle]
  · rw [if_neg hsingle]
    have hmulti : L.minCol ≠ L.maxCol ∨ L.minRow ≠ L.maxRow := by
      by_contra hno
      exact hsingle ⟨not_not.1 (fun h => hno (Or.inl h)), not_not.1 (fun h => hno (Or.inr h))⟩
    rw [rasterizeTri_eq_paths v0 v1 v2 area hf bmin bmax cs ics ich flagMergeThr
      rasterizationFlags rasterizationMasks L hL hfoot hheight hmulti]
    split
    · have hw := flatDiscovery_width c
      rw [← hw]
      exact flatEmit_eq_fold L area flagMergeThr rasterizationFlags rasterizationMasks _ _ _
    · exact slopedEmit_eq_fold L area flagMergeThr rasterizationFlags rasterizationMasks _

/-- C12. Take a triangle that passes the rejection tests. Every call of
`addSpan` that `rasterizeTri` makes for it, at a cell `(x, y)`, passes as low
bound `projectedLow flags masks (x + y * width) lo`: that is `0` exactly when
`flags & masks[x + y * width]` is non-zero if a mask is supplied, and exactly
when `flags` is non-zero if none is supplied, and otherwise the quantized low
bound `lo` of the path (`singleCellBounds`, `flatBounds`, `slopedBounds`). The
high bound and the area passed do not depend on `flags` and `masks`, nor do the
cells visited. The single-cell case makes one call; the flat path one call per
element of `emissionCells`; the sloped path one call per element of
`emissionCells` whose sample it does not skip. The second part is the same
triangle without projection (`flags = 0`, no mask): the same calls with the
quantized low bound itself. -/
theorem rasterizeTri_floor_projection (v0 v1 v2 : Vec3) (area : Nat) (hf : rcHeightfield)
    (bmin bmax : Vec3) (cs ics ich : ℚ) (flagMergeThr rasterizationFlags : Int)
    (rasterizationMasks : Option (Int → Int)) (L : rasterizeTri.Locals)
    (hL : L = rasterizeTri.locals v0 v1 v2 hf bmin cs ics ich)
    (hfoot : 0 ≤ L.maxCol ∧ L.minCol < hf.width ∧ 0 ≤ L.maxRow ∧ L.minRow < hf.height)
    (hheight : 0 ≤ max (max v0.y v1.y) v2.y - bmin.y ∧
      min (min v0.y v1.y) v2.y - bmin.y ≤ bmax.y - bmin.y) :
    (rasterizeTri v0 v1 v2 area hf bmin bmax cs ics ich flagMergeThr rasterizationFlags
        rasterizationMasks =
      if L.minCol = L.maxCol ∧ L.minRow = L.maxRow then
        addSpan hf L.minCol L.minRow
          (projectedLow rasterizationFlags rasterizationMasks (L.minCol + L.minRow * hf.width)
            (rasterizeTri.singleCellBounds ich (bmax.y - bmin.y)
              (min (min v0.y v1.y) v2.y - bmin.y) (max (max v0.y v1.y) v2.y - bmin.y)).1)
          (rasterizeTri.singleCellBounds ich (bmax.y - bmin.y)
            (min (min v0.y v1.y) v2.y - bmin.y) (max (max v0.y v1.y) v2.y - bmin.y)).2
          area flagMergeThr
      else if rasterizeTri.quantize ich (min (min v0.y v1.y) v2.y - bmin.y) =
          rasterizeTri.quantize ich (max (max v0.y v1.y) v2.y - bmin.y) then
        resetRowExt L ((emissionCells L (rasterizeTri.flatDiscovery L hf)).foldl
          (fun T c => addSpan T c.1 c.2
            (projectedLow rasterizationFlags rasterizationMasks (c.1 + c.2 * hf.width)
              (rasterizeTri.flatBounds
                (rasterizeTri.quantize ich (min (min v0.y v1.y) v2.y - bmin.y))
                (rasterizeTri.quantize ich (max (max v0.y v1.y) v2.y - bmin.y))).1)
            (rasterizeTri.flatBounds
              (rasterizeTri.quantize ich (min (min v0.y v1.y) v2.y - bmin.y))
              (rasterizeTri.quantize ich (max (max v0.y v1.y) v2.y - bmin.y))).2
            area flagMergeThr)
          (rasterizeTri.flatDiscovery L hf))
      else
        resetRowExt L ((emissionCells L (rasterizeTri.slopedDiscovery L hf)).foldl
          (slopedInsertion area flagMergeThr rasterizationFlags rasterizationMasks hf.width)
          (rasterizeTri.slopedDiscovery L hf))) ∧
    (rasterizeTri v0 v1 v2 area hf bmin bmax cs ics ich flagMergeThr 0 none =
      if L.minCol = L.maxCol ∧ L.minRow = L.maxRow then
        addSpan hf L.minCol L.minRow
          (rasterizeTri.singleCellBounds ich (bmax.y - bmin.y)
            (min (min v0.y v1.y) v2.y - bmin.y) (max (max v0.y v1.y) v2.y - bmin.y)).1
          (rasterizeTri.singleCellBounds ich (bmax.y - bmin.y)
            (min (min v0.y v1.y) v2.y - bmin.y) (max (max v0.y v1.y) v2.y - bmin.y)).2
          area flagMergeThr
      else if rasterizeTri.quantize ich (min (min v0.y v1.y) v2.y - bmin.y) =
          rasterizeTri.quantize ich (max (max v0.y v1.y) v2.y - bmin.y) then
        resetRowExt L ((emissionCells L (rasterizeTri.flatDiscovery L hf)).foldl
          (fun T c => addSpan T c.1 c.2
            (rasterizeTri.flatBounds
              (rasterizeTri.quantize ich (min (min v0.y v1.y) v2.y - bmin.y))
              (rasterizeTri.quantize ich (max (max v0.y v1.y) v2.y - bmin.y))).1
            (rasterizeTri.flatBounds
              (rasterizeTri.quantize ich (min (min v0.y v1.y) v2.y - bmin.y))
              (rasterizeTri.quantize ich (max (max v0.y v1.y) v2.y - bmin.y))).2
            area flagMergeThr)
          (rasterizeTri.flatDiscovery L hf))
      else
        resetRowExt L ((emissionCells L (rasterizeTri.slopedDiscovery L hf)).foldl
          (fun T c =>
            if rasterizeTri.slopedSkip (T.tempspans (SampleIndex T c.1 c.2)) then
              rasterizeTri.resetSample c.1 c.2 T
            else
              addSpan (rasterizeTri.resetSample c.1 c.2 T) c.1 c.2
                (toUShort (rasterizeTri.slopedBounds (T.tempspans (SampleIndex T c.1 c.2))).1)
                (toUShort (rasterizeTri.slopedBounds (T.tempspans (SampleIndex T c.1 c.2))).2)
                area flagMergeThr)
          (rasterizeTri.slopedDiscovery L hf))) := by
  have key : ∀ (flags : Int) (masks : Option (Int → Int)),
      rasterizeTri v0 v1 v2 area hf bmin bmax cs ics ich flagMergeThr flags masks =
      if L.minCol = L.maxCol ∧ L.minRow = L.maxRow then
        addSpan hf L.minCol L.minRow
          (projectedLow flags masks (L.minCol + L.minRow * hf.width)
            (rasterizeTri.singleCellBounds ich (bmax.y - bmin.y)
              (min (min v0.y v1.y) v2.y - bmin.y) (max (max v0.y v1.y) v2.y - bmin.y)).1)
          (rasterizeTri.singleCellBounds ich (bmax.y - bmin.y)
            (min (min v0.y v1.y) v2.y - bmin.y) (max (max v0.y v1.y) v2.y - bmin.y)).2
          area flagMergeThr
      else if rasterizeTri.quantize ich (min (min v0.y v1.y) v2.y - bmin.y) =
          rasterizeTri.quantize ich (max (max v0.y v1.y) v2.y - bmin.y) then
        resetRowExt L ((emissionCells L (rasterizeTri.flatDiscovery L hf)).foldl
          (fun T c => addSpan T c.1 c.2
            (projectedLow flags masks (c.1 + c.2 * hf.width)
              (rasterizeTri.flatBounds
                (rasterizeTri.quantize ich (min (min v0.y v1.y) v2.y - bmin.y))
                (rasterizeTri.quantize ich (max (max v0.y v1.y) v2.y - bmin.y))).1)
            (rasterizeTri.flatBounds
              (rasterizeTri.quantize ich (min (min v0.y v1.y) v2.y - bmin.y))
              (rasterizeTri.quantize ich (max (max v0.y v1.y) v2.y - bmin.y))).2
            area flagMergeThr)
          (rasterizeTri.flatDiscovery L hf))
      else
        resetRowExt L ((emissionCells L (rasterizeTri.slopedDiscovery L hf)).foldl
          (slopedInsertion area flagMergeThr flags masks hf.width)
          (rasterizeTri.slopedDiscovery L hf)) := by
    intro flags masks
    rw [rasterizeTri_eq_bodies v0 v1 v2 area hf bmin bmax cs ics ich flagMergeThr flags masks L
      hL hfoot hheight]
    split
    · exact singleCell_eq_addSpan area hf ich flagMergeThr flags masks _ _ _ _ _
    · split
      · rfl
      · congr 1
        exact foldl_congr_width _ _ hf.width
          (fun T c hT => by rw [slopedEmitCell_eq_insertion, hT])
          (slopedInsertion_width area flagMergeThr flags masks hf.width) _ _
          (slopedDiscovery_width L hf)
  exact ⟨key rasterizationFlags rasterizationMasks, key 0 none⟩

/-- A flat triangle at height 2 over a fresh 2x2 grid, with the flag set and a
mask that selects the cell (0, 0) only: the span of column (0, 0) starts at 0,
the span of column (0, 1) at the quantized height 2. -/
theorem rasterizeTri_floor_projection_witness :
    (rasterizeTri ⟨1 / 2, 2, 1 / 2⟩ ⟨3 / 2, 2, 3 / 2⟩ ⟨1 / 2, 2, 3 / 2⟩ 63
      (rcCreateHeightfield 2 2 ⟨0, 0, 0⟩ ⟨2, 4, 2⟩ 1 1) ⟨0, 0, 0⟩ ⟨2, 4, 2⟩ 1 1 1 4 1
      (some fun i => if i = 0 then 1 else 0)).spans (0 + 0 * 2) = [⟨0, 3, 63⟩] ∧
    (rasterizeTri ⟨1 / 2, 2, 1 / 2⟩ ⟨3 / 2, 2, 3 / 2⟩ ⟨1 / 2, 2, 3 / 2⟩ 63
      (rcCreateHeightfield 2 2 ⟨0, 0, 0⟩ ⟨2, 4, 2⟩ 1 1) ⟨0, 0, 0⟩ ⟨2, 4, 2⟩ 1 1 1 4 1
      (some fun i => if i = 0 then 1 else 0)).spans (0 + 1 * 2) = [⟨2, 3, 63⟩] :=
  ⟨(congrArg (fun T : rcHeightfield => T.spans (0 + 0 * 2))
      (rasterizeTri_floor_projection ⟨1 / 2, 2, 1 / 2⟩ ⟨3 / 2, 2, 3 / 2⟩ ⟨1 / 2, 2, 3 / 2⟩ 63
        (rcCreateHeightfield 2 2 ⟨0, 0, 0⟩ ⟨2, 4, 2⟩ 1 1) ⟨0, 0, 0⟩ ⟨2, 4, 2⟩ 1 1 1 4 1
        (some fun i => if i = 0 then 1 else 0) _ rfl (by decide!) (by decide!)).1).trans
      (by decide!),
    (congrArg (fun T : rcHeightfield => T.spans (0 + 1 * 2))
      (rasterizeTri_floor_projection ⟨1 / 2, 2, 1 / 2⟩ ⟨3 / 2, 2, 3 / 2⟩ ⟨1 / 2, 2, 3 / 2⟩ 63
        (rcCreateHeightfield 2 2 ⟨0, 0, 0⟩ ⟨2, 4, 2⟩ 1 1) ⟨0, 0, 0⟩ ⟨2, 4, 2⟩ 1 1 1 4 1
        (some fun i => if i = 0 then 1 else 0) _ rfl (by decide!) (by decide!)).1).trans
      (by decide!)⟩
/-! ## Theorems: the interval of the flat path -/

theorem quantize_of_floor (ich x : ℚ) (h : Int) (hx : ⌊x * ich⌋ = h) (h0 : -32000 ≤ h)
    (h1 : h ≤ 32000) : rasterizeTri.quantize ich x = h := by
  unfold rasterizeTri.quantize
  rw [hx, rcClamp_int _ _ _ (by decide)]
  omega

theorem flatBounds_of_range (h : Nat) (hfit : h ≤ 8190) :
    rasterizeTri.flatBounds (h : Int) (h : Int) = (h, h + 1) := by
  have hmax : ((RC_SPAN_MAX_HEIGHT : Nat) : Int) = 8191 := by decide
  have e1 : rcClamp (h : Int) 0 ((RC_SPAN_MAX_HEIGHT : Nat) : Int) = (h : Int) := by
    rw [hmax, rcClamp_int _ _ _ (by decide)]
    omega
  have t1 : toUShort (h : Int) = h := by
    rw [toUShort_of_range _ (by omega) (by omega)]
    rfl
  have e2 : rcClamp (h : Int) ((h : Int) + 1) ((RC_SPAN_MAX_HEIGHT : Nat) : Int) =
      ((h + 1 : Nat) : Int) := by
    rw [hmax, rcClamp_int _ _ _ (by omega)]
    omega
  have t2 : toUShort ((h + 1 : Nat) : Int) = h + 1 := by
    rw [toUShort_of_range _ (by omega) (by omega)]
    rfl
  unfold rasterizeTri.flatBounds
  simp only [e1, t1, e2, t2]

/-- The interval of the flat path with exact arithmetic (the first embedding;
the statement for single precision is in the last sections of this file).
Take a triangle that passes the rejection tests, whose
vertices do not fall in one cell, and whose lowest and highest heights above
the grid bottom both have the quantum `h = floor(height * ich)`, with
`0 ≤ h ≤ 8190`. Then `rasterizeTri` takes the flat path, and what it does is:
one call `addSpan(x, y, smin, h + 1, area)` for each cell `(x, y)` of
`emissionCells`, in order, with `smin = h`, or `smin = 0` where the projection
to the floor applies: the given area and the same interval for every cell. -/
theorem rasterizeTri_flat_interval_exact (v0 v1 v2 : Vec3) (area : Nat) (hf : rcHeightfield)
    (bmin bmax : Vec3) (cs ics ich : ℚ) (flagMergeThr rasterizationFlags : Int)
    (rasterizationMasks : Option (Int → Int)) (L : rasterizeTri.Locals) (h : Nat)
    (hL : L = rasterizeTri.locals v0 v1 v2 hf bmin cs ics ich)
    (hfoot : 0 ≤ L.maxCol ∧ L.minCol < hf.width ∧ 0 ≤ L.maxRow ∧ L.minRow < hf.height)
    (hheight : 0 ≤ max (max v0.y v1.y) v2.y - bmin.y ∧
      min (min v0.y v1.y) v2.y - bmin.y ≤ bmax.y - bmin.y)
    (hmulti : L.minCol ≠ L.maxCol ∨ L.minRow ≠ L.maxRow)
    (hlow : ⌊(min (min v0.y v1.y) v2.y - bmin.y) * ich⌋ = (h : Int))
    (hhigh : ⌊(max (max v0.y v1.y) v2.y - bmin.y) * ich⌋ = (h : Int))
    (hfit : h ≤ 8190) :
    rasterizeTri v0 v1 v2 area hf bmin bmax cs ics ich flagMergeThr rasterizationFlags
        rasterizationMasks =
      resetRowExt L ((emissionCells L (rasterizeTri.flatDiscovery L hf)).foldl
        (fun T c => addSpan T c.1 c.2
          (projectedLow rasterizationFlags rasterizationMasks (c.1 + c.2 * hf.width) h)
          (h + 1) area flagMergeThr)
        (rasterizeTri.flatDiscovery L hf)) := by
  have q1 := quantize_of_floor ich _ _ hlow (by omega) (by omega)
  have q2 := quantize_of_floor ich _ _ hhigh (by omega) (by omega)
  have hsingle : ¬ (L.minCol = L.maxCol ∧ L.minRow = L.maxRow) := by
    intro hs
    rcases hmulti with hm | hm
    · exact hm hs.1
    · exact hm hs.2
  rw [rasterizeTri_eq_bodies v0 v1 v2 area hf bmin bmax cs ics ich flagMergeThr
    rasterizationFlags rasterizationMasks L hL hfoot hheight, if_neg hsingle, q1, q2,
    if_pos rfl]
  have hbody : ∀ (T : rcHeightfield) (c : Int × Int),
      rasterizeTri.flatEmitCell area flagMergeThr rasterizationFlags rasterizationMasks
        (h : Int) (h : Int) hf.width c.2 c.1 T =
      addSpan T c.1 c.2
        (projectedLow rasterizationFlags rasterizationMasks (c.1 + c.2 * hf.width) h)
        (h + 1) area flagMergeThr := by
    intro T c
    rw [flatEmitCell_eq_addSpan, flatBounds_of_range h hfit]
  simp only [hbody]

/-- A flat triangle at height 2 over a fresh 2x2 grid, not projected: the
column (0, 1) gets the span `[2, 3]`. -/
theorem rasterizeTri_flat_interval_exact_witness :
    (rasterizeTri ⟨1 / 2, 2, 1 / 2⟩ ⟨3 / 2, 2, 3 / 2⟩ ⟨1 / 2, 2, 3 / 2⟩ 63
      (rcCreateHeightfield 2 2 ⟨0, 0, 0⟩ ⟨2, 4, 2⟩ 1 1) ⟨0, 0, 0⟩ ⟨2, 4, 2⟩ 1 1 1 4 0
      none).spans (0 + 1 * 2) = [⟨2, 3, 63⟩] :=
  (congrArg (fun T : rcHeightfield => T.spans (0 + 1 * 2))
    (rasterizeTri_flat_interval_exact ⟨1 / 2, 2, 1 / 2⟩ ⟨3 / 2, 2, 3 / 2⟩ ⟨1 / 2, 2, 3 / 2⟩ 63
      (rcCreateHeightfield 2 2 ⟨0, 0, 0⟩ ⟨2, 4, 2⟩ 1 1) ⟨0, 0, 0⟩ ⟨2, 4, 2⟩ 1 1 1 4 0 none _ 2
      rfl (by decide!) (by decide!) (by decide!) (by decide!) (by decide!) (by decide))).trans
    (by decide!)

/-- With exact arithmetic, outside the range `0 ≤ h ≤ 8190`. (1) Grid of two cells and of height 10000, `ich = 1`,
a triangle over both cells with all vertices at height 9000.5: the footprint is
larger than one cell and both heights have the quantum `h = 9000`, so the flat
path is taken, but the interval passed to `addSpan` is `(8191, 8191)`, and the
fresh column 0 ends up with the record `(8191, 8191, 63)`, not with a span from
9000 to 9001. (2) With a negative `ich = -1` and all vertices at height 1/2 the
quantum is `h = -1`, and the interval is `(0, 1)`, not `(-1, 0)`. -/
theorem rasterizeTri_flat_interval_exact_counterexample :
    (cellOf ⟨0, 0, 0⟩ 1 ⟨1 / 4, 18001 / 2, 1 / 4⟩ ≠ cellOf ⟨0, 0, 0⟩ 1 ⟨7 / 4, 18001 / 2, 1 / 4⟩ ∧
      ⌊(min (min (18001 / 2 : ℚ) (18001 / 2)) (18001 / 2) - 0) * 1⌋ = 9000 ∧
      ⌊(max (max (18001 / 2 : ℚ) (18001 / 2)) (18001 / 2) - 0) * 1⌋ = 9000 ∧
      rasterizeTri.flatBounds (rasterizeTri.quantize 1 (18001 / 2 - 0))
        (rasterizeTri.quantize 1 (18001 / 2 - 0)) = (8191, 8191) ∧
      (rasterizeTri ⟨1 / 4, 18001 / 2, 1 / 4⟩ ⟨7 / 4, 18001 / 2, 1 / 4⟩
        ⟨1 / 4, 18001 / 2, 3 / 4⟩ 63
        (rcCreateHeightfield 2 1 ⟨0, 0, 0⟩ ⟨2, 10000, 1⟩ 1 1) ⟨0, 0, 0⟩ ⟨2, 10000, 1⟩ 1 1 1 4 0
        none).spans 0 = [⟨8191, 8191, 63⟩]) ∧
    (⌊(min (min (1 / 2 : ℚ) (1 / 2)) (1 / 2) - 0) * (-1)⌋ = -1 ∧
      ⌊(max (max (1 / 2 : ℚ) (1 / 2)) (1 / 2) - 0) * (-1)⌋ = -1 ∧
      rasterizeTri.flatBounds (rasterizeTri.quantize (-1) (1 / 2 - 0))
        (rasterizeTri.quantize (-1) (1 / 2 - 0)) = (0, 1) ∧
      (rasterizeTri ⟨1 / 4, 1 / 2, 1 / 4⟩ ⟨7 / 4, 1 / 2, 1 / 4⟩ ⟨1 / 4, 1 / 2, 3 / 4⟩ 63
        (rcCreateHeightfield 2 1 ⟨0, 0, 0⟩ ⟨2, 10, 1⟩ 1 1) ⟨0, 0, 0⟩ ⟨2, 10, 1⟩ 1 1 (-1) 4 0
        none).spans 0 = [⟨0, 1, 63⟩]) := by
  decide!
/-! ## Theorems: the span of a cell of the sloped path -/

/-- C14. The body of the emission loop of the sloped path, run at the cell
`(x, y)` in a state `T` in which the sample of the cell is `(mn, mx)`, resets
the sample and: if `mn ≥ 8191` or `mx < 0` it does nothing else, so no span is
inserted; otherwise it makes exactly one call `addSpan(x, y, smin, smax, area)`,
where `smin = max(mn, 0)`, or `0` where the projection to the floor applies,
and `smax = min(max(mx, max(mn, 0) + 1), 8191)`, so that
`0 ≤ smin < smax ≤ 8191`. -/
theorem rasterizeTri_sloped_cell_span (area : Nat) (flagMergeThr rasterizationFlags : Int)
    (rasterizationMasks : Option (Int → Int)) (y x : Int) (T : rcHeightfield) (mn mx : Int)
    (hT : T.tempspans (SampleIndex T x y) = ⟨mn, mx⟩) :
    ((mn ≥ 8191 ∨ mx < 0) →
      rasterizeTri.slopedEmitCell area flagMergeThr rasterizationFlags rasterizationMasks y x T =
        rasterizeTri.resetSample x y T) ∧
    (¬ (mn ≥ 8191 ∨ mx < 0) →
      ∃ smin smax : Nat,
        rasterizeTri.slopedEmitCell area flagMergeThr rasterizationFlags rasterizationMasks
            y x T =
          addSpan (rasterizeTri.resetSample x y T) x y smin smax area flagMergeThr ∧
        (smin : Int) =
          (if projectSpanToBottom rasterizationFlags rasterizationMasks (x + y * T.width) ≠ 0
            then 0 else max mn 0) ∧
        (smax : Int) = min (max mx (max mn 0 + 1)) 8191 ∧
        smin < smax ∧ smax ≤ 8191) := by
  have hmax : ((RC_SPAN_MAX_HEIGHT : Nat) : Int) = 8191 := by decide
  have hskip : rasterizeTri.slopedSkip (T.tempspans (SampleIndex T x y)) ↔
      (mn ≥ 8191 ∨ mx < 0) := by
    unfold rasterizeTri.slopedSkip
    rw [hT, hmax]
  have hb : rasterizeTri.slopedBounds (T.tempspans (SampleIndex T x y)) =
      (max mn 0, min (max mx (max mn 0 + 1)) 8191) := by
    unfold rasterizeTri.slopedBounds
    simp only [hT, hmax, intMin_eq_min, intMax_eq_max]
  rw [slopedEmitCell_eq_insertion]
  unfold slopedInsertion
  constructor
  · intro h
    rw [if_pos (hskip.2 h)]
  · intro h
    have hmn : mn < 8191 := by omega
    have hmx : 0 ≤ mx := by omega
    rw [if_neg (fun hs => h (hskip.1 hs)), hb]
    have t1 : toUShort (max mn 0) = (max mn 0).toNat :=
      toUShort_of_range _ (by omega) (by omega)
    have t2 : toUShort (min (max mx (max mn 0 + 1)) 8191) =
        (min (max mx (max mn 0 + 1)) 8191).toNat :=
      toUShort_of_range _ (by omega) (by omega)
    refine ⟨_, _, rfl, ?_, ?_, ?_, ?_⟩
    · unfold projectedLow
      split
      · rfl
      · simp only [t1]
        omega
    · simp only [t2]
      omega
    · unfold projectedLow
      simp only [t1, t2]
      split <;> omega
    · simp only [t2]
      omega

/-- A cell of a 1x1 grid whose sample is `(3, 5)`: the body inserts the span
`[3, 5]`. -/
theorem rasterizeTri_sloped_cell_span_witness :
    ∃ smin smax : Nat,
      rasterizeTri.slopedEmitCell 63 4 0 none 0 0
          (addSpanSample (addSpanSample (rcCreateHeightfield 1 1 ⟨0, 0, 0⟩ ⟨1, 9, 1⟩ 1 1) 0 0 3)
            0 0 5) =
        addSpan (rasterizeTri.resetSample 0 0
          (addSpanSample (addSpanSample (rcCreateHeightfield 1 1 ⟨0, 0, 0⟩ ⟨1, 9, 1⟩ 1 1) 0 0 3)
            0 0 5)) 0 0 smin smax 63 4 ∧
      (smin : Int) = 3 ∧ (smax : Int) = 5 :=
  have h := (rasterizeTri_sloped_cell_span 63 4 0 none 0 0
    (addSpanSample (addSpanSample (rcCreateHeightfield 1 1 ⟨0, 0, 0⟩ ⟨1, 9, 1⟩ 1 1) 0 0 3) 0 0 5)
    3 5 (by decide)).2 (by decide)
  h.elim fun smin h' => h'.elim fun smax h'' =>
    ⟨smin, smax, h''.1, h''.2.1.trans (by decide), h''.2.2.1.trans (by decide)⟩
/-! ## Theorems: degenerate triangles -/

/-- The early returns of `rasterizeTri` (lines 239-250). -/
theorem rasterizeTri_of_rejected (v0 v1 v2 : Vec3) (area : Nat) (hf : rcHeightfield)
    (bmin bmax : Vec3) (cs ics ich : ℚ) (flagMergeThr rasterizationFlags : Int)
    (rasterizationMasks : Option (Int → Int)) (L : rasterizeTri.Locals)
    (hL : L = rasterizeTri.locals v0 v1 v2 hf bmin cs ics ich)
    (h : L.maxCol < 0 ∨ hf.width ≤ L.minCol ∨ L.maxRow < 0 ∨ hf.height ≤ L.minRow ∨
      max (max v0.y v1.y) v2.y - bmin.y < 0 ∨
      bmax.y - bmin.y < min (min v0.y v1.y) v2.y - bmin.y) :
    rasterizeTri v0 v1 v2 area hf bmin bmax cs ics ich flagMergeThr rasterizationFlags
      rasterizationMasks = hf := by
  subst hL
  simp only [rasterizeTri.Locals.minCol, rasterizeTri.Locals.maxCol,
    rasterizeTri.Locals.minRow, rasterizeTri.Locals.maxRow, rasterizeTri.locals] at h
  unfold rasterizeTri
  simp only [intMin_eq_min, intMax_eq_max, rcMin_eq_min, rcMax_eq_max]
  split
  · rfl
  · rename_i hbox
    split
    · rfl
    · rename_i hlow
      split
      · rfl
      · rename_i hhigh
        exfalso
        rcases h with h | h | h | h | h | h
        · exact hbox (Or.inl h)
        · exact hbox (Or.inr (Or.inl h))
        · exact hbox (Or.inr (Or.inr (Or.inl h)))
        · exact hbox (Or.inr (Or.inr (Or.inr h)))
        · exact hlow h
        · exact hhigh h

theorem addSpan.loop_ne_nil (thr : Int) (rest : List rcSpanData) (s : rcSpanData) :
    addSpan.loop thr s rest ≠ [] := by
  induction rest generalizing s with
  | nil => simp [addSpan.loop]
  | cons cur rest ih =>
    unfold addSpan.loop
    split
    · simp
    · split
      · simp
      · exact ih _

theorem addSpan.column_ne_nil (col : List rcSpanData) (smin smax area : Nat) (thr : Int) :
    addSpan.column col smin smax area thr ≠ [] := by
  rw [addSpan.column_eq_loop]
  exact addSpan.loop_ne_nil thr col _

/-- Degenerate triangles with exact arithmetic (the first embedding; the
statement for single precision is in the last sections of this file). A
degenerate triangle is rasterized like any other triangle. (1) If its cell bounding box misses the grid, or its heights lie all
below the grid bottom or all above the grid top, `rasterizeTri` returns the
heightfield unchanged: no span is inserted. (2) A triangle whose three vertices
coincide in a point `v` is degenerate; if the cell `c` of `v` lies in the grid
and the height of `v` in the vertical extent of the grid, `rasterizeTri` makes
the one call of `addSpan` of the single-cell case, and the column of `c` is not
empty afterwards. `rasterizeTri` has no result by which to signal an error. -/
theorem rasterizeTri_degenerate_exact (area : Nat) (hf : rcHeightfield) (bmin bmax : Vec3)
    (cs ics ich : ℚ) (flagMergeThr rasterizationFlags : Int)
    (rasterizationMasks : Option (Int → Int)) :
    (∀ (v0 v1 v2 : Vec3) (L : rasterizeTri.Locals),
      L = rasterizeTri.locals v0 v1 v2 hf bmin cs ics ich →
      degenerate v0 v1 v2 →
      (L.maxCol < 0 ∨ hf.width ≤ L.minCol ∨ L.maxRow < 0 ∨ hf.height ≤ L.minRow ∨
        max (max v0.y v1.y) v2.y - bmin.y < 0 ∨
        bmax.y - bmin.y < min (min v0.y v1.y) v2.y - bmin.y) →
      rasterizeTri v0 v1 v2 area hf bmin bmax cs ics ich flagMergeThr rasterizationFlags
        rasterizationMasks = hf) ∧
    (∀ (v : Vec3) (c : Int × Int), cellOf bmin ics v = c →
      0 ≤ c.1 → c.1 < hf.width → 0 ≤ c.2 → c.2 < hf.height →
      0 ≤ v.y - bmin.y → v.y - bmin.y ≤ bmax.y - bmin.y →
      degenerate v v v ∧
      rasterizeTri v v v area hf bmin bmax cs ics ich flagMergeThr rasterizationFlags
          rasterizationMasks =
        addSpan hf c.1 c.2
          (projectedLow rasterizationFlags rasterizationMasks (c.1 + c.2 * hf.width)
            (rasterizeTri.singleCellBounds ich (bmax.y - bmin.y) (v.y - bmin.y)
              (v.y - bmin.y)).1)
          (rasterizeTri.singleCellBounds ich (bmax.y - bmin.y) (v.y - bmin.y) (v.y - bmin.y)).2
          area flagMergeThr ∧
      (rasterizeTri v v v area hf bmin bmax cs ics ich flagMergeThr rasterizationFlags
        rasterizationMasks).spans (c.1 + c.2 * hf.width) ≠ []) := by
  constructor
  · intro v0 v1 v2 L hL _ hout
    exact rasterizeTri_of_rejected v0 v1 v2 area hf bmin bmax cs ics ich flagMergeThr
      rasterizationFlags rasterizationMasks L hL hout
  · intro v c hc hx0 hx1 hy0 hy1 hlow hhigh
    have hdeg : degenerate v v v := by
      simp only [degenerate, rcVsub, sub_self, mul_zero, and_self]
    have hmin : min (min v.y v.y) v.y = v.y := by simp only [min_self]
    have hmax : max (max v.y v.y) v.y = v.y := by simp only [max_self]
    have heq := rasterizeTri_eq_singleCell v v v area hf bmin bmax cs ics ich flagMergeThr
      rasterizationFlags rasterizationMasks c hc hc hc ⟨hx0, hx1⟩ ⟨hy0, hy1⟩
      (by rw [hmax]; exact hlow) (by rw [hmin]; exact hhigh)
    rw [hmin, hmax, singleCell_eq_addSpan] at heq
    refine ⟨hdeg, heq, ?_⟩
    rw [heq, addSpan_spans, if_pos rfl]
    exact addSpan.column_ne_nil _ _ _ _ _

/-- Three coincident vertices in the cell of a fresh 1x1 grid: the column is
not empty afterwards. -/
theorem rasterizeTri_degenerate_exact_witness :
    (rasterizeTri ⟨1 / 2, 1 / 2, 1 / 2⟩ ⟨1 / 2, 1 / 2, 1 / 2⟩ ⟨1 / 2, 1 / 2, 1 / 2⟩ 63
      (rcCreateHeightfield 1 1 ⟨0, 0, 0⟩ ⟨1, 1, 1⟩ 1 1) ⟨0, 0, 0⟩ ⟨1, 1, 1⟩ 1 1 1 4 0
      none).spans (0 + 0 * 1) ≠ [] :=
  ((rasterizeTri_degenerate_exact 63 (rcCreateHeightfield 1 1 ⟨0, 0, 0⟩ ⟨1, 1, 1⟩ 1 1) ⟨0, 0, 0⟩
    ⟨1, 1, 1⟩ 1 1 1 4 0 none).2 ⟨1 / 2, 1 / 2, 1 / 2⟩ (0, 0) (by decide!) (by decide)
    (by decide) (by decide) (by decide) (by decide!) (by decide!)).2.2

/-- With exact arithmetic, degenerate triangles in the grid do insert spans.
(1) Three vertices coinciding in the point (1/2, 1/2, 1/2) of a fresh 1x1 grid
of unit cells: the column gets the span `[0, 1]`. (2) Three distinct vertices
on one line over the two cells of a fresh 2x1 grid: both columns get the span
`[0, 1]`. -/
theorem rasterizeTri_degenerate_exact_counterexample :
    (degenerate ⟨1 / 2, 1 / 2, 1 / 2⟩ ⟨1 / 2, 1 / 2, 1 / 2⟩ ⟨1 / 2, 1 / 2, 1 / 2⟩ ∧
      (rcCreateHeightfield 1 1 ⟨0, 0, 0⟩ ⟨1, 1, 1⟩ 1 1).spans 0 = [] ∧
      (rasterizeTri ⟨1 / 2, 1 / 2, 1 / 2⟩ ⟨1 / 2, 1 / 2, 1 / 2⟩ ⟨1 / 2, 1 / 2, 1 / 2⟩ 63
        (rcCreateHeightfield 1 1 ⟨0, 0, 0⟩ ⟨1, 1, 1⟩ 1 1) ⟨0, 0, 0⟩ ⟨1, 1, 1⟩ 1 1 1 4 0
        none).spans 0 = [⟨0, 1, 63⟩]) ∧
    (degenerate ⟨1 / 4, 1 / 2, 1 / 2⟩ ⟨5 / 4, 1 / 2, 1 / 2⟩ ⟨7 / 4, 1 / 2, 1 / 2⟩ ∧
      (rasterizeTri ⟨1 / 4, 1 / 2, 1 / 2⟩ ⟨5 / 4, 1 / 2, 1 / 2⟩ ⟨7 / 4, 1 / 2, 1 / 2⟩ 63
        (rcCreateHeightfield 2 1 ⟨0, 0, 0⟩ ⟨2, 1, 1⟩ 1 1) ⟨0, 0, 0⟩ ⟨2, 1, 1⟩ 1 1 1 4 0
        none).spans 0 = [⟨0, 1, 63⟩] ∧
      (rasterizeTri ⟨1 / 4, 1 / 2, 1 / 2⟩ ⟨5 / 4, 1 / 2, 1 / 2⟩ ⟨7 / 4, 1 / 2, 1 / 2⟩ 63
        (rcCreateHeightfield 2 1 ⟨0, 0, 0⟩ ⟨2, 1, 1⟩ 1 1) ⟨0, 0, 0⟩ ⟨2, 1, 1⟩ 1 1 1 4 0
        none).spans 1 = [⟨0, 1, 63⟩]) := by
  decide!
/-! ## Theorems: the span allocator -/

/-- A store to the `next` field of a record that is not on a chain leaves the
chain as it is. -/
theorem Chain.frame {next : Nat × Nat → Option (Nat × Nat)} {a : Nat × Nat}
    (v : Option (Nat × Nat)) :
    ∀ {l : List (Nat × Nat)} {p : Option (Nat × Nat)}, Chain next p l → a ∉ l →
      Chain (Function.update next a v) p l := by
  intro l
  induction l with
  | nil => intro p h _; exact h
  | cons b l ih =>
    intro p h ha
    have hb : b ≠ a := fun e => ha (by rw [e]; exact List.mem_cons_self _ _)
    refine ⟨h.1, ?_⟩
    rw [Function.update_noteq hb]
    exact ih h.2 (fun hm => ha (List.mem_cons_of_mem _ hm))

/-- A pointer starts at most one chain. -/
theorem Chain.unique {next : Nat × Nat → Option (Nat × Nat)} :
    ∀ {l l' : List (Nat × Nat)} {p : Option (Nat × Nat)}, Chain next p l → Chain next p l' →
      l = l' := by
  intro l
  induction l with
  | nil =>
    intro l' p h h'
    cases l' with
    | nil => rfl
    | cons b l' =>
      have h1 : p = none := h
      have h2 : p = some b := h'.1
      rw [h1] at h2
      exact absurd h2 (by simp)
  | cons a l ih =>
    intro l' p h h'
    cases l' with
    | nil =>
      have h1 : p = none := h'
      have h2 : p = some a := h.1
      rw [h1] at h2
      exact absurd h2 (by simp)
    | cons b l' =>
      have e : a = b := Option.some.inj (h.1.symm.trans h'.1)
      subst e
      rw [ih h.2 h'.2]

theorem poolItems_succ (pool n : Nat) :
    poolItems pool 0 (n + 1) = poolItems pool 0 n ++ [(pool, n)] := by
  unfold poolItems
  simp only [Nat.sub_zero, List.range'_1_concat, List.map_append, List.map_cons, List.map_nil,
    Nat.zero_add]

theorem poolItems_cons (pool n : Nat) :
    poolItems pool 0 (n + 1) = (pool, 0) :: poolItems pool 1 (n + 1) := by
  unfold poolItems
  simp only [Nat.sub_zero, List.range'_succ, List.map_cons, Nat.add_sub_cancel]

theorem poolItems_length (pool lo hi : Nat) : (poolItems pool lo hi).length = hi - lo := by
  unfold poolItems
  rw [List.length_map, List.length_range']

theorem mem_poolItems (pool lo hi : Nat) (a : Nat × Nat) :
    a ∈ poolItems pool lo hi ↔ a.1 = pool ∧ lo ≤ a.2 ∧ a.2 < hi := by
  unfold poolItems
  simp only [List.mem_map, List.mem_range'_1]
  constructor
  · rintro ⟨i, ⟨h1, h2⟩, rfl⟩
    exact ⟨rfl, h1, by omega⟩
  · rintro ⟨h1, h2, h3⟩
    exact ⟨a.2, ⟨h2, by omega⟩, by rw [← h1]⟩

/-- The linking loop of `allocSpan`, entered at `items[n]`, puts the records
`items[0], ..., items[n - 1]` of the new block in front of the free list, in
index order. -/
theorem allocSpan.link_chain (pool : Nat) :
    ∀ (n : Nat) (next : Nat × Nat → Option (Nat × Nat)) (fl : Option (Nat × Nat))
      (l : List (Nat × Nat)), Chain next fl l → (∀ a ∈ l, ¬ (a.1 = pool ∧ a.2 < n)) →
      Chain (allocSpan.link pool n (next, fl)).1 (allocSpan.link pool n (next, fl)).2
        (poolItems pool 0 n ++ l) := by
  intro n
  induction n with
  | zero =>
    intro next fl l h _
    exact h
  | succ n ih =>
    intro next fl l h hl
    have hnot : (pool, n) ∉ l := fun hm => hl _ hm ⟨rfl, Nat.lt_succ_self n⟩
    have hstep : Chain (Function.update next (pool, n) fl) (some (pool, n)) ((pool, n) :: l) := by
      refine ⟨rfl, ?_⟩
      rw [Function.update_same]
      exact Chain.frame fl h hnot
    have := ih (Function.update next (pool, n) fl) (some (pool, n)) ((pool, n) :: l) hstep (by
      intro a ha
      rcases List.mem_cons.1 ha with e | hm
      · rw [e]
        exact fun hc => Nat.lt_irrefl _ hc.2
      · exact fun hc => hl a hm ⟨hc.1, Nat.lt_succ_of_lt hc.2⟩)
    rw [poolItems_succ, List.append_assoc]
    exact this

/-- The test of line 45 in terms of the free list. -/
theorem short_iff {hf : SpanHeap} {l : List (Nat × Nat)} (hl : hf.FreeList l) :
    (hf.freelist = none ∨ hf.freelist.bind hf.next = none) ↔ l.length ≤ 1 := by
  cases l with
  | nil =>
    have h1 : hf.freelist = none := hl
    simp only [h1, true_or, List.length_nil, Nat.zero_le]
  | cons a l =>
    have h1 : hf.freelist = some a := hl.1
    cases l with
    | nil =>
      have h2 : hf.next a = none := hl.2
      simp only [h1, Option.some_bind, h2, or_true, List.length_singleton, Nat.le_refl]
    | cons b l =>
      have h2 : hf.next a = some b := hl.2.1
      simp only [h1, Option.some_bind, h2, List.length_cons]
      constructor
      · intro h
        rcases h with h | h <;> exact absurd h (by simp)
      · intro h
        omega

/-- The growing branch of `allocSpan`, with the result `st` of the linking
loop named. -/
theorem allocSpan_grow_eq (hf : SpanHeap) (pool : Nat)
    (st : (Nat × Nat → Option (Nat × Nat)) × Option (Nat × Nat))
    (hcond : hf.freelist = none ∨ hf.freelist.bind hf.next = none)
    (hst : allocSpan.link pool RC_SPANS_PER_POOL (hf.next, hf.freelist) = st) :
    allocSpan hf (some pool) =
      (st.2, { hf with pools := pool :: hf.pools, next := st.1, freelist := st.2.bind st.1 }) := by
  subst hst
  unfold allocSpan
  rw [if_pos hcond]

/-- `allocSpan` when the free list holds zero or one record and `rcAlloc`
grants a block that holds none of the records of the free list. -/
theorem allocSpan_grow {hf : SpanHeap} {l : List (Nat × Nat)} (hl : hf.FreeList l)
    (hshort : l.length ≤ 1) (pool : Nat) (hfresh : ∀ a ∈ l, a.1 ≠ pool) :
    (allocSpan hf (some pool)).1 = some (pool, 0) ∧
    (allocSpan hf (some pool)).2.pools = pool :: hf.pools ∧
    Chain (allocSpan hf (some pool)).2.next (some (pool, 0))
      (poolItems pool 0 RC_SPANS_PER_POOL ++ l) ∧
    (allocSpan hf (some pool)).2.FreeList (poolItems pool 1 RC_SPANS_PER_POOL ++ l) := by
  have hc := allocSpan.link_chain pool RC_SPANS_PER_POOL hf.next hf.freelist l hl
    (fun a ha hc => hfresh a ha hc.1)
  have hp : poolItems pool 0 RC_SPANS_PER_POOL =
      (pool, 0) :: poolItems pool 1 RC_SPANS_PER_POOL := poolItems_cons pool 2047
  rw [hp, List.cons_append] at hc ⊢
  generalize hst : allocSpan.link pool RC_SPANS_PER_POOL (hf.next, hf.freelist) = st at hc
  obtain ⟨c1, c2⟩ := hc
  rw [allocSpan_grow_eq hf pool st ((short_iff hl).2 hshort) hst]
  refine ⟨c1, rfl, ⟨rfl, c2⟩, ?_⟩
  show Chain st.1 (st.2.bind st.1) _
  rw [c1]
  exact c2

/-- `allocSpan` when the free list holds two or more records. -/
theorem allocSpan_pop {hf : SpanHeap} {a b : Nat × Nat} {l : List (Nat × Nat)}
    (hl : hf.FreeList (a :: b :: l)) (rcAlloc : Option Nat) :
    allocSpan hf rcAlloc = (some a, { hf with freelist := some b }) := by
  have hcond : ¬ (hf.freelist = none ∨ hf.freelist.bind hf.next = none) := by
    rw [short_iff hl]
    simp only [List.length_cons]
    omega
  have h1 : hf.freelist = some a := hl.1
  have h2 : hf.next a = some b := hl.2.1
  unfold allocSpan
  rw [if_neg hcond]
  show (hf.freelist, { hf with freelist := hf.freelist.bind hf.next }) = _
  rw [h1, Option.some_bind, h2]

/-- `allocSpan` when the free list holds zero or one record and `rcAlloc`
returns a null pointer: the null pointer is returned and nothing changes. -/
theorem allocSpan_fail {hf : SpanHeap} {l : List (Nat × Nat)} (hl : hf.FreeList l)
    (hshort : l.length ≤ 1) : allocSpan hf none = (none, hf) := by
  have hcond := (short_iff hl).2 hshort
  unfold allocSpan
  rw [if_pos hcond]

/-- C16 (failing input). When the free list holds at most one record and
`rcAlloc` returns a null pointer, `allocSpan` returns the null pointer and
leaves the heap as it was, and `addSpan` goes on to store the bounds of the new
span through that null pointer (`none`). Nothing is reported: `addSpan` and
`rasterizeTri` return `void`. -/
theorem addSpan_pool_failure (hf : SpanHeap) (l : List (Nat × Nat)) (hl : hf.FreeList l)
    (hshort : l.length ≤ 1) (smin smax area : Nat) :
    allocSpan hf none = (none, hf) ∧ addSpan.newRecord hf none smin smax area = none := by
  have h := allocSpan_fail hl hshort
  refine ⟨h, ?_⟩
  unfold addSpan.newRecord
  rw [h]

/-- The first insertion into a heightfield whose allocator fields are still
zeroed, with a failing `rcAlloc`. -/
theorem addSpan_pool_failure_witness :
    allocSpan SpanHeap.zeroed none = (none, SpanHeap.zeroed) ∧
      addSpan.newRecord SpanHeap.zeroed none 0 1 63 = none :=
  addSpan_pool_failure SpanHeap.zeroed [] rfl (Nat.zero_le 1) 0 1 63

/-- C17. Let the free list hold the records `l`. If `l` has zero or one record
and `rcAlloc` grants a block `pool` (which holds none of the records of `l`),
`allocSpan` puts `pool` at the head of the pool list, returns the first record
`items[0]` of the block, and links the 2048 records of the block in index
order in front of `l`: the chain from the returned record is
`items[0], ..., items[2047]` followed by `l`, and the free list afterwards is
`items[1], ..., items[2047]` followed by `l`, which is 2047 records longer than
`l`. If `l` has two or more records, `allocSpan` returns its head, the free
list afterwards is the tail of `l`, one record shorter, and neither the pool
list nor any `next` field changes, whatever `rcAlloc` would answer. -/
theorem allocSpan_pool_growth (hf : SpanHeap) (l : List (Nat × Nat)) (hl : hf.FreeList l) :
    (l.length ≤ 1 → ∀ pool, (∀ a ∈ l, a.1 ≠ pool) →
      (allocSpan hf (some pool)).1 = some (pool, 0) ∧
      (allocSpan hf (some pool)).2.pools = pool :: hf.pools ∧
      Chain (allocSpan hf (some pool)).2.next (some (pool, 0))
        (poolItems pool 0 RC_SPANS_PER_POOL ++ l) ∧
      (poolItems pool 0 RC_SPANS_PER_POOL).length = 2048 ∧
      (allocSpan hf (some pool)).2.FreeList (poolItems pool 1 RC_SPANS_PER_POOL ++ l) ∧
      (poolItems pool 1 RC_SPANS_PER_POOL ++ l).length = l.length + 2047) ∧
    (2 ≤ l.length → ∀ rcAlloc,
      (allocSpan hf rcAlloc).1 = l.head? ∧
      (allocSpan hf rcAlloc).2.pools = hf.pools ∧
      (allocSpan hf rcAlloc).2.next = hf.next ∧
      (allocSpan hf rcAlloc).2.FreeList l.tail ∧
      l.tail.length + 1 = l.length) := by
  constructor
  · intro hshort pool hfresh
    obtain ⟨g1, g2, g3, g4⟩ := allocSpan_grow hl hshort pool hfresh
    refine ⟨g1, g2, g3, ?_, g4, ?_⟩
    · rw [poolItems_length]
      rfl
    · rw [List.length_append, poolItems_length]
      have : RC_SPANS_PER_POOL - 1 = 2047 := rfl
      omega
  · intro hlong rcAlloc
    cases l with
    | nil => exact absurd hlong (by simp)
    | cons a l =>
      cases l with
      | nil => exact absurd hlong (by simp)
      | cons b l =>
        rw [allocSpan_pop hl rcAlloc]
        exact ⟨rfl, rfl, rfl, ⟨rfl, hl.2.2⟩, rfl⟩

/-- The first `allocSpan` on a zeroed heightfield, with `rcAlloc` granting the
block 0, returns the record `items[0]` of that block. -/
theorem allocSpan_pool_growth_witness :
    (allocSpan SpanHeap.zeroed (some 0)).1 = some (0, 0) :=
  ((allocSpan_pool_growth SpanHeap.zeroed [] rfl).1 (Nat.zero_le 1) 0
    (fun _ h => absurd h (List.not_mem_nil _))).1

/-- After a successful `allocSpan` the free list is well formed and not
empty. -/
theorem Served.freeList_ne_nil {hf : SpanHeap} (h : Served hf) :
    ∃ l, hf.FreeList l ∧ l ≠ [] := by
  induction h with
  | alloc hf l rcAlloc hl hfresh hsucc =>
    by_cases hshort : l.length ≤ 1
    · cases rcAlloc with
      | none =>
        rw [allocSpan_fail hl hshort] at hsucc
        exact absurd rfl hsucc
      | some pool =>
        obtain ⟨_, _, _, g4⟩ := allocSpan_grow hl hshort pool (hfresh pool rfl)
        refine ⟨_, g4, ?_⟩
        intro he
        have hlen := congrArg List.length he
        rw [List.length_append, poolItems_length] at hlen
        have : RC_SPANS_PER_POOL - 1 = 2047 := rfl
        simp only [List.length_nil] at hlen
        omega
    · cases l with
      | nil => exact absurd (Nat.zero_le 1) hshort
      | cons a l =>
        cases l with
        | nil => exact absurd (Nat.le_refl 1) hshort
        | cons b l =>
          rw [allocSpan_pop hl rcAlloc]
          exact ⟨b :: l, ⟨rfl, hl.2.2⟩, by simp⟩
  | free hf s _ hnot ih =>
    obtain ⟨l, hl, _⟩ := ih
    refine ⟨s :: l, ⟨rfl, ?_⟩, by simp⟩
    show Chain (Function.update hf.next s hf.freelist) (Function.update hf.next s hf.freelist s) l
    rw [Function.update_same]
    exact Chain.frame _ hl (hnot l hl)
  | store hf a v _ hnot ih =>
    obtain ⟨l, hl, hne⟩ := ih
    exact ⟨l, Chain.frame v hl (hnot l hl), hne⟩

/-- C18. On a heap on which at least one `allocSpan` has succeeded, take a
record `s` that is not on the free list. Then `freeSpan(s)` followed by
`allocSpan()` returns `s`, the pool list is as before (no block is added,
whatever `rcAlloc` would answer), and the free list is as before the
`freeSpan`: the same head pointer and the same records in the same order.
`freeSpan` of the null pointer returns the heap unchanged. -/
theorem freeSpan_then_allocSpan (hf : SpanHeap) (hserved : Served hf) (s : Nat × Nat)
    (hs : ∀ l, hf.FreeList l → s ∉ l) (rcAlloc : Option Nat) :
    (allocSpan (freeSpan hf (some s)) rcAlloc).1 = some s ∧
    (allocSpan (freeSpan hf (some s)) rcAlloc).2.pools = hf.pools ∧
    (allocSpan (freeSpan hf (some s)) rcAlloc).2.freelist = hf.freelist ∧
    (∃ l, hf.FreeList l ∧ (allocSpan (freeSpan hf (some s)) rcAlloc).2.FreeList l) ∧
    freeSpan hf none = hf := by
  obtain ⟨l, hl, hne⟩ := hserved.freeList_ne_nil
  cases l with
  | nil => exact absurd rfl hne
  | cons a l =>
    have hnot := hs _ hl
    have h1 : hf.freelist = some a := hl.1
    have hframe : Chain (Function.update hf.next s hf.freelist) hf.freelist (a :: l) :=
      Chain.frame _ hl hnot
    have hfree : (freeSpan hf (some s)).FreeList (s :: a :: l) := by
      refine ⟨rfl, ?_⟩
      show Chain (Function.update hf.next s hf.freelist)
        (Function.update hf.next s hf.freelist s) (a :: l)
      rw [Function.update_same]
      exact hframe
    rw [allocSpan_pop hfree rcAlloc]
    refine ⟨rfl, rfl, h1.symm, ⟨a :: l, hl, ?_⟩, rfl⟩
    show Chain (Function.update hf.next s hf.freelist) (some a) (a :: l)
    rw [← h1]
    exact hframe

/-- The record that the first `allocSpan` on a zeroed heightfield returned is
returned again by the `allocSpan` that follows its `freeSpan`, also when
`rcAlloc` would fail. -/
theorem freeSpan_then_allocSpan_witness :
    (allocSpan (freeSpan (allocSpan SpanHeap.zeroed (some 0)).2 (some (0, 0))) none).1 =
      some (0, 0) := by
  have g := @allocSpan_grow SpanHeap.zeroed [] rfl (Nat.zero_le 1) 0
    (fun _ h => absurd h (List.not_mem_nil _))
  exact (freeSpan_then_allocSpan (allocSpan SpanHeap.zeroed (some 0)).2
    (Served.alloc SpanHeap.zeroed [] (some 0) rfl
      (fun _ _ _ h => absurd h (List.not_mem_nil _)) (by rw [g.1]; simp))
    (0, 0)
    (by
      intro l hl
      rw [Chain.unique hl g.2.2.2]
      simp [mem_poolItems])
    none).1
/-! ## Theorems: rcCreateHeightfield and its allocations -/

/-- A loop that stores `v` at the indices `0..n-1` of a block of `n` elements
leaves the block filled with `v`. -/
theorem rcCreateHeightfield.fill_rows {α : Type} (v : α) (n : Int) (hn : 0 ≤ n)
    (l : List α) (hl : (l.length : Int) = n) :
    forLoop 0 (n - 1) (fun i buf => buf.bind fun b => rcCreateHeightfield.store b i v)
      (some (some l)) = some (some (List.replicate n.toNat v)) := by
  have key := forLoop_induction
    (fun i (st : Option (Option (List α))) => ∃ l' : List α, st = some (some l') ∧
      l'.length = l.length ∧ ∀ m : Nat, (m : Int) < i → l'[m]? = some v)
    0 (n - 1) (fun i buf => buf.bind fun b => rcCreateHeightfield.store b i v)
    (some (some l)) ⟨l, rfl, rfl, fun m hm => by omega⟩
    (by
      rintro i st hi0 hi1 ⟨l', rfl, hlen, hfill⟩
      have hin : 0 ≤ i ∧ i < (l'.length : Int) := by omega
      refine ⟨l'.set i.toNat v, ?_, ?_, ?_⟩
      · simp only [Option.some_bind, rcCreateHeightfield.store, if_pos hin]
      · rw [List.length_set, hlen]
      · intro m hm
        by_cases hmi : i.toNat = m
        · subst hmi
          rw [List.getElem?_set_self (by omega)]
        · rw [List.getElem?_set_ne hmi]
          exact hfill m (by omega))
  obtain ⟨l', e, hlen, hfill⟩ := key
  rw [e]
  congr 2
  apply List.ext_getElem?
  intro m
  rw [List.getElem?_replicate]
  by_cases hm : m < n.toNat
  · rw [if_pos hm]
    exact hfill m (by omega)
  · rw [if_neg hm]
    exact List.getElem?_eq_none (by omega)

/-- The same loop entered with a null pointer, when it has at least one turn:
the first store goes through the null pointer. -/
theorem rcCreateHeightfield.fill_null {α : Type} (v : α) (n : Int) (hn : 0 < n) :
    forLoop 0 (n - 1) (fun i buf => buf.bind fun b => rcCreateHeightfield.store b i v)
      (some (none : Option (List α))) = none := by
  have key := forLoop_induction
    (fun i (st : Option (Option (List α))) => (i = 0 ∧ st = some none) ∨ (0 < i ∧ st = none))
    0 (n - 1) (fun i buf => buf.bind fun b => rcCreateHeightfield.store b i v)
    (some none) (Or.inl ⟨rfl, rfl⟩)
    (by
      rintro i st hi0 hi1 (⟨_, rfl⟩ | ⟨_, rfl⟩)
      · exact Or.inr ⟨by omega, rfl⟩
      · exact Or.inr ⟨by omega, rfl⟩)
  rcases key with ⟨h, _⟩ | ⟨_, h⟩
  · omega
  · exact h

/-- The two nested loops that store `v` at the indices `i * W + j`, for `i`
below `H` and `j` below `W`, of a block of `W * H` elements leave the block
filled with `v`. -/
theorem rcCreateHeightfield.fill_cells {α : Type} (v : α) (W H : Int) (hW : 0 ≤ W)
    (hH : 0 ≤ H) (l : List α) (hl : (l.length : Int) = W * H) :
    forLoop 0 (H - 1)
      (fun i buf => forLoop 0 (W - 1)
        (fun j buf => buf.bind fun b => rcCreateHeightfield.store b (i * W + j) v) buf)
      (some (some l)) = some (some (List.replicate (W * H).toNat v)) := by
  have key := forLoop_induction
    (fun i (st : Option (Option (List α))) => ∃ l' : List α, st = some (some l') ∧
      l'.length = l.length ∧ ∀ m : Nat, (m : Int) < i * W → l'[m]? = some v)
    0 (H - 1)
    (fun i buf => forLoop 0 (W - 1)
      (fun j buf => buf.bind fun b => rcCreateHeightfield.store b (i * W + j) v) buf)
    (some (some l)) ⟨l, rfl, rfl, fun m hm => by omega⟩
    (by
      intro i st hi0 hi1 hP
      have hiW : 0 ≤ i * W := Int.mul_nonneg hi0 hW
      have hrow : (i + 1) * W ≤ H * W := Int.mul_le_mul_of_nonneg_right (by omega) hW
      have hcomm : H * W = W * H := Int.mul_comm H W
      have hexp : (i + 1) * W = i * W + W := by rw [Int.add_mul, Int.one_mul]
      have inner := forLoop_induction
        (fun j (st : Option (Option (List α))) => ∃ l' : List α, st = some (some l') ∧
          l'.length = l.length ∧ ∀ m : Nat, (m : Int) < i * W + j → l'[m]? = some v)
        0 (W - 1)
        (fun j buf => buf.bind fun b => rcCreateHeightfield.store b (i * W + j) v) st
        (by
          obtain ⟨l', e, hlen, hfill⟩ := hP
          exact ⟨l', e, hlen, fun m hm => hfill m (by omega)⟩)
        (by
          rintro j st' hj0 hj1 ⟨l', rfl, hlen, hfill⟩
          have hin : 0 ≤ i * W + j ∧ i * W + j < (l'.length : Int) := by omega
          refine ⟨l'.set (i * W + j).toNat v, ?_, ?_, ?_⟩
          · simp only [Option.some_bind, rcCreateHeightfield.store, if_pos hin]
          · rw [List.length_set, hlen]
          · intro m hm
            by_cases hmi : (i * W + j).toNat = m
            · subst hmi
              rw [List.getElem?_set_self (by omega)]
            · rw [List.getElem?_set_ne hmi]
              exact hfill m (by omega))
      obtain ⟨l', e, hlen, hfill⟩ := inner
      exact ⟨l', e, hlen, fun m hm => hfill m (by omega)⟩)
  obtain ⟨l', e, hlen, hfill⟩ := key
  rw [e]
  congr 2
  apply List.ext_getElem?
  intro m
  rw [List.getElem?_replicate]
  have hHW : 0 ≤ W * H := Int.mul_nonneg hW hH
  have hend : max 0 (H - 1 + 1) * W = W * H := by
    rw [show max 0 (H - 1 + 1) = H from by omega, Int.mul_comm]
  by_cases hm : m < (W * H).toNat
  · rw [if_pos hm]
    exact hfill m (by rw [hend]; omega)
  · rw [if_neg hm]
    exact List.getElem?_eq_none (by omega)

theorem rcCreateHeightfield.block_length {α : Type} (contents : Nat → α) (n : Int) :
    (((List.range n.toNat).map contents).length : Int) = max n 0 := by
  rw [List.length_map, List.length_range]
  omega

/-- `rcCreateHeightfield` when `rcAlloc` grants the four blocks. -/
theorem rcCreateHeightfield.run_granted (hf : rcHeightfield.Buffers)
    (cs0 : Nat → List rcSpanData) (ce : Nat → rcEdgeHit) (cr : Nat → rcRowExt)
    (ct : Nat → rcTempSpan) (width height : Int) (bmin bmax : Vec3) (cs ch : ℚ)
    (hw : 0 ≤ width) (hh : 0 ≤ height) :
    rcCreateHeightfield.run hf ⟨some cs0, some ce, some cr, some ct⟩ width height bmin bmax
        cs ch =
      some (true,
        { width := width, height := height, bmin := bmin, bmax := bmax, cs := cs, ch := ch
          spans := some (List.replicate (width * height).toNat [])
          EdgeHits := some (List.replicate (height + 1).toNat ⟨0, 0⟩)
          RowExt := some (List.replicate (height + 2).toNat ⟨width + 2, -2⟩)
          tempspans :=
            some (List.replicate ((width + 2) * (height + 2)).toNat ⟨32000, -32000⟩) }) := by
  have hr := rcCreateHeightfield.fill_rows (⟨width + 2, -2⟩ : rcRowExt) (height + 2)
    (by omega) ((List.range (height + 2).toNat).map cr)
    (by rw [rcCreateHeightfield.block_length]; omega)
  have ht := rcCreateHeightfield.fill_cells (⟨32000, -32000⟩ : rcTempSpan) (width + 2)
    (height + 2) (by omega) (by omega)
    ((List.range ((width + 2) * (height + 2)).toNat).map ct)
    (by
      rw [rcCreateHeightfield.block_length]
      have := Int.mul_nonneg (show 0 ≤ width + 2 by omega) (show 0 ≤ height + 2 by omega)
      omega)
  simp only [rcCreateHeightfield.run, rcCreateHeightfield.block, Option.map_some', hr, ht,
    List.map_const', List.length_map, List.length_range]

/-- `rcCreateHeightfield` returns `true` only with the heightfield that it
builds when `rcAlloc` grants the four blocks. -/
theorem rcCreateHeightfield.run_true (hf : rcHeightfield.Buffers)
    (rcAlloc : rcCreateHeightfield.Answers) (width height : Int) (bmin bmax : Vec3)
    (cs ch : ℚ) (hw : 0 ≤ width) (hh : 0 ≤ height) (B : rcHeightfield.Buffers)
    (hrun : rcCreateHeightfield.run hf rcAlloc width height bmin bmax cs ch = some (true, B)) :
    B =
      { width := width, height := height, bmin := bmin, bmax := bmax, cs := cs, ch := ch
        spans := some (List.replicate (width * height).toNat [])
        EdgeHits := some (List.replicate (height + 1).toNat ⟨0, 0⟩)
        RowExt := some (List.replicate (height + 2).toNat ⟨width + 2, -2⟩)
        tempspans :=
          some (List.replicate ((width + 2) * (height + 2)).toNat ⟨32000, -32000⟩) } := by
  obtain ⟨as, ae, ar, at_⟩ := rcAlloc
  cases as with
  | none =>
    simp only [rcCreateHeightfield.run, rcCreateHeightfield.block, Option.map_none'] at hrun
    exact absurd (congrArg (fun r => r.1) (Option.some.inj hrun)) (by simp)
  | some cs0 =>
    cases ae with
    | none =>
      simp only [rcCreateHeightfield.run, rcCreateHeightfield.block, Option.map_none',
        Option.map_some'] at hrun
      exact absurd (congrArg (fun r => r.1) (Option.some.inj hrun)) (by simp)
    | some ce =>
      cases ar with
      | none =>
        have hnull := rcCreateHeightfield.fill_null (⟨width + 2, -2⟩ : rcRowExt)
          (height + 2) (by omega)
        simp only [rcCreateHeightfield.run, rcCreateHeightfield.block, Option.map_none',
          Option.map_some', hnull] at hrun
        exact absurd hrun (by simp)
      | some cr =>
        cases at_ with
        | none =>
          have hr := rcCreateHeightfield.fill_rows (⟨width + 2, -2⟩ : rcRowExt) (height + 2)
            (by omega) ((List.range (height + 2).toNat).map cr)
            (by rw [rcCreateHeightfield.block_length]; omega)
          simp only [rcCreateHeightfield.run, rcCreateHeightfield.block, Option.map_none',
            Option.map_some', hr] at hrun
          exact absurd (congrArg (fun r => r.1) (Option.some.inj hrun)) (by simp)
        | some ct =>
          rw [rcCreateHeightfield.run_granted hf cs0 ce cr ct width height bmin bmax cs ch
            hw hh] at hrun
          exact (congrArg (fun r => r.2) (Option.some.inj hrun)).symm

/-- The heightfield that a successful `rcCreateHeightfield` builds, read as
total functions, is the heightfield `rcCreateHeightfield` of the column model:
every entry of each of its four arrays is the value that the column model has
at every index. -/
theorem rcCreateHeightfield.run_agrees (hf : rcHeightfield.Buffers)
    (rcAlloc : rcCreateHeightfield.Answers) (width height : Int) (bmin bmax : Vec3)
    (cs ch : ℚ) (hw : 0 ≤ width) (hh : 0 ≤ height) (B : rcHeightfield.Buffers)
    (hrun : rcCreateHeightfield.run hf rcAlloc width height bmin bmax cs ch = some (true, B))
    (k : Int) :
    (∀ l, B.spans = some l → ∀ e ∈ l,
      e = (rcCreateHeightfield width height bmin bmax cs ch).spans k) ∧
    (∀ l, B.EdgeHits = some l → ∀ e ∈ l,
      e = (rcCreateHeightfield width height bmin bmax cs ch).EdgeHits k) ∧
    (∀ l, B.RowExt = some l → ∀ e ∈ l,
      e = (rcCreateHeightfield width height bmin bmax cs ch).RowExt k) ∧
    (∀ l, B.tempspans = some l → ∀ e ∈ l,
      e = (rcCreateHeightfield width height bmin bmax cs ch).tempspans k) := by
  rw [rcCreateHeightfield.run_true hf rcAlloc width height bmin bmax cs ch hw hh B hrun]
  refine ⟨?_, ?_, ?_, ?_⟩ <;>
  · intro l hl e he
    rw [← Option.some.inj hl] at he
    exact List.eq_of_mem_replicate he

/-- C20 (failing input). Let `height ≥ 0`. When `rcAlloc`
returns a null pointer for the column heads, for `EdgeHits` or for `tempspans`
(the earlier blocks being granted), `rcCreateHeightfield` returns `false`. When
it returns a null pointer for `RowExt`, the call does not return `false`: the
loop of lines 91-95 stores the sentinel through the null pointer (`none`). -/
theorem rcCreateHeightfield_alloc_failure (hf : rcHeightfield.Buffers)
    (rcAlloc : rcCreateHeightfield.Answers) (width height : Int) (bmin bmax : Vec3)
    (cs ch : ℚ) (hh : 0 ≤ height) :
    (rcAlloc.spans = none →
      ∃ B, rcCreateHeightfield.run hf rcAlloc width height bmin bmax cs ch = some (false, B)) ∧
    (rcAlloc.spans ≠ none → rcAlloc.EdgeHits = none →
      ∃ B, rcCreateHeightfield.run hf rcAlloc width height bmin bmax cs ch = some (false, B)) ∧
    (rcAlloc.spans ≠ none → rcAlloc.EdgeHits ≠ none → rcAlloc.RowExt = none →
      rcCreateHeightfield.run hf rcAlloc width height bmin bmax cs ch = none) ∧
    (rcAlloc.spans ≠ none → rcAlloc.EdgeHits ≠ none → rcAlloc.RowExt ≠ none →
      rcAlloc.tempspans = none →
      ∃ B, rcCreateHeightfield.run hf rcAlloc width height bmin bmax cs ch = some (false, B)) := by
  obtain ⟨as, ae, ar, at_⟩ := rcAlloc
  refine ⟨?_, ?_, ?_, ?_⟩
  · intro h1
    simp only at h1
    subst h1
    exact ⟨_, rfl⟩
  · intro h1 h2
    simp only at h2
    subst h2
    cases as with
    | none => exact absurd rfl h1
    | some cs0 => exact ⟨_, rfl⟩
  · intro h1 h2 h3
    simp only at h3
    subst h3
    cases as with
    | none => exact absurd rfl h1
    | some cs0 =>
      cases ae with
      | none => exact absurd rfl h2
      | some ce =>
        have hnull := rcCreateHeightfield.fill_null (⟨width + 2, -2⟩ : rcRowExt)
          (height + 2) (by omega)
        simp only [rcCreateHeightfield.run, rcCreateHeightfield.block, Option.map_none',
          Option.map_some', hnull]
  · intro h1 h2 h3 h4
    simp only at h4
    subst h4
    cases as with
    | none => exact absurd rfl h1
    | some cs0 =>
      cases ae with
      | none => exact absurd rfl h2
      | some ce =>
        cases ar with
        | none => exact absurd rfl h3
        | some cr =>
          have hr := rcCreateHeightfield.fill_rows (⟨width + 2, -2⟩ : rcRowExt) (height + 2)
            (by omega) ((List.range (height + 2).toNat).map cr)
            (by rw [rcCreateHeightfield.block_length]; omega)
          simp only [rcCreateHeightfield.run, rcCreateHeightfield.block, Option.map_none',
            Option.map_some', hr]
          exact ⟨_, rfl⟩

/-- A 1x1 grid created in a zeroed heightfield when only the request for
`RowExt` fails: the sentinel of entry 0 is stored through a null pointer. -/
theorem rcCreateHeightfield_alloc_failure_witness :
    rcCreateHeightfield.run rcAllocHeightfield
      ⟨some fun _ => [], some fun _ => ⟨7, 7⟩, none, some fun _ => ⟨7, 7⟩⟩
      1 1 ⟨0, 0, 0⟩ ⟨1, 1, 1⟩ 1 1 = none :=
  (rcCreateHeightfield_alloc_failure rcAllocHeightfield
    ⟨some fun _ => [], some fun _ => ⟨7, 7⟩, none, some fun _ => ⟨7, 7⟩⟩
    1 1 ⟨0, 0, 0⟩ ⟨1, 1, 1⟩ 1 1 (by decide)).2.2.1 (by simp) (by simp) rfl
/-! ## Theorems: what addSpan keeps of a column -/

theorem filter_length_split {α : Type} (p : α → Bool) (l : List α) :
    (l.filter p).length + (l.filter fun a => !p a).length = l.length := by
  induction l with
  | nil => rfl
  | cons a l ih =>
    cases h : p a <;> simp [List.filter, h] <;> omega

/-- The loop of `addSpan` on a column of pairwise separated non-empty
intervals: the records that do not overlap or touch the new interval stay, in
their order, and one record is put between them. -/
theorem addSpan.loop_keeps (thr : Int) :
    ∀ (rest : List rcSpanData) (s : rcSpanData),
      rest.Pairwise (fun a b => a.smax < b.smin) → colNonEmpty rest →
      ∃ (m : rcSpanData) (pre post : List rcSpanData),
        rest.filter (fun r => decide (r.smax < s.smin ∨ s.smax < r.smin)) = pre ++ post ∧
        addSpan.loop thr s rest = pre ++ m :: post := by
  intro rest
  induction rest with
  | nil =>
    intro s _ _
    exact ⟨s, [], [], rfl, rfl⟩
  | cons cur rest ih =>
    intro s hp hne
    have hcur : cur.smin < cur.smax := hne cur (by simp)
    have hrest : colNonEmpty rest := fun r hr => hne r (by simp [hr])
    have hsep : ∀ r ∈ rest, cur.smax < r.smin := (List.pairwise_cons.1 hp).1
    have hp' := (List.pairwise_cons.1 hp).2
    unfold addSpan.loop
    split
    · rename_i h1
      refine ⟨s, [], cur :: rest, ?_, rfl⟩
      rw [List.nil_append]
      apply filter_eq_self_of_forall
      intro r hr
      rcases List.mem_cons.1 hr with h | h
      · subst h
        simp only [decide_eq_true_eq]; omega
      · have := hsep r h
        simp only [decide_eq_true_eq]; omega
    · rename_i h1
      split
      · rename_i h2
        obtain ⟨m, pre, post, e1, e2⟩ := ih s hp' hrest
        refine ⟨m, cur :: pre, post, ?_, ?_⟩
        · have : decide (cur.smax < s.smin ∨ s.smax < cur.smin) = true := by
            simp only [decide_eq_true_eq]; omega
          rw [List.filter_cons, if_pos this, e1]
          rfl
        · rw [e2]; rfl
      · rename_i h2
        have hmin := addSpan.merge_smin thr s cur
        have hmax := addSpan.merge_smax thr s cur
        obtain ⟨m, pre, post, e1, e2⟩ := ih (addSpan.merge thr s cur) hp' hrest
        refine ⟨m, pre, post, ?_, e2⟩
        have hc : decide (cur.smax < s.smin ∨ s.smax < cur.smin) = false := by
          simp only [decide_eq_false_iff_not]; omega
        rw [List.filter_cons, hc, ← e1]
        simp only [Bool.false_eq_true, if_false]
        apply List.filter_congr
        intro r hr
        have := hsep r hr
        have := hrest r hr
        simp only [decide_eq_decide]
        omega

/-- C24 (amended). `addSpan` on column `(x, y)` leaves every other column
unchanged. If the column is valid (adjacent spans separated, each a non-empty
interval) and the new bounds fit their 13-bit fields (`smin <= 8191`,
`smax <= 8191`), then the existing spans strictly below (`r.smax < smin`) or
strictly above (`smax < r.smin`) the new interval are kept as they are and in
their order, with one record `m` put in between, and the number of spans after
the call is the number before, minus the number of spans overlapping or
touching the new interval, plus one. -/
theorem addSpan_frame_and_count (hf : rcHeightfield) (x y : Int) (smin smax area : Nat)
    (thr : Int) (hs : colSorted (hf.spans (x + y * hf.width)))
    (hne : colNonEmpty (hf.spans (x + y * hf.width))) (h1 : smin ≤ 8191) (h2 : smax ≤ 8191) :
    (∀ idx, idx ≠ x + y * hf.width →
      (addSpan hf x y smin smax area thr).spans idx = hf.spans idx) ∧
    (∃ (m : rcSpanData) (pre post : List rcSpanData),
      (hf.spans (x + y * hf.width)).filter
        (fun r => decide (r.smax < smin ∨ smax < r.smin)) = pre ++ post ∧
      (addSpan hf x y smin smax area thr).spans (x + y * hf.width) = pre ++ m :: post) ∧
    ((addSpan hf x y smin smax area thr).spans (x + y * hf.width)).length =
      (hf.spans (x + y * hf.width)).length -
        ((hf.spans (x + y * hf.width)).filter
          (fun r => decide (overlapsOrTouches r smin smax))).length + 1 := by
  have e1 : smin % 2 ^ RC_SPAN_HEIGHT_BITS = smin := by
    simp only [RC_SPAN_HEIGHT_BITS]; omega
  have e2 : smax % 2 ^ RC_SPAN_HEIGHT_BITS = smax := by
    simp only [RC_SPAN_HEIGHT_BITS]; omega
  obtain ⟨m, pre, post, k1, k2⟩ :=
    addSpan.loop_keeps thr (hf.spans (x + y * hf.width))
      ⟨smin % 2 ^ RC_SPAN_HEIGHT_BITS, smax % 2 ^ RC_SPAN_HEIGHT_BITS, area % 2 ^ 6⟩
      (colSorted_pairwise _ hs hne) hne
  simp only [e1, e2] at k1 k2
  have hcol : (addSpan hf x y smin smax area thr).spans (x + y * hf.width) =
      pre ++ m :: post := by
    rw [addSpan_spans, if_pos rfl, addSpan.column_eq_loop, e1, e2, k2]
  refine ⟨fun idx hidx => by rw [addSpan_spans, if_neg hidx], ⟨m, pre, post, k1, hcol⟩, ?_⟩
  have hsplit := filter_length_split (fun r => decide (overlapsOrTouches r smin smax))
    (hf.spans (x + y * hf.width))
  have hsame : (hf.spans (x + y * hf.width)).filter
      (fun r => !decide (overlapsOrTouches r smin smax)) =
      (hf.spans (x + y * hf.width)).filter
        (fun r => decide (r.smax < smin ∨ smax < r.smin)) := by
    apply List.filter_congr
    intro r _
    simp only [overlapsOrTouches, ← decide_not, decide_eq_decide]
    omega
  rw [hsame, k1] at hsplit
  rw [hcol]
  simp only [List.length_append, List.length_cons] at hsplit ⊢
  omega

theorem addSpan_frame_and_count_witness :
    ((addSpan (addSpan (rcCreateHeightfield 1 1 ⟨0, 0, 0⟩ ⟨1, 1, 1⟩ 1 1) 0 0 6 7 1 0)
      0 0 2 5 7 0).spans 0).length = 1 - 0 + 1 := by
  have h := (addSpan_frame_and_count
    (addSpan (rcCreateHeightfield 1 1 ⟨0, 0, 0⟩ ⟨1, 1, 1⟩ 1 1) 0 0 6 7 1 0) 0 0 2 5 7 0
    (show colSorted [⟨6, 7, 1⟩] from by simp [colSorted])
    (show colNonEmpty [⟨6, 7, 1⟩] from by simp [colNonEmpty]) (by decide) (by decide)).2.2
  exact h

/-- C24 as stated fails in two ways. The column `[(6, 7)]` is valid and the
span `(6, 7)` overlaps the new interval `[5, 8192]`, but `8192` does not fit the
13-bit field: the record stored is `(5, 0)`, the span `(6, 7)` stays, and the
column has two spans instead of `1 - 1 + 1`. And in the column
`[(2, 10), (3, 4)]`, whose spans overlap, the span `(3, 4)` lies strictly below
the new interval `[8, 9]` but is merged away. -/
theorem addSpan_frame_and_count_counterexample :
    ((addSpan (rcCreateHeightfield 1 1 ⟨0, 0, 0⟩ ⟨1, 1, 1⟩ 1 1) 0 0 6 7 1 0).spans 0 =
        [⟨6, 7, 1⟩] ∧
      overlapsOrTouches ⟨6, 7, 1⟩ 5 8192 ∧
      (addSpan (addSpan (rcCreateHeightfield 1 1 ⟨0, 0, 0⟩ ⟨1, 1, 1⟩ 1 1) 0 0 6 7 1 0)
        0 0 5 8192 7 0).spans 0 = [⟨5, 0, 7⟩, ⟨6, 7, 1⟩]) ∧
    ((⟨3, 4, 1⟩ : rcSpanData).smax < 8 ∧
      addSpan.column [⟨2, 10, 1⟩, ⟨3, 4, 1⟩] 8 9 7 0 = [⟨2, 10, 1⟩]) := by
  decide

/-! ## Theorems: the heights covered by a column -/

/-- The loop of `addSpan` adds the cells of the new record to the cells that
the column covers, whatever the column. -/
theorem addSpan.loop_covered (thr : Int) :
    ∀ (rest : List rcSpanData) (s : rcSpanData) (h : Nat),
      (∃ r ∈ addSpan.loop thr s rest, r.smin ≤ h ∧ h < r.smax) ↔
        (∃ r ∈ rest, r.smin ≤ h ∧ h < r.smax) ∨ (s.smin ≤ h ∧ h < s.smax) := by
  intro rest
  induction rest with
  | nil =>
    intro s h
    simp [addSpan.loop]
  | cons cur rest ih =>
    intro s h
    unfold addSpan.loop
    split
    · simp only [List.mem_cons, exists_eq_or_imp]
      exact or_comm
    · rename_i h1
      split
      · simp only [List.mem_cons, exists_eq_or_imp, ih s h]
        exact or_assoc.symm
      · rename_i h2
        have hmin := addSpan.merge_smin thr s cur
        have hmax := addSpan.merge_smax thr s cur
        rw [ih (addSpan.merge thr s cur) h]
        simp only [List.mem_cons, exists_eq_or_imp]
        constructor
        · rintro (h3 | h3)
          · exact Or.inl (Or.inr h3)
          · by_cases hc : cur.smin ≤ h ∧ h < cur.smax
            · exact Or.inl (Or.inl hc)
            · exact Or.inr (by omega)
        · rintro ((h3 | h3) | h3)
          · exact Or.inr (by omega)
          · exact Or.inl h3
          · exact Or.inr (by omega)

/-- C27 (amended). For every column (valid or not) and every new interval whose
bounds fit their 13-bit fields (`smin <= 8191` and `smax <= 8191`, as for
`smin < smax <= 8191`), the set of height cells covered by the column after
`addSpan` is the set covered before united with `[smin, smax)`; in particular
no covered height is uncovered. -/
theorem addSpan_covered_cells (hf : rcHeightfield) (x y : Int) (smin smax area : Nat)
    (thr : Int) (h1 : smin ≤ 8191) (h2 : smax ≤ 8191) :
    coveredCells ((addSpan hf x y smin smax area thr).spans (x + y * hf.width)) =
        coveredCells (hf.spans (x + y * hf.width)) ∪ Set.Ico smin smax ∧
    coveredCells (hf.spans (x + y * hf.width)) ⊆
      coveredCells ((addSpan hf x y smin smax area thr).spans (x + y * hf.width)) := by
  have e1 : smin % 2 ^ RC_SPAN_HEIGHT_BITS = smin := by
    simp only [RC_SPAN_HEIGHT_BITS]; omega
  have e2 : smax % 2 ^ RC_SPAN_HEIGHT_BITS = smax := by
    simp only [RC_SPAN_HEIGHT_BITS]; omega
  have key : coveredCells ((addSpan hf x y smin smax area thr).spans (x + y * hf.width)) =
      coveredCells (hf.spans (x + y * hf.width)) ∪ Set.Ico smin smax := by
    ext h
    rw [addSpan_spans, if_pos rfl, addSpan.column_eq_loop, e1, e2]
    simp only [coveredCells, Set.mem_setOf_eq, Set.mem_union, Set.mem_Ico]
    exact addSpan.loop_covered thr _ _ h
  exact ⟨key, by rw [key]; exact Set.subset_union_left⟩

theorem addSpan_covered_cells_witness :
    coveredCells ((addSpan (rcCreateHeightfield 1 1 ⟨0, 0, 0⟩ ⟨1, 1, 1⟩ 1 1) 0 0 2 5 7 0).spans
        (0 + 0 * (rcCreateHeightfield 1 1 ⟨0, 0, 0⟩ ⟨1, 1, 1⟩ 1 1).width)) =
      coveredCells ((rcCreateHeightfield 1 1 ⟨0, 0, 0⟩ ⟨1, 1, 1⟩ 1 1).spans
        (0 + 0 * (rcCreateHeightfield 1 1 ⟨0, 0, 0⟩ ⟨1, 1, 1⟩ 1 1).width)) ∪ Set.Ico 2 5 :=
  (addSpan_covered_cells (rcCreateHeightfield 1 1 ⟨0, 0, 0⟩ ⟨1, 1, 1⟩ 1 1) 0 0 2 5 7 0
    (by decide) (by decide)).1

/-- C27 as stated fails: the interval `[1, 8192)` has `smin < smax`, but its
upper bound does not fit the 13-bit field; the record stored in the empty
(hence valid) column is `(1, 0)`, and the height cell `1` of the new interval
is not covered after the call. -/
theorem addSpan_covered_cells_counterexample :
    (1 : Nat) < 8192 ∧ 1 ∈ Set.Ico 1 8192 ∧
    (rcCreateHeightfield 1 1 ⟨0, 0, 0⟩ ⟨1, 1, 1⟩ 1 1).spans 0 = [] ∧
    (addSpan (rcCreateHeightfield 1 1 ⟨0, 0, 0⟩ ⟨1, 1, 1⟩ 1 1) 0 0 1 8192 0 0).spans 0 =
      [⟨1, 0, 0⟩] ∧
    1 ∉ coveredCells
      ((addSpan (rcCreateHeightfield 1 1 ⟨0, 0, 0⟩ ⟨1, 1, 1⟩ 1 1) 0 0 1 8192 0 0).spans 0) := by
  refine ⟨by decide, by simp, rfl, by decide, ?_⟩
  have e : (addSpan (rcCreateHeightfield 1 1 ⟨0, 0, 0⟩ ⟨1, 1, 1⟩ 1 1) 0 0 1 8192 0 0).spans 0 =
      [⟨1, 0, 0⟩] := by decide
  rw [e]
  simp [coveredCells]

/-! ## Theorems: the order of two insertions -/

/-- The loop of `addSpan` adds the closed interval of the new record to the
positions that the column touches. -/
theorem addSpan.loop_touched (thr : Int) :
    ∀ (rest : List rcSpanData) (s : rcSpanData) (p : Nat),
      s.smin ≤ s.smax → (∀ r ∈ rest, r.smin ≤ r.smax) →
      (touchedHalf (addSpan.loop thr s rest) p ↔
        touchedHalf rest p ∨ (2 * s.smin ≤ p ∧ p ≤ 2 * s.smax)) := by
  intro rest
  induction rest with
  | nil =>
    intro s p _ _
    simp [addSpan.loop, touchedHalf]
  | cons cur rest ih =>
    intro s p hs hr
    have hcur : cur.smin ≤ cur.smax := hr cur (by simp)
    have hrest : ∀ r ∈ rest, r.smin ≤ r.smax := fun r h => hr r (by simp [h])
    unfold addSpan.loop
    split
    · simp only [touchedHalf, List.mem_cons, exists_eq_or_imp]
      exact or_comm
    · rename_i h1
      split
      · have := ih s p hs hrest
        simp only [touchedHalf, List.mem_cons, exists_eq_or_imp] at this ⊢
        rw [this]
        exact or_assoc.symm
      · rename_i h2
        have hmin := addSpan.merge_smin thr s cur
        have hmax := addSpan.merge_smax thr s cur
        have := ih (addSpan.merge thr s cur) p (by omega) hrest
        simp only [touchedHalf, List.mem_cons, exists_eq_or_imp] at this ⊢
        rw [this]
        clear this ih
        constructor
        · rintro (h3 | h3)
          · exact Or.inl (Or.inr h3)
          · by_cases hc : 2 * cur.smin ≤ p ∧ p ≤ 2 * cur.smax
            · exact Or.inl (Or.inl hc)
            · exact Or.inr (by omega)
        · rintro ((h3 | h3) | h3)
          · exact Or.inr (by omega)
          · exact Or.inl h3
          · exact Or.inr (by omega)

/-- Two columns of pairwise separated non-empty intervals that touch the same
positions have the same span bounds. -/
theorem spanBounds_of_touched :
    ∀ l1 l2 : List rcSpanData,
      l1.Pairwise (fun a b => a.smax < b.smin) → colNonEmpty l1 →
      l2.Pairwise (fun a b => a.smax < b.smin) → colNonEmpty l2 →
      (∀ p, touchedHalf l1 p ↔ touchedHalf l2 p) → spanBounds l1 = spanBounds l2 := by
  intro l1
  induction l1 with
  | nil =>
    intro l2 _ _ _ n2 h
    cases l2 with
    | nil => rfl
    | cons b t2 =>
      have hb := n2 b (by simp)
      have : touchedHalf (b :: t2) (2 * b.smin) := ⟨b, by simp, by omega, by omega⟩
      obtain ⟨r, hr, _⟩ := (h _).2 this
      simp at hr
  | cons a t1 ih =>
    intro l2 p1 n1 p2 n2 h
    have ha := n1 a (by simp)
    have sa : ∀ r ∈ t1, a.smax < r.smin := (List.pairwise_cons.1 p1).1
    have na : colNonEmpty t1 := fun r hr => n1 r (by simp [hr])
    cases l2 with
    | nil =>
      have : touchedHalf (a :: t1) (2 * a.smin) := ⟨a, by simp, by omega, by omega⟩
      obtain ⟨r, hr, _⟩ := (h _).1 this
      simp at hr
    | cons b t2 =>
      have hb := n2 b (by simp)
      have sb : ∀ r ∈ t2, b.smax < r.smin := (List.pairwise_cons.1 p2).1
      have nb : colNonEmpty t2 := fun r hr => n2 r (by simp [hr])
      have low1 : b.smin ≤ a.smin := by
        obtain ⟨r, hr, h3, h4⟩ := (h (2 * a.smin)).1 ⟨a, by simp, by omega, by omega⟩
        rcases List.mem_cons.1 hr with e | e
        · subst e; omega
        · have := sb r e
          omega
      have low2 : a.smin ≤ b.smin := by
        obtain ⟨r, hr, h3, h4⟩ := (h (2 * b.smin)).2 ⟨b, by simp, by omega, by omega⟩
        rcases List.mem_cons.1 hr with e | e
        · subst e; omega
        · have := sa r e
          omega
      have high1 : ¬ a.smax < b.smax := by
        intro hlt
        obtain ⟨r, hr, h3, h4⟩ := (h (2 * a.smax + 1)).2 ⟨b, by simp, by omega, by omega⟩
        rcases List.mem_cons.1 hr with e | e
        · subst e; omega
        · have := sa r e
          omega
      have high2 : ¬ b.smax < a.smax := by
        intro hlt
        obtain ⟨r, hr, h3, h4⟩ := (h (2 * b.smax + 1)).1 ⟨a, by simp, by omega, by omega⟩
        rcases List.mem_cons.1 hr with e | e
        · subst e; omega
        · have := sb r e
          omega
      have tails : ∀ p, touchedHalf t1 p ↔ touchedHalf t2 p := by
        intro p
        constructor
        · rintro ⟨r, hr, h3, h4⟩
          obtain ⟨q, hq, h5, h6⟩ := (h p).1 ⟨r, by simp [hr], h3, h4⟩
          rcases List.mem_cons.1 hq with e | e
          · subst e
            have := sa r hr
            omega
          · exact ⟨q, e, h5, h6⟩
        · rintro ⟨r, hr, h3, h4⟩
          obtain ⟨q, hq, h5, h6⟩ := (h p).2 ⟨r, by simp [hr], h3, h4⟩
          rcases List.mem_cons.1 hq with e | e
          · subst e
            have := sb r hr
            omega
          · exact ⟨q, e, h5, h6⟩
      have := ih t2 (List.pairwise_cons.1 p1).2 na (List.pairwise_cons.1 p2).2 nb tails
      simp only [spanBounds, List.map_cons] at this ⊢
      rw [this]
      have e1 : a.smin = b.smin := by omega
      have e2 : a.smax = b.smax := by omega
      rw [e1, e2]

theorem addSpan.column_touched (col : List rcSpanData) (smin smax area : Nat) (thr : Int)
    (hne : colNonEmpty col) (h1 : smin < smax) (h2 : smax ≤ 8191) (p : Nat) :
    touchedHalf (addSpan.column col smin smax area thr) p ↔
      touchedHalf col p ∨ (2 * smin ≤ p ∧ p ≤ 2 * smax) := by
  have e1 : smin % 2 ^ RC_SPAN_HEIGHT_BITS = smin := by
    simp only [RC_SPAN_HEIGHT_BITS]; omega
  have e2 : smax % 2 ^ RC_SPAN_HEIGHT_BITS = smax := by
    simp only [RC_SPAN_HEIGHT_BITS]; omega
  rw [addSpan.column_eq_loop, e1, e2]
  exact addSpan.loop_touched thr col _ p (by simp only; omega)
    (fun r hr => le_of_lt (hne r hr))

/-- Two insertions into a valid column commute as far as the span bounds go. -/
theorem addSpan.column_commute (col : List rcSpanData) (a0 a1 aa b0 b1 ba : Nat)
    (thrA thrB : Int) (hs : colSorted col) (hne : colNonEmpty col)
    (hA : a0 < a1) (hA2 : a1 ≤ 8191) (hB : b0 < b1) (hB2 : b1 ≤ 8191) :
    spanBounds (addSpan.column (addSpan.column col a0 a1 aa thrA) b0 b1 ba thrB) =
      spanBounds (addSpan.column (addSpan.column col b0 b1 ba thrB) a0 a1 aa thrA) := by
  have sA := addSpan.column_sorted col a0 a1 aa thrA hs
  have nA := addSpan.column_nonEmpty col a0 a1 aa thrA hne hA hA2
  have sB := addSpan.column_sorted col b0 b1 ba thrB hs
  have nB := addSpan.column_nonEmpty col b0 b1 ba thrB hne hB hB2
  have sAB := addSpan.column_sorted _ b0 b1 ba thrB sA
  have nAB := addSpan.column_nonEmpty _ b0 b1 ba thrB nA hB hB2
  have sBA := addSpan.column_sorted _ a0 a1 aa thrA sB
  have nBA := addSpan.column_nonEmpty _ a0 a1 aa thrA nB hA hA2
  apply spanBounds_of_touched _ _ (colSorted_pairwise _ sAB nAB) nAB
    (colSorted_pairwise _ sBA nBA) nBA
  intro p
  rw [addSpan.column_touched _ _ _ _ _ nA hB hB2, addSpan.column_touched _ _ _ _ _ hne hA hA2,
    addSpan.column_touched _ _ _ _ _ nB hA hA2, addSpan.column_touched _ _ _ _ _ hne hB hB2]
  exact or_right_comm

/-- C28 (amended). For every valid column and any two intervals `A` and `B`,
each with `smin < smax <= 8191`, inserting `A` then `B` with `addSpan` gives
every column the same sequence of span bounds `(smin, smax)` as inserting `B`
then `A`, whatever the areas and the merge thresholds of the two calls. -/
theorem addSpan_bounds_commute (hf : rcHeightfield) (x y : Int) (a0 a1 aa b0 b1 ba : Nat)
    (thrA thrB : Int) (hs : colSorted (hf.spans (x + y * hf.width)))
    (hne : colNonEmpty (hf.spans (x + y * hf.width)))
    (hA : a0 < a1) (hA2 : a1 ≤ 8191) (hB : b0 < b1) (hB2 : b1 ≤ 8191) (idx : Int) :
    spanBounds ((addSpan (addSpan hf x y a0 a1 aa thrA) x y b0 b1 ba thrB).spans idx) =
      spanBounds ((addSpan (addSpan hf x y b0 b1 ba thrB) x y a0 a1 aa thrA).spans idx) := by
  have wA : (addSpan hf x y a0 a1 aa thrA).width = hf.width := rfl
  have wB : (addSpan hf x y b0 b1 ba thrB).width = hf.width := rfl
  rw [addSpan_spans, addSpan_spans (addSpan hf x y b0 b1 ba thrB), wA, wB]
  by_cases h : idx = x + y * hf.width
  · rw [if_pos h, if_pos h, addSpan_spans, if_pos rfl, addSpan_spans, if_pos rfl]
    exact addSpan.column_commute _ a0 a1 aa b0 b1 ba thrA thrB hs hne hA hA2 hB hB2
  · rw [if_neg h, if_neg h, addSpan_spans, if_neg h, addSpan_spans, if_neg h]

theorem addSpan_bounds_commute_witness :
    spanBounds ((addSpan (addSpan
        { rcCreateHeightfield 1 1 ⟨0, 0, 0⟩ ⟨1, 1, 1⟩ 1 1 with spans := fun _ => [⟨0, 10, 5⟩] }
        0 0 0 12 1 2) 0 0 0 14 2 2).spans 0) =
      spanBounds ((addSpan (addSpan
        { rcCreateHeightfield 1 1 ⟨0, 0, 0⟩ ⟨1, 1, 1⟩ 1 1 with spans := fun _ => [⟨0, 10, 5⟩] }
        0 0 0 14 2 2) 0 0 0 12 1 2).spans 0) ∧
    (addSpan (addSpan
        { rcCreateHeightfield 1 1 ⟨0, 0, 0⟩ ⟨1, 1, 1⟩ 1 1 with spans := fun _ => [⟨0, 10, 5⟩] }
        0 0 0 12 1 2) 0 0 0 14 2 2).spans 0 = [⟨0, 14, 5⟩] ∧
    (addSpan (addSpan
        { rcCreateHeightfield 1 1 ⟨0, 0, 0⟩ ⟨1, 1, 1⟩ 1 1 with spans := fun _ => [⟨0, 10, 5⟩] }
        0 0 0 14 2 2) 0 0 0 12 1 2).spans 0 = [⟨0, 14, 2⟩] :=
  ⟨addSpan_bounds_commute
    { rcCreateHeightfield 1 1 ⟨0, 0, 0⟩ ⟨1, 1, 1⟩ 1 1 with spans := fun _ => [⟨0, 10, 5⟩] }
    0 0 0 12 1 0 14 2 2 2 (show colSorted [⟨0, 10, 5⟩] from by simp [colSorted])
    (show colNonEmpty [⟨0, 10, 5⟩] from by simp [colNonEmpty])
    (by decide) (by decide) (by decide) (by decide) 0, by decide, by decide⟩

/-- C28 as stated fails: `A = [5, 8192]` and `B = [3, 4]` have `smin < smax`, but
the upper bound of `A` does not fit the 13-bit field and `A` is stored as
`(5, 0)`. On the valid column `[(1, 2)]` inserting `A` then `B` gives the bounds
`(3, 4), (5, 0), (1, 2)`, and inserting `B` then `A` gives `(5, 0), (1, 2), (3, 4)`. -/
theorem addSpan_bounds_commute_counterexample :
    (5 : Nat) < 8192 ∧ (3 : Nat) < 4 ∧
    spanBounds (addSpan.column (addSpan.column [⟨1, 2, 0⟩] 5 8192 0 0) 3 4 0 0) =
      [(3, 4), (5, 0), (1, 2)] ∧
    spanBounds (addSpan.column (addSpan.column [⟨1, 2, 0⟩] 3 4 0 0) 5 8192 0 0) =
      [(5, 0), (1, 2), (3, 4)] := by
  decide

/-! ## Theorems: two edges hit every row boundary that is processed -/

/-- A loop can be cut in two at any index. -/
theorem forLoop_split {σ : Type} (lo mid hi : Int) (body : Int → σ → σ) (s : σ)
    (h1 : lo ≤ mid) (h2 : mid ≤ hi + 1) :
    forLoop lo hi body s = forLoop mid hi body (forLoop lo (mid - 1) body s) := by
  unfold forLoop
  have e1 : (hi + 1 - lo).toNat = (mid - 1 + 1 - lo).toNat + (hi + 1 - mid).toNat := by omega
  rw [e1, List.range_add, List.foldl_append, List.foldl_map]
  congr 1
  funext acc k
  have : lo + (((mid - 1 + 1 - lo).toNat + k : Nat) : Int) = mid + (k : Int) := by omega
  rw [this]

/-- Every row boundary that the loop over the row boundaries visits is crossed
by an edge. -/
theorem crossesRow_exists (L : rasterizeTri.Locals) (y : Int)
    (h1 : max (L.minRow + 1) L.y0 ≤ y) (h2 : y ≤ min L.maxRow L.y1_edge) :
    crossesRow L 0 y ∨ crossesRow L 1 y ∨ crossesRow L 2 y := by
  have e0 : crossesRow L 0 y ↔ _ := crossing_iff (L.intverts 0).2 (L.intverts 1).2 L.y0 L.y1_edge y
  have e1 : crossesRow L 1 y ↔ _ := crossing_iff (L.intverts 1).2 (L.intverts 2).2 L.y0 L.y1_edge y
  have e2 : crossesRow L 2 y ↔ _ := crossing_iff (L.intverts 2).2 (L.intverts 0).2 L.y0 L.y1_edge y
  rw [e0, e1, e2]
  simp only [rasterizeTri.Locals.minRow, rasterizeTri.Locals.maxRow] at h1 h2
  omega

/-- The turns of the flat loop over the row boundaries below `y` leave the
entry of `y` as it is. -/
theorem flatHorizontal_below (L : rasterizeTri.Locals) (edges : Nat → Vec3) (lo hi y : Int)
    (st : rcHeightfield × ℚ) (h : hi < y) :
    (forLoop lo hi (rasterizeTri.flatHorizontal L edges) st).1.EdgeHits y = st.1.EdgeHits y := by
  refine forLoop_invariant (fun t : rcHeightfield × ℚ => t.1.EdgeHits y = st.1.EdgeHits y)
    lo hi _ st rfl ?_
  intro i t _ hi2 ht
  rw [flatHorizontal_EdgeHits]
  split
  · rw [Function.update_noteq (by omega)]
    exact ht
  · exact ht

/-- The turns of the sloped loop over the row boundaries below `y` leave the
entry of `y` as it is. -/
theorem slopedHorizontal_below (L : rasterizeTri.Locals) (edges : Nat → Vec3) (lo hi y : Int)
    (st : rcHeightfield × ℚ) (h : hi < y) :
    (forLoop lo hi (rasterizeTri.slopedHorizontal L edges) st).1.EdgeHits y =
      st.1.EdgeHits y := by
  refine forLoop_invariant (fun t : rcHeightfield × ℚ => t.1.EdgeHits y = st.1.EdgeHits y)
    lo hi _ st rfl ?_
  intro i t _ hi2 ht
  rw [slopedHorizontal_EdgeHits]
  split
  · rw [Function.update_noteq (by omega)]
    exact ht
  · exact ht

theorem flatHorizontals_split (L : rasterizeTri.Locals) (edges : Nat → Vec3)
    (S : rcHeightfield) (y : Int) (h1 : max (L.minRow + 1) L.y0 ≤ y)
    (h2 : y ≤ min L.maxRow L.y1_edge) :
    rasterizeTri.flatHorizontals L edges S =
      (forLoop y (min L.maxRow L.y1_edge) (rasterizeTri.flatHorizontal L edges)
        (forLoop (max (L.minRow + 1) L.y0) (y - 1) (rasterizeTri.flatHorizontal L edges)
          (S, L.bmin.z + L.cs * ((max (L.minRow + 1) L.y0 : Int) : ℚ)))).1 := by
  unfold rasterizeTri.flatHorizontals
  simp only [intMin_eq_min, intMax_eq_max]
  exact congrArg Prod.fst (forLoop_split _ y _ _ _ h1
    (show y ≤ min L.maxRow L.y1_edge + 1 by omega))

theorem slopedHorizontals_split (L : rasterizeTri.Locals) (edges : Nat → Vec3)
    (S : rcHeightfield) (y : Int) (h1 : max (L.minRow + 1) L.y0 ≤ y)
    (h2 : y ≤ min L.maxRow L.y1_edge) :
    rasterizeTri.slopedHorizontals L edges S =
      (forLoop y (min L.maxRow L.y1_edge) (rasterizeTri.slopedHorizontal L edges)
        (forLoop (max (L.minRow + 1) L.y0) (y - 1) (rasterizeTri.slopedHorizontal L edges)
          (S, L.bmin.z + L.cs * ((max (L.minRow + 1) L.y0 : Int) : ℚ)))).1 := by
  unfold rasterizeTri.slopedHorizontals
  simp only [intMin_eq_min, intMax_eq_max]
  exact congrArg Prod.fst (forLoop_split _ y _ _ _ h1
    (show y ≤ min L.maxRow L.y1_edge + 1 by omega))

/-- C23. Let the entry of the row boundary `y` be empty when the flat or the
sloped path is entered, and let `y` be one of the row boundaries that the loop
over the row boundaries processes (`max(minRow+1, y0) <= y <= min(maxRow,
y1_edge)`). Then exactly two of the three edges, those leaving the vertices
`b1 < b2`, run their recording loop through `y`; their bytes are non-zero; and
when the loop over the row boundaries, in either path, reaches `y` (after its
turns for the boundaries below `y`), the entry of `y` holds the byte of `b1` in
`Hits[0]` and the byte of `b2` in `Hits[1]`: both recorded hits are there, none
was overwritten. -/
theorem rasterizeTri_two_hits_per_row (L : rasterizeTri.Locals) (B : rcHeightfield)
    (edges : Nat → Vec3) (y : Int) (hE : B.EdgeHits y = ⟨0, 0⟩)
    (h1 : max (L.minRow + 1) L.y0 ≤ y) (h2 : y ≤ min L.maxRow L.y1_edge) :
    ∃ b1 b2, b1 < b2 ∧ b2 < 3 ∧ crossesRow L b1 y ∧ crossesRow L b2 y ∧
      (∀ b, b < 3 → crossesRow L b y → b = b1 ∨ b = b2) ∧
      edgeBits b1 ≠ 0 ∧ edgeBits b2 ≠ 0 ∧
      ((forLoop (max (L.minRow + 1) L.y0) (y - 1)
          (rasterizeTri.flatHorizontal L
            ([0, 1, 2].foldl (fun st basevert => rasterizeTri.flatBaseVert L basevert st)
              (B, edges)).2)
          (([0, 1, 2].foldl (fun st basevert => rasterizeTri.flatBaseVert L basevert st)
              (B, edges)).1,
            L.bmin.z + L.cs * ((max (L.minRow + 1) L.y0 : Int) : ℚ))).1.EdgeHits y =
        ⟨edgeBits b1, edgeBits b2⟩ ∧
      rasterizeTri.flatHorizontals L
          ([0, 1, 2].foldl (fun st basevert => rasterizeTri.flatBaseVert L basevert st)
            (B, edges)).2
          ([0, 1, 2].foldl (fun st basevert => rasterizeTri.flatBaseVert L basevert st)
            (B, edges)).1 =
        (forLoop y (min L.maxRow L.y1_edge)
          (rasterizeTri.flatHorizontal L
            ([0, 1, 2].foldl (fun st basevert => rasterizeTri.flatBaseVert L basevert st)
              (B, edges)).2)
          (forLoop (max (L.minRow + 1) L.y0) (y - 1)
            (rasterizeTri.flatHorizontal L
              ([0, 1, 2].foldl (fun st basevert => rasterizeTri.flatBaseVert L basevert st)
                (B, edges)).2)
            (([0, 1, 2].foldl (fun st basevert => rasterizeTri.flatBaseVert L basevert st)
                (B, edges)).1,
              L.bmin.z + L.cs * ((max (L.minRow + 1) L.y0 : Int) : ℚ)))).1) ∧
      ((forLoop (max (L.minRow + 1) L.y0) (y - 1)
          (rasterizeTri.slopedHorizontal L
            ([0, 1, 2].foldl (fun st basevert => rasterizeTri.slopedBaseVert L basevert st)
              (B, edges)).2)
          (([0, 1, 2].foldl (fun st basevert => rasterizeTri.slopedBaseVert L basevert st)
              (B, edges)).1,
            L.bmin.z + L.cs * ((max (L.minRow + 1) L.y0 : Int) : ℚ))).1.EdgeHits y =
        ⟨edgeBits b1, edgeBits b2⟩ ∧
      rasterizeTri.slopedHorizontals L
          ([0, 1, 2].foldl (fun st basevert => rasterizeTri.slopedBaseVert L basevert st)
            (B, edges)).2
          ([0, 1, 2].foldl (fun st basevert => rasterizeTri.slopedBaseVert L basevert st)
            (B, edges)).1 =
        (forLoop y (min L.maxRow L.y1_edge)
          (rasterizeTri.slopedHorizontal L
            ([0, 1, 2].foldl (fun st basevert => rasterizeTri.slopedBaseVert L basevert st)
              (B, edges)).2)
          (forLoop (max (L.minRow + 1) L.y0) (y - 1)
            (rasterizeTri.slopedHorizontal L
              ([0, 1, 2].foldl (fun st basevert => rasterizeTri.slopedBaseVert L basevert st)
                (B, edges)).2)
            (([0, 1, 2].foldl (fun st basevert => rasterizeTri.slopedBaseVert L basevert st)
                (B, edges)).1,
              L.bmin.z + L.cs * ((max (L.minRow + 1) L.y0 : Int) : ℚ)))).1) := by
  have hcross := crossesRow_exists L y h1 h2
  have hbits : ∀ b, b < 3 → edgeBits b ≠ 0 := by
    intro b hb
    interval_cases b <;> decide
  have eF : ∀ z, ([0, 1, 2].foldl (fun st basevert => rasterizeTri.flatBaseVert L basevert st)
      (B, edges)).1.EdgeHits z = hitsAfterRecording L B.EdgeHits z := by
    intro z
    simp only [List.foldl]
    rw [flatBaseVert_EdgeHits, flatBaseVert_EdgeHits, flatBaseVert_EdgeHits]
    rfl
  have eS : ∀ z, ([0, 1, 2].foldl (fun st basevert => rasterizeTri.slopedBaseVert L basevert st)
      (B, edges)).1.EdgeHits z = hitsAfterRecording L B.EdgeHits z := by
    intro z
    simp only [List.foldl]
    rw [slopedBaseVert_EdgeHits, slopedBaseVert_EdgeHits, slopedBaseVert_EdgeHits]
    rfl
  rcases hits_cases L B.EdgeHits y hE with ⟨_, hnone⟩ | ⟨b1, b2, h12, h23, c1, c2, honly, hrec⟩
  · rcases hcross with h | h | h
    · exact absurd h (hnone 0 (by omega))
    · exact absurd h (hnone 1 (by omega))
    · exact absurd h (hnone 2 (by omega))
  · refine ⟨b1, b2, h12, h23, c1, c2, honly, hbits b1 (by omega), hbits b2 h23, ⟨?_, ?_⟩,
      ⟨?_, ?_⟩⟩
    · rw [flatHorizontal_below L _ _ _ y _ (by omega), eF y, hrec]
    · exact flatHorizontals_split L _ _ y h1 h2
    · rw [slopedHorizontal_below L _ _ _ y _ (by omega), eS y, hrec]
    · exact slopedHorizontals_split L _ _ y h1 h2

theorem rasterizeTri_two_hits_per_row_witness :
    ∃ b1 b2, b1 < b2 ∧ b2 < 3 ∧
      crossesRow (rasterizeTri.locals ⟨1 / 2, 0, 1 / 2⟩ ⟨5 / 2, 0, 1 / 2⟩ ⟨1 / 2, 1, 5 / 2⟩
        (rcCreateHeightfield 3 3 ⟨0, 0, 0⟩ ⟨3, 3, 3⟩ 1 1) ⟨0, 0, 0⟩ 1 1 1) b1 1 ∧
      crossesRow (rasterizeTri.locals ⟨1 / 2, 0, 1 / 2⟩ ⟨5 / 2, 0, 1 / 2⟩ ⟨1 / 2, 1, 5 / 2⟩
        (rcCreateHeightfield 3 3 ⟨0, 0, 0⟩ ⟨3, 3, 3⟩ 1 1) ⟨0, 0, 0⟩ 1 1 1) b2 1 ∧
      edgeBits b1 ≠ 0 ∧ edgeBits b2 ≠ 0 := by
  obtain ⟨b1, b2, h12, h23, c1, c2, _, n1, n2, _⟩ :=
    rasterizeTri_two_hits_per_row
      (rasterizeTri.locals ⟨1 / 2, 0, 1 / 2⟩ ⟨5 / 2, 0, 1 / 2⟩ ⟨1 / 2, 1, 5 / 2⟩
        (rcCreateHeightfield 3 3 ⟨0, 0, 0⟩ ⟨3, 3, 3⟩ 1 1) ⟨0, 0, 0⟩ 1 1 1)
      (rcCreateHeightfield 3 3 ⟨0, 0, 0⟩ ⟨3, 3, 3⟩ 1 1) (fun _ => ⟨0, 0, 0⟩) 1 rfl
      (by decide!) (by decide!)
  exact ⟨b1, b2, h12, h23, c1, c2, n1, n2⟩

/-! ## Theorems: where too small cell sizes are rejected -/

/-- C21 (amended). `rcCreateHeightfield` does not examine `cs` and `ch`: when
`rcAlloc` grants its four blocks it allocates them and returns `true` for every
`cs` and `ch`, non-positive ones included. The rejection is made by its caller
`cookMySop`: for `cs <= 0.01` or `ch <= 0.01` it returns (line 214) without
calling `rcCreateHeightfield`, so whatever `rcAlloc` would answer, the
heightfield that `rcAllocHeightfield` returned is left as it is, with none of
its four buffers allocated. It returns by the statement `return error()` that
also ends a complete cook, and no error message is recorded. -/
theorem cookMySop_rejects_small_cells (Solid : rcHeightfield.Buffers)
    (rcAlloc : rcCreateHeightfield.Answers) (min_pos max_pos : Vec3) (cs ch : ℚ)
    (h : cs ≤ 1 / 100 ∨ ch ≤ 1 / 100) :
    cookMySop.create (some Solid) rcAlloc min_pos max_pos cs ch =
        cookMySop.Step.returned (some Solid) ∧
    ∀ (cs0 : Nat → List rcSpanData) (ce : Nat → rcEdgeHit) (cr : Nat → rcRowExt)
      (ct : Nat → rcTempSpan) (width height : Int), 0 ≤ width → 0 ≤ height →
      rcCreateHeightfield.run Solid ⟨some cs0, some ce, some cr, some ct⟩ width height
          min_pos max_pos cs ch =
        some (true,
          { width := width, height := height, bmin := min_pos, bmax := max_pos, cs := cs
            ch := ch
            spans := some (List.replicate (width * height).toNat [])
            EdgeHits := some (List.replicate (height + 1).toNat ⟨0, 0⟩)
            RowExt := some (List.replicate (height + 2).toNat ⟨width + 2, -2⟩)
            tempspans :=
              some (List.replicate ((width + 2) * (height + 2)).toNat ⟨32000, -32000⟩) }) := by
  refine ⟨?_, fun cs0 ce cr ct width height hw hh =>
    rcCreateHeightfield.run_granted Solid cs0 ce cr ct width height min_pos max_pos cs ch hw hh⟩
  simp only [cookMySop.create, if_pos h]

theorem cookMySop_rejects_small_cells_witness :
    cookMySop.create (some rcAllocHeightfield)
        ⟨some fun _ => [], some fun _ => ⟨0, 0⟩, some fun _ => ⟨0, 0⟩, some fun _ => ⟨0, 0⟩⟩
        ⟨-10, -10, -10⟩ ⟨11, 11, 11⟩ 0 1 =
      cookMySop.Step.returned (some rcAllocHeightfield) :=
  (cookMySop_rejects_small_cells rcAllocHeightfield
    ⟨some fun _ => [], some fun _ => ⟨0, 0⟩, some fun _ => ⟨0, 0⟩, some fun _ => ⟨0, 0⟩⟩
    ⟨-10, -10, -10⟩ ⟨11, 11, 11⟩ 0 1 (Or.inl (by norm_num))).1

/-- C21 as stated fails: called with `cs = 0` and `ch = 0` on the heightfield
that `rcAllocHeightfield` returns, `rcCreateHeightfield` allocates its four
buffers and returns `true`. -/
theorem cookMySop_rejects_small_cells_counterexample :
    rcCreateHeightfield.run rcAllocHeightfield
        ⟨some fun _ => [], some fun _ => ⟨0, 0⟩, some fun _ => ⟨0, 0⟩, some fun _ => ⟨0, 0⟩⟩
        1 1 ⟨0, 0, 0⟩ ⟨1, 1, 1⟩ 0 0 =
      some (true,
        { width := 1, height := 1, bmin := ⟨0, 0, 0⟩, bmax := ⟨1, 1, 1⟩, cs := 0, ch := 0
          spans := some [[]]
          EdgeHits := some [⟨0, 0⟩, ⟨0, 0⟩]
          RowExt := some [⟨3, -2⟩, ⟨3, -2⟩, ⟨3, -2⟩]
          tempspans := some (List.replicate 9 ⟨32000, -32000⟩) }) :=
  rcCreateHeightfield.run_granted rcAllocHeightfield _ _ _ _ 1 1 ⟨0, 0, 0⟩ ⟨1, 1, 1⟩ 0 0
    (by decide) (by decide)

/-! ## Theorems: the flat and the sloped path discover the same cells -/

theorem SameHorizontal.cell_crossX {L L' : rasterizeTri.Locals} (h : SameHorizontal L L')
    (b : Nat) (k : Int) :
    cellOf L.bmin L.ics (L.crossX b k) = cellOf L'.bmin L'.ics (L'.crossX b k) := by
  simp only [cellOf, rasterizeTri.Locals.crossX, intersectX, rasterizeTri.Locals.edgeVec,
    rasterizeTri.Locals.edgeInv, rcVsub, h.vert_x, h.vert_z, h.bmin_x, h.bmin_z, h.cs_eq,
    h.ics_eq]

theorem SameHorizontal.cell_crossZ {L L' : rasterizeTri.Locals} (h : SameHorizontal L L')
    (b : Nat) (k : Int) :
    cellOf L.bmin L.ics (L.crossZ b k) = cellOf L'.bmin L'.ics (L'.crossZ b k) ∧
      (L.crossZ b k).x = (L'.crossZ b k).x := by
  simp only [cellOf, rasterizeTri.Locals.crossZ, intersectZ, rasterizeTri.Locals.edgeVec,
    rasterizeTri.Locals.edgeInv, rcVsub, h.vert_x, h.vert_z, h.bmin_x, h.bmin_z, h.cs_eq,
    h.ics_eq, and_self]

theorem SameHorizontal.crosses_iff {L L' : rasterizeTri.Locals} (h : SameHorizontal L L')
    (b : Nat) (k : Int) : crossesRow L b k ↔ crossesRow L' b k := by
  simp only [crossesRow, h.cells, h.y0_eq, h.y1_edge_eq]

theorem SameHorizontal.vertex_iff {L L' : rasterizeTri.Locals} (h : SameHorizontal L L')
    (b : Nat) (c y : Int) : vertexMark L b c y ↔ vertexMark L' b c y := by
  simp only [vertexMark, h.cells, h.x0_eq, h.x1_eq, h.y0_eq, h.y1_eq]

theorem SameHorizontal.column_iff {L L' : rasterizeTri.Locals} (h : SameHorizontal L L')
    (b : Nat) (c y : Int) : columnMark L b c y ↔ columnMark L' b c y := by
  simp only [columnMark, columnMarkAt, h.cells, h.x0_eq, h.x1_edge_eq, h.y0_eq, h.y1_eq,
    h.cell_crossX]

theorem SameHorizontal.hit_iff {L L' : rasterizeTri.Locals} (h : SameHorizontal L L')
    (b : Nat) (k c y : Int) : hitMark L b k c y ↔ hitMark L' b k c y := by
  simp only [hitMark, h.x0_eq, h.x1_eq, (h.cell_crossZ b k).1]

theorem SameHorizontal.fillLo_eq {L L' : rasterizeTri.Locals} (h : SameHorizontal L L')
    (b1 b2 : Nat) (k : Int) : fillLo L b1 b2 k = fillLo L' b1 b2 k := by
  simp only [fillLo, h.x0_eq, (h.cell_crossZ b1 k).1, (h.cell_crossZ b2 k).1,
    (h.cell_crossZ b1 k).2, (h.cell_crossZ b2 k).2]

theorem SameHorizontal.fillHi_eq {L L' : rasterizeTri.Locals} (h : SameHorizontal L L')
    (hi : Int) (b1 b2 : Nat) (k : Int) : fillHi L hi b1 b2 k = fillHi L' hi b1 b2 k := by
  simp only [fillHi, (h.cell_crossZ b1 k).1, (h.cell_crossZ b2 k).1,
    (h.cell_crossZ b1 k).2, (h.cell_crossZ b2 k).2]

theorem SameHorizontal.row_iff {L L' : rasterizeTri.Locals} (h : SameHorizontal L L')
    (sloped : Bool) (b1 b2 : Nat) (k c y : Int) :
    rowMark sloped L b1 b2 k c y ↔ rowMark sloped L' b1 b2 k c y := by
  cases sloped <;>
    simp only [rowMark, fillMarkFlat, fillMarkSloped, h.hit_iff, h.fillLo_eq, h.fillHi_eq,
      h.x1_eq, h.x1_edge_eq, (h.cell_crossZ b1 k).1, (h.cell_crossZ b2 k).1, if_true,
      Bool.false_eq_true, if_false]

/-- The samples that a discovery phase records depend on the horizontal data of
the triangle only. -/
theorem SameHorizontal.discovery_iff {L L' : rasterizeTri.Locals} (h : SameHorizontal L L')
    (sloped : Bool) (c y : Int) : discoveryMark sloped L c y ↔ discoveryMark sloped L' c y := by
  simp only [discoveryMark, boundaryMark, h.vertex_iff, h.column_iff, h.crosses_iff, h.row_iff]

/-- Every sample of the flat discovery is a sample of the sloped discovery. -/
theorem flatMark_sloped {L : rasterizeTri.Locals} {w h : Int} (cn : L.Consistent w h)
    (c y : Int) (hm : discoveryMark false L c y) : discoveryMark true L c y := by
  rcases hm with hm | ⟨k, b1, b2, h12, h23, c1, c2, hr⟩
  · exact Or.inl hm
  · refine Or.inr ⟨k, b1, b2, h12, h23, c1, c2, ?_⟩
    rcases hr with hr | hr | hr
    · exact Or.inl hr
    · exact Or.inr (Or.inl hr)
    · refine Or.inr (Or.inr ?_)
      simp only [Bool.false_eq_true, if_false] at hr
      simp only [if_true]
      obtain ⟨hne, hle, hc, hy⟩ := hr
      have a := cn.x1_eq
      have b := cn.x1_edge_eq
      have hhi : fillHi L L.x1 b1 b2 k ≤ fillHi L L.x1_edge b1 b2 k := by
        simp only [fillHi, intMin_eq_min]
        omega
      refine ⟨hne, ?_⟩
      rcases hc with hc | hc | hc | hc
      · exact ⟨fillLo L b1 b2 k, le_refl _, by omega, Or.inl hc, hy⟩
      · exact ⟨fillHi L L.x1 b1 b2 k, hle, hhi, Or.inl hc, hy⟩
      · exact ⟨fillLo L b1 b2 k, le_refl _, by omega, Or.inr hc, hy⟩
      · exact ⟨fillHi L L.x1 b1 b2 k, hle, hhi, Or.inr hc, hy⟩

/-- Every sample of the sloped discovery has, in its row, a sample of the flat
discovery to its left and one to its right, once clipped to the footprint. -/
theorem slopedMark_flat {L : rasterizeTri.Locals} {w h : Int} (cn : L.Consistent w h)
    (hx : L.x0 ≤ L.x1) (c y : Int) (hm : discoveryMark true L c y) :
    ∃ c1 c2, discoveryMark false L c1 y ∧ discoveryMark false L c2 y ∧
      c1 ≤ max c L.x0 ∧ min c L.x1 ≤ c2 := by
  rcases hm with hm | ⟨k, b1, b2, h12, h23, c1, c2, hr⟩
  · exact ⟨c, c, Or.inl hm, Or.inl hm, le_max_left _ _, min_le_left _ _⟩
  · rcases hr with hr | hr | hr
    · exact ⟨c, c, Or.inr ⟨k, b1, b2, h12, h23, c1, c2, Or.inl hr⟩,
        Or.inr ⟨k, b1, b2, h12, h23, c1, c2, Or.inl hr⟩, le_max_left _ _, min_le_left _ _⟩
    · exact ⟨c, c, Or.inr ⟨k, b1, b2, h12, h23, c1, c2, Or.inr (Or.inl hr)⟩,
        Or.inr ⟨k, b1, b2, h12, h23, c1, c2, Or.inr (Or.inl hr)⟩, le_max_left _ _,
        min_le_left _ _⟩
    · simp only [if_true] at hr
      obtain ⟨hne, x, hx0, hx1, hc, hy⟩ := hr
      have a := cn.x1_eq
      have b := cn.x1_edge_eq
      by_cases hle : fillLo L b1 b2 k ≤ fillHi L L.x1 b1 b2 k
      · have m1 : discoveryMark false L (fillLo L b1 b2 k - 1) y :=
          Or.inr ⟨k, b1, b2, h12, h23, c1, c2, Or.inr (Or.inr (by
            simp only [Bool.false_eq_true, if_false]
            exact ⟨hne, hle, Or.inr (Or.inr (Or.inl rfl)), hy⟩))⟩
        have m2 : discoveryMark false L (fillHi L L.x1 b1 b2 k) y :=
          Or.inr ⟨k, b1, b2, h12, h23, c1, c2, Or.inr (Or.inr (by
            simp only [Bool.false_eq_true, if_false]
            exact ⟨hne, hle, Or.inr (Or.inl rfl), hy⟩))⟩
        refine ⟨_, _, m1, m2, ?_, ?_⟩
        · omega
        · simp only [fillHi, intMin_eq_min] at hx1 ⊢
          omega
      · simp only [fillLo, fillHi, intMin_eq_min, intMax_eq_max] at hle hx0 hx1
        by_cases hlt : (L.crossZ b2 k).x < (L.crossZ b1 k).x
        · simp only [if_pos hlt] at hle hx0 hx1
          have hcell : (cellOf L.bmin L.ics (L.crossZ b2 k)).1 = L.x1 := by omega
          have m : discoveryMark false L L.x1 y :=
            Or.inr ⟨k, b1, b2, h12, h23, c1, c2, Or.inr (Or.inl
              ⟨hcell.symm, ⟨by omega, le_refl _⟩, hy⟩)⟩
          exact ⟨_, _, m, m, by omega, by omega⟩
        · simp only [if_neg hlt] at hle hx0 hx1
          have hcell : (cellOf L.bmin L.ics (L.crossZ b1 k)).1 = L.x1 := by omega
          have m : discoveryMark false L L.x1 y :=
            Or.inr ⟨k, b1, b2, h12, h23, c1, c2, Or.inl
              ⟨hcell.symm, ⟨by omega, le_refl _⟩, hy⟩⟩
          exact ⟨_, _, m, m, by omega, by omega⟩

/-- Row ranges that record the flat and the sloped samples from clean entries
are equal once clipped to the footprint. -/
theorem clipped_ranges_eq {L : rasterizeTri.Locals} {w h : Int} (cn : L.Consistent w h)
    (hx : L.x0 ≤ L.x1) {R0 R0' Rf Rs : Int → rcRowExt}
    (mf : Marks (discoveryMark false L) R0 Rf) (ms : Marks (discoveryMark true L) R0' Rs)
    (y : Int) (h0 : R0 (y + 1) = ⟨w + 2, -2⟩) (h0' : R0' (y + 1) = ⟨w + 2, -2⟩) :
    max (Rf (y + 1)).MinCol L.x0 = max (Rs (y + 1)).MinCol L.x0 ∧
      min (Rf (y + 1)).MaxCol L.x1 = min (Rs (y + 1)).MaxCol L.x1 := by
  have f1 := mf.le_min y
  have f2 := mf.le_max y
  have s1 := ms.le_min y
  have s2 := ms.le_max y
  rw [h0] at f1 f2
  rw [h0'] at s1 s2
  simp only at f1 f2 s1 s2
  have a1 : (Rs (y + 1)).MinCol ≤ (Rf (y + 1)).MinCol := by
    rcases mf.min_mark y with e | e
    · rw [e, h0]; exact s1
    · exact (ms.covers _ _ (flatMark_sloped cn _ _ e)).1
  have a2 : (Rf (y + 1)).MaxCol ≤ (Rs (y + 1)).MaxCol := by
    rcases mf.max_mark y with e | e
    · rw [e, h0]; exact s2
    · exact (ms.covers _ _ (flatMark_sloped cn _ _ e)).2
  have a3 : max (Rf (y + 1)).MinCol L.x0 ≤ max (Rs (y + 1)).MinCol L.x0 := by
    rcases ms.min_mark y with e | e
    · rw [e, h0']
      simp only
      omega
    · obtain ⟨c1, _, m1, _, l1, _⟩ := slopedMark_flat cn hx _ _ e
      have := (mf.covers _ _ m1).1
      omega
  have a4 : min (Rs (y + 1)).MaxCol L.x1 ≤ min (Rf (y + 1)).MaxCol L.x1 := by
    rcases ms.max_mark y with e | e
    · rw [e, h0']
      simp only
      omega
    · obtain ⟨_, c2, _, m2, _, l2⟩ := slopedMark_flat cn hx _ _ e
      have := (mf.covers _ _ m2).2
      omega
  constructor <;> omega

theorem flatMap_congr_mem {α β : Type} (l : List α) (f g : α → List β)
    (h : ∀ a ∈ l, f a = g a) : l.flatMap f = l.flatMap g := by
  induction l with
  | nil => rfl
  | cons a l ih =>
    rw [List.flatMap_cons, List.flatMap_cons, h a (by simp),
      ih (fun b hb => h b (by simp [hb]))]

theorem locals_sameHorizontal (v0 v1 v2 u0 u1 u2 : Vec3) (hf hf' : rcHeightfield)
    (bmin bmin' : Vec3) (cs ics ich ich' : ℚ)
    (hv : v0.x = u0.x ∧ v0.z = u0.z ∧ v1.x = u1.x ∧ v1.z = u1.z ∧ v2.x = u2.x ∧ v2.z = u2.z)
    (hb : bmin.x = bmin'.x ∧ bmin.z = bmin'.z)
    (hw : hf.width = hf'.width) (hh : hf.height = hf'.height) :
    SameHorizontal (rasterizeTri.locals v0 v1 v2 hf bmin cs ics ich)
      (rasterizeTri.locals u0 u1 u2 hf' bmin' cs ics ich') := by
  obtain ⟨a0, a1, a2, a3, a4, a5⟩ := hv
  have hi : rasterizeTri.intverts v0 v1 v2 bmin ics =
      rasterizeTri.intverts u0 u1 u2 bmin' ics := by
    funext i
    simp only [rasterizeTri.intverts, a0, a1, a2, a3, a4, a5, hb.1, hb.2]
  refine ⟨fun i => ?_, fun i => ?_, ?_, hb.1, hb.2, rfl, rfl, ?_, ?_, ?_, ?_, ?_, ?_⟩
  · simp only [rasterizeTri.locals]
    split
    · exact a0
    · split
      · exact a2
      · exact a4
  · simp only [rasterizeTri.locals]
    split
    · exact a1
    · split
      · exact a3
      · exact a5
  all_goals simp only [rasterizeTri.locals, hi, hw, hh]

/-- C22. Let two triangles have the same horizontal `(x, z)` vertex positions,
and be rasterized into grids of the same dimensions and horizontal origin, with
the same `cs` and `ics`, both with clean scratch buffers. Then the emission
loop after the flat discovery of the one visits the same cells, in the same
order, as the emission loop after the sloped discovery of the other; and if the
clamped footprint has a column (`x0 <= x1`, as for every triangle that reaches
either path), the row extents clipped to `x0..x1` are equal in every row
`y0..y1`. -/
theorem rasterizeTri_paths_same_cells (v0 v1 v2 u0 u1 u2 : Vec3) (hf hf' : rcHeightfield)
    (bmin bmin' : Vec3) (cs ics ich ich' : ℚ)
    (hv : v0.x = u0.x ∧ v0.z = u0.z ∧ v1.x = u1.x ∧ v1.z = u1.z ∧ v2.x = u2.x ∧ v2.z = u2.z)
    (hb : bmin.x = bmin'.x ∧ bmin.z = bmin'.z)
    (hw : hf.width = hf'.width) (hh : hf.height = hf'.height)
    (hc : scratchClean hf) (hc' : scratchClean hf') :
    emissionCells (rasterizeTri.locals v0 v1 v2 hf bmin cs ics ich)
        (rasterizeTri.flatDiscovery (rasterizeTri.locals v0 v1 v2 hf bmin cs ics ich) hf) =
      emissionCells (rasterizeTri.locals u0 u1 u2 hf' bmin' cs ics ich')
        (rasterizeTri.slopedDiscovery
          (rasterizeTri.locals u0 u1 u2 hf' bmin' cs ics ich') hf') ∧
    ((rasterizeTri.locals v0 v1 v2 hf bmin cs ics ich).x0 ≤
        (rasterizeTri.locals v0 v1 v2 hf bmin cs ics ich).x1 →
      ∀ y, (rasterizeTri.locals v0 v1 v2 hf bmin cs ics ich).y0 ≤ y →
        y ≤ (rasterizeTri.locals v0 v1 v2 hf bmin cs ics ich).y1 →
        intMax ((rasterizeTri.flatDiscovery (rasterizeTri.locals v0 v1 v2 hf bmin cs ics ich)
              hf).RowExt (y + 1)).MinCol
            (rasterizeTri.locals v0 v1 v2 hf bmin cs ics ich).x0 =
          intMax ((rasterizeTri.slopedDiscovery
              (rasterizeTri.locals u0 u1 u2 hf' bmin' cs ics ich') hf').RowExt (y + 1)).MinCol
            (rasterizeTri.locals u0 u1 u2 hf' bmin' cs ics ich').x0 ∧
        intMin ((rasterizeTri.flatDiscovery (rasterizeTri.locals v0 v1 v2 hf bmin cs ics ich)
              hf).RowExt (y + 1)).MaxCol
            (rasterizeTri.locals v0 v1 v2 hf bmin cs ics ich).x1 =
          intMin ((rasterizeTri.slopedDiscovery
              (rasterizeTri.locals u0 u1 u2 hf' bmin' cs ics ich') hf').RowExt (y + 1)).MaxCol
            (rasterizeTri.locals u0 u1 u2 hf' bmin' cs ics ich').x1) := by
  have sh := locals_sameHorizontal v0 v1 v2 u0 u1 u2 hf hf' bmin bmin' cs ics ich ich' hv hb
    hw hh
  have cn := locals_consistent v0 v1 v2 hf bmin cs ics ich
  have cn' := locals_consistent u0 u1 u2 hf' bmin' cs ics ich'
  have mf := flatDiscovery_marks cn hc.edgeHits
  have ms := (slopedDiscovery_marks cn' hc'.edgeHits).of_iff
    (fun c y => (sh.discovery_iff true c y).symm)
  generalize rasterizeTri.locals v0 v1 v2 hf bmin cs ics ich = L at sh cn mf ms ⊢
  generalize rasterizeTri.locals u0 u1 u2 hf' bmin' cs ics ich' = L' at sh cn' ms ⊢
  have hy0 := cn.y0_eq
  have hy1 := cn.y1_eq
  have rows : L.x0 ≤ L.x1 → ∀ y, L.y0 ≤ y → y ≤ L.y1 →
      max ((rasterizeTri.flatDiscovery L hf).RowExt (y + 1)).MinCol L.x0 =
        max ((rasterizeTri.slopedDiscovery L' hf').RowExt (y + 1)).MinCol L.x0 ∧
      min ((rasterizeTri.flatDiscovery L hf).RowExt (y + 1)).MaxCol L.x1 =
        min ((rasterizeTri.slopedDiscovery L' hf').RowExt (y + 1)).MaxCol L.x1 := by
    intro hx y h1 h2
    exact clipped_ranges_eq cn hx mf ms y (hc.rowExt (y + 1) (by omega) (by omega))
      (by rw [hc'.rowExt (y + 1) (by omega) (by omega), hw])
  refine ⟨?_, fun hx y h1 h2 => ?_⟩
  · unfold emissionCells
    rw [← sh.y0_eq, ← sh.y1_eq, ← sh.x0_eq, ← sh.x1_eq]
    apply flatMap_congr_mem
    intro y hy
    rw [mem_loopRange] at hy
    simp only [intMax_eq_max, intMin_eq_min]
    by_cases hx : L.x0 ≤ L.x1
    · obtain ⟨e1, e2⟩ := rows hx y hy.1 hy.2
      rw [e1, e2]
    · rw [loopRange_empty _ _ (by omega), loopRange_empty _ _ (by omega)]
  · obtain ⟨e1, e2⟩ := rows hx y h1 h2
    rw [intMax_eq_max, intMin_eq_min, intMax_eq_max, intMin_eq_min, ← sh.x0_eq, ← sh.x1_eq]
    exact ⟨e1, e2⟩

theorem rasterizeTri_paths_same_cells_witness :
    emissionCells
        (rasterizeTri.locals ⟨1 / 2, 0, 1 / 2⟩ ⟨5 / 2, 0, 1 / 2⟩ ⟨1 / 2, 0, 5 / 2⟩
          (rcCreateHeightfield 3 3 ⟨0, 0, 0⟩ ⟨3, 3, 3⟩ 1 1) ⟨0, 0, 0⟩ 1 1 1)
        (rasterizeTri.flatDiscovery
          (rasterizeTri.locals ⟨1 / 2, 0, 1 / 2⟩ ⟨5 / 2, 0, 1 / 2⟩ ⟨1 / 2, 0, 5 / 2⟩
            (rcCreateHeightfield 3 3 ⟨0, 0, 0⟩ ⟨3, 3, 3⟩ 1 1) ⟨0, 0, 0⟩ 1 1 1)
          (rcCreateHeightfield 3 3 ⟨0, 0, 0⟩ ⟨3, 3, 3⟩ 1 1)) =
      emissionCells
        (rasterizeTri.locals ⟨1 / 2, 0, 1 / 2⟩ ⟨5 / 2, 1, 1 / 2⟩ ⟨1 / 2, 2, 5 / 2⟩
          (rcCreateHeightfield 3 3 ⟨0, 0, 0⟩ ⟨3, 3, 3⟩ 1 1) ⟨0, 0, 0⟩ 1 1 1)
        (rasterizeTri.slopedDiscovery
          (rasterizeTri.locals ⟨1 / 2, 0, 1 / 2⟩ ⟨5 / 2, 1, 1 / 2⟩ ⟨1 / 2, 2, 5 / 2⟩
            (rcCreateHeightfield 3 3 ⟨0, 0, 0⟩ ⟨3, 3, 3⟩ 1 1) ⟨0, 0, 0⟩ 1 1 1)
          (rcCreateHeightfield 3 3 ⟨0, 0, 0⟩ ⟨3, 3, 3⟩ 1 1)) :=
  (rasterizeTri_paths_same_cells ⟨1 / 2, 0, 1 / 2⟩ ⟨5 / 2, 0, 1 / 2⟩ ⟨1 / 2, 0, 5 / 2⟩
    ⟨1 / 2, 0, 1 / 2⟩ ⟨5 / 2, 1, 1 / 2⟩ ⟨1 / 2, 2, 5 / 2⟩
    (rcCreateHeightfield 3 3 ⟨0, 0, 0⟩ ⟨3, 3, 3⟩ 1 1)
    (rcCreateHeightfield 3 3 ⟨0, 0, 0⟩ ⟨3, 3, 3⟩ 1 1) ⟨0, 0, 0⟩ ⟨0, 0, 0⟩ 1 1 1 1
    ⟨rfl, rfl, rfl, rfl, rfl, rfl⟩ ⟨rfl, rfl⟩ rfl rfl
    (rcCreateHeightfield_scratchClean 3 3 ⟨0, 0, 0⟩ ⟨3, 3, 3⟩ 1 1)
    (rcCreateHeightfield_scratchClean 3 3 ⟨0, 0, 0⟩ ⟨3, 3, 3⟩ 1 1)).1

/-! ## Theorems: two runs on heightfields whose scratch buffers agree -/

/-- Two loops over the same range whose bodies keep a relation between their
states keep it. -/
theorem forLoop_rel {σ τ : Type} (R : σ → τ → Prop) (lo hi : Int) (body : Int → σ → σ)
    (body' : Int → τ → τ) (s : σ) (s' : τ) (h0 : R s s')
    (hstep : ∀ i t t', lo ≤ i → i ≤ hi → R t t' → R (body i t) (body' i t')) :
    R (forLoop lo hi body s) (forLoop lo hi body' s') := by
  have key : ∀ n : Nat, (n : Int) ≤ hi + 1 - lo ∨ n = 0 →
      R ((List.range n).foldl (fun acc (k : Nat) => body (lo + (k : Int)) acc) s)
        ((List.range n).foldl (fun acc (k : Nat) => body' (lo + (k : Int)) acc) s') := by
    intro n
    induction n with
    | zero => intro _; simpa using h0
    | succ n ih =>
      intro hn
      have hn' : ((n + 1 : Nat) : Int) ≤ hi + 1 - lo := by
        rcases hn with h | h
        · exact h
        · omega
      rw [forLoop_range_foldl, forLoop_range_foldl]
      exact hstep (lo + (n : Int)) _ _ (by omega) (by omega) (ih (Or.inl (by omega)))
  exact key (hi + 1 - lo).toNat (by omega)

theorem ite_rel {σ τ : Type} (R : σ → τ → Prop) (g : Prop) [Decidable g] {a b : σ} {a' b' : τ}
    (h1 : g → R a a') (h2 : ¬ g → R b b') :
    R (if g then a else b) (if g then a' else b') := by
  by_cases hg : g
  · rw [if_pos hg, if_pos hg]; exact h1 hg
  · rw [if_neg hg, if_neg hg]; exact h2 hg

theorem ScratchAgree.flat_sample {w h : Int} {S S' : rcHeightfield} (a : ScratchAgree w h S S')
    (x y : Int) : ScratchAgree w h (addFlatSpanSample S x y) (addFlatSpanSample S' x y) := by
  refine ⟨a.width_left, a.width_right, a.height_left, a.height_right, a.edgeHits, ?_,
    a.tempspans⟩
  intro i h1 h2
  simp only [addFlatSpanSample, Function.update_apply]
  split
  · rename_i e
    rw [← e, a.rowExt i h1 h2]
  · exact a.rowExt i h1 h2

theorem ScratchAgree.sample {w h : Int} {S S' : rcHeightfield} (a : ScratchAgree w h S S')
    (x y s : Int) (hx : -1 ≤ x ∧ x ≤ w) :
    ScratchAgree w h (addSpanSample S x y s) (addSpanSample S' x y s) := by
  have f := a.flat_sample x y
  refine ⟨f.width_left, f.width_right, f.height_left, f.height_right, f.edgeHits, f.rowExt, ?_⟩
  intro c r h1 h2 h3 h4
  have i1 : SampleIndex (addFlatSpanSample S x y) x y = x + 1 + (y + 1) * (w + 2) := by
    simp only [SampleIndex, addFlatSpanSample_width, a.width_left]
  have i2 : SampleIndex (addFlatSpanSample S' x y) x y = x + 1 + (y + 1) * (w + 2) := by
    simp only [SampleIndex, addFlatSpanSample_width, a.width_right]
  simp only [addSpanSample, i1, i2, Function.update_apply, addFlatSpanSample_tempspans]
  by_cases e : c + 1 + (r + 1) * (w + 2) = x + 1 + (y + 1) * (w + 2)
  · rw [if_pos e, if_pos e]
    have hcr : c = x ∧ r = y := by
      have := SampleIndex_inj { S with width := w } c r x y (by simp only; omega)
        (by simp only; omega) (by simp only [SampleIndex]; exact e)
      exact this
    obtain ⟨e1, e2⟩ := hcr
    subst e1 e2
    rw [a.tempspans c r h1 h2 h3 h4]
  · rw [if_neg e, if_neg e]
    exact a.tempspans c r h1 h2 h3 h4

theorem ScratchAgree.record_hit {w h : Int} {S S' : rcHeightfield} (a : ScratchAgree w h S S')
    (bits : Nat) (y : Int) :
    ScratchAgree w h (rasterizeTri.recordHit bits y S) (rasterizeTri.recordHit bits y S') := by
  refine ⟨a.width_left, a.width_right, a.height_left, a.height_right, ?_, a.rowExt,
    a.tempspans⟩
  intro i h1 h2
  simp only [rasterizeTri.recordHit, Function.update_apply]
  split
  · rename_i e
    rw [← e, a.edgeHits i h1 h2]
  · exact a.edgeHits i h1 h2

theorem ScratchAgree.record_edge {w h : Int} {S S' : rcHeightfield} (a : ScratchAgree w h S S')
    (L : rasterizeTri.Locals) (b : Nat) :
    ScratchAgree w h (rasterizeTri.recordEdge L b S) (rasterizeTri.recordEdge L b S') := by
  unfold rasterizeTri.recordEdge
  exact ite_rel (ScratchAgree w h) _
    (fun _ => forLoop_rel (ScratchAgree w h) _ _ _ _ _ _ a
      (fun i t t' _ _ r => r.record_hit _ i))
    (fun _ => a)

theorem ScratchAgree.clear_hit {w h : Int} {S S' : rcHeightfield} (a : ScratchAgree w h S S')
    (y : Int) :
    ScratchAgree w h { S with EdgeHits := Function.update S.EdgeHits y ⟨0, 0⟩ }
      { S' with EdgeHits := Function.update S'.EdgeHits y ⟨0, 0⟩ } := by
  refine ⟨a.width_left, a.width_right, a.height_left, a.height_right, ?_, a.rowExt,
    a.tempspans⟩
  intro i h1 h2
  simp only [Function.update_apply]
  split
  · rfl
  · exact a.edgeHits i h1 h2

theorem ScratchAgree.reset_row {w h : Int} {S S' : rcHeightfield} (a : ScratchAgree w h S S')
    (i : Int) :
    ScratchAgree w h { S with RowExt := Function.update S.RowExt i ⟨S.width + 2, -2⟩ }
      { S' with RowExt := Function.update S'.RowExt i ⟨S'.width + 2, -2⟩ } := by
  refine ⟨a.width_left, a.width_right, a.height_left, a.height_right, a.edgeHits, ?_,
    a.tempspans⟩
  intro j h1 h2
  simp only [Function.update_apply, a.width_left, a.width_right]
  split
  · rfl
  · exact a.rowExt j h1 h2

theorem ScratchAgree.reset_sample {w h : Int} {S S' : rcHeightfield}
    (a : ScratchAgree w h S S') (x y : Int) :
    ScratchAgree w h
      { S with tempspans := Function.update S.tempspans (SampleIndex S x y) ⟨32000, -32000⟩ }
      { S' with
        tempspans := Function.update S'.tempspans (SampleIndex S' x y) ⟨32000, -32000⟩ } := by
  refine ⟨a.width_left, a.width_right, a.height_left, a.height_right, a.edgeHits, a.rowExt,
    ?_⟩
  intro c r h1 h2 h3 h4
  simp only [SampleIndex, Function.update_apply, a.width_left, a.width_right]
  split
  · rfl
  · exact a.tempspans c r h1 h2 h3 h4

theorem ScratchAgree.add_span {w h : Int} {S S' : rcHeightfield} (a : ScratchAgree w h S S')
    (x y : Int) (smin smax area : Nat) (thr : Int) :
    ScratchAgree w h (addSpan S x y smin smax area thr) (addSpan S' x y smin smax area thr) :=
  ⟨a.width_left, a.width_right, a.height_left, a.height_right, a.edgeHits, a.rowExt,
    a.tempspans⟩

/-! ### The flat discovery -/

theorem flatVertical_agree {w h : Int} (L : rasterizeTri.Locals) (b edge : Nat)
    (edges : Nat → Vec3) (x : Int) (st st' : rcHeightfield × ℚ) (p : PairAgree w h st st') :
    PairAgree w h (rasterizeTri.flatVertical L b edge edges x st)
      (rasterizeTri.flatVertical L b edge edges x st') := by
  obtain ⟨S, cx⟩ := st
  obtain ⟨S', cx'⟩ := st'
  obtain ⟨a, e⟩ := p
  simp only at a e
  subst e
  unfold rasterizeTri.flatVertical
  exact ⟨ite_rel (ScratchAgree w h) _
    (fun _ => (a.flat_sample _ _).flat_sample _ _) (fun _ => a), rfl⟩

theorem flatVertical_loop_agree {w h : Int} {T T' : rcHeightfield}
    (a : ScratchAgree w h T T') (L : rasterizeTri.Locals) (b edge : Nat) (edges : Nat → Vec3)
    (lo hi : Int) (cx : ℚ) :
    ScratchAgree w h (forLoop lo hi (rasterizeTri.flatVertical L b edge edges) (T, cx)).1
      (forLoop lo hi (rasterizeTri.flatVertical L b edge edges) (T', cx)).1 :=
  (forLoop_rel (PairAgree w h) lo hi _ _ (T, cx) (T', cx) ⟨a, rfl⟩
    (fun i t t' _ _ r => flatVertical_agree L b edge edges i t t' r)).1

theorem flatBaseVert_agree {w h : Int} (L : rasterizeTri.Locals) (b : Nat)
    (st st' : rcHeightfield × (Nat → Vec3)) (p : PairAgree w h st st') :
    PairAgree w h (rasterizeTri.flatBaseVert L b st) (rasterizeTri.flatBaseVert L b st') := by
  obtain ⟨S, E⟩ := st
  obtain ⟨S', E'⟩ := st'
  obtain ⟨a, e⟩ := p
  simp only at a e
  subst e
  unfold rasterizeTri.flatBaseVert
  refine ⟨?_, rfl⟩
  have a1 := ite_rel (ScratchAgree w h)
    ((L.intverts b).1 ≥ L.x0 ∧ (L.intverts b).1 ≤ L.x1 ∧ (L.intverts b).2 ≥ L.y0 ∧
      (L.intverts b).2 ≤ L.y1)
    (fun _ => a.flat_sample (L.intverts b).1 (L.intverts b).2) (fun _ => a)
  have a2 := a1.record_edge L b
  exact ite_rel (ScratchAgree w h) _
    (fun _ => flatVertical_loop_agree a2 L b _ _ _ _ _) (fun _ => a2)

theorem flatHit_agree {w h : Int} {S S' : rcHeightfield} (a : ScratchAgree w h S S')
    (L : rasterizeTri.Locals) (edges : Nat → Vec3) (y : Int) (cz : ℚ) (hit : Nat) :
    PairAgree w h (rasterizeTri.flatHit L edges y cz hit S)
      (rasterizeTri.flatHit L edges y cz hit S') := by
  unfold rasterizeTri.flatHit
  exact ⟨ite_rel (ScratchAgree w h) _
    (fun _ => (a.flat_sample _ _).flat_sample _ _) (fun _ => a), rfl⟩

theorem flatFill_agree {w h : Int} {S S' : rcHeightfield} (a : ScratchAgree w h S S')
    (L : rasterizeTri.Locals) (y : Int) (Inter0 Inter1 : Vec3) (xInter0 xInter1 : Int) :
    ScratchAgree w h (rasterizeTri.flatFill L y Inter0 Inter1 xInter0 xInter1 S)
      (rasterizeTri.flatFill L y Inter0 Inter1 xInter0 xInter1 S') := by
  unfold rasterizeTri.flatFill
  refine ite_rel (ScratchAgree w h) _ (fun _ => ?_) (fun _ => a)
  refine ite_rel (ScratchAgree w h) _ (fun _ => ?_) (fun _ => a)
  exact (((((((a.flat_sample _ _).flat_sample _ _).flat_sample _ _).flat_sample _ _).flat_sample
    _ _).flat_sample _ _).flat_sample _ _).flat_sample _ _

theorem flatHorizontal_agree {w h : Int} (L : rasterizeTri.Locals) (edges : Nat → Vec3)
    (y : Int) (h1 : 0 ≤ y) (h2 : y ≤ h) (st st' : rcHeightfield × ℚ)
    (p : PairAgree w h st st') :
    PairAgree w h (rasterizeTri.flatHorizontal L edges y st)
      (rasterizeTri.flatHorizontal L edges y st') := by
  obtain ⟨S, cz⟩ := st
  obtain ⟨S', cz'⟩ := st'
  obtain ⟨a, e⟩ := p
  simp only at a e
  subst e
  unfold rasterizeTri.flatHorizontal
  refine ⟨?_, rfl⟩
  simp only
  rw [← a.edgeHits y h1 h2]
  refine ite_rel (ScratchAgree w h) _ (fun _ => ?_) (fun _ => a)
  have r0 := flatHit_agree a L edges y cz (S.EdgeHits y).Hits0
  have r1 := flatHit_agree r0.1 L edges y cz (S.EdgeHits y).Hits1
  have r2 := flatFill_agree r1.1 L y
    (rasterizeTri.flatHit L edges y cz (S.EdgeHits y).Hits0 S).2.1
    (rasterizeTri.flatHit L edges y cz (S.EdgeHits y).Hits1
      (rasterizeTri.flatHit L edges y cz (S.EdgeHits y).Hits0 S).1).2.1
    (rasterizeTri.flatHit L edges y cz (S.EdgeHits y).Hits0 S).2.2
    (rasterizeTri.flatHit L edges y cz (S.EdgeHits y).Hits1
      (rasterizeTri.flatHit L edges y cz (S.EdgeHits y).Hits0 S).1).2.2
  rw [← r0.2, ← r1.2]
  exact r2.clear_hit y

theorem flatHorizontals_agree {w h : Int} {S S' : rcHeightfield} (a : ScratchAgree w h S S')
    {L : rasterizeTri.Locals} (c : L.Consistent w h) (edges : Nat → Vec3) :
    ScratchAgree w h (rasterizeTri.flatHorizontals L edges S)
      (rasterizeTri.flatHorizontals L edges S') := by
  have hy0 := c.y0_eq
  have hy1 := c.y1_edge_eq
  unfold rasterizeTri.flatHorizontals
  exact (forLoop_rel (PairAgree w h) _ _ _ _ (S, _) (S', _) ⟨a, rfl⟩
    (fun i t t' i1 i2 r => flatHorizontal_agree L edges i
      (by rw [intMax_eq_max] at i1; omega) (by rw [intMin_eq_min] at i2; omega) t t' r)).1

theorem flatDiscovery_agree {w h : Int} {S S' : rcHeightfield} (a : ScratchAgree w h S S')
    {L : rasterizeTri.Locals} (c : L.Consistent w h) :
    ScratchAgree w h (rasterizeTri.flatDiscovery L S) (rasterizeTri.flatDiscovery L S') := by
  unfold rasterizeTri.flatDiscovery
  simp only [List.foldl]
  have p0 : PairAgree w h (S, fun _ : Nat => (⟨0, 0, 0⟩ : Vec3))
      (S', fun _ : Nat => (⟨0, 0, 0⟩ : Vec3)) := ⟨a, rfl⟩
  have p3 := flatBaseVert_agree L 2 _ _
    (flatBaseVert_agree L 1 _ _ (flatBaseVert_agree L 0 _ _ p0))
  rw [← p3.2]
  exact flatHorizontals_agree p3.1 c _

/-! ### The sloped discovery -/

theorem slopedVertical_agree {w h : Int} (L : rasterizeTri.Locals) (b edge : Nat)
    (edges : Nat → Vec3) (x : Int) (hx : 0 ≤ x ∧ x ≤ w) (st st' : rcHeightfield × ℚ)
    (p : PairAgree w h st st') :
    PairAgree w h (rasterizeTri.slopedVertical L b edge edges x st)
      (rasterizeTri.slopedVertical L b edge edges x st') := by
  obtain ⟨S, cx⟩ := st
  obtain ⟨S', cx'⟩ := st'
  obtain ⟨a, e⟩ := p
  simp only at a e
  subst e
  unfold rasterizeTri.slopedVertical
  exact ⟨ite_rel (ScratchAgree w h) _
    (fun _ => (a.sample _ _ _ (by omega)).sample _ _ _ (by omega)) (fun _ => a), rfl⟩

theorem slopedVertical_loop_agree {w h : Int} {T T' : rcHeightfield}
    (a : ScratchAgree w h T T') (L : rasterizeTri.Locals) (b edge : Nat) (edges : Nat → Vec3)
    (lo hi : Int) (hlo : 0 ≤ lo) (hhi : hi ≤ w) (cx : ℚ) :
    ScratchAgree w h (forLoop lo hi (rasterizeTri.slopedVertical L b edge edges) (T, cx)).1
      (forLoop lo hi (rasterizeTri.slopedVertical L b edge edges) (T', cx)).1 :=
  (forLoop_rel (PairAgree w h) lo hi _ _ (T, cx) (T', cx) ⟨a, rfl⟩
    (fun i t t' i1 i2 r => slopedVertical_agree L b edge edges i (by omega) t t' r)).1

theorem slopedBaseVert_agree {w h : Int} {L : rasterizeTri.Locals} (c : L.Consistent w h)
    (b : Nat) (st st' : rcHeightfield × (Nat → Vec3)) (p : PairAgree w h st st') :
    PairAgree w h (rasterizeTri.slopedBaseVert L b st)
      (rasterizeTri.slopedBaseVert L b st') := by
  obtain ⟨S, E⟩ := st
  obtain ⟨S', E'⟩ := st'
  obtain ⟨a, e⟩ := p
  simp only at a e
  subst e
  have hx0 := c.x0_eq
  have hx1 := c.x1_eq
  have hx2 := c.x1_edge_eq
  unfold rasterizeTri.slopedBaseVert
  refine ⟨?_, rfl⟩
  have a1 := ite_rel (ScratchAgree w h)
    ((L.intverts b).1 ≥ L.x0 ∧ (L.intverts b).1 ≤ L.x1 ∧ (L.intverts b).2 ≥ L.y0 ∧
      (L.intverts b).2 ≤ L.y1)
    (fun g => a.sample (L.intverts b).1 (L.intverts b).2
      (rasterizeTri.quantize L.ich ((L.vertarray b).y - L.bmin.y)) (by omega))
    (fun _ => a)
  have a2 := a1.record_edge L b
  exact ite_rel (ScratchAgree w h) _
    (fun _ => slopedVertical_loop_agree a2 L b _ _ _ _
      (by rw [intMax_eq_max]; omega) (by rw [intMin_eq_min]; omega) _)
    (fun _ => a2)

theorem slopedHit_agree {w h : Int} {S S' : rcHeightfield} (a : ScratchAgree w h S S')
    {L : rasterizeTri.Locals} (c : L.Consistent w h) (edges : Nat → Vec3) (y : Int) (cz : ℚ)
    (hit : Nat) :
    PairAgree w h (rasterizeTri.slopedHit L edges y cz hit S)
      (rasterizeTri.slopedHit L edges y cz hit S') := by
  have hx0 := c.x0_eq
  have hx1 := c.x1_eq
  unfold rasterizeTri.slopedHit
  exact ⟨ite_rel (ScratchAgree w h) _
    (fun g => (a.sample _ _ _ (by omega)).sample _ _ _ (by omega)) (fun _ => a), rfl⟩

theorem slopedFillCell_agree {w h : Int} (L : rasterizeTri.Locals) (y : Int) (ds : ℚ)
    (x : Int) (hx : 0 ≤ x ∧ x ≤ w) (st st' : rcHeightfield × ℚ) (p : PairAgree w h st st') :
    PairAgree w h (rasterizeTri.slopedFillCell L y ds x st)
      (rasterizeTri.slopedFillCell L y ds x st') := by
  obtain ⟨S, f⟩ := st
  obtain ⟨S', f'⟩ := st'
  obtain ⟨a, e⟩ := p
  simp only at a e
  subst e
  unfold rasterizeTri.slopedFillCell
  exact ⟨(((a.sample _ _ _ (by omega)).sample _ _ _ (by omega)).sample _ _ _
    (by omega)).sample _ _ _ (by omega), rfl⟩

theorem slopedFill_agree {w h : Int} {S S' : rcHeightfield} (a : ScratchAgree w h S S')
    {L : rasterizeTri.Locals} (c : L.Consistent w h) (y : Int) (Inter0 Inter1 : Vec3)
    (xInter0 xInter1 : Int) :
    ScratchAgree w h (rasterizeTri.slopedFill L y Inter0 Inter1 xInter0 xInter1 S)
      (rasterizeTri.slopedFill L y Inter0 Inter1 xInter0 xInter1 S') := by
  have hx0 := c.x0_eq
  have hx2 := c.x1_edge_eq
  unfold rasterizeTri.slopedFill
  refine ite_rel (ScratchAgree w h) _ (fun _ => ?_) (fun _ => a)
  exact (forLoop_rel (PairAgree w h) _ _ _ _ (S, _) (S', _) ⟨a, rfl⟩
    (fun i t t' i1 i2 r => slopedFillCell_agree L y _ i
      (by rw [intMax_eq_max] at i1; rw [intMin_eq_min] at i2; omega) t t' r)).1

theorem slopedHorizontal_agree {w h : Int} {L : rasterizeTri.Locals} (c : L.Consistent w h)
    (edges : Nat → Vec3) (y : Int) (h1 : 0 ≤ y) (h2 : y ≤ h) (st st' : rcHeightfield × ℚ)
    (p : PairAgree w h st st') :
    PairAgree w h (rasterizeTri.slopedHorizontal L edges y st)
      (rasterizeTri.slopedHorizontal L edges y st') := by
  obtain ⟨S, cz⟩ := st
  obtain ⟨S', cz'⟩ := st'
  obtain ⟨a, e⟩ := p
  simp only at a e
  subst e
  unfold rasterizeTri.slopedHorizontal
  refine ⟨?_, rfl⟩
  simp only
  rw [← a.edgeHits y h1 h2]
  refine ite_rel (ScratchAgree w h) _ (fun _ => ?_) (fun _ => a)
  have r0 := slopedHit_agree a c edges y cz (S.EdgeHits y).Hits0
  have r1 := slopedHit_agree r0.1 c edges y cz (S.EdgeHits y).Hits1
  have r2 := slopedFill_agree r1.1 c y
    (rasterizeTri.slopedHit L edges y cz (S.EdgeHits y).Hits0 S).2.1
    (rasterizeTri.slopedHit L edges y cz (S.EdgeHits y).Hits1
      (rasterizeTri.slopedHit L edges y cz (S.EdgeHits y).Hits0 S).1).2.1
    (rasterizeTri.slopedHit L edges y cz (S.EdgeHits y).Hits0 S).2.2
    (rasterizeTri.slopedHit L edges y cz (S.EdgeHits y).Hits1
      (rasterizeTri.slopedHit L edges y cz (S.EdgeHits y).Hits0 S).1).2.2
  rw [← r0.2, ← r1.2]
  exact r2.clear_hit y

theorem slopedHorizontals_agree {w h : Int} {S S' : rcHeightfield}
    (a : ScratchAgree w h S S') {L : rasterizeTri.Locals} (c : L.Consistent w h)
    (edges : Nat → Vec3) :
    ScratchAgree w h (rasterizeTri.slopedHorizontals L edges S)
      (rasterizeTri.slopedHorizontals L edges S') := by
  have hy0 := c.y0_eq
  have hy1 := c.y1_edge_eq
  unfold rasterizeTri.slopedHorizontals
  exact (forLoop_rel (PairAgree w h) _ _ _ _ (S, _) (S', _) ⟨a, rfl⟩
    (fun i t t' i1 i2 r => slopedHorizontal_agree c edges i
      (by rw [intMax_eq_max] at i1; omega) (by rw [intMin_eq_min] at i2; omega) t t' r)).1

theorem slopedDiscovery_agree {w h : Int} {S S' : rcHeightfield} (a : ScratchAgree w h S S')
    {L : rasterizeTri.Locals} (c : L.Consistent w h) :
    ScratchAgree w h (rasterizeTri.slopedDiscovery L S) (rasterizeTri.slopedDiscovery L S') := by
  unfold rasterizeTri.slopedDiscovery
  simp only [List.foldl]
  have p0 : PairAgree w h (S, fun _ : Nat => (⟨0, 0, 0⟩ : Vec3))
      (S', fun _ : Nat => (⟨0, 0, 0⟩ : Vec3)) := ⟨a, rfl⟩
  have p3 := slopedBaseVert_agree c 2 _ _
    (slopedBaseVert_agree c 1 _ _ (slopedBaseVert_agree c 0 _ _ p0))
  rw [← p3.2]
  exact slopedHorizontals_agree p3.1 c _

/-! ### The emission loops and their log -/

theorem addSpan_logged_agree {w h : Int} (st st' : rcHeightfield × List Insertion)
    (p : PairAgree w h st st') (x y : Int) (smin smin' smax area : Nat) (thr : Int)
    (e : smin = smin') :
    PairAgree w h (addSpan.logged st x y smin smax area thr)
      (addSpan.logged st' x y smin' smax area thr) := by
  subst e
  unfold addSpan.logged
  exact ⟨p.1.add_span x y smin smax area thr, by rw [p.2]⟩

theorem flatEmitRow_agree {w h : Int} (L : rasterizeTri.Locals) (area : Nat) (thr : Int)
    (smin smin' smax : Int → Nat) (e : smin = smin') (y : Int) (h1 : 0 ≤ y) (h2 : y < h)
    (st st' : rcHeightfield × List Insertion) (p : PairAgree w h st st') :
    PairAgree w h (rasterizeTri.flatEmitRow.logged L area thr smin smax y st)
      (rasterizeTri.flatEmitRow.logged L area thr smin' smax y st') := by
  subst e
  obtain ⟨S, l⟩ := st
  obtain ⟨S', l'⟩ := st'
  obtain ⟨a, e⟩ := p
  simp only at a e
  subst e
  unfold rasterizeTri.flatEmitRow.logged
  simp only
  rw [← a.rowExt (y + 1) (by omega) (by omega)]
  have q := forLoop_rel (PairAgree w h) (intMax (S.RowExt (y + 1)).MinCol L.x0)
    (intMin (S.RowExt (y + 1)).MaxCol L.x1)
    (fun x st => addSpan.logged st x y (smin x) (smax x) area thr)
    (fun x st => addSpan.logged st x y (smin x) (smax x) area thr) (S, l) (S', l) ⟨a, rfl⟩
    (fun i t t' _ _ r => addSpan_logged_agree t t' r i y _ _ _ area thr rfl)
  exact ⟨q.1.reset_row (y + 1), q.2⟩

theorem flatEmit_agree {w h : Int} {L : rasterizeTri.Locals} (c : L.Consistent w h)
    (area : Nat) (thr flags : Int) (masks : Option (Int → Int)) (ismin ismax : Int)
    (st st' : rcHeightfield × List Insertion) (p : PairAgree w h st st') :
    PairAgree w h (rasterizeTri.flatEmit.logged L area thr flags masks ismin ismax st)
      (rasterizeTri.flatEmit.logged L area thr flags masks ismin ismax st') := by
  have hy0 := c.y0_eq
  have hy1 := c.y1_eq
  unfold rasterizeTri.flatEmit.logged
  cases masks with
  | none =>
    exact forLoop_rel (PairAgree w h) _ _ _ _ st st' p
      (fun i t t' i1 i2 r => flatEmitRow_agree L area thr _ _ _ rfl i (by omega) (by omega)
        t t' r)
  | some m =>
    simp only
    rw [p.1.width_left, p.1.width_right]
    exact forLoop_rel (PairAgree w h) _ _ _ _ st st' p
      (fun i t t' i1 i2 r => flatEmitRow_agree L area thr _ _ _ rfl i (by omega) (by omega)
        t t' r)

theorem slopedEmitCell_agree {w h : Int} (area : Nat) (thr flags : Int)
    (masks : Option (Int → Int)) (y x : Int) (hx : 0 ≤ x ∧ x < w) (hy : 0 ≤ y ∧ y < h)
    (st st' : rcHeightfield × List Insertion) (p : PairAgree w h st st') :
    PairAgree w h (rasterizeTri.slopedEmitCell.logged area thr flags masks y x st)
      (rasterizeTri.slopedEmitCell.logged area thr flags masks y x st') := by
  obtain ⟨S, l⟩ := st
  obtain ⟨S', l'⟩ := st'
  obtain ⟨a, e⟩ := p
  simp only at a e
  subst e
  have eT : S'.tempspans (SampleIndex S' x y) = S.tempspans (SampleIndex S x y) := by
    simp only [SampleIndex, a.width_left, a.width_right]
    exact (a.tempspans x y hx.1 hx.2 hy.1 hy.2).symm
  have r : PairAgree w h
      ({ S with
          tempspans := Function.update S.tempspans (SampleIndex S x y) ⟨32000, -32000⟩ }, l)
      ({ S' with
          tempspans := Function.update S'.tempspans (SampleIndex S' x y) ⟨32000, -32000⟩ },
        l) := ⟨a.reset_sample x y, rfl⟩
  unfold rasterizeTri.slopedEmitCell.logged
  simp only
  rw [eT]
  refine ite_rel (PairAgree w h) _ (fun _ => r) (fun _ => ?_)
  refine addSpan_logged_agree _ _ r x y _ _ _ area thr ?_
  cases masks with
  | none => rfl
  | some m =>
    simp only
    rw [a.width_left, a.width_right]

theorem slopedEmitRow_agree {w h : Int} {L : rasterizeTri.Locals} (c : L.Consistent w h)
    (area : Nat) (thr flags : Int) (masks : Option (Int → Int)) (y : Int) (h1 : 0 ≤ y)
    (h2 : y < h) (st st' : rcHeightfield × List Insertion) (p : PairAgree w h st st') :
    PairAgree w h (rasterizeTri.slopedEmitRow.logged L area thr flags masks y st)
      (rasterizeTri.slopedEmitRow.logged L area thr flags masks y st') := by
  obtain ⟨S, l⟩ := st
  obtain ⟨S', l'⟩ := st'
  obtain ⟨a, e⟩ := p
  simp only at a e
  subst e
  have hx0 := c.x0_eq
  have hx1 := c.x1_eq
  unfold rasterizeTri.slopedEmitRow.logged
  simp only
  rw [← a.rowExt (y + 1) (by omega) (by omega)]
  have q := forLoop_rel (PairAgree w h) (intMax (S.RowExt (y + 1)).MinCol L.x0)
    (intMin (S.RowExt (y + 1)).MaxCol L.x1)
    (rasterizeTri.slopedEmitCell.logged area thr flags masks y)
    (rasterizeTri.slopedEmitCell.logged area thr flags masks y) (S, l) (S', l) ⟨a, rfl⟩
    (fun i t t' i1 i2 r => slopedEmitCell_agree area thr flags masks y i
      (by rw [intMax_eq_max] at i1; rw [intMin_eq_min] at i2; omega) ⟨h1, h2⟩ t t' r)
  exact ⟨q.1.reset_row (y + 1), q.2⟩

theorem flat_logged_agree {w h : Int} {S S' : rcHeightfield} (a : ScratchAgree w h S S')
    {L : rasterizeTri.Locals} (c : L.Consistent w h) (area : Nat) (thr flags : Int)
    (masks : Option (Int → Int)) (ismin ismax : Int) :
    PairAgree w h (rasterizeTri.flat.logged L area thr flags masks ismin ismax S)
      (rasterizeTri.flat.logged L area thr flags masks ismin ismax S') :=
  flatEmit_agree c area thr flags masks ismin ismax _ _ ⟨flatDiscovery_agree a c, rfl⟩

theorem sloped_logged_agree {w h : Int} {S S' : rcHeightfield} (a : ScratchAgree w h S S')
    {L : rasterizeTri.Locals} (c : L.Consistent w h) (area : Nat) (thr flags : Int)
    (masks : Option (Int → Int)) :
    PairAgree w h (rasterizeTri.sloped.logged L area thr flags masks S)
      (rasterizeTri.sloped.logged L area thr flags masks S') := by
  have hy0 := c.y0_eq
  have hy1 := c.y1_eq
  exact forLoop_rel (PairAgree w h) _ _ _ _ (rasterizeTri.slopedDiscovery L S, [])
    (rasterizeTri.slopedDiscovery L S', []) ⟨slopedDiscovery_agree a c, rfl⟩
    (fun i t t' i1 i2 r => slopedEmitRow_agree c area thr flags masks i (by omega) (by omega)
      t t' r)

/-! ## Theorems: the log of rasterizeTri does not depend on the scratch buffers -/

theorem flatEmitRow_erase (L : rasterizeTri.Locals) (area : Nat) (thr : Int)
    (smin smax : Int → Nat) (y : Int) (st : rcHeightfield × List Insertion) :
    (rasterizeTri.flatEmitRow.logged L area thr smin smax y st).1 =
      rasterizeTri.flatEmitRow L area thr smin smax y st.1 := by
  unfold rasterizeTri.flatEmitRow.logged rasterizeTri.flatEmitRow
  have q := forLoop_rel (fun (t : rcHeightfield × List Insertion) (u : rcHeightfield) => t.1 = u)
    (intMax (st.1.RowExt (y + 1)).MinCol L.x0) (intMin (st.1.RowExt (y + 1)).MaxCol L.x1)
    (fun x st => addSpan.logged st x y (smin x) (smax x) area thr)
    (fun x hf => addSpan hf x y (smin x) (smax x) area thr) st st.1 rfl
    (fun i t u _ _ r => by
      subst r
      rfl)
  simp only at q
  simp only [q]

theorem flatEmit_erase (L : rasterizeTri.Locals) (area : Nat) (thr flags : Int)
    (masks : Option (Int → Int)) (ismin ismax : Int) (st : rcHeightfield × List Insertion) :
    (rasterizeTri.flatEmit.logged L area thr flags masks ismin ismax st).1 =
      rasterizeTri.flatEmit L area thr flags masks ismin ismax st.1 := by
  unfold rasterizeTri.flatEmit.logged rasterizeTri.flatEmit
  cases masks with
  | none =>
    exact forLoop_rel
      (fun (t : rcHeightfield × List Insertion) (u : rcHeightfield) => t.1 = u) _ _ _ _ st st.1
      rfl (fun i t u _ _ r => by
        subst r
        exact flatEmitRow_erase _ _ _ _ _ _ _)
  | some m =>
    exact forLoop_rel
      (fun (t : rcHeightfield × List Insertion) (u : rcHeightfield) => t.1 = u) _ _ _ _ st st.1
      rfl (fun i t u _ _ r => by
        subst r
        exact flatEmitRow_erase _ _ _ _ _ _ _)

theorem slopedEmitCell_erase (area : Nat) (thr flags : Int) (masks : Option (Int → Int))
    (y x : Int) (st : rcHeightfield × List Insertion) :
    (rasterizeTri.slopedEmitCell.logged area thr flags masks y x st).1 =
      rasterizeTri.slopedEmitCell area thr flags masks y x st.1 := by
  unfold rasterizeTri.slopedEmitCell.logged rasterizeTri.slopedEmitCell
  simp only
  split
  · rfl
  · rfl

theorem slopedEmitRow_erase (L : rasterizeTri.Locals) (area : Nat) (thr flags : Int)
    (masks : Option (Int → Int)) (y : Int) (st : rcHeightfield × List Insertion) :
    (rasterizeTri.slopedEmitRow.logged L area thr flags masks y st).1 =
      rasterizeTri.slopedEmitRow L area thr flags masks y st.1 := by
  unfold rasterizeTri.slopedEmitRow.logged rasterizeTri.slopedEmitRow
  have q := forLoop_rel (fun (t : rcHeightfield × List Insertion) (u : rcHeightfield) => t.1 = u)
    (intMax (st.1.RowExt (y + 1)).MinCol L.x0) (intMin (st.1.RowExt (y + 1)).MaxCol L.x1)
    (rasterizeTri.slopedEmitCell.logged area thr flags masks y)
    (rasterizeTri.slopedEmitCell area thr flags masks y) st st.1 rfl
    (fun i t u _ _ r => by
      subst r
      exact slopedEmitCell_erase _ _ _ _ _ _ _)
  simp only at q
  simp only [q]

/-- The logged function is `rasterizeTri` with a log: its heightfield is the one
that `rasterizeTri` returns. -/
theorem rasterizeTri_logged_erase (v0 v1 v2 : Vec3) (area : Nat) (hf : rcHeightfield)
    (bmin bmax : Vec3) (cs ics ich : ℚ) (thr flags : Int) (masks : Option (Int → Int)) :
    (rasterizeTri.logged v0 v1 v2 area hf bmin bmax cs ics ich thr flags masks).1 =
      rasterizeTri v0 v1 v2 area hf bmin bmax cs ics ich thr flags masks := by
  unfold rasterizeTri.logged rasterizeTri
  simp only
  split
  · rfl
  · split
    · rfl
    · split
      · rfl
      · split
        · rfl
        · split
          · unfold rasterizeTri.flat.logged rasterizeTri.flat
            exact flatEmit_erase _ _ _ _ _ _ _ _
          · unfold rasterizeTri.sloped.logged rasterizeTri.sloped
            exact forLoop_rel
              (fun (t : rcHeightfield × List Insertion) (u : rcHeightfield) => t.1 = u)
              _ _ _ _ _ _ rfl (fun i t u _ _ r => by
                subst r
                exact slopedEmitRow_erase _ _ _ _ _ _ _)

/-- The log of `rasterizeTri` is the same on two heightfields of the same
dimensions whose scratch buffers agree. -/
theorem rasterizeTri_logged_agree (v0 v1 v2 : Vec3) (area : Nat) (hf hf' : rcHeightfield)
    (bmin bmax : Vec3) (cs ics ich : ℚ) (thr flags : Int) (masks : Option (Int → Int))
    (a : ScratchAgree hf.width hf.height hf hf') :
    (rasterizeTri.logged v0 v1 v2 area hf bmin bmax cs ics ich thr flags masks).2 =
      (rasterizeTri.logged v0 v1 v2 area hf' bmin bmax cs ics ich thr flags masks).2 := by
  have hw : hf'.width = hf.width := a.width_right
  have hh : hf'.height = hf.height := a.height_right
  have hL : rasterizeTri.locals v0 v1 v2 hf' bmin cs ics ich =
      rasterizeTri.locals v0 v1 v2 hf bmin cs ics ich := by
    simp only [rasterizeTri.locals, hw, hh]
  have c := locals_consistent v0 v1 v2 hf bmin cs ics ich
  have hsingle : ∀ (by_ smin smax : ℚ) (x0 y0 : Int),
      (rasterizeTri.singleCell.logged area hf ich thr flags masks by_ smin smax x0 y0).2 =
        (rasterizeTri.singleCell.logged area hf' ich thr flags masks by_ smin smax x0 y0).2 := by
    intro by_ smin smax x0 y0
    simp only [rasterizeTri.singleCell.logged, addSpan.logged, hw]
  unfold rasterizeTri.logged
  simp only [hw, hh, hL]
  refine ite_rel (fun p p' : rcHeightfield × List Insertion => p.2 = p'.2) _ (fun _ => rfl)
    (fun _ => ?_)
  refine ite_rel (fun p p' : rcHeightfield × List Insertion => p.2 = p'.2) _ (fun _ => rfl)
    (fun _ => ?_)
  refine ite_rel (fun p p' : rcHeightfield × List Insertion => p.2 = p'.2) _ (fun _ => rfl)
    (fun _ => ?_)
  refine ite_rel (fun p p' : rcHeightfield × List Insertion => p.2 = p'.2) _
    (fun _ => hsingle _ _ _ _ _) (fun _ => ?_)
  exact ite_rel (fun p p' : rcHeightfield × List Insertion => p.2 = p'.2) _
    (fun _ => (flat_logged_agree a c area thr flags masks _ _).2)
    (fun _ => (sloped_logged_agree a c area thr flags masks).2)

/-- Every grid reached from a fresh grid by calls of `rasterizeTri` has the
dimensions of the fresh grid and clean scratch buffers. -/
theorem Rasterized.clean {width height : Int} {bmin bmax : Vec3} {cs ch : ℚ}
    {hf : rcHeightfield} (r : Rasterized width height bmin bmax cs ch hf) :
    hf.width = width ∧ hf.height = height ∧ scratchClean hf := by
  induction r with
  | fresh => exact ⟨rfl, rfl, rcCreateHeightfield_scratchClean width height bmin bmax cs ch⟩
  | tri hf v0 v1 v2 area bmin' bmax' cs' ics ich thr flags masks _ ih =>
    obtain ⟨hw, hh, hc⟩ := rasterizeTri_scratchClean v0 v1 v2 area hf bmin' bmax' cs' ics ich
      thr flags masks ih.2.2
    exact ⟨hw.trans ih.1, hh.trans ih.2.1, hc⟩

theorem scratchClean.agree {hf hf' : rcHeightfield} (c : scratchClean hf)
    (c' : scratchClean hf') (hw : hf'.width = hf.width) (hh : hf'.height = hf.height) :
    ScratchAgree hf.width hf.height hf hf' := by
  refine ⟨rfl, hw, rfl, hh, fun y h1 h2 => ?_, fun i h1 h2 => ?_, fun x y h1 h2 h3 h4 => ?_⟩
  · rw [c.edgeHits y h1 h2, c'.edgeHits y h1 (by omega)]
  · rw [c.rowExt i h1 h2, c'.rowExt i h1 (by omega), hw]
  · have e1 := c.tempspans x y h1 h2 h3 h4
    have e2 := c'.tempspans x y h1 (by omega) h3 (by omega)
    simp only [SampleIndex, hw] at e1 e2
    rw [e1, e2]

/-- The insertions with exact arithmetic (the first embedding; in single
precision the statement fails, see the last sections of this file).
Let the grid `hf` be reached from a freshly created grid of `width` by
`height` cells by any sequence of `rasterizeTri` calls. Then for every triangle
and all parameters the sequence of span insertions `(x, y, smin, smax, area,
flagMergeThr)` that `rasterizeTri` performs on `hf` is the sequence that it
performs on a freshly created grid of the same dimensions; the logged function
is `rasterizeTri` itself with a log (its heightfield is the one `rasterizeTri`
returns). -/
theorem rasterizeTri_insertions_independent_exact (width height : Int) (bmin0 bmax0 : Vec3)
    (cs0 ch0 : ℚ) (hf : rcHeightfield) (r : Rasterized width height bmin0 bmax0 cs0 ch0 hf)
    (v0 v1 v2 : Vec3) (area : Nat) (bmin bmax : Vec3) (cs ics ich : ℚ)
    (flagMergeThr rasterizationFlags : Int) (rasterizationMasks : Option (Int → Int)) :
    (rasterizeTri.logged v0 v1 v2 area hf bmin bmax cs ics ich flagMergeThr rasterizationFlags
        rasterizationMasks).2 =
      (rasterizeTri.logged v0 v1 v2 area (rcCreateHeightfield width height bmin0 bmax0 cs0 ch0)
        bmin bmax cs ics ich flagMergeThr rasterizationFlags rasterizationMasks).2 ∧
    (rasterizeTri.logged v0 v1 v2 area hf bmin bmax cs ics ich flagMergeThr rasterizationFlags
        rasterizationMasks).1 =
      rasterizeTri v0 v1 v2 area hf bmin bmax cs ics ich flagMergeThr rasterizationFlags
        rasterizationMasks := by
  obtain ⟨hw, hh, hc⟩ := r.clean
  exact ⟨rasterizeTri_logged_agree v0 v1 v2 area hf _ bmin bmax cs ics ich flagMergeThr
    rasterizationFlags rasterizationMasks
    (hc.agree (rcCreateHeightfield_scratchClean width height bmin0 bmax0 cs0 ch0) hw.symm
      hh.symm),
    rasterizeTri_logged_erase v0 v1 v2 area hf bmin bmax cs ics ich flagMergeThr
      rasterizationFlags rasterizationMasks⟩

theorem rasterizeTri_insertions_independent_exact_witness :
    (rasterizeTri.logged ⟨1 / 2, 0, 1 / 2⟩ ⟨3 / 2, 1, 1 / 2⟩ ⟨1 / 2, 2, 3 / 2⟩ 63
        (rasterizeTri ⟨1 / 2, 0, 1 / 2⟩ ⟨3 / 2, 0, 1 / 2⟩ ⟨1 / 2, 3, 3 / 2⟩ 63
          (rcCreateHeightfield 2 2 ⟨0, 0, 0⟩ ⟨2, 4, 2⟩ 1 1) ⟨0, 0, 0⟩ ⟨2, 4, 2⟩ 1 1 1 4 0 none)
        ⟨0, 0, 0⟩ ⟨2, 4, 2⟩ 1 1 1 4 0 none).2 =
      (rasterizeTri.logged ⟨1 / 2, 0, 1 / 2⟩ ⟨3 / 2, 1, 1 / 2⟩ ⟨1 / 2, 2, 3 / 2⟩ 63
        (rcCreateHeightfield 2 2 ⟨0, 0, 0⟩ ⟨2, 4, 2⟩ 1 1)
        ⟨0, 0, 0⟩ ⟨2, 4, 2⟩ 1 1 1 4 0 none).2 ∧
    (rasterizeTri.logged ⟨1 / 2, 0, 1 / 2⟩ ⟨3 / 2, 1, 1 / 2⟩ ⟨1 / 2, 2, 3 / 2⟩ 63
        (rcCreateHeightfield 2 2 ⟨0, 0, 0⟩ ⟨2, 4, 2⟩ 1 1)
        ⟨0, 0, 0⟩ ⟨2, 4, 2⟩ 1 1 1 4 0 none).2.map
        (fun o => (o.x, o.y, o.smin, o.smax, o.area)) =
      [(0, 0, 0, 1, 63), (1, 0, 0, 1, 63), (0, 1, 1, 2, 63), (1, 1, 1, 2, 63)] :=
  ⟨(rasterizeTri_insertions_independent_exact 2 2 ⟨0, 0, 0⟩ ⟨2, 4, 2⟩ 1 1 _
    (Rasterized.tri _ ⟨1 / 2, 0, 1 / 2⟩ ⟨3 / 2, 0, 1 / 2⟩ ⟨1 / 2, 3, 3 / 2⟩ 63 ⟨0, 0, 0⟩
      ⟨2, 4, 2⟩ 1 1 1 4 0 none Rasterized.fresh)
    ⟨1 / 2, 0, 1 / 2⟩ ⟨3 / 2, 1, 1 / 2⟩ ⟨1 / 2, 2, 3 / 2⟩ 63 ⟨0, 0, 0⟩ ⟨2, 4, 2⟩ 1 1 1 4 0
    none).1, by decide!⟩

/-! ## Theorems: every scratch access of rasterizeTri is in bounds -/

/-- A loop whose checked body succeeds wherever the invariant holds succeeds,
with the result of the unchecked loop. -/
theorem forLoopM_some {σ : Type} (P : Int → σ → Prop) (lo hi : Int)
    (bodyM : Int → σ → Option σ) (body : Int → σ → σ) (s : σ) (h0 : P lo s)
    (hstep : ∀ i t, lo ≤ i → i ≤ hi → P i t → bodyM i t = some (body i t) ∧ P (i + 1) (body i t)) :
    forLoopM lo hi bodyM s = some (forLoop lo hi body s) ∧
      P (max lo (hi + 1)) (forLoop lo hi body s) := by
  have key : ∀ n : Nat, (n : Int) ≤ hi + 1 - lo ∨ n = 0 →
      (List.range n).foldl (fun acc (k : Nat) => acc.bind (bodyM (lo + (k : Int)))) (some s) =
        some ((List.range n).foldl (fun acc (k : Nat) => body (lo + (k : Int)) acc) s) ∧
      P (lo + (n : Int))
        ((List.range n).foldl (fun acc (k : Nat) => body (lo + (k : Int)) acc) s) := by
    intro n
    induction n with
    | zero => intro _; exact ⟨rfl, by simpa using h0⟩
    | succ n ih =>
      intro hn
      have hn' : ((n + 1 : Nat) : Int) ≤ hi + 1 - lo := by
        rcases hn with h | h
        · exact h
        · omega
      obtain ⟨e, p⟩ := ih (Or.inl (by omega))
      obtain ⟨e', p'⟩ := hstep (lo + (n : Int)) _ (by omega) (by omega) p
      rw [List.range_succ, List.foldl_append, List.foldl_append, e]
      have e2 : lo + ((n + 1 : Nat) : Int) = lo + (n : Int) + 1 := by omega
      rw [e2]
      exact ⟨e', p'⟩
  have := key (hi + 1 - lo).toNat (by omega)
  have e : lo + ((hi + 1 - lo).toNat : Int) = max lo (hi + 1) := by omega
  rw [e] at this
  exact this

/-- The same with an invariant that does not mention the index. -/
theorem forLoopM_inv {σ : Type} (P : σ → Prop) (lo hi : Int)
    (bodyM : Int → σ → Option σ) (body : Int → σ → σ) (s : σ) (h0 : P s)
    (hstep : ∀ i t, lo ≤ i → i ≤ hi → P t → bodyM i t = some (body i t) ∧ P (body i t)) :
    forLoopM lo hi bodyM s = some (forLoop lo hi body s) ∧ P (forLoop lo hi body s) :=
  forLoopM_some (fun _ t => P t) lo hi bodyM body s h0 hstep

theorem ite_checked {α : Type} (g : Prop) [Decidable g] (a : Option α) (b a' : α)
    (P : α → Prop) (h1 : g → a = some a' ∧ P a') (h2 : ¬ g → P b) :
    (if g then a else some b) = some (if g then a' else b) ∧ P (if g then a' else b) := by
  by_cases hg : g
  · rw [if_pos hg, if_pos hg]; exact h1 hg
  · rw [if_neg hg, if_neg hg]; exact ⟨rfl, h2 hg⟩

theorem addFlatSpanSample_checked {w h : Int} {S : rcHeightfield} (d : Dims w h S)
    (x y : Int) (hy : -1 ≤ y ∧ y ≤ h) :
    addFlatSpanSample.checked S x y = some (addFlatSpanSample S x y) ∧
      Dims w h (addFlatSpanSample S x y) := by
  unfold addFlatSpanSample.checked
  rw [if_pos (by rw [d.2]; omega)]
  exact ⟨rfl, d⟩

theorem sampleIndex_range (w h x y : Int) (hx : -1 ≤ x ∧ x ≤ w) (hy : -1 ≤ y ∧ y ≤ h) :
    0 ≤ x + 1 + (y + 1) * (w + 2) ∧ x + 1 + (y + 1) * (w + 2) < (w + 2) * (h + 2) := by
  have h1 : 0 ≤ (y + 1) * (w + 2) := Int.mul_nonneg (by omega) (by omega)
  have h2 : (y + 1) * (w + 2) ≤ (h + 1) * (w + 2) :=
    Int.mul_le_mul_of_nonneg_right (by omega) (by omega)
  have h3 : (w + 2) * (h + 2) = (h + 1) * (w + 2) + (w + 2) := by ring
  constructor <;> omega

theorem addSpanSample_checked {w h : Int} {S : rcHeightfield} (d : Dims w h S)
    (x y s : Int) (hx : -1 ≤ x ∧ x ≤ w) (hy : -1 ≤ y ∧ y ≤ h) :
    addSpanSample.checked S x y s = some (addSpanSample S x y s) ∧
      Dims w h (addSpanSample S x y s) := by
  obtain ⟨e1, d1⟩ := addFlatSpanSample_checked d x y hy
  have r := sampleIndex_range w h x y hx hy
  unfold addSpanSample.checked
  rw [e1, Option.some_bind]
  unfold SampleIndex.checked
  rw [if_pos (by rw [d1.1, d1.2]; omega), Option.some_bind,
    if_pos (by simp only [SampleIndex, d1.1, d1.2]; exact r)]
  exact ⟨rfl, d1⟩

theorem recordHit_checked {w h : Int} {S : rcHeightfield} (d : Dims w h S) (bits : Nat)
    (y : Int) (hy : 0 ≤ y ∧ y ≤ h) :
    rasterizeTri.recordHit.checked bits y S = some (rasterizeTri.recordHit bits y S) ∧
      Dims w h (rasterizeTri.recordHit bits y S) := by
  unfold rasterizeTri.recordHit.checked
  rw [if_pos (by rw [d.2]; omega)]
  exact ⟨rfl, d⟩

theorem recordEdge_checked {w h : Int} {S : rcHeightfield} (d : Dims w h S)
    {L : rasterizeTri.Locals} (c : L.Consistent w h) (b : Nat) :
    rasterizeTri.recordEdge.checked L b S = some (rasterizeTri.recordEdge L b S) ∧
      Dims w h (rasterizeTri.recordEdge L b S) := by
  have hy0 := c.y0_eq
  have hy1 := c.y1_edge_eq
  unfold rasterizeTri.recordEdge.checked rasterizeTri.recordEdge
  exact ite_checked _ _ _ _ (Dims w h)
    (fun _ => forLoopM_inv (Dims w h) _ _ _ _ S d
      (fun i t i1 i2 dt => recordHit_checked dt _ i
        (by rw [intMax_eq_max] at i1; rw [intMin_eq_min] at i2; omega)))
    (fun _ => d)

theorem ite_map_checked {α β : Type} (g : Prop) [Decidable g] (a : Option α) (b a' : α)
    (f : α → β) (P : α → Prop) (h1 : g → a = some a' ∧ P a') (h2 : ¬ g → P b) :
    (if g then a else some b).map f = some (f (if g then a' else b)) ∧
      P (if g then a' else b) := by
  obtain ⟨e, p⟩ := ite_checked g a b a' P h1 h2
  rw [e]
  exact ⟨rfl, p⟩

theorem bind_checked {α β : Type} {a : Option α} {a' : α} {f : α → Option β} {b' : β}
    (P : α → Prop) (Q : β → Prop) (h1 : a = some a' ∧ P a') (h2 : P a' → f a' = some b' ∧ Q b') :
    a.bind f = some b' ∧ Q b' := by
  rw [h1.1, Option.some_bind]
  exact h2 h1.2

/-! ### Flat path -/

theorem flatVertical_checked {w h : Int} {L : rasterizeTri.Locals} (c : L.Consistent w h)
    (b edge : Nat) (edges : Nat → Vec3) (x : Int) (st : rcHeightfield × ℚ)
    (d : Dims w h st.1) :
    rasterizeTri.flatVertical.checked L b edge edges x st =
        some (rasterizeTri.flatVertical L b edge edges x st) ∧
      Dims w h (rasterizeTri.flatVertical L b edge edges x st).1 := by
  have hy0 := c.y0_eq
  have hy1 := c.y1_eq
  unfold rasterizeTri.flatVertical.checked rasterizeTri.flatVertical
  exact ite_map_checked _ _ _ _ _ (Dims w h)
    (fun g => bind_checked (Dims w h) (Dims w h)
      (addFlatSpanSample_checked d _ _ (by omega))
      (fun d1 => addFlatSpanSample_checked d1 _ _ (by omega)))
    (fun _ => d)

theorem flatVertical_loop_checked {w h : Int} {L : rasterizeTri.Locals}
    (c : L.Consistent w h) (b edge : Nat) (edges : Nat → Vec3) (lo hi : Int)
    (T : rcHeightfield) (cx : ℚ) (d : Dims w h T) :
    (forLoopM lo hi (rasterizeTri.flatVertical.checked L b edge edges) (T, cx)).map Prod.fst =
        some (forLoop lo hi (rasterizeTri.flatVertical L b edge edges) (T, cx)).1 ∧
      Dims w h (forLoop lo hi (rasterizeTri.flatVertical L b edge edges) (T, cx)).1 := by
  obtain ⟨e, p⟩ := forLoopM_inv (fun t : rcHeightfield × ℚ => Dims w h t.1) lo hi
    (rasterizeTri.flatVertical.checked L b edge edges)
    (rasterizeTri.flatVertical L b edge edges) (T, cx) d
    (fun i t _ _ dt => flatVertical_checked c b edge edges i t dt)
  rw [e]
  exact ⟨rfl, p⟩

theorem flatBaseVert_checked {w h : Int} {L : rasterizeTri.Locals} (c : L.Consistent w h)
    (b : Nat) (st : rcHeightfield × (Nat → Vec3)) (d : Dims w h st.1) :
    rasterizeTri.flatBaseVert.checked L b st = some (rasterizeTri.flatBaseVert L b st) ∧
      Dims w h (rasterizeTri.flatBaseVert L b st).1 := by
  have hy0 := c.y0_eq
  have hy1 := c.y1_eq
  have s1 := ite_checked
    ((L.intverts b).1 ≥ L.x0 ∧ (L.intverts b).1 ≤ L.x1 ∧ (L.intverts b).2 ≥ L.y0 ∧
      (L.intverts b).2 ≤ L.y1)
    (addFlatSpanSample.checked st.1 (L.intverts b).1 (L.intverts b).2) st.1
    (addFlatSpanSample st.1 (L.intverts b).1 (L.intverts b).2) (Dims w h)
    (fun g => addFlatSpanSample_checked d _ _ (by omega)) (fun _ => d)
  have s2 := bind_checked (Dims w h) (Dims w h) s1 (fun d1 => recordEdge_checked d1 c b)
  unfold rasterizeTri.flatBaseVert.checked rasterizeTri.flatBaseVert
  simp only
  rw [s2.1, Option.some_bind]
  obtain ⟨e3, d3⟩ := ite_checked ((L.intverts b).1 ≠ (L.intverts (if b = 2 then 0 else b + 1)).1)
    _ _ _ (Dims w h)
    (fun _ => flatVertical_loop_checked c b (if b = 0 then 2 else b - 1)
      (rasterizeTri.setEdge L b st.2) _ _ _ _ s2.2)
    (fun _ => s2.2)
  rw [e3]
  exact ⟨rfl, d3⟩

theorem flatHit_checked {w h : Int} {L : rasterizeTri.Locals} (edges : Nat → Vec3) (y : Int)
    (hy : 0 ≤ y ∧ y ≤ h) (cz : ℚ) (hit : Nat) (S : rcHeightfield) (d : Dims w h S) :
    rasterizeTri.flatHit.checked L edges y cz hit S =
        some (rasterizeTri.flatHit L edges y cz hit S) ∧
      Dims w h (rasterizeTri.flatHit L edges y cz hit S).1 := by
  unfold rasterizeTri.flatHit.checked rasterizeTri.flatHit
  exact ite_map_checked _ _ _ _ _ (Dims w h)
    (fun g => bind_checked (Dims w h) (Dims w h)
      (addFlatSpanSample_checked d _ _ (by omega))
      (fun d1 => addFlatSpanSample_checked d1 _ _ (by omega)))
    (fun _ => d)

theorem flatFill_checked {w h : Int} {L : rasterizeTri.Locals} (y : Int)
    (hy : 0 ≤ y ∧ y ≤ h) (Inter0 Inter1 : Vec3) (xInter0 xInter1 : Int) (S : rcHeightfield)
    (d : Dims w h S) :
    rasterizeTri.flatFill.checked L y Inter0 Inter1 xInter0 xInter1 S =
        some (rasterizeTri.flatFill L y Inter0 Inter1 xInter0 xInter1 S) ∧
      Dims w h (rasterizeTri.flatFill L y Inter0 Inter1 xInter0 xInter1 S) := by
  unfold rasterizeTri.flatFill.checked rasterizeTri.flatFill
  refine ite_checked _ _ _ _ (Dims w h) (fun _ => ?_) (fun _ => d)
  refine ite_checked _ _ _ _ (Dims w h) (fun _ => ?_) (fun _ => d)
  refine bind_checked (Dims w h) (Dims w h) (addFlatSpanSample_checked d _ _ (by omega))
    (fun d1 => ?_)
  refine bind_checked (Dims w h) (Dims w h) (addFlatSpanSample_checked d1 _ _ (by omega))
    (fun d2 => ?_)
  refine bind_checked (Dims w h) (Dims w h) (addFlatSpanSample_checked d2 _ _ (by omega))
    (fun d3 => ?_)
  refine bind_checked (Dims w h) (Dims w h) (addFlatSpanSample_checked d3 _ _ (by omega))
    (fun d4 => ?_)
  refine bind_checked (Dims w h) (Dims w h) (addFlatSpanSample_checked d4 _ _ (by omega))
    (fun d5 => ?_)
  refine bind_checked (Dims w h) (Dims w h) (addFlatSpanSample_checked d5 _ _ (by omega))
    (fun d6 => ?_)
  refine bind_checked (Dims w h) (Dims w h) (addFlatSpanSample_checked d6 _ _ (by omega))
    (fun d7 => ?_)
  exact addFlatSpanSample_checked d7 _ _ (by omega)

theorem flatHorizontal_checked {w h : Int} {L : rasterizeTri.Locals} (edges : Nat → Vec3)
    (y : Int) (hy : 0 ≤ y ∧ y ≤ h) (st : rcHeightfield × ℚ) (d : Dims w h st.1) :
    rasterizeTri.flatHorizontal.checked L edges y st =
        some (rasterizeTri.flatHorizontal L edges y st) ∧
      Dims w h (rasterizeTri.flatHorizontal L edges y st).1 := by
  unfold rasterizeTri.flatHorizontal.checked rasterizeTri.flatHorizontal
  rw [if_pos (by rw [d.2]; omega)]
  refine ite_map_checked _ _ _ _ _ (Dims w h) (fun _ => ?_) (fun _ => d)
  obtain ⟨e0, d0⟩ := @flatHit_checked w h L edges y hy st.2 (st.1.EdgeHits y).Hits0 st.1 d
  obtain ⟨e1, d1⟩ := @flatHit_checked w h L edges y hy st.2 (st.1.EdgeHits y).Hits1 _ d0
  obtain ⟨e2, d2⟩ := @flatFill_checked w h L y hy
    (rasterizeTri.flatHit L edges y st.2 (st.1.EdgeHits y).Hits0 st.1).2.1
    (rasterizeTri.flatHit L edges y st.2 (st.1.EdgeHits y).Hits1
      (rasterizeTri.flatHit L edges y st.2 (st.1.EdgeHits y).Hits0 st.1).1).2.1
    (rasterizeTri.flatHit L edges y st.2 (st.1.EdgeHits y).Hits0 st.1).2.2
    (rasterizeTri.flatHit L edges y st.2 (st.1.EdgeHits y).Hits1
      (rasterizeTri.flatHit L edges y st.2 (st.1.EdgeHits y).Hits0 st.1).1).2.2 _ d1
  rw [e0, Option.some_bind, e1, Option.some_bind, e2]
  exact ⟨rfl, d2⟩

theorem flatHorizontals_checked {w h : Int} {L : rasterizeTri.Locals} (c : L.Consistent w h)
    (edges : Nat → Vec3) (S : rcHeightfield) (d : Dims w h S) :
    rasterizeTri.flatHorizontals.checked L edges S =
        some (rasterizeTri.flatHorizontals L edges S) ∧
      Dims w h (rasterizeTri.flatHorizontals L edges S) := by
  have hy0 := c.y0_eq
  have hy1 := c.y1_edge_eq
  unfold rasterizeTri.flatHorizontals.checked rasterizeTri.flatHorizontals
  obtain ⟨e, p⟩ := forLoopM_inv (fun t : rcHeightfield × ℚ => Dims w h t.1)
    (intMax (intMin (L.intverts 0).2 (intMin (L.intverts 1).2 (L.intverts 2).2) + 1) L.y0)
    (intMin (intMax (L.intverts 0).2 (intMax (L.intverts 1).2 (L.intverts 2).2)) L.y1_edge)
    (rasterizeTri.flatHorizontal.checked L edges) (rasterizeTri.flatHorizontal L edges)
    (S, L.bmin.z + L.cs *
      ((intMax (intMin (L.intverts 0).2 (intMin (L.intverts 1).2 (L.intverts 2).2) + 1)
        L.y0 : Int) : ℚ)) d
    (fun i t i1 i2 dt => flatHorizontal_checked edges i
      (by rw [intMax_eq_max] at i1; rw [intMin_eq_min] at i2; omega) t dt)
  simp only
  rw [e]
  exact ⟨rfl, p⟩

theorem flatEmitRow_dims {w h : Int} (L : rasterizeTri.Locals) (area : Nat) (thr : Int)
    (smin smax : Int → Nat) (y : Int) (S : rcHeightfield) (d : Dims w h S) :
    Dims w h (rasterizeTri.flatEmitRow L area thr smin smax y S) := by
  unfold rasterizeTri.flatEmitRow
  exact forLoop_invariant (Dims w h) _ _ _ S d (fun _ _ _ _ dt => dt)

theorem flatEmitRow_checked {w h : Int} (L : rasterizeTri.Locals) (area : Nat) (thr : Int)
    (smin smax : Int → Nat) (y : Int) (hy : 0 ≤ y ∧ y < h) (S : rcHeightfield)
    (d : Dims w h S) :
    rasterizeTri.flatEmitRow.checked L area thr smin smax y S =
        some (rasterizeTri.flatEmitRow L area thr smin smax y S) ∧
      Dims w h (rasterizeTri.flatEmitRow L area thr smin smax y S) := by
  unfold rasterizeTri.flatEmitRow.checked
  rw [if_pos (by rw [d.2]; omega)]
  exact ⟨rfl, flatEmitRow_dims L area thr smin smax y S d⟩

theorem flatEmit_checked {w h : Int} {L : rasterizeTri.Locals} (c : L.Consistent w h)
    (area : Nat) (thr flags : Int) (masks : Option (Int → Int)) (ismin ismax : Int)
    (S : rcHeightfield) (d : Dims w h S) :
    rasterizeTri.flatEmit.checked L area thr flags masks ismin ismax S =
        some (rasterizeTri.flatEmit L area thr flags masks ismin ismax S) ∧
      Dims w h (rasterizeTri.flatEmit L area thr flags masks ismin ismax S) := by
  have hy0 := c.y0_eq
  have hy1 := c.y1_eq
  unfold rasterizeTri.flatEmit.checked rasterizeTri.flatEmit
  cases masks with
  | none =>
    exact forLoopM_inv (Dims w h) _ _ _ _ S d
      (fun i t i1 i2 dt => flatEmitRow_checked L area thr _ _ i (by omega) t dt)
  | some m =>
    exact forLoopM_inv (Dims w h) _ _ _ _ S d
      (fun i t i1 i2 dt => flatEmitRow_checked L area thr _ _ i (by omega) t dt)

theorem flat_checked {w h : Int} {L : rasterizeTri.Locals} (c : L.Consistent w h)
    (area : Nat) (thr flags : Int) (masks : Option (Int → Int)) (ismin ismax : Int)
    (S : rcHeightfield) (d : Dims w h S) :
    rasterizeTri.flat.checked L area thr flags masks ismin ismax S =
      some (rasterizeTri.flat L area thr flags masks ismin ismax S) := by
  unfold rasterizeTri.flat.checked rasterizeTri.flat
  simp only [List.foldl]
  obtain ⟨e0, d0⟩ := flatBaseVert_checked c 0 (S, fun _ : Nat => (⟨0, 0, 0⟩ : Vec3)) d
  obtain ⟨e1, d1⟩ := flatBaseVert_checked c 1 _ d0
  obtain ⟨e2, d2⟩ := flatBaseVert_checked c 2 _ d1
  obtain ⟨e3, d3⟩ := flatHorizontals_checked c
    (rasterizeTri.flatBaseVert L 2 (rasterizeTri.flatBaseVert L 1
      (rasterizeTri.flatBaseVert L 0 (S, fun _ : Nat => (⟨0, 0, 0⟩ : Vec3))))).2 _ d2
  rw [Option.some_bind, e0, Option.some_bind, e1, Option.some_bind, e2, Option.some_bind, e3,
    Option.some_bind]
  exact (flatEmit_checked c area thr flags masks ismin ismax _ d3).1

/-! ## Theorems: the checked sloped path -/

theorem quantize_mono (ich a b : ℚ) (hich : 0 ≤ ich) (hab : a ≤ b) :
    rasterizeTri.quantize ich a ≤ rasterizeTri.quantize ich b := by
  have hf : ⌊a * ich⌋ ≤ ⌊b * ich⌋ := Int.floor_mono (mul_le_mul_of_nonneg_right hab hich)
  unfold rasterizeTri.quantize rcClamp
  split <;> split <;> (try split) <;> (try split) <;> omega

/-- A point of the edge leaving `b` has its height sample in the asserted
range. -/
theorem rasterizeTri.SampleFacts.edge_point {L : rasterizeTri.Locals} {ismin ismax : Int} {lo hi : ℚ}
    (f : rasterizeTri.SampleFacts L ismin ismax lo hi) (b : Nat) (hb : b < 3) (t : ℚ)
    (h0 : 0 ≤ t) (h1 : t ≤ 1) :
    rasterizeTri.quantize L.ich ((L.vertarray b).y + t * (L.edgeVec b).y - L.bmin.y) ≥
        ismin - 1 ∧
      rasterizeTri.quantize L.ich ((L.vertarray b).y + t * (L.edgeVec b).y - L.bmin.y) ≤
        ismax + 1 := by
  have hl := lerp_between (L.vertarray b).y (L.edgeVec b).y t h0 h1
  have e : (L.vertarray b).y + (L.edgeVec b).y =
      (L.vertarray (if b = 2 then 0 else b + 1)).y := by
    simp only [rasterizeTri.Locals.edgeVec, rcVsub]
    ring
  rw [e] at hl
  have v1 := f.verts b hb
  have v2 := f.verts (if b = 2 then 0 else b + 1) (by split <;> omega)
  apply f.window
  · exact le_trans (le_min v1.1 v2.1) hl.1
  · exact le_trans hl.2 (max_le v1.2 v2.2)

theorem rasterizeTri.SampleFacts.edge_height {L : rasterizeTri.Locals} {ismin ismax : Int} {lo hi : ℚ}
    (f : rasterizeTri.SampleFacts L ismin ismax lo hi) (b : Nat) (hb : b < 3) (t : ℚ)
    (h0 : 0 ≤ t) (h1 : t ≤ 1) :
    lo ≤ (L.vertarray b).y + t * (L.edgeVec b).y ∧
      (L.vertarray b).y + t * (L.edgeVec b).y ≤ hi := by
  have hl := lerp_between (L.vertarray b).y (L.edgeVec b).y t h0 h1
  have e : (L.vertarray b).y + (L.edgeVec b).y =
      (L.vertarray (if b = 2 then 0 else b + 1)).y := by
    simp only [rasterizeTri.Locals.edgeVec, rcVsub]
    ring
  rw [e] at hl
  have v1 := f.verts b hb
  have v2 := f.verts (if b = 2 then 0 else b + 1) (by split <;> omega)
  exact ⟨le_trans (le_min v1.1 v2.1) hl.1, le_trans hl.2 (max_le v1.2 v2.2)⟩

theorem slopedVertical_checked {w h : Int} {L : rasterizeTri.Locals} (c : L.Consistent w h)
    (TEST : Bool) (ismin ismax : Int) (lo hi : ℚ)
    (hT : TEST = true → rasterizeTri.SampleFacts L ismin ismax lo hi)
    (b edge : Nat) (hb : b < 3) (edges : Nat → Vec3)
    (he : edges edge = L.edgeVec b) (x : Int) (hx : 0 ≤ x ∧ x ≤ w)
    (st : rcHeightfield × ℚ) (d : Dims w h st.1) :
    rasterizeTri.slopedVertical.checked TEST ismin ismax L b edge edges x st =
        some (rasterizeTri.slopedVertical L b edge edges x st) ∧
      Dims w h (rasterizeTri.slopedVertical L b edge edges x st).1 := by
  have hy0 := c.y0_eq
  have hy1 := c.y1_eq
  have ha : rasterizeTri.sampleAssert TEST ismin ismax
      (rasterizeTri.quantize L.ich
        ((intersectX (L.vertarray b) (edges edge) (edges (3 + edge)) st.2).y - L.bmin.y)) := by
    intro ht
    obtain ⟨t0, t1⟩ := rcClamp_unit ((st.2 - (L.vertarray b).x) * (edges (3 + edge)).x)
    have := (hT ht).edge_point b hb _ t0 t1
    simp only [intersectX, he]
    exact this
  unfold rasterizeTri.slopedVertical.checked rasterizeTri.slopedVertical
  simp only
  rw [if_pos ha]
  exact ite_map_checked _ _ _ _ _ (Dims w h)
    (fun g => bind_checked (Dims w h) (Dims w h)
      (addSpanSample_checked d _ _ _ (by omega) (by omega))
      (fun d1 => addSpanSample_checked d1 _ _ _ (by omega) (by omega)))
    (fun _ => d)

theorem slopedVertical_loop_checked {w h : Int} {L : rasterizeTri.Locals}
    (c : L.Consistent w h) (TEST : Bool) (ismin ismax : Int) (lo hi : ℚ)
    (hT : TEST = true → rasterizeTri.SampleFacts L ismin ismax lo hi)
    (b edge : Nat) (hb : b < 3) (edges : Nat → Vec3) (he : edges edge = L.edgeVec b)
    (l0 l1 : Int) (h0 : 0 ≤ l0) (h1 : l1 ≤ w) (T : rcHeightfield) (cx : ℚ) (d : Dims w h T) :
    (forLoopM l0 l1 (rasterizeTri.slopedVertical.checked TEST ismin ismax L b edge edges)
        (T, cx)).map Prod.fst =
        some (forLoop l0 l1 (rasterizeTri.slopedVertical L b edge edges) (T, cx)).1 ∧
      Dims w h (forLoop l0 l1 (rasterizeTri.slopedVertical L b edge edges) (T, cx)).1 := by
  obtain ⟨e, p⟩ := forLoopM_inv (fun t : rcHeightfield × ℚ => Dims w h t.1) l0 l1
    (rasterizeTri.slopedVertical.checked TEST ismin ismax L b edge edges)
    (rasterizeTri.slopedVertical L b edge edges) (T, cx) d
    (fun i t i1 i2 dt => slopedVertical_checked c TEST ismin ismax lo hi hT b edge hb edges he
      i (by omega) t dt)
  rw [e]
  exact ⟨rfl, p⟩

theorem slopedBaseVert_checked {w h : Int} {L : rasterizeTri.Locals} (c : L.Consistent w h)
    (TEST : Bool) (ismin ismax : Int) (lo hi : ℚ)
    (hT : TEST = true → rasterizeTri.SampleFacts L ismin ismax lo hi)
    (b : Nat) (hb : b < 3) (st : rcHeightfield × (Nat → Vec3)) (d : Dims w h st.1) :
    rasterizeTri.slopedBaseVert.checked TEST ismin ismax L b st =
        some (rasterizeTri.slopedBaseVert L b st) ∧
      Dims w h (rasterizeTri.slopedBaseVert L b st).1 := by
  have hx0 := c.x0_eq
  have hx1 := c.x1_eq
  have hx2 := c.x1_edge_eq
  have hy0 := c.y0_eq
  have hy1 := c.y1_eq
  have ha : rasterizeTri.sampleAssert TEST ismin ismax
      (rasterizeTri.quantize L.ich ((L.vertarray b).y - L.bmin.y)) := by
    intro ht
    have v := (hT ht).verts b hb
    exact (hT ht).window _ v.1 v.2
  have s1 := ite_checked
    ((L.intverts b).1 ≥ L.x0 ∧ (L.intverts b).1 ≤ L.x1 ∧ (L.intverts b).2 ≥ L.y0 ∧
      (L.intverts b).2 ≤ L.y1)
    (addSpanSample.checked st.1 (L.intverts b).1 (L.intverts b).2
      (rasterizeTri.quantize L.ich ((L.vertarray b).y - L.bmin.y))) st.1
    (addSpanSample st.1 (L.intverts b).1 (L.intverts b).2
      (rasterizeTri.quantize L.ich ((L.vertarray b).y - L.bmin.y))) (Dims w h)
    (fun g => addSpanSample_checked d _ _ _ (by omega) (by omega)) (fun _ => d)
  have s2 := bind_checked (Dims w h) (Dims w h) s1 (fun d1 => recordEdge_checked d1 c b)
  unfold rasterizeTri.slopedBaseVert.checked rasterizeTri.slopedBaseVert
  simp only
  rw [if_pos ha, s2.1, Option.some_bind]
  obtain ⟨e3, d3⟩ := ite_checked ((L.intverts b).1 ≠ (L.intverts (if b = 2 then 0 else b + 1)).1)
    _ _ _ (Dims w h)
    (fun _ => slopedVertical_loop_checked c TEST ismin ismax lo hi hT b
      (if b = 0 then 2 else b - 1) hb (rasterizeTri.setEdge L b st.2) (setEdge_at L b st.2).1
      (intMax (intMin (L.intverts b).1 (L.intverts (if b = 2 then 0 else b + 1)).1 + 1) L.x0)
      (intMin (intMax (L.intverts b).1 (L.intverts (if b = 2 then 0 else b + 1)).1) L.x1_edge)
      (by rw [intMax_eq_max]; omega) (by rw [intMin_eq_min]; omega) _ _ s2.2)
    (fun _ => s2.2)
  rw [e3]
  exact ⟨rfl, d3⟩

/-- The crossing point that a recorded byte selects lies between the heights
`lo` and `hi`. -/
theorem intersectZ_height {L : rasterizeTri.Locals} {ismin ismax : Int} {lo hi : ℚ}
    (f : rasterizeTri.SampleFacts L ismin ismax lo hi) (edges : Nat → Vec3) (hit : Nat)
    (hv : rasterizeTri.HitOK L edges hit) (cz : ℚ) :
    lo ≤ (intersectZ (L.vertarray (hit &&& 3)) (edges (hit >>> 4)) (edges (3 + hit >>> 4))
        cz).y ∧
      (intersectZ (L.vertarray (hit &&& 3)) (edges (hit >>> 4)) (edges (3 + hit >>> 4))
        cz).y ≤ hi := by
  obtain ⟨b, hb, e1, e2⟩ := hv
  obtain ⟨t0, t1⟩ := rcClamp_unit ((cz - (L.vertarray (hit &&& 3)).z) *
    (edges (3 + hit >>> 4)).z)
  have := f.edge_height b hb _ t0 t1
  simp only [intersectZ, e2]
  rw [e1] at this ⊢
  exact this

theorem slopedHit_checked {w h : Int} {L : rasterizeTri.Locals} (c : L.Consistent w h)
    (TEST : Bool) (ismin ismax : Int) (lo hi : ℚ)
    (hT : TEST = true → rasterizeTri.SampleFacts L ismin ismax lo hi)
    (edges : Nat → Vec3) (y : Int) (hy : 0 ≤ y ∧ y ≤ h) (cz : ℚ) (hit : Nat)
    (hv : TEST = true → rasterizeTri.HitOK L edges hit) (S : rcHeightfield) (d : Dims w h S) :
    rasterizeTri.slopedHit.checked TEST ismin ismax L edges y cz hit S =
        some (rasterizeTri.slopedHit L edges y cz hit S) ∧
      Dims w h (rasterizeTri.slopedHit L edges y cz hit S).1 := by
  have hx0 := c.x0_eq
  have hx1 := c.x1_eq
  have ha : rasterizeTri.sampleAssert TEST ismin ismax
      (rasterizeTri.quantize L.ich
        ((intersectZ (L.vertarray (hit &&& 3)) (edges (hit >>> 4)) (edges (3 + hit >>> 4))
          cz).y - L.bmin.y)) := by
    intro ht
    have := intersectZ_height (hT ht) edges hit (hv ht) cz
    exact (hT ht).window _ this.1 this.2
  unfold rasterizeTri.slopedHit.checked rasterizeTri.slopedHit
  simp only
  rw [if_pos ha]
  exact ite_map_checked _ _ _ _ _ (Dims w h)
    (fun g => bind_checked (Dims w h) (Dims w h)
      (addSpanSample_checked d _ _ _ (by omega) (by omega))
      (fun d1 => addSpanSample_checked d1 _ _ _ (by omega) (by omega)))
    (fun _ => d)

theorem slopedFillCell_checked {w h : Int} {L : rasterizeTri.Locals} (TEST : Bool)
    (ismin ismax : Int) (y : Int) (hy : 0 ≤ y ∧ y ≤ h) (ds : ℚ) (x : Int)
    (hx : 0 ≤ x ∧ x ≤ w) (st : rcHeightfield × ℚ) (d : Dims w h st.1)
    (ha : rasterizeTri.sampleAssert TEST ismin ismax (rasterizeTri.quantize L.ich st.2)) :
    rasterizeTri.slopedFillCell.checked TEST ismin ismax L y ds x st =
        some (rasterizeTri.slopedFillCell L y ds x st) ∧
      Dims w h (rasterizeTri.slopedFillCell L y ds x st).1 := by
  unfold rasterizeTri.slopedFillCell.checked rasterizeTri.slopedFillCell
  simp only
  rw [if_pos ha]
  obtain ⟨e1, d1⟩ := addSpanSample_checked d x y (rasterizeTri.quantize L.ich st.2)
    (by omega) (by omega)
  obtain ⟨e2, d2⟩ := addSpanSample_checked d1 (x - 1) y (rasterizeTri.quantize L.ich st.2)
    (by omega) (by omega)
  obtain ⟨e3, d3⟩ := addSpanSample_checked d2 x (y - 1) (rasterizeTri.quantize L.ich st.2)
    (by omega) (by omega)
  obtain ⟨e4, d4⟩ := addSpanSample_checked d3 (x - 1) (y - 1)
    (rasterizeTri.quantize L.ich st.2) (by omega) (by omega)
  rw [e1, Option.some_bind, e2, Option.some_bind, e3, Option.some_bind, e4]
  exact ⟨rfl, d4⟩

theorem lerp_window (lo hi a b t : ℚ) (ha : lo ≤ a ∧ a ≤ hi) (hb : lo ≤ b ∧ b ≤ hi)
    (h0 : 0 ≤ t) (h1 : t ≤ 1) : lo ≤ a + t * (b - a) ∧ a + t * (b - a) ≤ hi := by
  have hl := lerp_between a (b - a) t h0 h1
  have e : a + (b - a) = b := by ring
  rw [e] at hl
  exact ⟨le_trans (le_min ha.1 hb.1) hl.1, le_trans hl.2 (max_le ha.2 hb.2)⟩

/-- The loop over the cells between two crossings: the heights interpolated
from `A` to `B` stay between them. -/
theorem slopedFill_loop_checked {w h : Int} {L : rasterizeTri.Locals} (TEST : Bool)
    (ismin ismax : Int) (lo hi : ℚ)
    (hT : TEST = true → rasterizeTri.SampleFacts L ismin ismax lo hi)
    (y : Int) (hy : 0 ≤ y ∧ y ≤ h) (x0 x1 : Int) (hx0 : 0 ≤ x0) (hx1 : x1 ≤ w) (A B : ℚ)
    (hA : TEST = true → lo ≤ A ∧ A ≤ hi) (hB : TEST = true → lo ≤ B ∧ B ≤ hi)
    (S : rcHeightfield) (d : Dims w h S) :
    (forLoopM x0 x1
        (rasterizeTri.slopedFillCell.checked TEST ismin ismax L y
          (if x1 - x0 > 0 then
            ((B - L.bmin.y) - (A - L.bmin.y)) / ((x1 - x0 : Int) : ℚ) else 0))
        (S, A - L.bmin.y)).map Prod.fst =
        some (forLoop x0 x1
          (rasterizeTri.slopedFillCell L y
            (if x1 - x0 > 0 then
              ((B - L.bmin.y) - (A - L.bmin.y)) / ((x1 - x0 : Int) : ℚ) else 0))
          (S, A - L.bmin.y)).1 ∧
      Dims w h (forLoop x0 x1
          (rasterizeTri.slopedFillCell L y
            (if x1 - x0 > 0 then
              ((B - L.bmin.y) - (A - L.bmin.y)) / ((x1 - x0 : Int) : ℚ) else 0))
          (S, A - L.bmin.y)).1 := by
  generalize hds : (if x1 - x0 > 0 then
    ((B - L.bmin.y) - (A - L.bmin.y)) / ((x1 - x0 : Int) : ℚ) else 0) = ds
  obtain ⟨e, p⟩ := forLoopM_some
    (fun i (t : rcHeightfield × ℚ) => Dims w h t.1 ∧
      t.2 = (A - L.bmin.y) + ((i - x0 : Int) : ℚ) * ds)
    x0 x1 (rasterizeTri.slopedFillCell.checked TEST ismin ismax L y ds)
    (rasterizeTri.slopedFillCell L y ds) (S, A - L.bmin.y)
    ⟨d, by simp⟩
    (by
      intro i t i1 i2 ⟨dt, et⟩
      have ha : rasterizeTri.sampleAssert TEST ismin ismax
          (rasterizeTri.quantize L.ich t.2) := by
        intro ht
        have a := hA ht
        have b := hB ht
        by_cases hn : x1 - x0 > 0
        · rw [if_pos hn] at hds
          have hnq : (0 : ℚ) < ((x1 - x0 : Int) : ℚ) := by exact_mod_cast hn
          have hk0 : (0 : ℚ) ≤ ((i - x0 : Int) : ℚ) := by
            have : (0 : Int) ≤ i - x0 := by omega
            exact_mod_cast this
          have hk1 : ((i - x0 : Int) : ℚ) ≤ ((x1 - x0 : Int) : ℚ) := by
            have : i - x0 ≤ x1 - x0 := by omega
            exact_mod_cast this
          have hw := lerp_window lo hi A B (((i - x0 : Int) : ℚ) / ((x1 - x0 : Int) : ℚ)) a b
            (div_nonneg hk0 (le_of_lt hnq)) ((div_le_one hnq).2 hk1)
          have e2 : t.2 = A + ((i - x0 : Int) : ℚ) / ((x1 - x0 : Int) : ℚ) * (B - A) -
              L.bmin.y := by
            rw [et, ← hds]
            field_simp
            ring
          rw [e2]
          exact (hT ht).window _ hw.1 hw.2
        · rw [if_neg hn] at hds
          have e2 : t.2 = A - L.bmin.y := by
            rw [et, ← hds]
            ring
          rw [e2]
          exact (hT ht).window _ a.1 a.2
      obtain ⟨e1, d1⟩ := @slopedFillCell_checked w h L TEST ismin ismax y hy ds i
        (by omega) t dt ha
      refine ⟨e1, d1, ?_⟩
      have e3 : (rasterizeTri.slopedFillCell L y ds i t).2 = t.2 + ds := rfl
      rw [e3, et]
      push_cast
      ring)
  rw [e]
  exact ⟨rfl, p.1⟩

theorem slopedFill_checked {w h : Int} {L : rasterizeTri.Locals} (c : L.Consistent w h)
    (TEST : Bool) (ismin ismax : Int) (lo hi : ℚ)
    (hT : TEST = true → rasterizeTri.SampleFacts L ismin ismax lo hi)
    (y : Int) (hy : 0 ≤ y ∧ y ≤ h) (Inter0 Inter1 : Vec3) (xInter0 xInter1 : Int)
    (hI : TEST = true → (lo ≤ Inter0.y ∧ Inter0.y ≤ hi) ∧ (lo ≤ Inter1.y ∧ Inter1.y ≤ hi))
    (S : rcHeightfield) (d : Dims w h S) :
    rasterizeTri.slopedFill.checked TEST ismin ismax L y Inter0 Inter1 xInter0 xInter1 S =
        some (rasterizeTri.slopedFill L y Inter0 Inter1 xInter0 xInter1 S) ∧
      Dims w h (rasterizeTri.slopedFill L y Inter0 Inter1 xInter0 xInter1 S) := by
  have hx0 := c.x0_eq
  have hx2 := c.x1_edge_eq
  have hLR : TEST = true →
      (lo ≤ (if decide (Inter1.x < Inter0.x) = true then Inter1 else Inter0).y ∧
        (if decide (Inter1.x < Inter0.x) = true then Inter1 else Inter0).y ≤ hi) ∧
      (lo ≤ (if decide (Inter1.x < Inter0.x) = true then Inter0 else Inter1).y ∧
        (if decide (Inter1.x < Inter0.x) = true then Inter0 else Inter1).y ≤ hi) := by
    intro ht
    obtain ⟨a, b⟩ := hI ht
    by_cases hl : Inter1.x < Inter0.x
    · simp only [hl, decide_True, if_true]
      exact ⟨b, a⟩
    · simp only [hl, decide_False, Bool.false_eq_true, if_false]
      exact ⟨a, b⟩
  unfold rasterizeTri.slopedFill.checked rasterizeTri.slopedFill
  refine ite_checked _ _ _ _ (Dims w h) (fun _ => ?_) (fun _ => d)
  exact slopedFill_loop_checked TEST ismin ismax lo hi hT y hy _ _
    (by rw [intMax_eq_max]; omega) (by rw [intMin_eq_min]; omega) _ _
    (fun ht => lerp_window lo hi _ _ _ (hLR ht).1 (hLR ht).2 (rcClamp_unit _).1
      (rcClamp_unit _).2)
    (fun ht => lerp_window lo hi _ _ _ (hLR ht).1 (hLR ht).2 (rcClamp_unit _).1
      (rcClamp_unit _).2) S d

theorem slopedHorizontal_checked {w h : Int} {L : rasterizeTri.Locals} (c : L.Consistent w h)
    (TEST : Bool) (ismin ismax : Int) (lo hi : ℚ)
    (hT : TEST = true → rasterizeTri.SampleFacts L ismin ismax lo hi)
    (edges : Nat → Vec3) (y : Int) (hy : 0 ≤ y ∧ y ≤ h) (st : rcHeightfield × ℚ)
    (d : Dims w h st.1)
    (hH : TEST = true → (st.1.EdgeHits y).Hits0 ≠ 0 →
      rasterizeTri.HitOK L edges (st.1.EdgeHits y).Hits0 ∧
        rasterizeTri.HitOK L edges (st.1.EdgeHits y).Hits1) :
    rasterizeTri.slopedHorizontal.checked TEST ismin ismax L edges y st =
        some (rasterizeTri.slopedHorizontal L edges y st) ∧
      Dims w h (rasterizeTri.slopedHorizontal L edges y st).1 := by
  unfold rasterizeTri.slopedHorizontal.checked rasterizeTri.slopedHorizontal
  rw [if_pos (by rw [d.2]; omega)]
  refine ite_map_checked _ _ _ _ _ (Dims w h) (fun g => ?_) (fun _ => d)
  obtain ⟨e0, d0⟩ := slopedHit_checked c TEST ismin ismax lo hi hT edges y hy st.2
    (st.1.EdgeHits y).Hits0 (fun ht => (hH ht g).1) st.1 d
  obtain ⟨e1, d1⟩ := slopedHit_checked c TEST ismin ismax lo hi hT edges y hy st.2
    (st.1.EdgeHits y).Hits1 (fun ht => (hH ht g).2) _ d0
  obtain ⟨e2, d2⟩ := slopedFill_checked c TEST ismin ismax lo hi hT y hy
    (rasterizeTri.slopedHit L edges y st.2 (st.1.EdgeHits y).Hits0 st.1).2.1
    (rasterizeTri.slopedHit L edges y st.2 (st.1.EdgeHits y).Hits1
      (rasterizeTri.slopedHit L edges y st.2 (st.1.EdgeHits y).Hits0 st.1).1).2.1
    (rasterizeTri.slopedHit L edges y st.2 (st.1.EdgeHits y).Hits0 st.1).2.2
    (rasterizeTri.slopedHit L edges y st.2 (st.1.EdgeHits y).Hits1
      (rasterizeTri.slopedHit L edges y st.2 (st.1.EdgeHits y).Hits0 st.1).1).2.2
    (fun ht => ⟨intersectZ_height (hT ht) edges _ (hH ht g).1 st.2,
      intersectZ_height (hT ht) edges _ (hH ht g).2 st.2⟩) _ d1
  rw [e0, Option.some_bind, e1, Option.some_bind, e2]
  exact ⟨rfl, d2⟩

theorem slopedHorizontals_checked {w h : Int} {L : rasterizeTri.Locals} (c : L.Consistent w h)
    (TEST : Bool) (ismin ismax : Int) (lo hi : ℚ)
    (hT : TEST = true → rasterizeTri.SampleFacts L ismin ismax lo hi)
    (edges : Nat → Vec3) (S : rcHeightfield) (d : Dims w h S)
    (hH : TEST = true → ∀ y, 0 ≤ y → y ≤ h → (S.EdgeHits y).Hits0 ≠ 0 →
      rasterizeTri.HitOK L edges (S.EdgeHits y).Hits0 ∧
        rasterizeTri.HitOK L edges (S.EdgeHits y).Hits1) :
    rasterizeTri.slopedHorizontals.checked TEST ismin ismax L edges S =
        some (rasterizeTri.slopedHorizontals L edges S) ∧
      Dims w h (rasterizeTri.slopedHorizontals L edges S) := by
  have hy0 := c.y0_eq
  have hy1 := c.y1_edge_eq
  unfold rasterizeTri.slopedHorizontals.checked rasterizeTri.slopedHorizontals
  obtain ⟨e, p⟩ := forLoopM_some
    (fun i (t : rcHeightfield × ℚ) => Dims w h t.1 ∧
      ∀ y, i ≤ y → t.1.EdgeHits y = S.EdgeHits y)
    (intMax (intMin (L.intverts 0).2 (intMin (L.intverts 1).2 (L.intverts 2).2) + 1) L.y0)
    (intMin (intMax (L.intverts 0).2 (intMax (L.intverts 1).2 (L.intverts 2).2)) L.y1_edge)
    (rasterizeTri.slopedHorizontal.checked TEST ismin ismax L edges)
    (rasterizeTri.slopedHorizontal L edges)
    (S, L.bmin.z + L.cs *
      ((intMax (intMin (L.intverts 0).2 (intMin (L.intverts 1).2 (L.intverts 2).2) + 1)
        L.y0 : Int) : ℚ)) ⟨d, fun _ _ => rfl⟩
    (by
      intro i t i1 i2 ⟨dt, et⟩
      have hr : 0 ≤ i ∧ i ≤ h := by
        rw [intMax_eq_max] at i1
        rw [intMin_eq_min] at i2
        omega
      obtain ⟨e1, d1⟩ := slopedHorizontal_checked c TEST ismin ismax lo hi hT edges i hr t dt
        (by
          intro ht
          rw [et i le_rfl]
          exact hH ht i hr.1 hr.2)
      refine ⟨e1, d1, ?_⟩
      intro y hy
      rw [slopedHorizontal_EdgeHits]
      split
      · rw [Function.update_noteq (by omega)]
        exact et y (by omega)
      · exact et y (by omega))
  simp only
  rw [e]
  exact ⟨rfl, p.1⟩

theorem slopedEmitCell_dims {w h : Int} (area : Nat) (thr flags : Int)
    (masks : Option (Int → Int)) (y x : Int) (S : rcHeightfield) (d : Dims w h S) :
    Dims w h (rasterizeTri.slopedEmitCell area thr flags masks y x S) := by
  unfold rasterizeTri.slopedEmitCell
  simp only
  split
  · exact d
  · exact d

theorem slopedEmitCell_checked {w h : Int} (area : Nat) (thr flags : Int)
    (masks : Option (Int → Int)) (y x : Int) (hx : 0 ≤ x ∧ x < w) (hy : 0 ≤ y ∧ y < h)
    (S : rcHeightfield) (d : Dims w h S) :
    rasterizeTri.slopedEmitCell.checked area thr flags masks y x S =
        some (rasterizeTri.slopedEmitCell area thr flags masks y x S) ∧
      Dims w h (rasterizeTri.slopedEmitCell area thr flags masks y x S) := by
  have r := sampleIndex_range w h x y (by omega) (by omega)
  unfold rasterizeTri.slopedEmitCell.checked SampleIndex.checked
  rw [if_pos (by rw [d.1, d.2]; omega), Option.some_bind,
    if_pos (by simp only [SampleIndex, d.1, d.2]; exact r)]
  exact ⟨rfl, slopedEmitCell_dims area thr flags masks y x S d⟩

theorem slopedEmitRow_checked {w h : Int} {L : rasterizeTri.Locals} (c : L.Consistent w h)
    (area : Nat) (thr flags : Int) (masks : Option (Int → Int)) (y : Int)
    (hy : 0 ≤ y ∧ y < h) (S : rcHeightfield) (d : Dims w h S) :
    rasterizeTri.slopedEmitRow.checked L area thr flags masks y S =
        some (rasterizeTri.slopedEmitRow L area thr flags masks y S) ∧
      Dims w h (rasterizeTri.slopedEmitRow L area thr flags masks y S) := by
  have hx0 := c.x0_eq
  have hx1 := c.x1_eq
  unfold rasterizeTri.slopedEmitRow.checked rasterizeTri.slopedEmitRow
  rw [if_pos (by rw [d.2]; omega)]
  obtain ⟨e, p⟩ := forLoopM_inv (Dims w h)
    (intMax (S.RowExt (y + 1)).MinCol L.x0) (intMin (S.RowExt (y + 1)).MaxCol L.x1)
    (rasterizeTri.slopedEmitCell.checked area thr flags masks y)
    (rasterizeTri.slopedEmitCell area thr flags masks y) S d
    (fun i t i1 i2 dt => slopedEmitCell_checked area thr flags masks y i
      (by rw [intMax_eq_max] at i1; rw [intMin_eq_min] at i2; omega) hy t dt)
  simp only
  rw [e]
  exact ⟨rfl, p⟩

theorem sloped_checked {w h : Int} {L : rasterizeTri.Locals} (c : L.Consistent w h)
    (TEST : Bool) (ismin ismax : Int) (lo hi : ℚ)
    (hT : TEST = true → rasterizeTri.SampleFacts L ismin ismax lo hi)
    (area : Nat) (thr flags : Int) (masks : Option (Int → Int))
    (S : rcHeightfield) (d : Dims w h S)
    (hE : TEST = true → ∀ y, 0 ≤ y → y ≤ h → S.EdgeHits y = ⟨0, 0⟩) :
    rasterizeTri.sloped.checked TEST ismin ismax L area thr flags masks S =
      some (rasterizeTri.sloped L area thr flags masks S) := by
  have hy0 := c.y0_eq
  have hy1 := c.y1_eq
  unfold rasterizeTri.sloped.checked rasterizeTri.sloped
  simp only [List.foldl]
  obtain ⟨e0, d0⟩ := slopedBaseVert_checked c TEST ismin ismax lo hi hT 0 (by omega)
    (S, fun _ : Nat => (⟨0, 0, 0⟩ : Vec3)) d
  obtain ⟨e1, d1⟩ := slopedBaseVert_checked c TEST ismin ismax lo hi hT 1 (by omega) _ d0
  obtain ⟨e2, d2⟩ := slopedBaseVert_checked c TEST ismin ismax lo hi hT 2 (by omega) _ d1
  have hset : edgesSet L (rasterizeTri.slopedBaseVert L 2 (rasterizeTri.slopedBaseVert L 1
      (rasterizeTri.slopedBaseVert L 0 (S, fun _ : Nat => (⟨0, 0, 0⟩ : Vec3))))).2 := by
    rw [slopedBaseVert_edges, slopedBaseVert_edges, slopedBaseVert_edges]
    exact setEdge_edgesSet L _
  have hinv : edgesInv L (rasterizeTri.slopedBaseVert L 2 (rasterizeTri.slopedBaseVert L 1
      (rasterizeTri.slopedBaseVert L 0 (S, fun _ : Nat => (⟨0, 0, 0⟩ : Vec3))))).2 := by
    rw [slopedBaseVert_edges, slopedBaseVert_edges, slopedBaseVert_edges]
    exact setEdge_edgesInv L _
  have hrec : ∀ y, (rasterizeTri.slopedBaseVert L 2 (rasterizeTri.slopedBaseVert L 1
      (rasterizeTri.slopedBaseVert L 0
        (S, fun _ : Nat => (⟨0, 0, 0⟩ : Vec3))))).1.EdgeHits y =
      hitsAfterRecording L S.EdgeHits y := by
    intro y
    rw [slopedBaseVert_EdgeHits, slopedBaseVert_EdgeHits, slopedBaseVert_EdgeHits]
    rfl
  obtain ⟨e3, d3⟩ := slopedHorizontals_checked c TEST ismin ismax lo hi hT
    (rasterizeTri.slopedBaseVert L 2 (rasterizeTri.slopedBaseVert L 1
      (rasterizeTri.slopedBaseVert L 0 (S, fun _ : Nat => (⟨0, 0, 0⟩ : Vec3))))).2 _ d2
    (by
      intro ht y y1 y2
      rw [hrec y]
      rcases hits_cases L S.EdgeHits y (hE ht y y1 y2) with
        ⟨e, _⟩ | ⟨b1, b2, h12, h23, _, _, _, e⟩
      · rw [e]
        intro hne
        exact absurd rfl hne
      · rw [e]
        intro _
        exact ⟨⟨b1, by omega, (edgeBits_decode b1 (by omega)).1,
            (edges_of_hit L _ hset hinv b1 (by omega)).1⟩,
          ⟨b2, h23, (edgeBits_decode b2 h23).1, (edges_of_hit L _ hset hinv b2 h23).1⟩⟩)
  rw [Option.some_bind, e0, Option.some_bind, e1, Option.some_bind, e2, Option.some_bind, e3,
    Option.some_bind]
  exact (forLoopM_inv (Dims w h) _ _ _ _ _ d3
    (fun i t i1 i2 dt => slopedEmitRow_checked c area thr flags masks i (by omega) t dt)).1

/-! ## Theorems: the scratch accesses are in bounds and the assertions hold -/

theorem ite_some_checked {α : Type} (g : Prop) [Decidable g] (a : α) (b : Option α) (b' : α)
    (h : ¬ g → b = some b') : (if g then some a else b) = some (if g then a else b') := by
  by_cases hg : g
  · rw [if_pos hg, if_pos hg]
  · rw [if_neg hg, if_neg hg]; exact h hg

theorem ite_both_checked {α : Type} (g : Prop) [Decidable g] (a b : Option α) (a' b' : α)
    (h1 : g → a = some a') (h2 : ¬ g → b = some b') :
    (if g then a else b) = some (if g then a' else b') := by
  by_cases hg : g
  · rw [if_pos hg, if_pos hg]; exact h1 hg
  · rw [if_neg hg, if_neg hg]; exact h2 hg

/-- With a cell height that is not negative, the heights between the lowest
and the highest vertex are quantized between `triangle_ismin` and
`triangle_ismax`. -/
theorem locals_sampleFacts (v0 v1 v2 : Vec3) (hf : rcHeightfield) (bmin : Vec3)
    (cs ics ich : ℚ) (hich : 0 ≤ ich) :
    rasterizeTri.SampleFacts (rasterizeTri.locals v0 v1 v2 hf bmin cs ics ich)
      (rasterizeTri.quantize ich (rcMin (rcMin v0.y v1.y) v2.y - bmin.y))
      (rasterizeTri.quantize ich (rcMax (rcMax v0.y v1.y) v2.y - bmin.y))
      (min (min v0.y v1.y) v2.y) (max (max v0.y v1.y) v2.y) := by
  rw [rcMin_eq_min, rcMin_eq_min, rcMax_eq_max, rcMax_eq_max]
  constructor
  · intro s h1 h2
    have e : (rasterizeTri.locals v0 v1 v2 hf bmin cs ics ich).ich = ich := rfl
    have e2 : (rasterizeTri.locals v0 v1 v2 hf bmin cs ics ich).bmin = bmin := rfl
    rw [e, e2]
    have m1 := quantize_mono ich (min (min v0.y v1.y) v2.y - bmin.y) (s - bmin.y) hich
      (by linarith)
    have m2 := quantize_mono ich (s - bmin.y) (max (max v0.y v1.y) v2.y - bmin.y) hich
      (by linarith)
    constructor <;> omega
  · intro i hi
    have a0 : min (min v0.y v1.y) v2.y ≤ v0.y := le_trans (min_le_left _ _) (min_le_left _ _)
    have a1 : min (min v0.y v1.y) v2.y ≤ v1.y := le_trans (min_le_left _ _) (min_le_right _ _)
    have a2 : min (min v0.y v1.y) v2.y ≤ v2.y := min_le_right _ _
    have b0 : v0.y ≤ max (max v0.y v1.y) v2.y := le_trans (le_max_left _ _) (le_max_left _ _)
    have b1 : v1.y ≤ max (max v0.y v1.y) v2.y := le_trans (le_max_right _ _) (le_max_left _ _)
    have b2 : v2.y ≤ max (max v0.y v1.y) v2.y := le_max_right _ _
    interval_cases i
    · exact ⟨a0, b0⟩
    · exact ⟨a1, b1⟩
    · exact ⟨a2, b2⟩

/-- The function `rasterizeTri` with its accesses and assertions checked
returns what `rasterizeTri` returns; where the assertions on the samples are
compiled, for a cell height that is not negative and with no edge hit pending
at entry. -/
theorem rasterizeTri_checked_eq (TEST : Bool) (v0 v1 v2 : Vec3) (area : Nat)
    (hf : rcHeightfield) (bmin bmax : Vec3) (cs ics ich : ℚ) (thr flags : Int)
    (masks : Option (Int → Int)) (hich : TEST = true → 0 ≤ ich)
    (hE : TEST = true → ∀ y, 0 ≤ y → y ≤ hf.height → hf.EdgeHits y = ⟨0, 0⟩) :
    rasterizeTri.checked TEST v0 v1 v2 area hf bmin bmax cs ics ich thr flags masks =
      some (rasterizeTri v0 v1 v2 area hf bmin bmax cs ics ich thr flags masks) := by
  have c := locals_consistent v0 v1 v2 hf bmin cs ics ich
  unfold rasterizeTri.checked rasterizeTri
  simp only
  refine ite_some_checked _ _ _ _ (fun _ => ?_)
  refine ite_some_checked _ _ _ _ (fun _ => ?_)
  refine ite_some_checked _ _ _ _ (fun _ => ?_)
  refine ite_some_checked _ _ _ _ (fun _ => ?_)
  refine ite_both_checked _ _ _ _ _ (fun _ => ?_) (fun _ => ?_)
  · exact flat_checked c area thr flags masks _ _ hf ⟨rfl, rfl⟩
  · exact sloped_checked c TEST _ _ (min (min v0.y v1.y) v2.y) (max (max v0.y v1.y) v2.y)
      (fun ht => locals_sampleFacts v0 v1 v2 hf bmin cs ics ich (hich ht))
      area thr flags masks hf ⟨rfl, rfl⟩ hE

/-- C25. For every grid and every triangle, `rasterizeTri` with every access to
`EdgeHits` (index in `[0, height]`), to `RowExt` (index in `[0, height + 1]`)
and to `tempspans` (cell `(x, y)` with `-1 <= x <= width`, `-1 <= y <= height`,
and `SampleIndex(x, y)` in `[0, (width+2)*(height+2) - 1]`) checked never fails
a check, and returns what `rasterizeTri` returns. This holds for all widths and
heights, those of at least 1 among them. -/
theorem rasterizeTri_scratch_in_bounds (v0 v1 v2 : Vec3) (area : Nat)
    (hf : rcHeightfield) (bmin bmax : Vec3) (cs ics ich : ℚ) (flagMergeThr : Int)
    (rasterizationFlags : Int) (rasterizationMasks : Option (Int → Int)) :
    rasterizeTri.checked false v0 v1 v2 area hf bmin bmax cs ics ich flagMergeThr
        rasterizationFlags rasterizationMasks =
      some (rasterizeTri v0 v1 v2 area hf bmin bmax cs ics ich flagMergeThr
        rasterizationFlags rasterizationMasks) :=
  rasterizeTri_checked_eq false v0 v1 v2 area hf bmin bmax cs ics ich flagMergeThr
    rasterizationFlags rasterizationMasks (fun h => absurd h (by decide))
    (fun h => absurd h (by decide))

/-- C26. With exact arithmetic, for an inverse cell height `ich >= 0` and a
grid with no edge hit pending at entry (as after `rcCreateHeightfield` and after
every call of `rasterizeTri` on such a grid), `rasterizeTri` with the
`TEST_NEW_RASTERIZER` assertions compiled in fails none of them: every height
sample `sint` that the sloped path records through `addSpanSample` (for a
vertex, a vertical-line crossing, a row-boundary crossing or an interior fill
cell) satisfies `triangle_ismin - 1 <= sint <= triangle_ismax + 1`, and the
result is that of `rasterizeTri`. -/
theorem rasterizeTri_sample_assertions (v0 v1 v2 : Vec3) (area : Nat)
    (hf : rcHeightfield) (bmin bmax : Vec3) (cs ics ich : ℚ) (flagMergeThr : Int)
    (rasterizationFlags : Int) (rasterizationMasks : Option (Int → Int)) (hich : 0 ≤ ich)
    (hE : ∀ y, 0 ≤ y → y ≤ hf.height → hf.EdgeHits y = ⟨0, 0⟩) :
    rasterizeTri.checked true v0 v1 v2 area hf bmin bmax cs ics ich flagMergeThr
        rasterizationFlags rasterizationMasks =
      some (rasterizeTri v0 v1 v2 area hf bmin bmax cs ics ich flagMergeThr
        rasterizationFlags rasterizationMasks) :=
  rasterizeTri_checked_eq true v0 v1 v2 area hf bmin bmax cs ics ich flagMergeThr
    rasterizationFlags rasterizationMasks (fun _ => hich) (fun _ => hE)

/-- A sloped triangle over two columns of a fresh grid of 2 by 2 cells, its
heights from 0 to 10 with `ich = 1`: the samples are quantized between
`triangle_ismin = 0` and `triangle_ismax = 10`, and no assertion fails. -/
theorem rasterizeTri_sample_assertions_witness :
    (0 : ℚ) ≤ 1 ∧
    rasterizeTri.quantize 1 (rcMin (rcMin (0 : ℚ) 10) 0 - 0) = 0 ∧
    rasterizeTri.quantize 1 (rcMax (rcMax (0 : ℚ) 10) 0 - 0) = 10 ∧
    rasterizeTri.checked true ⟨1 / 2, 0, 1 / 2⟩ ⟨3 / 2, 10, 1 / 2⟩ ⟨1 / 2, 0, 3 / 2⟩ 63
        (rcCreateHeightfield 2 2 ⟨0, 0, 0⟩ ⟨2, 20, 2⟩ 1 1) ⟨0, 0, 0⟩ ⟨2, 20, 2⟩ 1 1 1 1 0 none =
      some (rasterizeTri ⟨1 / 2, 0, 1 / 2⟩ ⟨3 / 2, 10, 1 / 2⟩ ⟨1 / 2, 0, 3 / 2⟩ 63
        (rcCreateHeightfield 2 2 ⟨0, 0, 0⟩ ⟨2, 20, 2⟩ 1 1) ⟨0, 0, 0⟩ ⟨2, 20, 2⟩ 1 1 1 1 0
        none) :=
  ⟨by norm_num, by decide!, by decide!,
    rasterizeTri_sample_assertions ⟨1 / 2, 0, 1 / 2⟩ ⟨3 / 2, 10, 1 / 2⟩ ⟨1 / 2, 0, 3 / 2⟩ 63
      (rcCreateHeightfield 2 2 ⟨0, 0, 0⟩ ⟨2, 20, 2⟩ 1 1) ⟨0, 0, 0⟩ ⟨2, 20, 2⟩ 1 1 1 1 0 none
      (by norm_num) (fun _ _ _ => rfl)⟩

/-- The two entry conditions of the checked sloped path (`ich >= 0`, no edge
hit pending) are conditions that every call in the source meets: `cookMySop`
passes `ich = 1.0f / ch` with `ch > 0.01` (lines 212-226), and the only bytes
ever stored in `EdgeHits` are those that `rasterizeTri` records and clears
again. The model is defined outside them as well, and there an assertion can
fail. With `ich = -1` on a fresh grid the heights 0 and 10 give
`triangle_ismin = 0` and `triangle_ismax = -10`, and the sample 0 of the first
vertex is above `triangle_ismax + 1`. With `ich = 1` and
the byte 16 left in `EdgeHits[1]`, the byte selects vertex 0 with the edge
vector of vertex 2, and the crossing computed from them has the height 15,
above `triangle_ismax + 1 = 11`; the same call on the fresh grid fails no
assertion. -/
theorem rasterizeTri_checked_entry_conditions :
    (rasterizeTri.checked true ⟨1 / 2, 0, 1 / 2⟩ ⟨3 / 2, 10, 1 / 2⟩ ⟨1 / 2, 0, 3 / 2⟩ 63
        (rcCreateHeightfield 2 2 ⟨0, 0, 0⟩ ⟨2, 20, 2⟩ 1 1) ⟨0, 0, 0⟩ ⟨2, 20, 2⟩ 1 1 (-1) 1 0
        none).isSome = false ∧
    (rasterizeTri.checked true ⟨1 / 2, 10, 1 / 2⟩ ⟨1 / 2, 0, 3 / 2⟩ ⟨1 / 2, 0, -1 / 2⟩ 63
        { rcCreateHeightfield 2 2 ⟨0, 0, 0⟩ ⟨2, 20, 2⟩ 1 1 with
          EdgeHits := Function.update (fun _ => ⟨0, 0⟩) 1 ⟨16, 0⟩ }
        ⟨0, 0, 0⟩ ⟨2, 20, 2⟩ 1 1 1 1 0 none).isSome = false ∧
    (rasterizeTri.checked true ⟨1 / 2, 10, 1 / 2⟩ ⟨1 / 2, 0, 3 / 2⟩ ⟨1 / 2, 0, -1 / 2⟩ 63
        (rcCreateHeightfield 2 2 ⟨0, 0, 0⟩ ⟨2, 20, 2⟩ 1 1)
        ⟨0, 0, 0⟩ ⟨2, 20, 2⟩ 1 1 1 1 0 none).isSome = true := by
  refine ⟨by decide!, by decide!, by decide!⟩

/-! ## Theorems: the records of the pool blocks under addSpan -/

theorem mem_records (hf : SpanHeap) (a : Nat × Nat) :
    a ∈ hf.records ↔ a.1 ∈ hf.pools ∧ a.2 < RC_SPANS_PER_POOL := by
  unfold SpanHeap.records
  rw [List.mem_flatMap]
  constructor
  · rintro ⟨p, hp, ha⟩
    rw [mem_poolItems] at ha
    exact ⟨by rw [ha.1]; exact hp, ha.2.2⟩
  · rintro ⟨h1, h2⟩
    exact ⟨a.1, h1, (mem_poolItems _ _ _ _).2 ⟨rfl, Nat.zero_le _, h2⟩⟩

theorem poolItems_nodup (pool lo hi : Nat) : (poolItems pool lo hi).Nodup := by
  unfold poolItems
  refine List.Nodup.map ?_ (List.nodup_range' _ _)
  intro i j h
  exact (Prod.mk.inj h).2

theorem records_nodup (hf : SpanHeap) (h : hf.pools.Nodup) : hf.records.Nodup := by
  unfold SpanHeap.records
  rw [List.nodup_flatMap]
  refine ⟨fun p _ => poolItems_nodup p _ _, ?_⟩
  refine List.Pairwise.imp ?_ h
  intro p q hpq a ha hb
  rw [mem_poolItems] at ha hb
  exact hpq (ha.1.symm.trans hb.1)

theorem records_length (hf : SpanHeap) :
    hf.records.length = RC_SPANS_PER_POOL * hf.pools.length := by
  unfold SpanHeap.records
  generalize hf.pools = l
  induction l with
  | nil => rfl
  | cons p l ih =>
    rw [List.flatMap_cons, List.length_append, ih, poolItems_length, List.length_cons,
      Nat.sub_zero, Nat.mul_succ, Nat.add_comm]

/-- A chain depends on the `next` fields of its records only. -/
theorem Chain.same_next {next next' : Nat × Nat → Option (Nat × Nat)} :
    ∀ {l : List (Nat × Nat)} {p : Option (Nat × Nat)}, (∀ a ∈ l, next' a = next a) →
      Chain next p l → Chain next' p l := by
  intro l
  induction l with
  | nil => intro p _ h; exact h
  | cons b l ih =>
    intro p hl h
    refine ⟨h.1, ?_⟩
    rw [hl b (List.mem_cons_self _ _)]
    exact ih (fun a ha => hl a (List.mem_cons_of_mem _ ha)) h.2

/-- A chain from the null pointer is empty. -/
theorem Chain.of_null {next : Nat × Nat → Option (Nat × Nat)} {l : List (Nat × Nat)}
    (h : Chain next none l) : l = [] := by
  cases l with
  | nil => rfl
  | cons a l => exact absurd h.1 (by simp)

/-- The linking loop of `allocSpan` stores to records of the new block only. -/
theorem allocSpan.link_other (pool : Nat) (a : Nat × Nat) (ha : a.1 ≠ pool) :
    ∀ (n : Nat) (st : (Nat × Nat → Option (Nat × Nat)) × Option (Nat × Nat)),
      (allocSpan.link pool n st).1 a = st.1 a := by
  intro n
  induction n with
  | zero => intro st; rfl
  | succ n ih =>
    intro st
    show (allocSpan.link pool n (Function.update st.1 (pool, n) st.2, some (pool, n))).1 a = _
    rw [ih]
    exact Function.update_noteq (fun e => ha (by rw [e])) _ _

theorem allocSpan_grow_next {hf : SpanHeap}
    (hcond : hf.freelist = none ∨ hf.freelist.bind hf.next = none) (pool : Nat)
    (a : Nat × Nat) (ha : a.1 ≠ pool) : (allocSpan hf (some pool)).2.next a = hf.next a := by
  have hl := allocSpan.link_other pool a ha RC_SPANS_PER_POOL (hf.next, hf.freelist)
  generalize hst : allocSpan.link pool RC_SPANS_PER_POOL (hf.next, hf.freelist) = st at hl
  rw [allocSpan_grow_eq hf pool st hcond hst]
  exact hl

theorem newRecord_of_alloc {hf H : SpanHeap} {rcAlloc : Option Nat} {s : Nat × Nat}
    (h : allocSpan hf rcAlloc = (some s, H)) (smin smax area : Nat) :
    addSpan.newRecord hf rcAlloc smin smax area =
      some (s, { H with
        data := Function.update H.data s
          ⟨smin % 2 ^ RC_SPAN_HEIGHT_BITS, smax % 2 ^ RC_SPAN_HEIGHT_BITS, area % 2 ^ 6⟩
        next := Function.update H.next s none }) := by
  unfold addSpan.newRecord
  rw [h]

theorem SpanGrid.Partition.mem_column {hf : SpanGrid} {cols : List Int}
    {col : Int → List (Nat × Nat)} {fl : List (Nat × Nat)} (P : hf.Partition cols col fl)
    (i : Int) (a : Nat × Nat) (ha : a ∈ col i) : a ∈ cols.flatMap col := by
  by_cases hi : i ∈ cols
  · exact List.mem_flatMap.2 ⟨i, hi, ha⟩
  · rw [P.empty i hi] at ha
    exact absurd ha (List.not_mem_nil _)

/-- Lines 90-94 of `addSpan` on a heap whose records are shared out: the new
record leaves the free list, which keeps at least one record. -/
theorem newRecord_partition {hf : SpanGrid} {cols : List Int} {col : Int → List (Nat × Nat)}
    {fl : List (Nat × Nat)} (P : hf.Partition cols col fl) (pool : Nat)
    (hp : pool ∉ hf.heap.pools) (smin smax area : Nat) :
    ∃ s H fl', addSpan.newRecord hf.heap (some pool) smin smax area = some (s, H) ∧
      H.FreeList fl' ∧ fl' ≠ [] ∧ (∀ i, Chain H.next (hf.spans i) (col i)) ∧
      H.next s = none ∧ ((s :: fl') ++ cols.flatMap col).Perm H.records ∧ H.pools.Nodup ∧
      (∀ q ∈ H.pools, q = pool ∨ q ∈ hf.heap.pools) := by
  have hn : (fl ++ cols.flatMap col).Nodup :=
    (P.perm.nodup_iff).2 (records_nodup _ P.pools_nodup)
  have hmem : ∀ a, a ∈ fl ++ cols.flatMap col → a.1 ∈ hf.heap.pools :=
    fun a ha => ((mem_records _ _).1 ((P.perm.mem_iff).1 ha)).1
  have hN : RC_SPANS_PER_POOL = 2048 := rfl
  by_cases hshort : fl.length ≤ 1
  · obtain ⟨g1, g2, _, g4⟩ := allocSpan_grow P.free hshort pool
      (fun a ha e => hp (e ▸ hmem a (List.mem_append_left _ ha)))
    have hnext := fun a ha =>
      allocSpan_grow_next ((short_iff P.free).2 hshort) pool a ha
    generalize hH : allocSpan hf.heap (some pool) = r at g1 g2 g4 hnext
    obtain ⟨r1, H0⟩ := r
    simp only at g1 g2 g4 hnext
    subst g1
    have hs : (pool, 0) ∉ poolItems pool 1 RC_SPANS_PER_POOL ++ fl := by
      intro hm
      rcases List.mem_append.1 hm with h | h
      · have := ((mem_poolItems _ _ _ _).1 h).2.1
        simp only at this
        omega
      · exact hp (hmem _ (List.mem_append_left _ h))
    refine ⟨(pool, 0), _, poolItems pool 1 RC_SPANS_PER_POOL ++ fl,
      newRecord_of_alloc hH smin smax area, Chain.frame none g4 hs, ?_, ?_,
      Function.update_same _ _ _, ?_, ?_, ?_⟩
    · intro h
      have := congrArg List.length h
      rw [List.length_append, poolItems_length] at this
      simp only [List.length_nil] at this
      omega
    · intro i
      refine Chain.same_next (fun a ha => ?_) (P.column i)
      have hm := hmem a (List.mem_append_right _ (P.mem_column i a ha))
      have hne : a.1 ≠ pool := fun e => hp (e ▸ hm)
      show Function.update H0.next (pool, 0) none a = _
      rw [Function.update_noteq (fun e => hne (by rw [e])), hnext a hne]
    · have er : ∀ (d : Nat × Nat → rcSpanData) (n : Nat × Nat → Option (Nat × Nat)),
          SpanHeap.records { H0 with data := d, next := n } =
            poolItems pool 0 RC_SPANS_PER_POOL ++ hf.heap.records := by
        intro d n
        unfold SpanHeap.records
        show H0.pools.flatMap _ = _
        rw [g2, List.flatMap_cons]
      rw [er]
      have hc : poolItems pool 0 RC_SPANS_PER_POOL =
          (pool, 0) :: poolItems pool 1 RC_SPANS_PER_POOL := poolItems_cons pool 2047
      rw [hc, List.cons_append, List.cons_append, List.append_assoc]
      exact List.Perm.cons _ (List.Perm.append_left _ P.perm)
    · show H0.pools.Nodup
      rw [g2]
      exact List.nodup_cons.2 ⟨hp, P.pools_nodup⟩
    · intro q hq
      have hq2 : q ∈ H0.pools := hq
      rw [g2] at hq2
      rcases List.mem_cons.1 hq2 with h | h
      · exact Or.inl h
      · exact Or.inr h
  · obtain ⟨a, b, l, rfl⟩ : ∃ a b l, fl = a :: b :: l := by
      match fl, hshort with
      | [], h => exact absurd (Nat.zero_le 1) h
      | [_], h => exact absurd (Nat.le_refl 1) h
      | a :: b :: l, _ => exact ⟨a, b, l, rfl⟩
    have e := allocSpan_pop P.free (some pool)
    have hn2 := hn
    rw [List.cons_append, List.nodup_cons] at hn2
    refine ⟨a, _, b :: l, newRecord_of_alloc e smin smax area, ?_, by simp, ?_,
      Function.update_same _ _ _, ?_, P.pools_nodup, fun q hq => Or.inr hq⟩
    · exact Chain.frame none (show Chain hf.heap.next (some b) (b :: l) from
        ⟨rfl, P.free.2.2⟩) (fun hm => hn2.1 (List.mem_append_left _ hm))
    · intro i
      exact Chain.frame none (P.column i)
        (fun hm => hn2.1 (List.mem_append_right _ (P.mem_column i a hm)))
    · exact P.perm

/-- Unlinking the record `c` that follows `p` on a chain. -/
theorem Chain.unlink {next : Nat × Nat → Option (Nat × Nat)} (p c : Nat × Nat)
    (v : Option (Nat × Nat)) (rest : List (Nat × Nat)) :
    ∀ (k0 : List (Nat × Nat)) (q : Option (Nat × Nat)),
      Chain next q (k0 ++ p :: c :: rest) → (k0 ++ p :: c :: rest).Nodup →
      Chain (Function.update (Function.update next c v) p (next c)) q (k0 ++ p :: rest) := by
  intro k0
  induction k0 with
  | nil =>
    intro q h hn
    simp only [List.nil_append, List.nodup_cons, List.mem_cons, not_or] at h hn ⊢
    refine ⟨h.1, ?_⟩
    rw [Function.update_same]
    exact Chain.frame _ (Chain.frame _ h.2.2 hn.2.1) hn.1.2
  | cons x k0 ih =>
    intro q h hn
    rw [List.cons_append, List.nodup_cons] at hn
    have hxp : x ≠ p := fun e => hn.1 (by rw [e]; simp)
    have hxc : x ≠ c := fun e => hn.1 (by rw [e]; simp)
    refine ⟨h.1, ?_⟩
    rw [Function.update_noteq hxp, Function.update_noteq hxc]
    exact ih _ h.2 hn.2

/-- Linking the record `s` in behind `p` on a chain. -/
theorem Chain.link_in {next : Nat × Nat → Option (Nat × Nat)} (p s : Nat × Nat)
    (rest : List (Nat × Nat)) :
    ∀ (k0 : List (Nat × Nat)) (q : Option (Nat × Nat)),
      Chain next q (k0 ++ p :: rest) → (k0 ++ p :: rest).Nodup → s ∉ k0 ++ p :: rest →
      Chain (Function.update (Function.update next s (next p)) p (some s)) q
        (k0 ++ p :: s :: rest) := by
  intro k0
  induction k0 with
  | nil =>
    intro q h hn hs
    simp only [List.nil_append, List.nodup_cons, List.mem_cons, not_or] at h hn hs ⊢
    refine ⟨h.1, Function.update_same _ _ _, ?_⟩
    rw [Function.update_noteq hs.1, Function.update_same]
    exact Chain.frame _ (Chain.frame _ h.2 hs.2) hn.1
  | cons x k0 ih =>
    intro q h hn hs
    rw [List.cons_append, List.nodup_cons] at hn
    rw [List.cons_append, List.mem_cons, not_or] at hs
    have hxp : x ≠ p := fun e => hn.1 (by rw [e]; simp)
    have hxs : x ≠ s := fun e => hs.1 e.symm
    refine ⟨h.1, ?_⟩
    rw [Function.update_noteq hxp, Function.update_noteq hxs]
    exact ih _ h.2 hn.2 hs.2

/-- The parts of a list without repetition are apart from each other. -/
theorem nodup_parts {s : Nat × Nat} {fl kr O : List (Nat × Nat)}
    (h : ((s :: (fl ++ kr)) ++ O).Nodup) :
    (s ∉ fl ∧ s ∉ kr ∧ s ∉ O) ∧ kr.Nodup ∧ (∀ a ∈ kr, a ∉ fl ∧ a ∉ O ∧ a ≠ s) ∧
      ∀ a ∈ fl, a ∉ O := by
  rw [List.cons_append] at h
  obtain ⟨hs, hrest⟩ := List.nodup_cons.1 h
  obtain ⟨hX, _, hXO⟩ := List.nodup_append.1 hrest
  obtain ⟨_, hkr, hfkr⟩ := List.nodup_append.1 hX
  refine ⟨⟨?_, ?_, ?_⟩, hkr, ?_, ?_⟩
  · exact fun m => hs (List.mem_append_left _ (List.mem_append_left _ m))
  · exact fun m => hs (List.mem_append_left _ (List.mem_append_right _ m))
  · exact fun m => hs (List.mem_append_right _ m)
  · intro a ha
    refine ⟨fun m => hfkr m ha, fun m => hXO (List.mem_append_right _ ha) m, ?_⟩
    intro e
    exact hs (List.mem_append_left _ (List.mem_append_right _ (e ▸ ha)))
  · exact fun a ha m => hXO (List.mem_append_left _ ha) m

theorem addSpan.Walking.parts {idx : Int} {s : Nat × Nat} {O R : List (Nat × Nat)}
    {col : Int → List (Nat × Nat)} {pools : List Nat} {width : Int}
    {st : SpanGrid × Option (Nat × Nat) × Option (Nat × Nat)} {kept rest fl : List (Nat × Nat)}
    (W : addSpan.Walking idx s O R col pools width st kept rest fl) :
    (s ∉ fl ∧ s ∉ kept ++ rest ∧ s ∉ O) ∧ (kept ++ rest).Nodup ∧
      (∀ a ∈ kept ++ rest, a ∉ fl ∧ a ∉ O ∧ a ≠ s) ∧ ∀ a ∈ fl, a ∉ O :=
  nodup_parts ((W.perm.nodup_iff).2 W.nodup)

/-- A turn of the loop of `addSpan` that removes the record `c`: the record
goes from the column to the head of the free list. -/
theorem addSpan.remove_walking {idx : Int} {s : Nat × Nat} {O R : List (Nat × Nat)}
    {col : Int → List (Nat × Nat)} {pools : List Nat} {width : Int} {hf : SpanGrid}
    {prev : Option (Nat × Nat)} {c : Nat × Nat} {kept rest fl : List (Nat × Nat)}
    (thr : Int)
    (W : addSpan.Walking idx s O R col pools width (hf, prev, some c) kept (c :: rest) fl) :
    addSpan.Walking idx s O R col pools width (addSpan.remove idx s thr hf prev c) kept rest
      (c :: fl) := by
  obtain ⟨_, hkr, hap, _⟩ := W.parts
  have hc := hap c (by simp)
  have hck : c ∉ kept ++ rest := (List.nodup_cons.1 (List.nodup_middle.1 hkr)).1
  have hcr : c ∉ rest := fun m => hck (List.mem_append_right _ m)
  have hperm : ((s :: ((c :: fl) ++ (kept ++ rest))) ++ O).Perm R := by
    refine List.Perm.trans (List.Perm.append_right O (List.Perm.cons s ?_)) W.perm
    have e : fl ++ (kept ++ c :: rest) = (fl ++ kept) ++ c :: rest := by
      rw [List.append_assoc]
    rw [e, List.cons_append, ← List.append_assoc]
    exact List.perm_middle.symm
  have hother : ∀ i, i ≠ idx → c ∉ col i := fun i hi m => hc.2.1 (W.other_mem i hi c m)
  have hcur : Chain hf.heap.next (hf.heap.next c) rest := W.cur_eq.2
  cases prev with
  | none =>
    have hk : kept = [] := List.getLast?_eq_none_iff.1 W.prev_eq.symm
    subst hk
    refine ⟨⟨rfl, ?_⟩, by simp, ?_, ?_, ?_, W.prev_eq, hperm, W.nodup, W.other_mem,
      W.pools_eq, W.width_eq⟩
    · show Chain (Function.update hf.heap.next c hf.heap.freelist)
        (Function.update hf.heap.next c hf.heap.freelist c) fl
      rw [Function.update_same]
      exact Chain.frame _ W.free hc.1
    · intro i hi
      show Chain (Function.update hf.heap.next c hf.heap.freelist)
        (Function.update hf.spans idx (hf.heap.next c) i) (col i)
      rw [Function.update_noteq hi]
      exact Chain.frame _ (W.others i hi) (hother i hi)
    · show Chain (Function.update hf.heap.next c hf.heap.freelist)
        (Function.update hf.spans idx (hf.heap.next c) idx) ([] ++ rest)
      rw [Function.update_same]
      exact Chain.frame _ hcur hcr
    · exact Chain.frame _ hcur hcr
  | some p =>
    obtain ⟨k0, hk⟩ := List.getLast?_eq_some_iff.1 W.prev_eq.symm
    subst hk
    have hp := hap p (by simp)
    have hpc : p ≠ c := fun e => hck (by rw [← e]; simp)
    have e1 : (k0 ++ [p]) ++ c :: rest = k0 ++ p :: c :: rest := by simp
    have e2 : (k0 ++ [p]) ++ rest = k0 ++ p :: rest := by simp
    have hpr : p ∉ rest := by
      intro m
      rw [e1] at hkr
      have h1 := (List.nodup_cons.1 (List.nodup_middle.1 hkr)).1
      exact h1 (List.mem_append_right _ (List.mem_cons_of_mem _ m))
    refine ⟨⟨rfl, ?_⟩, by simp, ?_, ?_, ?_, W.prev_eq, hperm, W.nodup, W.other_mem,
      W.pools_eq, W.width_eq⟩
    · show Chain (Function.update (Function.update hf.heap.next c hf.heap.freelist) p
          (hf.heap.next c))
        (Function.update (Function.update hf.heap.next c hf.heap.freelist) p
          (hf.heap.next c) c) fl
      rw [Function.update_noteq hpc.symm, Function.update_same]
      exact Chain.frame _ (Chain.frame _ W.free hc.1) hp.1
    · intro i hi
      exact Chain.frame _ (Chain.frame _ (W.others i hi) (hother i hi))
        (fun m => hp.2.1 (W.other_mem i hi p m))
    · show Chain (Function.update (Function.update hf.heap.next c hf.heap.freelist) p
          (hf.heap.next c)) (hf.spans idx) ((k0 ++ [p]) ++ rest)
      rw [e2]
      refine Chain.unlink p c _ rest k0 _ ?_ ?_
      · rw [← e1]; exact W.column
      · rw [← e1]; exact hkr
    · exact Chain.frame _ (Chain.frame _ hcur hcr) hpr

/-- The loop of `addSpan` ends within one test of `cur` for every record still
to come and one more, and keeps the relation `Walking`. -/
theorem addSpan.walk_walking (idx : Int) (s : Nat × Nat) (thr : Int)
    (O R : List (Nat × Nat)) (col : Int → List (Nat × Nat)) (pools : List Nat) (width : Int) :
    ∀ (fuel : Nat) (st : SpanGrid × Option (Nat × Nat) × Option (Nat × Nat))
      (kept rest fl : List (Nat × Nat)),
      addSpan.Walking idx s O R col pools width st kept rest fl → rest.length < fuel →
      ∃ st' kept' rest' fl', addSpan.walk idx s thr fuel st = some st' ∧
        addSpan.Walking idx s O R col pools width st' kept' rest' fl' := by
  intro fuel
  induction fuel with
  | zero => intro st kept rest fl _ h; exact absurd h (Nat.not_lt_zero _)
  | succ fuel ih =>
    intro st kept rest fl W hlen
    obtain ⟨hf, prev, cur⟩ := st
    cases rest with
    | nil =>
      have hc : cur = none := W.cur_eq
      subst hc
      exact ⟨_, kept, [], fl, rfl, W⟩
    | cons c rest =>
      have hc : cur = some c := W.cur_eq.1
      subst hc
      simp only [addSpan.walk]
      by_cases h1 : (hf.heap.data c).smin > (hf.heap.data s).smax
      · rw [if_pos h1]
        exact ⟨_, kept, c :: rest, fl, rfl, W⟩
      · rw [if_neg h1]
        have hl : rest.length < fuel := by
          simp only [List.length_cons] at hlen
          omega
        by_cases h2 : (hf.heap.data c).smax < (hf.heap.data s).smin
        · rw [if_pos h2]
          have e : (kept ++ [c]) ++ rest = kept ++ c :: rest := by simp
          refine ih _ (kept ++ [c]) rest fl ⟨W.free, W.free_ne, W.others, ?_, W.cur_eq.2,
            (List.getLast?_concat kept).symm, ?_, W.nodup, W.other_mem, W.pools_eq,
            W.width_eq⟩ hl
          · rw [e]; exact W.column
          · rw [e]; exact W.perm
        · rw [if_neg h2]
          exact ih _ kept rest (c :: fl) (addSpan.remove_walking thr W) hl

/-- Lines 151-164 after the loop: the new record joins the column behind the
records that were passed. -/
theorem addSpan.splice_walking {idx : Int} {s : Nat × Nat} {O R : List (Nat × Nat)}
    {col : Int → List (Nat × Nat)} {pools : List Nat} {width : Int}
    {st : SpanGrid × Option (Nat × Nat) × Option (Nat × Nat)} {kept rest fl : List (Nat × Nat)}
    (W : addSpan.Walking idx s O R col pools width st kept rest fl) :
    (addSpan.splice idx s st.1 st.2.1).heap.FreeList fl ∧
    (∀ i, i ≠ idx → Chain (addSpan.splice idx s st.1 st.2.1).heap.next
      ((addSpan.splice idx s st.1 st.2.1).spans i) (col i)) ∧
    Chain (addSpan.splice idx s st.1 st.2.1).heap.next
      ((addSpan.splice idx s st.1 st.2.1).spans idx) (kept ++ s :: rest) ∧
    (addSpan.splice idx s st.1 st.2.1).heap.pools = pools ∧
    (addSpan.splice idx s st.1 st.2.1).width = width := by
  obtain ⟨⟨hs1, hs2, hs3⟩, hkr, hap, _⟩ := W.parts
  have hso : ∀ i, i ≠ idx → s ∉ col i := fun i hi m => hs3 (W.other_mem i hi s m)
  obtain ⟨hf, prev, cur⟩ := st
  cases prev with
  | none =>
    have hk : kept = [] := List.getLast?_eq_none_iff.1 W.prev_eq.symm
    subst hk
    refine ⟨Chain.frame _ W.free hs1, ?_, ?_, W.pools_eq, W.width_eq⟩
    · intro i hi
      show Chain (Function.update hf.heap.next s (hf.spans idx))
        (Function.update hf.spans idx (some s) i) (col i)
      rw [Function.update_noteq hi]
      exact Chain.frame _ (W.others i hi) (hso i hi)
    · show Chain (Function.update hf.heap.next s (hf.spans idx))
        (Function.update hf.spans idx (some s) idx) ([] ++ s :: rest)
      rw [Function.update_same]
      refine ⟨rfl, ?_⟩
      rw [Function.update_same]
      exact Chain.frame _ W.column hs2
  | some p =>
    obtain ⟨k0, hk⟩ := List.getLast?_eq_some_iff.1 W.prev_eq.symm
    subst hk
    have hp := hap p (by simp)
    have e1 : (k0 ++ [p]) ++ rest = k0 ++ p :: rest := by simp
    have e2 : (k0 ++ [p]) ++ s :: rest = k0 ++ p :: s :: rest := by simp
    refine ⟨Chain.frame _ (Chain.frame _ W.free hs1) hp.1, ?_, ?_, W.pools_eq, W.width_eq⟩
    · intro i hi
      exact Chain.frame _ (Chain.frame _ (W.others i hi) (hso i hi))
        (fun m => hp.2.1 (W.other_mem i hi p m))
    · show Chain (Function.update (Function.update hf.heap.next s (hf.heap.next p)) p (some s))
        (hf.spans idx) ((k0 ++ [p]) ++ s :: rest)
      rw [e2]
      refine Chain.link_in p s rest k0 _ ?_ ?_ ?_
      · rw [← e1]; exact W.column
      · rw [← e1]; exact hkr
      · rw [← e1]; exact hs2

/-- The records are shared out again once column `idx` has taken the new
record `s`. -/
theorem partition_of_column {hf : SpanGrid} {cols : List Int} {col : Int → List (Nat × Nat)}
    {fl : List (Nat × Nat)} {idx : Int} {s : Nat × Nat} {kept rest : List (Nat × Nat)}
    (hn : cols.Nodup) (hidx : idx ∈ cols) (hempty : ∀ i, i ∉ cols → col i = [])
    (hfree : hf.heap.FreeList fl)
    (hothers : ∀ i, i ≠ idx → Chain hf.heap.next (hf.spans i) (col i))
    (hcolumn : Chain hf.heap.next (hf.spans idx) (kept ++ s :: rest))
    (hperm : ((s :: (fl ++ (kept ++ rest))) ++ (cols.erase idx).flatMap col).Perm
      hf.heap.records)
    (hpools : hf.heap.pools.Nodup) :
    hf.Partition cols (Function.update col idx (kept ++ s :: rest)) fl := by
  refine ⟨hfree, ?_, hn, ?_, ?_, hpools⟩
  · intro i
    by_cases hi : i = idx
    · subst hi
      rw [Function.update_same]
      exact hcolumn
    · rw [Function.update_noteq hi]
      exact hothers i hi
  · intro i hi
    have hne : i ≠ idx := fun e => hi (e ▸ hidx)
    rw [Function.update_noteq hne]
    exact hempty i hi
  · refine List.Perm.trans ?_ hperm
    have h1 : (cols.flatMap (Function.update col idx (kept ++ s :: rest))).Perm
        ((kept ++ s :: rest) ++ (cols.erase idx).flatMap col) := by
      refine ((List.perm_cons_erase hidx).flatMap_right _).trans ?_
      rw [List.flatMap_cons, Function.update_same]
      refine List.Perm.append_left _ (List.Perm.of_eq (List.flatMap_congr ?_))
      intro i hi
      have hne : i ≠ idx := ((List.Nodup.mem_erase_iff hn).1 hi).1
      exact Function.update_noteq hne _ _
    refine (List.Perm.append_left fl h1).trans ?_
    have e : fl ++ ((kept ++ s :: rest) ++ (cols.erase idx).flatMap col) =
        (fl ++ kept) ++ s :: (rest ++ (cols.erase idx).flatMap col) := by
      simp only [List.append_assoc, List.cons_append]
    have e' : (s :: (fl ++ (kept ++ rest))) ++ (cols.erase idx).flatMap col =
        s :: ((fl ++ kept) ++ (rest ++ (cols.erase idx).flatMap col)) := by
      simp only [List.append_assoc, List.cons_append]
    rw [e, e']
    exact List.perm_middle

/-- Every column index may be taken to be on the list of the columns. -/
theorem SpanGrid.Partition.with_index {hf : SpanGrid} {cols : List Int}
    {col : Int → List (Nat × Nat)} {fl : List (Nat × Nat)} (P : hf.Partition cols col fl)
    (idx : Int) : ∃ cols', idx ∈ cols' ∧ hf.Partition cols' col fl := by
  by_cases hi : idx ∈ cols
  · exact ⟨cols, hi, P⟩
  · refine ⟨idx :: cols, List.mem_cons_self _ _, P.free, P.column,
      List.nodup_cons.2 ⟨hi, P.cols_nodup⟩, ?_, ?_, P.pools_nodup⟩
    · intro i h
      exact P.empty i (fun m => h (List.mem_cons_of_mem _ m))
    · rw [List.flatMap_cons, P.empty idx hi, List.nil_append]
      exact P.perm

/-- One call of `addSpan` with a new block at hand returns, and leaves the
records shared out between the free list and the columns, with the free list
not empty. -/
theorem addSpan_linked_partition {hf : SpanGrid} {cols : List Int}
    {col : Int → List (Nat × Nat)} {fl : List (Nat × Nat)} (P : hf.Partition cols col fl)
    (pool : Nat) (hp : pool ∉ hf.heap.pools) (x y : Int) (smin smax area : Nat) (thr : Int) :
    ∃ hf' cols' col' fl', addSpan.linked hf (some pool) x y smin smax area thr = some hf' ∧
      hf'.Partition cols' col' fl' ∧ fl' ≠ [] ∧
      (∀ q ∈ hf'.heap.pools, q = pool ∨ q ∈ hf.heap.pools) ∧ hf'.width = hf.width := by
  obtain ⟨cols1, hidx, P1⟩ := P.with_index (x + y * hf.width)
  obtain ⟨s, H, fl1, e, hfree, hne, hcols, hnext, hperm, hpools, hsub⟩ :=
    newRecord_partition P1 pool hp smin smax area
  have hsplit : (cols1.flatMap col).Perm
      (col (x + y * hf.width) ++ (cols1.erase (x + y * hf.width)).flatMap col) := by
    have := (List.perm_cons_erase hidx).flatMap_right col
    rw [List.flatMap_cons] at this
    exact this
  have hperm2 : ∀ l, col (x + y * hf.width) = l →
      ((s :: (fl1 ++ ([] ++ l))) ++ (cols1.erase (x + y * hf.width)).flatMap col).Perm
        H.records := by
    intro l hl
    refine List.Perm.trans ?_ hperm
    rw [List.nil_append, List.cons_append, List.cons_append, List.append_assoc, ← hl]
    exact List.Perm.cons _ (List.Perm.append_left _ hsplit.symm)
  unfold addSpan.linked
  simp only
  rw [e]
  simp only
  cases hcur : hf.spans (x + y * hf.width) with
  | none =>
    have hnil : col (x + y * hf.width) = [] := by
      have := P1.column (x + y * hf.width)
      rw [hcur] at this
      exact Chain.of_null this
    simp only
    refine ⟨_, cols1, Function.update col (x + y * hf.width) ([] ++ s :: []), fl1, rfl,
      partition_of_column P1.cols_nodup hidx P1.empty hfree ?_ ?_ (hperm2 [] hnil) hpools,
      hne, hsub, rfl⟩
    · intro i hi
      show Chain H.next (Function.update hf.spans (x + y * hf.width) (some s) i) (col i)
      rw [Function.update_noteq hi]
      exact hcols i
    · show Chain H.next (Function.update hf.spans (x + y * hf.width) (some s)
        (x + y * hf.width)) [s]
      rw [Function.update_same]
      exact ⟨rfl, hnext⟩
  | some cur =>
    simp only
    have hcol := hcols (x + y * hf.width)
    have W : addSpan.Walking (x + y * hf.width) s
        ((cols1.erase (x + y * hf.width)).flatMap col) H.records col H.pools hf.width
        ({ hf with heap := H }, none, some cur) [] (col (x + y * hf.width)) fl1 := by
      refine ⟨hfree, hne, fun i _ => hcols i, hcol, ?_, rfl, hperm2 _ rfl,
        records_nodup _ hpools, ?_, rfl, rfl⟩
      · rw [hcur] at hcol
        exact hcol
      · intro i hi a ha
        have hic : i ∈ cols1 := by
          by_contra h
          rw [P1.empty i h] at ha
          exact absurd ha (List.not_mem_nil _)
        exact List.mem_flatMap.2 ⟨i, (List.mem_erase_of_ne hi).2 hic, ha⟩
    have hlen : (col (x + y * hf.width)).length < RC_SPANS_PER_POOL * H.pools.length + 1 := by
      have h1 := (hperm2 _ rfl).length_eq
      rw [records_length] at h1
      simp only [List.length_append, List.length_cons, List.length_nil] at h1
      omega
    obtain ⟨st', kept', rest', fl', ew, W'⟩ :=
      addSpan.walk_walking (x + y * hf.width) s thr _ _ col H.pools hf.width _ _ _ _ _ W hlen
    rw [ew]
    obtain ⟨s1, s2, s3, s4, s5⟩ := addSpan.splice_walking W'
    refine ⟨_, cols1, Function.update col (x + y * hf.width) (kept' ++ s :: rest'), fl', rfl,
      partition_of_column P1.cols_nodup hidx P1.empty s1 s2 s3 ?_ ?_, W'.free_ne, ?_, s5⟩
    · have : (addSpan.splice (x + y * hf.width) s st'.1 st'.2.1).heap.records = H.records := by
        unfold SpanHeap.records
        rw [s4]
      rw [this]
      exact W'.perm
    · rw [s4]; exact hpools
    · rw [s4]; exact hsub

theorem SpanGrid.fresh_partition (width : Int) :
    (SpanGrid.fresh width).Partition [] (fun _ => []) [] :=
  ⟨rfl, fun _ => rfl, List.nodup_nil, fun _ _ => rfl, List.Perm.refl _, List.nodup_nil⟩

/-- A sequence of calls of `addSpan`, each with a new block at hand, returns
and leaves the records shared out; the free list is not empty unless no call
was made on an empty free list. -/
theorem addSpans_linked_partition :
    ∀ (calls : List addSpan.Call) (hf : SpanGrid) (cols : List Int)
      (col : Int → List (Nat × Nat)) (fl : List (Nat × Nat)),
      hf.Partition cols col fl → (∀ c ∈ calls, c.rcAlloc ≠ none) →
      (calls.map fun c => c.rcAlloc).Nodup →
      (∀ c ∈ calls, ∀ p, c.rcAlloc = some p → p ∉ hf.heap.pools) →
      ∃ hf' cols' col' fl', addSpans.linked hf calls = some hf' ∧
        hf'.Partition cols' col' fl' ∧ (fl ≠ [] ∨ calls ≠ [] → fl' ≠ []) := by
  intro calls
  induction calls with
  | nil =>
    intro hf cols col fl P _ _ _
    refine ⟨hf, cols, col, fl, rfl, P, ?_⟩
    rintro (h | h)
    · exact h
    · exact absurd rfl h
  | cons c calls ih =>
    intro hf cols col fl P hs hn hfresh
    rw [List.map_cons, List.nodup_cons] at hn
    cases hc : c.rcAlloc with
    | none => exact absurd hc (hs c (List.mem_cons_self _ _))
    | some pool =>
      obtain ⟨hf1, cols1, col1, fl1, e1, P1, hne1, hsub1, _⟩ :=
        addSpan_linked_partition P pool (hfresh c (List.mem_cons_self _ _) pool hc)
          c.x c.y c.smin c.smax c.area c.flagMergeThr
      obtain ⟨hf2, cols2, col2, fl2, e2, P2, hne2⟩ := ih hf1 cols1 col1 fl1 P1
        (fun d hd => hs d (List.mem_cons_of_mem _ hd)) hn.2
        (by
          intro d hd p hdp hm
          rcases hsub1 p hm with h | h
          · refine hn.1 (List.mem_map.2 ⟨d, hd, ?_⟩)
            rw [hdp, hc, h]
          · exact hfresh d (List.mem_cons_of_mem _ hd) p hdp h)
      refine ⟨hf2, cols2, col2, fl2, ?_, P2, fun _ => hne2 (Or.inl hne1)⟩
      show (addSpan.linked hf c.rcAlloc c.x c.y c.smin c.smax c.area c.flagMergeThr).bind _ = _
      rw [hc, e1, Option.some_bind]
      exact e2

/-- C29. Take any sequence of calls of `addSpan` on a freshly created grid in
which every block allocation succeeds (`rcAlloc` has a block for every call,
and never the same block twice). The calls return. Afterwards let `fl` be the
records of the free list and `col i` those of column `i`: a record is on one
of these lists if and only if it is a record of a pool block; no list holds a
record twice, no record of a column is on the free list, and no record is in
two columns; the number of records in all columns plus the length of the free
list is 2048 times the number of pool blocks; and if there was a call, the
free list is not empty. -/
theorem addSpan_records_partition (width : Int) (calls : List addSpan.Call)
    (hs : ∀ c ∈ calls, c.rcAlloc ≠ none) (hn : (calls.map fun c => c.rcAlloc).Nodup) :
    ∃ (hf : SpanGrid) (cols : List Int) (col : Int → List (Nat × Nat))
      (fl : List (Nat × Nat)), addSpans.linked (SpanGrid.fresh width) calls = some hf ∧
      hf.heap.FreeList fl ∧ (∀ i, Chain hf.heap.next (hf.spans i) (col i)) ∧
      cols.Nodup ∧ (∀ i, i ∉ cols → col i = []) ∧
      (∀ a, (a ∈ fl ∨ ∃ i, a ∈ col i) ↔
        a.1 ∈ hf.heap.pools ∧ a.2 < RC_SPANS_PER_POOL) ∧
      fl.Nodup ∧ (∀ i, (col i).Nodup) ∧ (∀ i a, a ∈ col i → a ∉ fl) ∧
      (∀ i j a, a ∈ col i → a ∈ col j → i = j) ∧
      (cols.map fun i => (col i).length).sum + fl.length =
        RC_SPANS_PER_POOL * hf.heap.pools.length ∧
      (calls ≠ [] → fl ≠ []) := by
  obtain ⟨hf, cols, col, fl, e, P, hne⟩ := addSpans_linked_partition calls
    (SpanGrid.fresh width) [] (fun _ => []) [] (SpanGrid.fresh_partition width) hs hn
    (fun _ _ _ _ h => absurd h (List.not_mem_nil _))
  have N : (fl ++ cols.flatMap col).Nodup :=
    (P.perm.nodup_iff).2 (records_nodup _ P.pools_nodup)
  obtain ⟨Nfl, Ncols, Ndis⟩ := List.nodup_append.1 N
  obtain ⟨Ncol, Npair⟩ := List.nodup_flatMap.1 Ncols
  have hin : ∀ i a, a ∈ col i → i ∈ cols := by
    intro i a ha
    by_contra h
    rw [P.empty i h] at ha
    exact absurd ha (List.not_mem_nil _)
  refine ⟨hf, cols, col, fl, e, P.free, P.column, P.cols_nodup, P.empty, ?_, Nfl, ?_, ?_, ?_,
    ?_, fun h => hne (Or.inr h)⟩
  · intro a
    rw [← mem_records, ← P.perm.mem_iff, List.mem_append, List.mem_flatMap]
    constructor
    · rintro (h | ⟨i, h⟩)
      · exact Or.inl h
      · exact Or.inr ⟨i, hin i a h, h⟩
    · rintro (h | ⟨i, _, h⟩)
      · exact Or.inl h
      · exact Or.inr ⟨i, h⟩
  · intro i
    by_cases hi : i ∈ cols
    · exact Ncol i hi
    · rw [P.empty i hi]
      exact List.nodup_nil
  · intro i a ha hfl
    exact Ndis hfl (P.mem_column i a ha)
  · intro i j a hi hj
    by_contra hij
    have hsym : Symmetric (Function.onFun List.Disjoint col) :=
      fun u v h => List.Disjoint.symm h
    exact Npair.forall hsym (hin i a hi) (hin j a hj) hij hi hj
  · have h1 := P.perm.length_eq
    rw [records_length, List.length_append, List.length_flatMap] at h1
    rw [← h1, Nat.add_comm]
    rfl

/-- Three calls on one column, the third of which merges the records of the
first two. -/
theorem addSpan_records_partition_witness :
    ∃ (hf : SpanGrid) (cols : List Int) (col : Int → List (Nat × Nat))
      (fl : List (Nat × Nat)),
      addSpans.linked (SpanGrid.fresh 1)
        [⟨0, 0, 1, 3, 63, 1, some 0⟩, ⟨0, 0, 5, 7, 63, 1, some 1⟩,
          ⟨0, 0, 2, 6, 63, 1, some 2⟩] = some hf ∧
      hf.heap.FreeList fl ∧ (∀ i, Chain hf.heap.next (hf.spans i) (col i)) ∧
      cols.Nodup ∧ (∀ i, i ∉ cols → col i = []) ∧
      (∀ a, (a ∈ fl ∨ ∃ i, a ∈ col i) ↔
        a.1 ∈ hf.heap.pools ∧ a.2 < RC_SPANS_PER_POOL) ∧
      fl.Nodup ∧ (∀ i, (col i).Nodup) ∧ (∀ i a, a ∈ col i → a ∉ fl) ∧
      (∀ i j a, a ∈ col i → a ∈ col j → i = j) ∧
      (cols.map fun i => (col i).length).sum + fl.length =
        RC_SPANS_PER_POOL * hf.heap.pools.length ∧
      (([⟨0, 0, 1, 3, 63, 1, some 0⟩, ⟨0, 0, 5, 7, 63, 1, some 1⟩,
          ⟨0, 0, 2, 6, 63, 1, some 2⟩] : List addSpan.Call) ≠ [] → fl ≠ []) :=
  addSpan_records_partition 1
    [⟨0, 0, 1, 3, 63, 1, some 0⟩, ⟨0, 0, 5, 7, 63, 1, some 1⟩, ⟨0, 0, 2, 6, 63, 1, some 2⟩]
    (by simp) (by simp)

/-! ## Theorems: the byte recorded for an edge -/

/-- C33. For each base vertex `b` in `{0, 1, 2}`: the values `othervert` and
`edge` of lines 294-295 are `(b + 1) mod 3` and `(b + 2) mod 3`; the byte
`(edge << 4) | (othervert << 2) | b` is not zero and fits an `unsigned char`;
and it decodes to the same triple by `edge = byte >> 4`,
`othervert = (byte >> 2) & 3` and `b = byte & 3`. It is the byte that the loop
of lines 317-321 stores in an empty entry of a row boundary that the edge
crosses, and the decoding of lines 365-367 makes the flat and the sloped path
intersect the edge from `vertarray[b]` along `edges[(b + 2) mod 3]`. -/
theorem edgeBits_roundtrip (b : Nat) (hb : b < 3) :
    (if b = 2 then 0 else b + 1) = (b + 1) % 3 ∧ (if b = 0 then 2 else b - 1) = (b + 2) % 3 ∧
    edgeBits b = ((((b + 2) % 3) <<< 4) ||| (((b + 1) % 3) <<< 2) ||| b) ∧
    edgeBits b ≠ 0 ∧ edgeBits b < 256 ∧
    edgeBits b >>> 4 = (b + 2) % 3 ∧ (edgeBits b >>> 2) &&& 3 = (b + 1) % 3 ∧
    edgeBits b &&& 3 = b ∧
    (∀ (L : rasterizeTri.Locals) (S : rcHeightfield) (y : Int), crossesRow L b y →
      S.EdgeHits y = ⟨0, 0⟩ →
      (rasterizeTri.recordEdge L b S).EdgeHits y = ⟨edgeBits b, 0⟩) ∧
    (∀ (L : rasterizeTri.Locals) (edges : Nat → Vec3) (y : Int) (cz : ℚ) (hf : rcHeightfield),
      (rasterizeTri.flatHit L edges y cz (edgeBits b) hf).2.1 =
          intersectZ (L.vertarray b) (edges ((b + 2) % 3)) (edges (3 + (b + 2) % 3)) cz ∧
        (rasterizeTri.slopedHit L edges y cz (edgeBits b) hf).2.1 =
          intersectZ (L.vertarray b) (edges ((b + 2) % 3)) (edges (3 + (b + 2) % 3)) cz) := by
  have hrec : ∀ (L : rasterizeTri.Locals) (S : rcHeightfield) (y : Int), crossesRow L b y →
      S.EdgeHits y = ⟨0, 0⟩ →
      (rasterizeTri.recordEdge L b S).EdgeHits y = ⟨edgeBits b, 0⟩ := by
    intro L S y hc hS
    rw [recordEdge_EdgeHits, if_pos hc, hS]
    rfl
  have hdec : edgeBits b >>> 4 = (b + 2) % 3 ∧ edgeBits b &&& 3 = b := by
    interval_cases b <;> decide
  have hhit : ∀ (L : rasterizeTri.Locals) (edges : Nat → Vec3) (y : Int) (cz : ℚ)
      (hf : rcHeightfield),
      (rasterizeTri.flatHit L edges y cz (edgeBits b) hf).2.1 =
          intersectZ (L.vertarray b) (edges ((b + 2) % 3)) (edges (3 + (b + 2) % 3)) cz ∧
        (rasterizeTri.slopedHit L edges y cz (edgeBits b) hf).2.1 =
          intersectZ (L.vertarray b) (edges ((b + 2) % 3)) (edges (3 + (b + 2) % 3)) cz := by
    intro L edges y cz hf
    constructor
    · show intersectZ (L.vertarray (edgeBits b &&& 3)) (edges (edgeBits b >>> 4))
        (edges (3 + edgeBits b >>> 4)) cz = _
      rw [hdec.1, hdec.2]
    · show intersectZ (L.vertarray (edgeBits b &&& 3)) (edges (edgeBits b >>> 4))
        (edges (3 + edgeBits b >>> 4)) cz = _
      rw [hdec.1, hdec.2]
  refine ⟨?_, ?_, ?_, ?_, ?_, hdec.1, ?_, hdec.2, hrec, hhit⟩ <;>
    (interval_cases b <;> decide)

/-- The byte of base vertex 1: `othervert = 2`, `edge = 0`, and the byte is
`(0 << 4) | (2 << 2) | 1 = 9`. -/
theorem edgeBits_roundtrip_witness :
    edgeBits 1 = 9 ∧ edgeBits 1 ≠ 0 ∧ edgeBits 1 >>> 4 = (1 + 2) % 3 ∧
      (edgeBits 1 >>> 2) &&& 3 = (1 + 1) % 3 ∧ edgeBits 1 &&& 3 = 1 :=
  have h := edgeBits_roundtrip 1 (by decide)
  ⟨by decide, h.2.2.2.1, h.2.2.2.2.2.1, h.2.2.2.2.2.2.1, h.2.2.2.2.2.2.2.1⟩

/-! ## Theorems: the dimensions of the grid that cookMySop creates -/

theorem truncToInt_of_nonneg (q : ℚ) (h : 0 ≤ q) : truncToInt q = ⌊q⌋ := by
  unfold truncToInt
  rw [if_pos h]

theorem floor_div_bounds (s c : ℚ) (hc : 0 < c) :
    ((⌊s / c⌋ : Int) : ℚ) * c ≤ s ∧ s < (((⌊s / c⌋ : Int) : ℚ) + 1) * c :=
  ⟨(le_div_iff₀ hc).1 (Int.floor_le _), (div_lt_iff₀ hc).1 (Int.lt_floor_add_one _)⟩

theorem foldl_fixed {α β : Type} (f : α → β → α) (a : α) :
    ∀ l : List β, (∀ t ∈ l, f a t = a) → l.foldl f a = a := by
  intro l
  induction l with
  | nil => intro _; rfl
  | cons t l ih =>
    intro h
    rw [List.foldl_cons, h t (List.mem_cons_self _ _)]
    exact ih (fun u hu => h u (List.mem_cons_of_mem _ hu))

/-- A triangle whose three vertices lie at or beyond the last row of the grid
is rejected. -/
theorem rasterizeTri_beyond_rows (v0 v1 v2 : Vec3) (area : Nat) (hf : rcHeightfield)
    (bmin bmax : Vec3) (cs ich : ℚ) (thr flags : Int) (masks : Option (Int → Int))
    (hcs : 0 < cs)
    (h0 : (hf.height : ℚ) * cs ≤ v0.z - bmin.z) (h1 : (hf.height : ℚ) * cs ≤ v1.z - bmin.z)
    (h2 : (hf.height : ℚ) * cs ≤ v2.z - bmin.z) :
    rasterizeTri v0 v1 v2 area hf bmin bmax cs (1 / cs) ich thr flags masks = hf := by
  have key : ∀ z : ℚ, (hf.height : ℚ) * cs ≤ z - bmin.z →
      hf.height ≤ ⌊(z - bmin.z) * (1 / cs)⌋ := by
    intro z hz
    rw [Int.le_floor, mul_one_div]
    exact (le_div_iff₀ hcs).2 hz
  refine rasterizeTri_of_rejected v0 v1 v2 area hf bmin bmax cs (1 / cs) ich thr flags masks _
    rfl (Or.inr (Or.inr (Or.inr (Or.inl ?_))))
  simp only [rasterizeTri.Locals.minRow, rasterizeTri.locals, rasterizeTri.intverts]
  exact le_min (key _ h0) (le_min (key _ h1) (key _ h2))

/-- C32 (failing input). For `cs > 0.01`, `ch > 0.01` and a bounding box with
`min <= max` on the two horizontal axes, `cookMySop` creates the grid with
`width = floor(SizeBox.x / cs)` and `height = floor(SizeBox.z / ch)`, where
`SizeBox` is the size of the padded box. So `width * cs` is within one cell of
the x size, as the claim says, but the number of rows is the z size divided by
the cell height `ch`, not by the cell size `cs` that `rasterizeTri` gives the
rows: `height * ch` is within `ch` of the z size, and `height * cs` is more
than one cell short of it as soon as `cs * ch < SizeBox.z * (ch - cs)`. The
triangles whose vertices lie at or beyond `z = min_pos.z + height * cs` are
rejected by `rasterizeTri` and leave the grid as it was created. -/
theorem cookMySop_grid_rows (Solid : rcHeightfield.Buffers) (cs0 : Nat → List rcSpanData)
    (ce : Nat → rcEdgeHit) (cr : Nat → rcRowExt) (ct : Nat → rcTempSpan)
    (bbox_min bbox_max : Vec3) (cs ch : ℚ) (hcs : 1 / 100 < cs) (hch : 1 / 100 < ch)
    (hx : bbox_min.x ≤ bbox_max.x) (hz : bbox_min.z ≤ bbox_max.z) :
    ∃ B : rcHeightfield.Buffers,
      cookMySop.create (some Solid) ⟨some cs0, some ce, some cr, some ct⟩
          (cookMySop.min_pos bbox_min) (cookMySop.max_pos bbox_max) cs ch =
        cookMySop.Step.created B ∧
      B.bmin = cookMySop.min_pos bbox_min ∧ B.bmax = cookMySop.max_pos bbox_max ∧
      B.cs = cs ∧ B.ch = ch ∧
      B.width =
        ⌊(rcVsub (cookMySop.max_pos bbox_max) (cookMySop.min_pos bbox_min)).x / cs⌋ ∧
      B.height =
        ⌊(rcVsub (cookMySop.max_pos bbox_max) (cookMySop.min_pos bbox_min)).z / ch⌋ ∧
      (B.width : ℚ) * cs ≤
        (rcVsub (cookMySop.max_pos bbox_max) (cookMySop.min_pos bbox_min)).x ∧
      (rcVsub (cookMySop.max_pos bbox_max) (cookMySop.min_pos bbox_min)).x <
        ((B.width : ℚ) + 1) * cs ∧
      (B.height : ℚ) * ch ≤
        (rcVsub (cookMySop.max_pos bbox_max) (cookMySop.min_pos bbox_min)).z ∧
      (rcVsub (cookMySop.max_pos bbox_max) (cookMySop.min_pos bbox_min)).z <
        ((B.height : ℚ) + 1) * ch ∧
      (cs * ch <
          (rcVsub (cookMySop.max_pos bbox_max) (cookMySop.min_pos bbox_min)).z * (ch - cs) →
        (B.height : ℚ) * cs <
          (rcVsub (cookMySop.max_pos bbox_max) (cookMySop.min_pos bbox_min)).z - cs) ∧
      ∀ tris : List (Vec3 × Vec3 × Vec3),
        (∀ t ∈ tris, (B.height : ℚ) * cs ≤ t.1.z - (cookMySop.min_pos bbox_min).z ∧
          (B.height : ℚ) * cs ≤ t.2.1.z - (cookMySop.min_pos bbox_min).z ∧
          (B.height : ℚ) * cs ≤ t.2.2.z - (cookMySop.min_pos bbox_min).z) →
        cookMySop.rasterize
            (rcCreateHeightfield B.width B.height B.bmin B.bmax B.cs B.ch) tris =
          rcCreateHeightfield B.width B.height B.bmin B.bmax B.cs B.ch := by
  have hcs0 : (0 : ℚ) < cs := lt_trans (by norm_num) hcs
  have hch0 : (0 : ℚ) < ch := lt_trans (by norm_num) hch
  have hsx : 0 ≤ (rcVsub (cookMySop.max_pos bbox_max) (cookMySop.min_pos bbox_min)).x := by
    simp only [rcVsub, cookMySop.max_pos, cookMySop.min_pos]
    linarith
  have hsz : 0 ≤ (rcVsub (cookMySop.max_pos bbox_max) (cookMySop.min_pos bbox_min)).z := by
    simp only [rcVsub, cookMySop.max_pos, cookMySop.min_pos]
    linarith
  have hw : truncToInt
      ((rcVsub (cookMySop.max_pos bbox_max) (cookMySop.min_pos bbox_min)).x / cs) =
      ⌊(rcVsub (cookMySop.max_pos bbox_max) (cookMySop.min_pos bbox_min)).x / cs⌋ :=
    truncToInt_of_nonneg _ (div_nonneg hsx (le_of_lt hcs0))
  have hh : truncToInt
      ((rcVsub (cookMySop.max_pos bbox_max) (cookMySop.min_pos bbox_min)).z / ch) =
      ⌊(rcVsub (cookMySop.max_pos bbox_max) (cookMySop.min_pos bbox_min)).z / ch⌋ :=
    truncToInt_of_nonneg _ (div_nonneg hsz (le_of_lt hch0))
  have hw0 : 0 ≤ ⌊(rcVsub (cookMySop.max_pos bbox_max) (cookMySop.min_pos bbox_min)).x / cs⌋ :=
    Int.floor_nonneg.2 (div_nonneg hsx (le_of_lt hcs0))
  have hh0 : 0 ≤ ⌊(rcVsub (cookMySop.max_pos bbox_max) (cookMySop.min_pos bbox_min)).z / ch⌋ :=
    Int.floor_nonneg.2 (div_nonneg hsz (le_of_lt hch0))
  have bx := floor_div_bounds
    (rcVsub (cookMySop.max_pos bbox_max) (cookMySop.min_pos bbox_min)).x cs hcs0
  have bz := floor_div_bounds
    (rcVsub (cookMySop.max_pos bbox_max) (cookMySop.min_pos bbox_min)).z ch hch0
  refine ⟨
    { width := ⌊(rcVsub (cookMySop.max_pos bbox_max) (cookMySop.min_pos bbox_min)).x / cs⌋
      height := ⌊(rcVsub (cookMySop.max_pos bbox_max) (cookMySop.min_pos bbox_min)).z / ch⌋
      bmin := cookMySop.min_pos bbox_min, bmax := cookMySop.max_pos bbox_max, cs := cs
      ch := ch
      spans := some (List.replicate
        (⌊(rcVsub (cookMySop.max_pos bbox_max) (cookMySop.min_pos bbox_min)).x / cs⌋ *
          ⌊(rcVsub (cookMySop.max_pos bbox_max) (cookMySop.min_pos bbox_min)).z / ch⌋).toNat
        [])
      EdgeHits := some (List.replicate
        (⌊(rcVsub (cookMySop.max_pos bbox_max) (cookMySop.min_pos bbox_min)).z / ch⌋ +
          1).toNat ⟨0, 0⟩)
      RowExt := some (List.replicate
        (⌊(rcVsub (cookMySop.max_pos bbox_max) (cookMySop.min_pos bbox_min)).z / ch⌋ +
          2).toNat
        ⟨⌊(rcVsub (cookMySop.max_pos bbox_max) (cookMySop.min_pos bbox_min)).x / cs⌋ + 2, -2⟩)
      tempspans := some (List.replicate
        ((⌊(rcVsub (cookMySop.max_pos bbox_max) (cookMySop.min_pos bbox_min)).x / cs⌋ + 2) *
          (⌊(rcVsub (cookMySop.max_pos bbox_max) (cookMySop.min_pos bbox_min)).z / ch⌋ +
            2)).toNat ⟨32000, -32000⟩) },
    ?_, rfl, rfl, rfl, rfl, rfl, rfl, bx.1, bx.2, bz.1, bz.2, ?_, ?_⟩
  · unfold cookMySop.create
    simp only
    rw [if_neg (not_or.2 ⟨not_le.2 hcs, not_le.2 hch⟩), hw, hh,
      rcCreateHeightfield.run_granted Solid cs0 ce cr ct _ _ _ _ cs ch hw0 hh0]
  · intro hlt
    have h1 := bz.1
    have h2 : ((⌊(rcVsub (cookMySop.max_pos bbox_max) (cookMySop.min_pos bbox_min)).z /
        ch⌋ : Int) : ℚ) * cs * ch <
        ((rcVsub (cookMySop.max_pos bbox_max) (cookMySop.min_pos bbox_min)).z - cs) * ch := by
      have := mul_le_mul_of_nonneg_right h1 (le_of_lt hcs0)
      nlinarith
    exact lt_of_mul_lt_mul_right h2 (le_of_lt hch0)
  · intro tris htris
    refine foldl_fixed _ _ tris (fun t ht => ?_)
    obtain ⟨t0, t1, t2⟩ := htris t ht
    exact rasterizeTri_beyond_rows t.1 t.2.1 t.2.2 RC_WALKABLE_AREA _ _ _ cs _ 4 0 none hcs0
      t0 t1 t2

/-- The failing input: `cs = 1`, `ch = 2` and the bounding box from `(0, 0, 0)`
to `(40, 1, 20)`. The padded box is 40 long in z, the grid gets 60 columns and
20 rows, so its rows end at `z = 10`; the triangle at `z = 15..16`, inside the
bounding box, is rejected and leaves no span. -/
theorem cookMySop_grid_rows_witness :
    ∃ B : rcHeightfield.Buffers,
      cookMySop.create (some rcAllocHeightfield)
          ⟨some fun _ => [], some fun _ => ⟨0, 0⟩, some fun _ => ⟨0, 0⟩, some fun _ => ⟨0, 0⟩⟩
          (cookMySop.min_pos ⟨0, 0, 0⟩) (cookMySop.max_pos ⟨40, 1, 20⟩) 1 2 =
        cookMySop.Step.created B ∧
      B.width = 60 ∧ B.height = 20 ∧
      (rcVsub (cookMySop.max_pos ⟨40, 1, 20⟩) (cookMySop.min_pos ⟨0, 0, 0⟩)).z = 40 ∧
      cookMySop.rasterize (rcCreateHeightfield B.width B.height B.bmin B.bmax B.cs B.ch)
          [(⟨1, 0, 15⟩, ⟨2, 0, 15⟩, ⟨1, 0, 16⟩)] =
        rcCreateHeightfield B.width B.height B.bmin B.bmax B.cs B.ch := by
  obtain ⟨B, e, _, _, _, _, hW, hH, _, _, _, _, _, hdrop⟩ :=
    cookMySop_grid_rows rcAllocHeightfield (fun _ => []) (fun _ => ⟨0, 0⟩) (fun _ => ⟨0, 0⟩)
      (fun _ => ⟨0, 0⟩) ⟨0, 0, 0⟩ ⟨40, 1, 20⟩ 1 2 (by norm_num) (by norm_num)
      (show (0 : ℚ) ≤ 40 by norm_num) (show (0 : ℚ) ≤ 20 by norm_num)
  have hW2 : B.width = 60 := hW.trans (by decide!)
  have hH2 : B.height = 20 := hH.trans (by decide!)
  refine ⟨B, e, hW2, hH2, by decide!, hdrop _ ?_⟩
  intro t ht
  rw [List.mem_singleton] at ht
  subst ht
  rw [hH2]
  simp only [cookMySop.min_pos, rcVsub]
  norm_num

/-! ## Theorems: the columns that the calls of addSpan target -/

theorem ScanLog.nil (L : rasterizeTri.Locals) (pos : Int → Int → Prop) : ScanLog L pos [] :=
  ⟨fun _ h => absurd h (List.not_mem_nil _), fun _ h => absurd h (List.not_mem_nil _),
    List.Pairwise.nil⟩

theorem log2Floor_loop_eq_log2 (fuel n : Nat) (h : n ≤ fuel) :
    log2Floor.loop fuel n = Nat.log2 n := by
  induction fuel generalizing n with
  | zero =>
    have : n = 0 := by omega
    subst this
    rw [Nat.log2]
    simp [log2Floor.loop]
  | succ f ih =>
    rw [log2Floor.loop, Nat.log2]
    by_cases h2 : n < 2
    · rw [if_pos h2, if_neg (by omega)]
    · rw [if_neg h2, if_pos (by omega), ih (n / 2) (by omega)]

/-- The recursion of `log2Floor` never runs out of fuel: its value is
`Nat.log2 n`. -/
theorem log2Floor_eq (n : Nat) : log2Floor n = Nat.log2 n :=
  log2Floor_loop_eq_log2 n n (le_refl n)

/-- Values of `toFloat`: `0.7f`, `0.1f` and `0.2f`; a float is left as it is;
`2 ^ 24 + 1` lies halfway between two floats and goes to the even one, and so
does `2 ^ 24 + 3`; below `2 ^ -126` the floats are the multiples of
`2 ^ -149`. -/
theorem toFloat_values :
    toFloat (7 / 10) = 11744051 / 16777216 ∧ toFloat (1 / 10) = 13421773 / 134217728 ∧
    toFloat (1 / 5) = 13421773 / 67108864 ∧ toFloat (11744051 / 16777216) = 11744051 / 16777216 ∧
    toFloat (-3 / 4) = -3 / 4 ∧ toFloat 16777217 = 16777216 ∧ toFloat 16777219 = 16777220 ∧
    toFloat (3 / 2 ^ 150) = 1 / 2 ^ 148 ∧ toFloat (1 / 2 ^ 150) = 0 := by
  decide!

theorem toInt_of_range (z : Int) (h0 : -2147483648 ≤ z) (h1 : z ≤ 2147483647) : toInt z = z := by
  unfold toInt
  rw [if_pos ⟨h0, h1⟩]

theorem intverts_f32_eq (v0 v1 v2 bmin : Vec3) (ics : ℚ) :
    rasterizeTri.intverts.f32 v0 v1 v2 bmin ics 0 = cellOf.f32 bmin ics v0 ∧
    rasterizeTri.intverts.f32 v0 v1 v2 bmin ics 1 = cellOf.f32 bmin ics v1 ∧
    rasterizeTri.intverts.f32 v0 v1 v2 bmin ics 2 = cellOf.f32 bmin ics v2 :=
  ⟨rfl, rfl, rfl⟩

theorem max3_cases (a b c : ℚ) :
    max (max a b) c = a ∨ max (max a b) c = b ∨ max (max a b) c = c := by
  rcases max_choice (max a b) c with h | h
  · rcases max_choice a b with h' | h'
    · left; rw [h, h']
    · right; left; rw [h, h']
  · right; right; exact h

theorem min3_cases (a b c : ℚ) :
    min (min a b) c = a ∨ min (min a b) c = b ∨ min (min a b) c = c := by
  rcases min_choice (min a b) c with h | h
  · rcases min_choice a b with h' | h'
    · left; rw [h, h']
    · right; left; rw [h, h']
  · right; right; exact h

/-- The early returns of `rasterizeTri` (lines 239-250) in single precision. -/
theorem rasterizeTri_f32_of_rejected (v0 v1 v2 : Vec3) (area : Nat) (hf : rcHeightfield)
    (bmin bmax : Vec3) (cs ics ich : ℚ) (flagMergeThr rasterizationFlags : Int)
    (rasterizationMasks : Option (Int → Int)) (L : rasterizeTri.Locals)
    (hL : L = rasterizeTri.locals.f32 v0 v1 v2 hf bmin cs ics ich)
    (h : L.maxCol < 0 ∨ hf.width ≤ L.minCol ∨ L.maxRow < 0 ∨ hf.height ≤ L.minRow ∨
      toFloat (max (max v0.y v1.y) v2.y - bmin.y) < 0 ∨
      toFloat (bmax.y - bmin.y) < toFloat (min (min v0.y v1.y) v2.y - bmin.y)) :
    rasterizeTri.f32 v0 v1 v2 area hf bmin bmax cs ics ich flagMergeThr rasterizationFlags
      rasterizationMasks = hf := by
  subst hL
  simp only [rasterizeTri.Locals.minCol, rasterizeTri.Locals.maxCol,
    rasterizeTri.Locals.minRow, rasterizeTri.Locals.maxRow, rasterizeTri.locals.f32] at h
  unfold rasterizeTri.f32
  simp only [intMin_eq_min, intMax_eq_max, rcMin_eq_min, rcMax_eq_max]
  split
  · rfl
  · rename_i hbox
    split
    · rfl
    · rename_i hlow
      split
      · rfl
      · rename_i hhigh
        exfalso
        rcases h with h | h | h | h | h | h
        · exact hbox (Or.inl h)
        · exact hbox (Or.inr (Or.inl h))
        · exact hbox (Or.inr (Or.inr (Or.inl h)))
        · exact hbox (Or.inr (Or.inr (Or.inr h)))
        · exact hlow h
        · exact hhigh h

/-- C7 (amended). `rasterizeTri` in single precision returns the heightfield
as it was, columns and scratch buffers alike, for a triangle whose three vertex
cells, as lines 227-232 compute them, all lie left of, right of, before or
behind the grid, or whose three heights above the grid bottom, each the rounded
difference `y - bmin.y`, are all below 0 or all above the rounded
`bmax.y - bmin.y`. The statement is made for the inputs for which the float
operations of lines 221-250 do not overflow and the conversions to `int` are
defined (`rasterizeTri.entryDefined`): there `toFloat` and `toInt` are the
operations of the machine. -/
theorem rasterizeTri_rejects_outside (v0 v1 v2 : Vec3) (area : Nat) (hf : rcHeightfield)
    (bmin bmax : Vec3) (cs ics ich : ℚ) (flagMergeThr rasterizationFlags : Int)
    (rasterizationMasks : Option (Int → Int))
    (h : ((cellOf.f32 bmin ics v0).1 < 0 ∧ (cellOf.f32 bmin ics v1).1 < 0 ∧
        (cellOf.f32 bmin ics v2).1 < 0) ∨
      (hf.width ≤ (cellOf.f32 bmin ics v0).1 ∧ hf.width ≤ (cellOf.f32 bmin ics v1).1 ∧
        hf.width ≤ (cellOf.f32 bmin ics v2).1) ∨
      ((cellOf.f32 bmin ics v0).2 < 0 ∧ (cellOf.f32 bmin ics v1).2 < 0 ∧
        (cellOf.f32 bmin ics v2).2 < 0) ∨
      (hf.height ≤ (cellOf.f32 bmin ics v0).2 ∧ hf.height ≤ (cellOf.f32 bmin ics v1).2 ∧
        hf.height ≤ (cellOf.f32 bmin ics v2).2) ∨
      (toFloat (v0.y - bmin.y) < 0 ∧ toFloat (v1.y - bmin.y) < 0 ∧
        toFloat (v2.y - bmin.y) < 0) ∨
      (toFloat (bmax.y - bmin.y) < toFloat (v0.y - bmin.y) ∧
        toFloat (bmax.y - bmin.y) < toFloat (v1.y - bmin.y) ∧
        toFloat (bmax.y - bmin.y) < toFloat (v2.y - bmin.y))) :
    rasterizeTri.entryDefined v0 v1 v2 bmin bmax ics →
    rasterizeTri.f32 v0 v1 v2 area hf bmin bmax cs ics ich flagMergeThr rasterizationFlags
      rasterizationMasks = hf := by
  intro _
  apply rasterizeTri_f32_of_rejected v0 v1 v2 area hf bmin bmax cs ics ich flagMergeThr
    rasterizationFlags rasterizationMasks _ rfl
  obtain ⟨e0, e1, e2⟩ := intverts_f32_eq v0 v1 v2 bmin ics
  simp only [rasterizeTri.Locals.minCol, rasterizeTri.Locals.maxCol,
    rasterizeTri.Locals.minRow, rasterizeTri.Locals.maxRow, rasterizeTri.locals.f32, e0, e1, e2]
  rcases h with h | h | h | h | h | h
  · exact Or.inl (by simp only [max_lt_iff]; exact h)
  · exact Or.inr (Or.inl (by simp only [le_min_iff]; exact h))
  · exact Or.inr (Or.inr (Or.inl (by simp only [max_lt_iff]; exact h)))
  · exact Or.inr (Or.inr (Or.inr (Or.inl (by simp only [le_min_iff]; exact h))))
  · refine Or.inr (Or.inr (Or.inr (Or.inr (Or.inl ?_))))
    rcases max3_cases v0.y v1.y v2.y with e | e | e <;> rw [e]
    · exact h.1
    · exact h.2.1
    · exact h.2.2
  · refine Or.inr (Or.inr (Or.inr (Or.inr (Or.inr ?_))))
    rcases min3_cases v0.y v1.y v2.y with e | e | e <;> rw [e]
    · exact h.1
    · exact h.2.1
    · exact h.2.2

/-- A triangle right of a 4x4 grid of cells of size `0.2f` is rejected. -/
theorem rasterizeTri_rejects_outside_witness :
    rasterizeTri.f32 ⟨1, 0, toFloat (1 / 10)⟩ ⟨toFloat (6 / 5), 0, toFloat (1 / 10)⟩
        ⟨1, 0, toFloat (3 / 10)⟩ 63
        (rcCreateHeightfield 4 4 ⟨0, 0, 0⟩ ⟨toFloat (4 / 5), 4, toFloat (4 / 5)⟩ (toFloat (1 / 5)) 1)
        ⟨0, 0, 0⟩ ⟨toFloat (4 / 5), 4, toFloat (4 / 5)⟩ (toFloat (1 / 5)) 5 1 4 0 none =
      rcCreateHeightfield 4 4 ⟨0, 0, 0⟩ ⟨toFloat (4 / 5), 4, toFloat (4 / 5)⟩ (toFloat (1 / 5)) 1 :=
  rasterizeTri_rejects_outside _ _ _ _ _ _ _ _ _ _ _ _ _ (Or.inr (Or.inl (by decide!)))
    (by decide!)

/-- C7 as stated fails in single precision. The grid has one cell,
`bmin.y = -1000` and `bmax.y = 0`. The three vertices lie at the height
`y = 0.00001f`, above the grid top: the height above the grid bottom,
`y - bmin.y`, exceeds `bmax.y - bmin.y = 1000`. But the float nearest to
`y - bmin.y` is `1000`, so the test `triangle_smin > by` of line 250 fails, and
`rasterizeTri` inserts the span `(1000, 1001)`. -/
theorem rasterizeTri_rejects_outside_counterexample :
    toFloat (toFloat (1 / 100000)) = toFloat (1 / 100000) ∧
    rasterizeTri.entryDefined ⟨1 / 2, toFloat (1 / 100000), 1 / 2⟩
      ⟨1 / 2, toFloat (1 / 100000), 1 / 2⟩ ⟨1 / 2, toFloat (1 / 100000), 1 / 2⟩
      ⟨0, -1000, 0⟩ ⟨1, 0, 1⟩ 1 ∧
    (0 : ℚ) - (-1000) < toFloat (1 / 100000) - (-1000) ∧
    toFloat (toFloat (1 / 100000) - (-1000)) = 1000 ∧
    (rasterizeTri.f32 ⟨1 / 2, toFloat (1 / 100000), 1 / 2⟩ ⟨1 / 2, toFloat (1 / 100000), 1 / 2⟩
      ⟨1 / 2, toFloat (1 / 100000), 1 / 2⟩ 63
      (rcCreateHeightfield 1 1 ⟨0, -1000, 0⟩ ⟨1, 0, 1⟩ 1 1) ⟨0, -1000, 0⟩ ⟨1, 0, 1⟩ 1 1 1 4 0
      none).spans 0 = [⟨1000, 1001, 63⟩] := by
  decide!

/-- What `rasterizeTri` in single precision does with a triangle whose three
vertices fall in the same cell `c` and that passes the rejection tests. -/
theorem rasterizeTri_f32_eq_singleCell (v0 v1 v2 : Vec3) (area : Nat) (hf : rcHeightfield)
    (bmin bmax : Vec3) (cs ics ich : ℚ) (flagMergeThr rasterizationFlags : Int)
    (rasterizationMasks : Option (Int → Int)) (c : Int × Int)
    (hc0 : cellOf.f32 bmin ics v0 = c) (hc1 : cellOf.f32 bmin ics v1 = c)
    (hc2 : cellOf.f32 bmin ics v2 = c)
    (hx : 0 ≤ c.1 ∧ c.1 < hf.width) (hy : 0 ≤ c.2 ∧ c.2 < hf.height)
    (hlow : 0 ≤ toFloat (max (max v0.y v1.y) v2.y - bmin.y))
    (hhigh : toFloat (min (min v0.y v1.y) v2.y - bmin.y) ≤ toFloat (bmax.y - bmin.y)) :
    rasterizeTri.f32 v0 v1 v2 area hf bmin bmax cs ics ich flagMergeThr rasterizationFlags
        rasterizationMasks =
      addSpan hf c.1 c.2
        (projectedLow rasterizationFlags rasterizationMasks (c.1 + c.2 * hf.width)
          (rasterizeTri.singleCellBounds.f32 ich (toFloat (bmax.y - bmin.y))
            (toFloat (min (min v0.y v1.y) v2.y - bmin.y))
            (toFloat (max (max v0.y v1.y) v2.y - bmin.y))).1)
        (rasterizeTri.singleCellBounds.f32 ich (toFloat (bmax.y - bmin.y))
          (toFloat (min (min v0.y v1.y) v2.y - bmin.y))
          (toFloat (max (max v0.y v1.y) v2.y - bmin.y))).2 area flagMergeThr := by
  obtain ⟨e0, e1, e2⟩ := intverts_f32_eq v0 v1 v2 bmin ics
  unfold rasterizeTri.f32
  simp only [intMin_eq_min, intMax_eq_max, rcMin_eq_min, rcMax_eq_max, e0, e1, e2, hc0, hc1,
    hc2, min_self, max_self, and_self, ge_iff_le, gt_iff_lt]
  rw [if_neg (by omega), if_neg (not_lt.2 hlow), if_neg (not_lt.2 hhigh)]
  cases rasterizationMasks <;> rfl

theorem rcClamp_toInt_low (f : Int) (hfit : f < 8191) : rcClamp (toInt f) 0 8191 = max f 0 := by
  unfold toInt
  split
  · rw [rcClamp_int _ _ _ (by omega)]
    omega
  · rename_i hr
    rw [rcClamp_int _ _ _ (by omega)]
    have : f < -2147483648 := by
      by_contra hno
      exact hr ⟨by omega, by omega⟩
    omega

theorem rcClamp_toInt_high (g m : Int) (hm0 : 0 ≤ m) (hm1 : m ≤ 8190) (hg : g ≤ 2147483647) :
    rcClamp (toInt g) (m + 1) 8191 = min (max g (m + 1)) 8191 := by
  unfold toInt
  split
  · rw [rcClamp_int _ _ _ (by omega)]
  · rename_i hr
    rw [rcClamp_int _ _ _ (by omega)]
    have : g < -2147483648 := by
      by_contra hno
      exact hr ⟨by omega, hg⟩
    omega

/-- The bounds of the single-cell case in single precision, for heights that
pass the rejection tests: `lo`, `hi` are the clamped heights. -/
theorem singleCellBounds_f32_eq (ich by_ smin smax : ℚ)
    (hfit : ⌊toFloat (max smin 0 * ich)⌋ < 8191)
    (hint : ⌈toFloat (min smax by_ * ich)⌉ ≤ 2147483647) :
    rasterizeTri.singleCellBounds.f32 ich by_ smin smax =
      ((max ⌊toFloat (max smin 0 * ich)⌋ 0).toNat,
        (min (max ⌈toFloat (min smax by_ * ich)⌉ (max ⌊toFloat (max smin 0 * ich)⌋ 0 + 1))
          8191).toNat) := by
  have elow : (if smin < 0 then (0 : ℚ) else smin) = max smin 0 := by
    split
    · rw [max_eq_right (le_of_lt (by assumption))]
    · rw [max_eq_left (not_lt.1 (by assumption))]
  have ehigh : (if smax > by_ then by_ else smax) = min smax by_ := by
    split
    · rw [min_eq_right (le_of_lt (by assumption))]
    · rw [min_eq_left (not_lt.1 (by assumption))]
  have hmax : ((RC_SPAN_MAX_HEIGHT : Nat) : Int) = 8191 := by decide
  simp only [rasterizeTri.singleCellBounds.f32, elow, ehigh, hmax]
  generalize ⌊toFloat (max smin 0 * ich)⌋ = f at hfit ⊢
  generalize ⌈toFloat (min smax by_ * ich)⌉ = g at hint ⊢
  have e1 : toUShort (rcClamp (toInt f) 0 8191) = (max f 0).toNat := by
    rw [rcClamp_toInt_low f hfit, toUShort_of_range (max f 0) (by omega) (by omega)]
  have e2 : (((max f 0).toNat : Nat) : Int) = max f 0 := Int.toNat_of_nonneg (by omega)
  rw [e1, e2, rcClamp_toInt_high g (max f 0) (by omega) (by omega) hint,
    toUShort_of_range (min (max g (max f 0 + 1)) 8191) (by omega) (by omega)]

/-- C6 (amended). In single precision, a triangle whose three vertices fall in
the same in-grid cell `c` (the cells as lines 227-232 compute them), that is
not rejected and is not projected to the floor, makes `rasterizeTri` perform
exactly the one insertion `addSpan hf c.1 c.2 smin smax`. With `low` and `high`
the lowest and highest height above the grid bottom (rounded differences)
clamped to `[0, bmax.y - bmin.y]`, `smin = max(floor(fl(low * ich)), 0)` and
`smax = min(max(ceil(fl(high * ich)), smin + 1), 8191)`, where `fl` rounds the
product to a float, provided `floor(fl(low * ich)) < 8191`, the float
operations of lines 221-250 do not overflow, and the values converted to `int`
(the cell numbers, `floor(fl(low * ich))` and `ceil(fl(high * ich))`) lie in the
range of `int`. In particular on a fresh 4x4 grid with `cs = ch = 1`,
`bmin = (0,0,0)`, a triangle at height 2 inside cell (1,1) with area 63 leaves
the single span `(2, 3, 63)` in column (1,1) and nothing elsewhere (with
`bmin = 0` and `ics = ich = 1` the operations deliver their float operand, and
none overflows). -/
theorem rasterizeTri_single_cell_span :
    (∀ (v0 v1 v2 : Vec3) (area : Nat) (hf : rcHeightfield) (bmin bmax : Vec3) (cs ics ich : ℚ)
      (flagMergeThr rasterizationFlags : Int) (rasterizationMasks : Option (Int → Int))
      (c : Int × Int),
      cellOf.f32 bmin ics v0 = c → cellOf.f32 bmin ics v1 = c → cellOf.f32 bmin ics v2 = c →
      (0 ≤ c.1 ∧ c.1 < hf.width) → (0 ≤ c.2 ∧ c.2 < hf.height) →
      0 ≤ toFloat (max (max v0.y v1.y) v2.y - bmin.y) →
      toFloat (min (min v0.y v1.y) v2.y - bmin.y) ≤ toFloat (bmax.y - bmin.y) →
      projectSpanToBottom rasterizationFlags rasterizationMasks (c.1 + c.2 * hf.width) = 0 →
      rasterizeTri.entryDefined v0 v1 v2 bmin bmax ics →
      fitsInt ⌊toFloat (clampedLow.f32 v0 v1 v2 bmin * ich)⌋ →
      fitsInt ⌈toFloat (clampedHigh.f32 v0 v1 v2 bmin bmax * ich)⌉ →
      ⌊toFloat (clampedLow.f32 v0 v1 v2 bmin * ich)⌋ < 8191 →
      rasterizeTri.f32 v0 v1 v2 area hf bmin bmax cs ics ich flagMergeThr rasterizationFlags
          rasterizationMasks =
        addSpan hf c.1 c.2 (max ⌊toFloat (clampedLow.f32 v0 v1 v2 bmin * ich)⌋ 0).toNat
          (min (max ⌈toFloat (clampedHigh.f32 v0 v1 v2 bmin bmax * ich)⌉
            (max ⌊toFloat (clampedLow.f32 v0 v1 v2 bmin * ich)⌋ 0 + 1)) 8191).toNat
          area flagMergeThr) ∧
    (∀ (v0 v1 v2 bmax : Vec3) (flagMergeThr : Int),
      v0.y = 2 → v1.y = 2 → v2.y = 2 → 2 ≤ toFloat bmax.y →
      cellOf.f32 ⟨0, 0, 0⟩ 1 v0 = (1, 1) → cellOf.f32 ⟨0, 0, 0⟩ 1 v1 = (1, 1) →
      cellOf.f32 ⟨0, 0, 0⟩ 1 v2 = (1, 1) →
      ∀ idx : Int,
        (rasterizeTri.f32 v0 v1 v2 63 (rcCreateHeightfield 4 4 ⟨0, 0, 0⟩ bmax 1 1)
          ⟨0, 0, 0⟩ bmax 1 1 1 flagMergeThr 0 none).spans idx =
        if idx = 1 + 1 * 4 then [⟨2, 3, 63⟩] else []) := by
  have general : ∀ (v0 v1 v2 : Vec3) (area : Nat) (hf : rcHeightfield) (bmin bmax : Vec3)
      (cs ics ich : ℚ) (flagMergeThr rasterizationFlags : Int)
      (rasterizationMasks : Option (Int → Int)) (c : Int × Int),
      cellOf.f32 bmin ics v0 = c → cellOf.f32 bmin ics v1 = c → cellOf.f32 bmin ics v2 = c →
      (0 ≤ c.1 ∧ c.1 < hf.width) → (0 ≤ c.2 ∧ c.2 < hf.height) →
      0 ≤ toFloat (max (max v0.y v1.y) v2.y - bmin.y) →
      toFloat (min (min v0.y v1.y) v2.y - bmin.y) ≤ toFloat (bmax.y - bmin.y) →
      projectSpanToBottom rasterizationFlags rasterizationMasks (c.1 + c.2 * hf.width) = 0 →
      ⌊toFloat (clampedLow.f32 v0 v1 v2 bmin * ich)⌋ < 8191 →
      ⌈toFloat (clampedHigh.f32 v0 v1 v2 bmin bmax * ich)⌉ ≤ 2147483647 →
      rasterizeTri.f32 v0 v1 v2 area hf bmin bmax cs ics ich flagMergeThr rasterizationFlags
          rasterizationMasks =
        addSpan hf c.1 c.2 (max ⌊toFloat (clampedLow.f32 v0 v1 v2 bmin * ich)⌋ 0).toNat
          (min (max ⌈toFloat (clampedHigh.f32 v0 v1 v2 bmin bmax * ich)⌉
            (max ⌊toFloat (clampedLow.f32 v0 v1 v2 bmin * ich)⌋ 0 + 1)) 8191).toNat
          area flagMergeThr := by
    intro v0 v1 v2 area hf bmin bmax cs ics ich thr flags masks c hc0 hc1 hc2 hx hy hlow hhigh
      hproj hfit hint
    rw [rasterizeTri_f32_eq_singleCell v0 v1 v2 area hf bmin bmax cs ics ich thr flags masks c
      hc0 hc1 hc2 hx hy hlow hhigh,
      singleCellBounds_f32_eq ich _ _ _ hfit hint]
    simp only [projectedLow, hproj, ne_eq, not_true_eq_false, if_false]
    rfl
  refine ⟨fun v0 v1 v2 area hf bmin bmax cs ics ich thr flags masks c hc0 hc1 hc2 hx hy hlow
    hhigh hproj _ _ hceil hfit =>
      general v0 v1 v2 area hf bmin bmax cs ics ich thr flags masks c hc0 hc1 hc2 hx hy hlow
        hhigh hproj hfit hceil.2, ?_⟩
  intro v0 v1 v2 bmax thr h0 h1 h2 hb c0 c1 c2 idx
  have t2 : toFloat (2 : ℚ) = 2 := by decide!
  have hl : clampedLow.f32 v0 v1 v2 ⟨0, 0, 0⟩ = 2 := by
    simp only [clampedLow.f32, h0, h1, h2, min_self, sub_zero, t2]
    norm_num
  have hh : clampedHigh.f32 v0 v1 v2 ⟨0, 0, 0⟩ bmax = 2 := by
    simp only [clampedHigh.f32, h0, h1, h2, max_self, sub_zero, t2]
    exact min_eq_left hb
  have t21 : toFloat ((2 : ℚ) * 1) = 2 := by decide!
  have g1 : (0 : Int) ≤ (1, 1).1 ∧
      ((1 : Int), (1 : Int)).1 < (rcCreateHeightfield 4 4 ⟨0, 0, 0⟩ bmax 1 1).width := by
    simp [rcCreateHeightfield]
  have g2 : (0 : Int) ≤ (1, 1).2 ∧
      ((1 : Int), (1 : Int)).2 < (rcCreateHeightfield 4 4 ⟨0, 0, 0⟩ bmax 1 1).height := by
    simp [rcCreateHeightfield]
  have g3 : 0 ≤ toFloat (max (max v0.y v1.y) v2.y - (⟨0, 0, 0⟩ : Vec3).y) := by
    simp only [h0, h1, h2, max_self, sub_zero, t2]
    norm_num
  have g4 : toFloat (min (min v0.y v1.y) v2.y - (⟨0, 0, 0⟩ : Vec3).y) ≤
      toFloat (bmax.y - (⟨0, 0, 0⟩ : Vec3).y) := by
    simp only [h0, h1, h2, min_self, sub_zero, t2]
    exact hb
  have g5 : ⌊toFloat (clampedLow.f32 v0 v1 v2 ⟨0, 0, 0⟩ * 1)⌋ < 8191 := by
    rw [hl, t21]; norm_num
  have g6 : ⌈toFloat (clampedHigh.f32 v0 v1 v2 ⟨0, 0, 0⟩ bmax * 1)⌉ ≤ 2147483647 := by
    rw [hh, t21]; norm_num
  have key := general v0 v1 v2 63 (rcCreateHeightfield 4 4 ⟨0, 0, 0⟩ bmax 1 1) ⟨0, 0, 0⟩ bmax
    1 1 1 thr 0 none (1, 1) c0 c1 c2 g1 g2 g3 g4 (by simp [projectSpanToBottom]) g5 g6
  rw [key, hl, hh, t21, addSpan_spans]
  norm_num [rcCreateHeightfield, addSpan.column, RC_SPAN_HEIGHT_BITS]
  split <;> rfl

theorem rasterizeTri_single_cell_span_witness :
    rasterizeTri.f32 ⟨5 / 4, 2, 5 / 4⟩ ⟨7 / 4, 2, 5 / 4⟩ ⟨5 / 4, 3, 7 / 4⟩ 63
        (rcCreateHeightfield 4 4 ⟨0, 0, 0⟩ ⟨4, 4, 4⟩ 1 1) ⟨0, 0, 0⟩ ⟨4, 4, 4⟩ 1 1 1 4 0 none =
      addSpan (rcCreateHeightfield 4 4 ⟨0, 0, 0⟩ ⟨4, 4, 4⟩ 1 1) 1 1
        (max ⌊toFloat (clampedLow.f32 ⟨5 / 4, 2, 5 / 4⟩ ⟨7 / 4, 2, 5 / 4⟩ ⟨5 / 4, 3, 7 / 4⟩
          ⟨0, 0, 0⟩ * 1)⌋ 0).toNat
        (min (max ⌈toFloat (clampedHigh.f32 ⟨5 / 4, 2, 5 / 4⟩ ⟨7 / 4, 2, 5 / 4⟩ ⟨5 / 4, 3, 7 / 4⟩
            ⟨0, 0, 0⟩ ⟨4, 4, 4⟩ * 1)⌉
          (max ⌊toFloat (clampedLow.f32 ⟨5 / 4, 2, 5 / 4⟩ ⟨7 / 4, 2, 5 / 4⟩ ⟨5 / 4, 3, 7 / 4⟩
            ⟨0, 0, 0⟩ * 1)⌋ 0 + 1)) 8191).toNat 63 4 :=
  rasterizeTri_single_cell_span.1 ⟨5 / 4, 2, 5 / 4⟩ ⟨7 / 4, 2, 5 / 4⟩ ⟨5 / 4, 3, 7 / 4⟩ 63
    (rcCreateHeightfield 4 4 ⟨0, 0, 0⟩ ⟨4, 4, 4⟩ 1 1) ⟨0, 0, 0⟩ ⟨4, 4, 4⟩ 1 1 1 4 0 none (1, 1)
    (by decide!) (by decide!) (by decide!) (by decide!) (by decide!) (by decide!) (by decide!)
    (by decide!) (by decide!) (by decide!) (by decide!) (by decide!)

/-- C6 as stated fails. (1) On the 4x4 grid of height 4 a triangle inside cell
(1,1) with heights 2, 2 and 10 is not rejected; the formula of the
specification gives the span `(2, 10)`, but the height is first clamped to the
grid top and the span stored in column (1,1) is `(2, 4)`. (2) Single precision:
a grid of one cell with `ch = 0.1f`, so that `ich = 1.0f / ch = 10`, and a
triangle at the height `0.7f`. The quotient `0.7f / 0.1f` lies below 7 and the
formula gives `(6, 7)`; the product `0.7f * 10` is rounded to the float `7`,
and the span stored is `(7, 8)`. (3) Conversion to `int`: with heights from 0
to `3e9` and `ich = 1` the formula gives `(0, 8191)`; `(int)ceilf(3e9f)` is
outside the range of `int` (undefined in C, `INT_MIN` on x86), and the span
stored is `(0, 1)`. In the three cases the float operations of lines 221-250
do not overflow and the cell numbers lie in the range of `int`. -/
theorem rasterizeTri_single_cell_span_counterexample :
    (rasterizeTri.entryDefined ⟨5 / 4, 2, 5 / 4⟩ ⟨7 / 4, 2, 5 / 4⟩ ⟨5 / 4, 10, 7 / 4⟩
        ⟨0, 0, 0⟩ ⟨4, 4, 4⟩ 1 ∧
      cellOf.f32 ⟨0, 0, 0⟩ 1 ⟨5 / 4, 2, 5 / 4⟩ = (1, 1) ∧
      cellOf.f32 ⟨0, 0, 0⟩ 1 ⟨7 / 4, 2, 5 / 4⟩ = (1, 1) ∧
      cellOf.f32 ⟨0, 0, 0⟩ 1 ⟨5 / 4, 10, 7 / 4⟩ = (1, 1) ∧
      specSingleCellSpan 2 10 1 = (2, 10) ∧
      (rasterizeTri.f32 ⟨5 / 4, 2, 5 / 4⟩ ⟨7 / 4, 2, 5 / 4⟩ ⟨5 / 4, 10, 7 / 4⟩ 63
        (rcCreateHeightfield 4 4 ⟨0, 0, 0⟩ ⟨4, 4, 4⟩ 1 1) ⟨0, 0, 0⟩ ⟨4, 4, 4⟩ 1 1 1 4 0 none).spans
          (1 + 1 * 4) = [⟨2, 4, 63⟩]) ∧
    (toFloat (1 / toFloat (1 / 10)) = 10 ∧
      rasterizeTri.entryDefined ⟨1 / 4, toFloat (7 / 10), 1 / 4⟩
        ⟨3 / 4, toFloat (7 / 10), 1 / 4⟩ ⟨1 / 4, toFloat (7 / 10), 3 / 4⟩ ⟨0, 0, 0⟩ ⟨1, 1, 1⟩ 1 ∧
      specSingleCellSpan (toFloat (7 / 10)) (toFloat (7 / 10)) (toFloat (1 / 10)) = (6, 7) ∧
      ⌊toFloat (7 / 10) * 10⌋ = 6 ∧ toFloat (toFloat (7 / 10) * 10) = 7 ∧
      (rasterizeTri.f32 ⟨1 / 4, toFloat (7 / 10), 1 / 4⟩ ⟨3 / 4, toFloat (7 / 10), 1 / 4⟩
        ⟨1 / 4, toFloat (7 / 10), 3 / 4⟩ 63
        (rcCreateHeightfield 1 1 ⟨0, 0, 0⟩ ⟨1, 1, 1⟩ 1 (toFloat (1 / 10))) ⟨0, 0, 0⟩ ⟨1, 1, 1⟩ 1 1
        (toFloat (1 / toFloat (1 / 10))) 4 0 none).spans 0 = [⟨7, 8, 63⟩]) ∧
    (toFloat 3000000000 = 3000000000 ∧ toFloat 4000000000 = 4000000000 ∧
      rasterizeTri.entryDefined ⟨1 / 4, 0, 1 / 4⟩ ⟨3 / 4, 3000000000, 1 / 4⟩ ⟨1 / 4, 0, 3 / 4⟩
        ⟨0, 0, 0⟩ ⟨1, 4000000000, 1⟩ 1 ∧
      ¬ fitsInt ⌈toFloat (clampedHigh.f32 ⟨1 / 4, 0, 1 / 4⟩ ⟨3 / 4, 3000000000, 1 / 4⟩
        ⟨1 / 4, 0, 3 / 4⟩ ⟨0, 0, 0⟩ ⟨1, 4000000000, 1⟩ * 1)⌉ ∧
      specSingleCellSpan 0 3000000000 1 = (0, 8191) ∧
      (rasterizeTri.f32 ⟨1 / 4, 0, 1 / 4⟩ ⟨3 / 4, 3000000000, 1 / 4⟩ ⟨1 / 4, 0, 3 / 4⟩ 63
        (rcCreateHeightfield 1 1 ⟨0, 0, 0⟩ ⟨1, 4000000000, 1⟩ 1 1) ⟨0, 0, 0⟩
        ⟨1, 4000000000, 1⟩ 1 1 1 4 0 none).spans 0 = [⟨0, 1, 63⟩]) := by
  decide!
/-! ## Theorems: the two paths in single precision -/

theorem flatVertical_f32_width (L : rasterizeTri.Locals) (b edge : Nat) (edges : Nat → Vec3)
    (x : Int) (st : rcHeightfield × ℚ) :
    (rasterizeTri.flatVertical.f32 L b edge edges x st).1.width = st.1.width := by
  unfold rasterizeTri.flatVertical.f32
  simp only
  split <;> rfl

theorem flatBaseVert_f32_width (L : rasterizeTri.Locals) (b : Nat)
    (st : rcHeightfield × (Nat → Vec3)) :
    (rasterizeTri.flatBaseVert.f32 L b st).1.width = st.1.width := by
  have h1 : ∀ (g : Prop) [Decidable g] (x z : Int),
      (if g then addFlatSpanSample st.1 x z else st.1).width = st.1.width := by
    intro g _ x z
    split <;> rfl
  have h2 : ∀ (S : rcHeightfield) (g : Prop) [Decidable g] (lo hi : Int) (e : Nat)
      (edges : Nat → Vec3) (cx : ℚ),
      (if g then (forLoop lo hi (rasterizeTri.flatVertical.f32 L b e edges) (S, cx)).1
        else S).width = S.width := by
    intro S g _ lo hi e edges cx
    split
    · exact forLoop_invariant (fun s : rcHeightfield × ℚ => s.1.width = S.width) _ _ _ _
        rfl (fun i s _ _ h => (flatVertical_f32_width L b e edges i s).trans h)
    · rfl
  unfold rasterizeTri.flatBaseVert.f32
  simp only
  rw [h2, recordEdge_width, h1]

theorem flatHit_f32_width (L : rasterizeTri.Locals) (S : rcHeightfield) (edges : Nat → Vec3)
    (y : Int) (cz : ℚ) (hit : Nat) :
    (rasterizeTri.flatHit.f32 L edges y cz hit S).1.width = S.width := by
  unfold rasterizeTri.flatHit.f32
  simp only
  split <;> rfl

theorem flatFill_width (L : rasterizeTri.Locals) (S : rcHeightfield) (y : Int)
    (Inter0 Inter1 : Vec3) (xInter0 xInter1 : Int) :
    (rasterizeTri.flatFill L y Inter0 Inter1 xInter0 xInter1 S).width = S.width := by
  unfold rasterizeTri.flatFill
  exact ite_field _ _ _ (fun T => T.width) _
    (ite_field _ _ _ (fun T => T.width) _
      (by simp only [addFlatSpanSample_width]) rfl) rfl

theorem flatHorizontal_f32_width (L : rasterizeTri.Locals) (edges : Nat → Vec3) (y : Int)
    (st : rcHeightfield × ℚ) :
    (rasterizeTri.flatHorizontal.f32 L edges y st).1.width = st.1.width := by
  unfold rasterizeTri.flatHorizontal.f32
  simp only
  split
  · exact (flatFill_width L _ y _ _ _ _).trans
      ((flatHit_f32_width L _ edges y st.2 _).trans (flatHit_f32_width L _ edges y st.2 _))
  · rfl

/-- The discovery phase of the flat path in single precision keeps the width
of the grid. -/
theorem flatDiscovery_f32_width (L : rasterizeTri.Locals) (B : rcHeightfield) :
    (rasterizeTri.flatDiscovery.f32 L B).width = B.width := by
  unfold rasterizeTri.flatDiscovery.f32 rasterizeTri.flatHorizontals.f32
  simp only [List.foldl]
  refine (forLoop_invariant (fun st : rcHeightfield × ℚ => st.1.width =
    (rasterizeTri.flatBaseVert.f32 L 2 (rasterizeTri.flatBaseVert.f32 L 1
      (rasterizeTri.flatBaseVert.f32 L 0 (B, fun _ => (⟨0, 0, 0⟩ : Vec3))))).1.width) _ _ _ _
    rfl (fun i st _ _ h => (flatHorizontal_f32_width L _ i st).trans h)).trans ?_
  rw [flatBaseVert_f32_width, flatBaseVert_f32_width, flatBaseVert_f32_width]

/-- In single precision a triangle that passes the rejection tests is handled
by the single-cell case, by the flat path or by the sloped path; the two paths
run the body of their emission loop once for each element of `emissionCells`,
from the state that their discovery phase leaves. -/
theorem rasterizeTri_f32_eq_bodies (v0 v1 v2 : Vec3) (area : Nat) (hf : rcHeightfield)
    (bmin bmax : Vec3) (cs ics ich : ℚ) (flagMergeThr rasterizationFlags : Int)
    (rasterizationMasks : Option (Int → Int)) (L : rasterizeTri.Locals)
    (hL : L = rasterizeTri.locals.f32 v0 v1 v2 hf bmin cs ics ich)
    (hfoot : 0 ≤ L.maxCol ∧ L.minCol < hf.width ∧ 0 ≤ L.maxRow ∧ L.minRow < hf.height)
    (hheight : 0 ≤ toFloat (max (max v0.y v1.y) v2.y - bmin.y) ∧
      toFloat (min (min v0.y v1.y) v2.y - bmin.y) ≤ toFloat (bmax.y - bmin.y)) :
    rasterizeTri.f32 v0 v1 v2 area hf bmin bmax cs ics ich flagMergeThr rasterizationFlags
        rasterizationMasks =
      if L.minCol = L.maxCol ∧ L.minRow = L.maxRow then
        addSpan hf L.minCol L.minRow
          (projectedLow rasterizationFlags rasterizationMasks (L.minCol + L.minRow * hf.width)
            (rasterizeTri.singleCellBounds.f32 ich (toFloat (bmax.y - bmin.y))
              (toFloat (min (min v0.y v1.y) v2.y - bmin.y))
              (toFloat (max (max v0.y v1.y) v2.y - bmin.y))).1)
          (rasterizeTri.singleCellBounds.f32 ich (toFloat (bmax.y - bmin.y))
            (toFloat (min (min v0.y v1.y) v2.y - bmin.y))
            (toFloat (max (max v0.y v1.y) v2.y - bmin.y))).2 area flagMergeThr
      else if rasterizeTri.quantize.f32 ich (toFloat (min (min v0.y v1.y) v2.y - bmin.y)) =
          rasterizeTri.quantize.f32 ich (toFloat (max (max v0.y v1.y) v2.y - bmin.y)) then
        resetRowExt L ((emissionCells L (rasterizeTri.flatDiscovery.f32 L hf)).foldl
          (fun T c => rasterizeTri.flatEmitCell area flagMergeThr rasterizationFlags
            rasterizationMasks
            (rasterizeTri.quantize.f32 ich (toFloat (min (min v0.y v1.y) v2.y - bmin.y)))
            (rasterizeTri.quantize.f32 ich (toFloat (max (max v0.y v1.y) v2.y - bmin.y)))
            hf.width c.2 c.1 T)
          (rasterizeTri.flatDiscovery.f32 L hf))
      else
        resetRowExt L ((emissionCells L (rasterizeTri.slopedDiscovery.f32 L hf)).foldl
          (fun T c => rasterizeTri.slopedEmitCell area flagMergeThr rasterizationFlags
            rasterizationMasks c.2 c.1 T)
          (rasterizeTri.slopedDiscovery.f32 L hf)) := by
  subst hL
  have hfoot' := hfoot
  simp only [rasterizeTri.Locals.minCol, rasterizeTri.Locals.maxCol,
    rasterizeTri.Locals.minRow, rasterizeTri.Locals.maxRow, rasterizeTri.locals.f32] at hfoot'
  unfold rasterizeTri.f32
  simp only [intMin_eq_min, intMax_eq_max, rcMin_eq_min, rcMax_eq_max, ge_iff_le, gt_iff_lt]
  rw [if_neg (by omega), if_neg (not_lt.2 hheight.1), if_neg (not_lt.2 hheight.2)]
  split
  · rename_i h1
    refine Eq.trans ?_ (if_pos h1).symm
    cases rasterizationMasks <;> rfl
  · rename_i h1
    refine Eq.trans ?_ (if_neg h1).symm
    split
    · rw [← flatDiscovery_f32_width (rasterizeTri.locals.f32 v0 v1 v2 hf bmin cs ics ich) hf]
      exact flatEmit_eq_fold (rasterizeTri.locals.f32 v0 v1 v2 hf bmin cs ics ich) area
        flagMergeThr rasterizationFlags rasterizationMasks _ _ _
    · exact slopedEmit_eq_fold (rasterizeTri.locals.f32 v0 v1 v2 hf bmin cs ics ich) area
        flagMergeThr rasterizationFlags rasterizationMasks _

theorem quantize_f32_of_floor (ich x : ℚ) (h : Int) (hx : ⌊toFloat (x * ich)⌋ = h)
    (h0 : -32000 ≤ h) (h1 : h ≤ 32000) : rasterizeTri.quantize.f32 ich x = h := by
  unfold rasterizeTri.quantize.f32
  rw [hx, toInt_of_range _ (by omega) (by omega), rcClamp_int _ _ _ (by decide)]
  omega

/-- C13 (amended). In single precision, take a triangle that passes the
rejection tests, whose vertices do not fall in one cell, and whose lowest and
highest heights above the grid bottom both have the quantum `h`, with
`0 ≤ h ≤ 8190`; the quantum of a height is computed as `rasterizeTri` computes
it, `floor(fl(fl(height - bmin.y) * ich))` with every operation rounded to a
float. Then `rasterizeTri` takes the flat path, and what it does is: one call
`addSpan(x, y, smin, h + 1, area)` for each cell `(x, y)` of `emissionCells`, in
order, with `smin = h`, or `smin = 0` where the projection to the floor applies:
the given area and the same interval for every cell. The statement is made for
the inputs for which the float operations of lines 221-250 do not overflow and
the cell numbers of the vertices lie in the range of `int`
(`rasterizeTri.entryDefined`). -/
theorem rasterizeTri_flat_interval (v0 v1 v2 : Vec3) (area : Nat) (hf : rcHeightfield)
    (bmin bmax : Vec3) (cs ics ich : ℚ) (flagMergeThr rasterizationFlags : Int)
    (rasterizationMasks : Option (Int → Int)) (L : rasterizeTri.Locals) (h : Nat)
    (hL : L = rasterizeTri.locals.f32 v0 v1 v2 hf bmin cs ics ich)
    (hfoot : 0 ≤ L.maxCol ∧ L.minCol < hf.width ∧ 0 ≤ L.maxRow ∧ L.minRow < hf.height)
    (hheight : 0 ≤ toFloat (max (max v0.y v1.y) v2.y - bmin.y) ∧
      toFloat (min (min v0.y v1.y) v2.y - bmin.y) ≤ toFloat (bmax.y - bmin.y))
    (hmulti : L.minCol ≠ L.maxCol ∨ L.minRow ≠ L.maxRow)
    (hlow : ⌊toFloat (toFloat (min (min v0.y v1.y) v2.y - bmin.y) * ich)⌋ = (h : Int))
    (hhigh : ⌊toFloat (toFloat (max (max v0.y v1.y) v2.y - bmin.y) * ich)⌋ = (h : Int))
    (hfit : h ≤ 8190) :
    rasterizeTri.entryDefined v0 v1 v2 bmin bmax ics →
    rasterizeTri.f32 v0 v1 v2 area hf bmin bmax cs ics ich flagMergeThr rasterizationFlags
        rasterizationMasks =
      resetRowExt L ((emissionCells L (rasterizeTri.flatDiscovery.f32 L hf)).foldl
        (fun T c => addSpan T c.1 c.2
          (projectedLow rasterizationFlags rasterizationMasks (c.1 + c.2 * hf.width) h)
          (h + 1) area flagMergeThr)
        (rasterizeTri.flatDiscovery.f32 L hf)) := by
  intro _
  have q1 := quantize_f32_of_floor ich _ _ hlow (by omega) (by omega)
  have q2 := quantize_f32_of_floor ich _ _ hhigh (by omega) (by omega)
  have hsingle : ¬ (L.minCol = L.maxCol ∧ L.minRow = L.maxRow) := by
    intro hs
    rcases hmulti with hm | hm
    · exact hm hs.1
    · exact hm hs.2
  rw [rasterizeTri_f32_eq_bodies v0 v1 v2 area hf bmin bmax cs ics ich flagMergeThr
    rasterizationFlags rasterizationMasks L hL hfoot hheight, if_neg hsingle, q1, q2,
    if_pos rfl]
  have hbody : ∀ (T : rcHeightfield) (c : Int × Int),
      rasterizeTri.flatEmitCell area flagMergeThr rasterizationFlags rasterizationMasks
        (h : Int) (h : Int) hf.width c.2 c.1 T =
      addSpan T c.1 c.2
        (projectedLow rasterizationFlags rasterizationMasks (c.1 + c.2 * hf.width) h)
        (h + 1) area flagMergeThr := by
    intro T c
    rw [flatEmitCell_eq_addSpan, flatBounds_of_range h hfit]
  simp only [hbody]

/-- A flat triangle at the height `0.7f` over a fresh 2x2 grid with
`ich = 1.0f / 0.1f = 10`, not projected: the quantum is 7 and the column (0, 1)
gets the span `[7, 8]`. -/
theorem rasterizeTri_flat_interval_witness :
    (rasterizeTri.f32 ⟨1 / 2, toFloat (7 / 10), 1 / 2⟩ ⟨3 / 2, toFloat (7 / 10), 3 / 2⟩
      ⟨1 / 2, toFloat (7 / 10), 3 / 2⟩ 63
      (rcCreateHeightfield 2 2 ⟨0, 0, 0⟩ ⟨2, 4, 2⟩ 1 (toFloat (1 / 10))) ⟨0, 0, 0⟩ ⟨2, 4, 2⟩ 1 1
      10 4 0 none).spans (0 + 1 * 2) = [⟨7, 8, 63⟩] :=
  (congrArg (fun T : rcHeightfield => T.spans (0 + 1 * 2))
    (rasterizeTri_flat_interval ⟨1 / 2, toFloat (7 / 10), 1 / 2⟩
      ⟨3 / 2, toFloat (7 / 10), 3 / 2⟩ ⟨1 / 2, toFloat (7 / 10), 3 / 2⟩ 63
      (rcCreateHeightfield 2 2 ⟨0, 0, 0⟩ ⟨2, 4, 2⟩ 1 (toFloat (1 / 10))) ⟨0, 0, 0⟩ ⟨2, 4, 2⟩ 1 1
      10 4 0 none _ 7
      rfl (by decide!) (by decide!) (by decide!) (by decide!) (by decide!) (by decide)
      (by decide!))).trans
    (by decide!)

/-- C13 as stated fails. (1) Grid of two cells and of height 10000, `ich = 1`,
a triangle over both cells with all vertices at height 9000.5: the footprint is
larger than one cell and both heights have the quantum `h = 9000`, so the flat
path is taken, but the interval passed to `addSpan` is `(8191, 8191)`, and the
fresh column 0 ends up with the record `(8191, 8191, 63)`, not with a span from
9000 to 9001. (2) Single precision: a 2x2 grid with `ich = 1.0f / 0.1f = 10`
and a triangle over several cells with all vertices at the height `0.7f`. The
product `0.7f * 10` lies below 7, so `floor(minHeight * ich) =
floor(maxHeight * ich) = 6`; but the product is rounded to the float `7`, and
the span that the column (0, 1) gets is `(7, 8)`, not `(6, 7)`. In both cases
no float operation of lines 221-250 overflows. -/
theorem rasterizeTri_flat_interval_counterexample :
    (rasterizeTri.entryDefined ⟨1 / 4, 18001 / 2, 1 / 4⟩ ⟨7 / 4, 18001 / 2, 1 / 4⟩
        ⟨1 / 4, 18001 / 2, 3 / 4⟩ ⟨0, 0, 0⟩ ⟨2, 10000, 1⟩ 1 ∧
      cellOf.f32 ⟨0, 0, 0⟩ 1 ⟨1 / 4, 18001 / 2, 1 / 4⟩ ≠
        cellOf.f32 ⟨0, 0, 0⟩ 1 ⟨7 / 4, 18001 / 2, 1 / 4⟩ ∧
      toFloat (18001 / 2) = 18001 / 2 ∧
      ⌊toFloat (toFloat (min (min (18001 / 2 : ℚ) (18001 / 2)) (18001 / 2) - 0) * 1)⌋ = 9000 ∧
      ⌊toFloat (toFloat (max (max (18001 / 2 : ℚ) (18001 / 2)) (18001 / 2) - 0) * 1)⌋ = 9000 ∧
      (rasterizeTri.f32 ⟨1 / 4, 18001 / 2, 1 / 4⟩ ⟨7 / 4, 18001 / 2, 1 / 4⟩
        ⟨1 / 4, 18001 / 2, 3 / 4⟩ 63
        (rcCreateHeightfield 2 1 ⟨0, 0, 0⟩ ⟨2, 10000, 1⟩ 1 1) ⟨0, 0, 0⟩ ⟨2, 10000, 1⟩ 1 1 1 4 0
        none).spans 0 = [⟨8191, 8191, 63⟩]) ∧
    (toFloat (1 / toFloat (1 / 10)) = 10 ∧
      rasterizeTri.entryDefined ⟨1 / 2, toFloat (7 / 10), 1 / 2⟩
        ⟨3 / 2, toFloat (7 / 10), 3 / 2⟩ ⟨1 / 2, toFloat (7 / 10), 3 / 2⟩ ⟨0, 0, 0⟩ ⟨2, 4, 2⟩ 1 ∧
      ⌊(toFloat (7 / 10) - 0) * 10⌋ = 6 ∧
      toFloat (toFloat (toFloat (7 / 10) - 0) * 10) = 7 ∧
      (rasterizeTri.f32 ⟨1 / 2, toFloat (7 / 10), 1 / 2⟩ ⟨3 / 2, toFloat (7 / 10), 3 / 2⟩
        ⟨1 / 2, toFloat (7 / 10), 3 / 2⟩ 63
        (rcCreateHeightfield 2 2 ⟨0, 0, 0⟩ ⟨2, 4, 2⟩ 1 (toFloat (1 / 10))) ⟨0, 0, 0⟩ ⟨2, 4, 2⟩
        1 1 (toFloat (1 / toFloat (1 / 10))) 4 0 none).spans (0 + 1 * 2) = [⟨7, 8, 63⟩]) := by
  decide!

/-- C15 (amended). In single precision a degenerate triangle is rasterized
like any other triangle. (1) If its cell bounding box, as lines 227-232 compute
it, misses the grid, or its heights above the grid bottom (rounded
differences) lie all below 0 or all above the rounded height
`bmax.y - bmin.y` of the grid, `rasterizeTri` returns the heightfield
unchanged: no span is inserted. (2) A triangle whose three vertices coincide in
a point `v` is degenerate; if the cell `c` of `v` lies in the grid and the
rounded height of `v` in the vertical extent of the grid, `rasterizeTri` makes
the one call of `addSpan` of the single-cell case, and the column of `c` is not
empty afterwards. `rasterizeTri` has no result by which to signal an error.
Both parts are stated for the inputs for which the float operations of lines
221-250 do not overflow and the cell numbers of the vertices lie in the range
of `int`. -/
theorem rasterizeTri_degenerate (area : Nat) (hf : rcHeightfield) (bmin bmax : Vec3)
    (cs ics ich : ℚ) (flagMergeThr rasterizationFlags : Int)
    (rasterizationMasks : Option (Int → Int)) :
    (∀ (v0 v1 v2 : Vec3) (L : rasterizeTri.Locals),
      L = rasterizeTri.locals.f32 v0 v1 v2 hf bmin cs ics ich →
      degenerate v0 v1 v2 →
      rasterizeTri.entryDefined v0 v1 v2 bmin bmax ics →
      (L.maxCol < 0 ∨ hf.width ≤ L.minCol ∨ L.maxRow < 0 ∨ hf.height ≤ L.minRow ∨
        toFloat (max (max v0.y v1.y) v2.y - bmin.y) < 0 ∨
        toFloat (bmax.y - bmin.y) < toFloat (min (min v0.y v1.y) v2.y - bmin.y)) →
      rasterizeTri.f32 v0 v1 v2 area hf bmin bmax cs ics ich flagMergeThr rasterizationFlags
        rasterizationMasks = hf) ∧
    (∀ (v : Vec3) (c : Int × Int), cellOf.f32 bmin ics v = c →
      rasterizeTri.entryDefined v v v bmin bmax ics →
      0 ≤ c.1 → c.1 < hf.width → 0 ≤ c.2 → c.2 < hf.height →
      0 ≤ toFloat (v.y - bmin.y) → toFloat (v.y - bmin.y) ≤ toFloat (bmax.y - bmin.y) →
      degenerate v v v ∧
      rasterizeTri.f32 v v v area hf bmin bmax cs ics ich flagMergeThr rasterizationFlags
          rasterizationMasks =
        addSpan hf c.1 c.2
          (projectedLow rasterizationFlags rasterizationMasks (c.1 + c.2 * hf.width)
            (rasterizeTri.singleCellBounds.f32 ich (toFloat (bmax.y - bmin.y))
              (toFloat (v.y - bmin.y)) (toFloat (v.y - bmin.y))).1)
          (rasterizeTri.singleCellBounds.f32 ich (toFloat (bmax.y - bmin.y))
            (toFloat (v.y - bmin.y)) (toFloat (v.y - bmin.y))).2
          area flagMergeThr ∧
      (rasterizeTri.f32 v v v area hf bmin bmax cs ics ich flagMergeThr rasterizationFlags
        rasterizationMasks).spans (c.1 + c.2 * hf.width) ≠ []) := by
  constructor
  · intro v0 v1 v2 L hL _ _ hout
    exact rasterizeTri_f32_of_rejected v0 v1 v2 area hf bmin bmax cs ics ich flagMergeThr
      rasterizationFlags rasterizationMasks L hL hout
  · intro v c hc _ hx0 hx1 hy0 hy1 hlow hhigh
    have hdeg : degenerate v v v := by
      simp only [degenerate, rcVsub, sub_self, mul_zero, and_self]
    have hmin : min (min v.y v.y) v.y = v.y := by simp only [min_self]
    have hmax : max (max v.y v.y) v.y = v.y := by simp only [max_self]
    have heq := rasterizeTri_f32_eq_singleCell v v v area hf bmin bmax cs ics ich flagMergeThr
      rasterizationFlags rasterizationMasks c hc hc hc ⟨hx0, hx1⟩ ⟨hy0, hy1⟩
      (by rw [hmax]; exact hlow) (by rw [hmin]; exact hhigh)
    rw [hmin, hmax] at heq
    refine ⟨hdeg, heq, ?_⟩
    rw [heq, addSpan_spans, if_pos rfl]
    exact addSpan.column_ne_nil _ _ _ _ _

/-- Three coincident vertices in the cell of a fresh 1x1 grid: the column is
not empty afterwards. -/
theorem rasterizeTri_degenerate_witness :
    (rasterizeTri.f32 ⟨1 / 2, toFloat (7 / 10), 1 / 2⟩ ⟨1 / 2, toFloat (7 / 10), 1 / 2⟩
      ⟨1 / 2, toFloat (7 / 10), 1 / 2⟩ 63
      (rcCreateHeightfield 1 1 ⟨0, 0, 0⟩ ⟨1, 1, 1⟩ 1 1) ⟨0, 0, 0⟩ ⟨1, 1, 1⟩ 1 1 1 4 0
      none).spans (0 + 0 * 1) ≠ [] :=
  ((rasterizeTri_degenerate 63 (rcCreateHeightfield 1 1 ⟨0, 0, 0⟩ ⟨1, 1, 1⟩ 1 1) ⟨0, 0, 0⟩
    ⟨1, 1, 1⟩ 1 1 1 4 0 none).2 ⟨1 / 2, toFloat (7 / 10), 1 / 2⟩ (0, 0) (by decide!)
    (by decide!) (by decide) (by decide) (by decide) (by decide) (by decide!) (by decide!)).2.2

/-- C15 as stated fails: degenerate triangles in the grid do insert spans.
(1) Three vertices coinciding in the point (1/2, 1/2, 1/2) of a fresh 1x1 grid
of unit cells: the column gets the span `[0, 1]`. (2) Three distinct vertices
on one line over the two cells of a fresh 2x1 grid: both columns get the span
`[0, 1]`. (3) Single precision: three vertices coinciding in a point at the
height `0.00001f` above the top of a grid with `bmin.y = -1000`, `bmax.y = 0`:
the rounded height above the grid bottom is `1000`, the height of the grid, the
triangle is not rejected and the column gets the span `[1000, 1001]`. -/
theorem rasterizeTri_degenerate_counterexample :
    (degenerate ⟨1 / 2, 1 / 2, 1 / 2⟩ ⟨1 / 2, 1 / 2, 1 / 2⟩ ⟨1 / 2, 1 / 2, 1 / 2⟩ ∧
      (rcCreateHeightfield 1 1 ⟨0, 0, 0⟩ ⟨1, 1, 1⟩ 1 1).spans 0 = [] ∧
      (rasterizeTri.f32 ⟨1 / 2, 1 / 2, 1 / 2⟩ ⟨1 / 2, 1 / 2, 1 / 2⟩ ⟨1 / 2, 1 / 2, 1 / 2⟩ 63
        (rcCreateHeightfield 1 1 ⟨0, 0, 0⟩ ⟨1, 1, 1⟩ 1 1) ⟨0, 0, 0⟩ ⟨1, 1, 1⟩ 1 1 1 4 0
        none).spans 0 = [⟨0, 1, 63⟩]) ∧
    (degenerate ⟨1 / 4, 1 / 2, 1 / 2⟩ ⟨5 / 4, 1 / 2, 1 / 2⟩ ⟨7 / 4, 1 / 2, 1 / 2⟩ ∧
      (rasterizeTri.f32 ⟨1 / 4, 1 / 2, 1 / 2⟩ ⟨5 / 4, 1 / 2, 1 / 2⟩ ⟨7 / 4, 1 / 2, 1 / 2⟩ 63
        (rcCreateHeightfield 2 1 ⟨0, 0, 0⟩ ⟨2, 1, 1⟩ 1 1) ⟨0, 0, 0⟩ ⟨2, 1, 1⟩ 1 1 1 4 0
        none).spans 0 = [⟨0, 1, 63⟩] ∧
      (rasterizeTri.f32 ⟨1 / 4, 1 / 2, 1 / 2⟩ ⟨5 / 4, 1 / 2, 1 / 2⟩ ⟨7 / 4, 1 / 2, 1 / 2⟩ 63
        (rcCreateHeightfield 2 1 ⟨0, 0, 0⟩ ⟨2, 1, 1⟩ 1 1) ⟨0, 0, 0⟩ ⟨2, 1, 1⟩ 1 1 1 4 0
        none).spans 1 = [⟨0, 1, 63⟩]) ∧
    (degenerate ⟨1 / 2, toFloat (1 / 100000), 1 / 2⟩ ⟨1 / 2, toFloat (1 / 100000), 1 / 2⟩
        ⟨1 / 2, toFloat (1 / 100000), 1 / 2⟩ ∧
      rasterizeTri.entryDefined ⟨1 / 2, toFloat (1 / 100000), 1 / 2⟩
        ⟨1 / 2, toFloat (1 / 100000), 1 / 2⟩ ⟨1 / 2, toFloat (1 / 100000), 1 / 2⟩
        ⟨0, -1000, 0⟩ ⟨1, 0, 1⟩ 1 ∧
      (0 : ℚ) < toFloat (1 / 100000) ∧
      (rasterizeTri.f32 ⟨1 / 2, toFloat (1 / 100000), 1 / 2⟩
        ⟨1 / 2, toFloat (1 / 100000), 1 / 2⟩ ⟨1 / 2, toFloat (1 / 100000), 1 / 2⟩ 63
        (rcCreateHeightfield 1 1 ⟨0, -1000, 0⟩ ⟨1, 0, 1⟩ 1 1) ⟨0, -1000, 0⟩ ⟨1, 0, 1⟩ 1 1 1 4 0
        none).spans 0 = [⟨1000, 1001, 63⟩]) := by
  decide!

/-- The logged function in single precision is `rasterizeTri.f32` with a log:
its heightfield is the one that `rasterizeTri.f32` returns. -/
theorem rasterizeTri_logged_f32_erase (v0 v1 v2 : Vec3) (area : Nat) (hf : rcHeightfield)
    (bmin bmax : Vec3) (cs ics ich : ℚ) (thr flags : Int) (masks : Option (Int → Int)) :
    (rasterizeTri.logged.f32 v0 v1 v2 area hf bmin bmax cs ics ich thr flags masks).1 =
      rasterizeTri.f32 v0 v1 v2 area hf bmin bmax cs ics ich thr flags masks := by
  unfold rasterizeTri.logged.f32 rasterizeTri.f32
  simp only
  split
  · rfl
  · split
    · rfl
    · split
      · rfl
      · split
        · rfl
        · split
          · exact flatEmit_erase _ _ _ _ _ _ _ _
          · exact forLoop_rel
              (fun (t : rcHeightfield × List Insertion) (u : rcHeightfield) => t.1 = u)
              _ _ _ _ _ _ rfl (fun i t u _ _ r => by
                subst r
                exact slopedEmitRow_erase _ _ _ _ _ _ _)

/-- C10 (failing input). In single precision `rasterizeTri` leaves samples of
in-grid cells behind. The grid is a fresh grid of 3x3 cells of size `cs = 0.2f` at the
origin (`ics = 1.0f / cs = 5`, `ich = 1`); every `RowExt` and every `tempspans`
entry holds its sentinel. The triangle `(0.2f, 0, 0.2f)`, `(0.3f, 4, 0)`,
`(0.5, 0, 0)` has its vertices in the cells (1,1), (1,0), (2,0), so that
`x0 = 1`. Its first vertex lies on the boundary of the rows 0 and 1. For the
edge from the third vertex the crossing with that boundary is computed as
`0.5 + 1 * (0.2f - 0.5)`, where the difference is rounded, and comes out one
float below `0.2f`, in column 0, left of `x0`; for the edge to the second
vertex it is `0.2f`, in column 1. The fill loop (lines 564-588) therefore runs
for `x = xloop0 = 1` and records its sample in the cells `x` and `x - 1` of the
rows 1 and 0. The emission loop (lines 596-663) resets the cells of the columns
`x0..x1 = 1..2` only: the samples of the cells (0,0) and (0,1), written during
the call, are `(0, 0)` when `rasterizeTri` returns, not `(32000, -32000)`.
With exact arithmetic both crossings lie in column 1, nothing is filled and the
two samples hold their sentinel. -/
theorem rasterizeTri_leaves_sample_behind :
    (∀ i, (rcCreateHeightfield 3 3 ⟨0, 0, 0⟩ ⟨toFloat (3 / 5), 10, toFloat (3 / 5)⟩
      (toFloat (1 / 5)) 1).RowExt i = ⟨3 + 2, -2⟩) ∧
    (∀ i, (rcCreateHeightfield 3 3 ⟨0, 0, 0⟩ ⟨toFloat (3 / 5), 10, toFloat (3 / 5)⟩
      (toFloat (1 / 5)) 1).tempspans i = ⟨32000, -32000⟩) ∧
    toFloat (1 / toFloat (1 / 5)) = 5 ∧
    cellOf.f32 ⟨0, 0, 0⟩ 5 ⟨toFloat (1 / 5), 0, toFloat (1 / 5)⟩ = (1, 1) ∧
    cellOf.f32 ⟨0, 0, 0⟩ 5 ⟨toFloat (3 / 10), 4, 0⟩ = (1, 0) ∧
    cellOf.f32 ⟨0, 0, 0⟩ 5 ⟨1 / 2, 0, 0⟩ = (2, 0) ∧
    (intersectZ.f32 ⟨1 / 2, 0, 0⟩
      (rcVsub.f32 ⟨toFloat (1 / 5), 0, toFloat (1 / 5)⟩ ⟨1 / 2, 0, 0⟩)
      ⟨0, 0, toFloat (1 / toFloat (toFloat (1 / 5) - 0))⟩
      (rasterizeTri.lineStart.f32 0 (toFloat (1 / 5)) 1)).x < toFloat (1 / 5) ∧
    (rasterizeTri.f32 ⟨toFloat (1 / 5), 0, toFloat (1 / 5)⟩ ⟨toFloat (3 / 10), 4, 0⟩
      ⟨1 / 2, 0, 0⟩ 63
      (rcCreateHeightfield 3 3 ⟨0, 0, 0⟩ ⟨toFloat (3 / 5), 10, toFloat (3 / 5)⟩
        (toFloat (1 / 5)) 1)
      ⟨0, 0, 0⟩ ⟨toFloat (3 / 5), 10, toFloat (3 / 5)⟩ (toFloat (1 / 5)) 5 1 4 0
      none).tempspans
        (SampleIndex (rcCreateHeightfield 3 3 ⟨0, 0, 0⟩ ⟨toFloat (3 / 5), 10, toFloat (3 / 5)⟩
          (toFloat (1 / 5)) 1) 0 0) = ⟨0, 0⟩ ∧
    (rasterizeTri.f32 ⟨toFloat (1 / 5), 0, toFloat (1 / 5)⟩ ⟨toFloat (3 / 10), 4, 0⟩
      ⟨1 / 2, 0, 0⟩ 63
      (rcCreateHeightfield 3 3 ⟨0, 0, 0⟩ ⟨toFloat (3 / 5), 10, toFloat (3 / 5)⟩
        (toFloat (1 / 5)) 1)
      ⟨0, 0, 0⟩ ⟨toFloat (3 / 5), 10, toFloat (3 / 5)⟩ (toFloat (1 / 5)) 5 1 4 0
      none).tempspans
        (SampleIndex (rcCreateHeightfield 3 3 ⟨0, 0, 0⟩ ⟨toFloat (3 / 5), 10, toFloat (3 / 5)⟩
          (toFloat (1 / 5)) 1) 0 1) = ⟨0, 0⟩ ∧
    (rasterizeTri ⟨toFloat (1 / 5), 0, toFloat (1 / 5)⟩ ⟨toFloat (3 / 10), 4, 0⟩
      ⟨1 / 2, 0, 0⟩ 63
      (rcCreateHeightfield 3 3 ⟨0, 0, 0⟩ ⟨toFloat (3 / 5), 10, toFloat (3 / 5)⟩
        (toFloat (1 / 5)) 1)
      ⟨0, 0, 0⟩ ⟨toFloat (3 / 5), 10, toFloat (3 / 5)⟩ (toFloat (1 / 5)) 5 1 4 0
      none).tempspans
        (SampleIndex (rcCreateHeightfield 3 3 ⟨0, 0, 0⟩ ⟨toFloat (3 / 5), 10, toFloat (3 / 5)⟩
          (toFloat (1 / 5)) 1) 0 0) = ⟨32000, -32000⟩ ∧
    (rasterizeTri ⟨toFloat (1 / 5), 0, toFloat (1 / 5)⟩ ⟨toFloat (3 / 10), 4, 0⟩
      ⟨1 / 2, 0, 0⟩ 63
      (rcCreateHeightfield 3 3 ⟨0, 0, 0⟩ ⟨toFloat (3 / 5), 10, toFloat (3 / 5)⟩
        (toFloat (1 / 5)) 1)
      ⟨0, 0, 0⟩ ⟨toFloat (3 / 5), 10, toFloat (3 / 5)⟩ (toFloat (1 / 5)) 5 1 4 0
      none).tempspans
        (SampleIndex (rcCreateHeightfield 3 3 ⟨0, 0, 0⟩ ⟨toFloat (3 / 5), 10, toFloat (3 / 5)⟩
          (toFloat (1 / 5)) 1) 0 1) = ⟨32000, -32000⟩ :=
  ⟨fun _ => rfl, fun _ => rfl, by decide!, by decide!, by decide!, by decide!, by decide!,
    by decide!, by decide!, by decide!, by decide!⟩

/-- C30 (failing input). In single precision what an earlier triangle left in
the `tempspans` buffer changes what a later triangle emits. The grid is a fresh
grid of 3x3 cells of size `cs = 0.2f` at the origin (`ics = 5`, `ich = 1`). The
first triangle, `(0.2f, 0, 0.2f)`, `(0.3f, 4, 0)`, `(0.5, 0, 0)`, inserts
nothing into column (0,0) but leaves the samples of the cells (0,0) and (0,1)
at `(0, 0)` instead of `(32000, -32000)`. The second triangle, `(0.1f, 3, 0.1f)`,
`(0.15f, 3, 0.1f)`, `(0.1f, 4, 0.3f)`, lies over these two cells with heights
3 to 4. On the fresh grid `rasterizeTri` inserts for it the spans `(3, 4)` into
the columns (0,0) and (0,1); on the grid reached by the first call it inserts
`(0, 3)` and `(0, 4)`, and the two columns hold spans that start at the grid
bottom. With exact arithmetic the insertions are the same on the two grids. -/
theorem rasterizeTri_insertions_depend_on_history :
    (rasterizeTri.logged.f32 ⟨toFloat (1 / 10), 3, toFloat (1 / 10)⟩
      ⟨toFloat (3 / 20), 3, toFloat (1 / 10)⟩ ⟨toFloat (1 / 10), 4, toFloat (3 / 10)⟩ 63
      (rcCreateHeightfield 3 3 ⟨0, 0, 0⟩ ⟨toFloat (3 / 5), 10, toFloat (3 / 5)⟩
        (toFloat (1 / 5)) 1)
      ⟨0, 0, 0⟩ ⟨toFloat (3 / 5), 10, toFloat (3 / 5)⟩ (toFloat (1 / 5)) 5 1 4 0 none).2.map
      (fun o => (o.x, o.y, o.smin, o.smax, o.area)) = [(0, 0, 3, 4, 63), (0, 1, 3, 4, 63)] ∧
    (rasterizeTri.logged.f32 ⟨toFloat (1 / 10), 3, toFloat (1 / 10)⟩
      ⟨toFloat (3 / 20), 3, toFloat (1 / 10)⟩ ⟨toFloat (1 / 10), 4, toFloat (3 / 10)⟩ 63
      (rasterizeTri.f32 ⟨toFloat (1 / 5), 0, toFloat (1 / 5)⟩ ⟨toFloat (3 / 10), 4, 0⟩
        ⟨1 / 2, 0, 0⟩ 63
        (rcCreateHeightfield 3 3 ⟨0, 0, 0⟩ ⟨toFloat (3 / 5), 10, toFloat (3 / 5)⟩
          (toFloat (1 / 5)) 1)
        ⟨0, 0, 0⟩ ⟨toFloat (3 / 5), 10, toFloat (3 / 5)⟩ (toFloat (1 / 5)) 5 1 4 0 none)
      ⟨0, 0, 0⟩ ⟨toFloat (3 / 5), 10, toFloat (3 / 5)⟩ (toFloat (1 / 5)) 5 1 4 0 none).2.map
      (fun o => (o.x, o.y, o.smin, o.smax, o.area)) = [(0, 0, 0, 3, 63), (0, 1, 0, 4, 63)] ∧
    (rasterizeTri.f32 ⟨toFloat (1 / 5), 0, toFloat (1 / 5)⟩ ⟨toFloat (3 / 10), 4, 0⟩
        ⟨1 / 2, 0, 0⟩ 63
        (rcCreateHeightfield 3 3 ⟨0, 0, 0⟩ ⟨toFloat (3 / 5), 10, toFloat (3 / 5)⟩
          (toFloat (1 / 5)) 1)
        ⟨0, 0, 0⟩ ⟨toFloat (3 / 5), 10, toFloat (3 / 5)⟩ (toFloat (1 / 5)) 5 1 4 0
        none).spans 0 = [] ∧
    (rasterizeTri.f32 ⟨toFloat (1 / 10), 3, toFloat (1 / 10)⟩
      ⟨toFloat (3 / 20), 3, toFloat (1 / 10)⟩ ⟨toFloat (1 / 10), 4, toFloat (3 / 10)⟩ 63
      (rasterizeTri.f32 ⟨toFloat (1 / 5), 0, toFloat (1 / 5)⟩ ⟨toFloat (3 / 10), 4, 0⟩
        ⟨1 / 2, 0, 0⟩ 63
        (rcCreateHeightfield 3 3 ⟨0, 0, 0⟩ ⟨toFloat (3 / 5), 10, toFloat (3 / 5)⟩
          (toFloat (1 / 5)) 1)
        ⟨0, 0, 0⟩ ⟨toFloat (3 / 5), 10, toFloat (3 / 5)⟩ (toFloat (1 / 5)) 5 1 4 0 none)
      ⟨0, 0, 0⟩ ⟨toFloat (3 / 5), 10, toFloat (3 / 5)⟩ (toFloat (1 / 5)) 5 1 4 0
      none).spans 0 = [⟨0, 3, 63⟩] ∧
    (rasterizeTri.f32 ⟨toFloat (1 / 10), 3, toFloat (1 / 10)⟩
      ⟨toFloat (3 / 20), 3, toFloat (1 / 10)⟩ ⟨toFloat (1 / 10), 4, toFloat (3 / 10)⟩ 63
      (rcCreateHeightfield 3 3 ⟨0, 0, 0⟩ ⟨toFloat (3 / 5), 10, toFloat (3 / 5)⟩
        (toFloat (1 / 5)) 1)
      ⟨0, 0, 0⟩ ⟨toFloat (3 / 5), 10, toFloat (3 / 5)⟩ (toFloat (1 / 5)) 5 1 4 0
      none).spans 0 = [⟨3, 4, 63⟩] ∧
    (rasterizeTri.logged ⟨toFloat (1 / 10), 3, toFloat (1 / 10)⟩
      ⟨toFloat (3 / 20), 3, toFloat (1 / 10)⟩ ⟨toFloat (1 / 10), 4, toFloat (3 / 10)⟩ 63
      (rasterizeTri ⟨toFloat (1 / 5), 0, toFloat (1 / 5)⟩ ⟨toFloat (3 / 10), 4, 0⟩
        ⟨1 / 2, 0, 0⟩ 63
        (rcCreateHeightfield 3 3 ⟨0, 0, 0⟩ ⟨toFloat (3 / 5), 10, toFloat (3 / 5)⟩
          (toFloat (1 / 5)) 1)
        ⟨0, 0, 0⟩ ⟨toFloat (3 / 5), 10, toFloat (3 / 5)⟩ (toFloat (1 / 5)) 5 1 4 0 none)
      ⟨0, 0, 0⟩ ⟨toFloat (3 / 5), 10, toFloat (3 / 5)⟩ (toFloat (1 / 5)) 5 1 4 0 none).2.map
      (fun o => (o.x, o.y, o.smin, o.smax, o.area)) = [(0, 0, 3, 4, 63), (0, 1, 3, 4, 63)] :=
  ⟨by decide!, by decide!, by decide!, by decide!, by decide!, by decide!⟩
/-! ## Theorems: the cells of the emission loops, in single precision and exact -/

end Recast
